import Mathlib

/-! CADverter: DXF parser, curve approximator, bounds calculator, export scale.

Shallow embedding of `src/js/dxf-parser.js` and of the bounds / scale parts of
`src/js/pdf-generator.js`.

Modelling conventions.

* A JavaScript number is a `JSNum`: `NaN`, `-Infinity`, `+Infinity`, or a finite
  value, held as a rational.  `undefined` used as a number is `NaN`; the sign of
  zero is not modelled.
* The operators `JSNum.add`, `JSNum.sub`, `JSNum.mul` and `JSNum.div` are exact.
  They serve where a statement is about which value is read, compared or
  replaced by a default.  The operators `fadd`, `fsub`, `fmul` and `fdiv` round
  their result to binary64, and the functions whose result depends on rounding
  (`calculateBounds`, the layout of `createPDF`, `toPDF`, `approximateSpline`)
  are embedded a second time with them, under the names `Binary64.*`; the
  statements about computed sizes, offsets and positions are about these.
* The one place where binary64 rounding decides the control flow, the loop
  counter `t` of `approximateSpline`, is modelled with exact binary64
  round-to-nearest-even arithmetic (`round53`, `splineStep`, `splineLoop`).
* `lines` together with an index `i` is passed as the suffix of `lines` that
  starts at `i`; every read of the source is at an index `>= i`.
* A decoder returns its entity together with `_scanLength` as a pair; the
  bookkeeping field `_scanLength` is not kept inside the entity.
-/

namespace CADverter

/-! ## Numbers -/

/-- JavaScript number. -/
inductive JSNum where
  | nan
  | ninf
  | fin (q : ℚ)
  | pinf
  deriving DecidableEq, Repr

namespace JSNum

/-- ToBoolean on a number: `NaN` and `0` are falsy. -/
def truthy : JSNum → Bool
  | nan => false
  | fin q => decide (q ≠ 0)
  | _ => true

/-- The expression `a || b` on numbers. -/
def or (a b : JSNum) : JSNum := if a.truthy then a else b

/-- Unary minus. -/
def neg : JSNum → JSNum
  | nan => nan
  | ninf => pinf
  | pinf => ninf
  | fin q => fin (-q)

/-- The operator `+`. -/
def add : JSNum → JSNum → JSNum
  | nan, _ => nan
  | _, nan => nan
  | fin a, fin b => fin (a + b)
  | pinf, ninf => nan
  | ninf, pinf => nan
  | pinf, _ => pinf
  | _, pinf => pinf
  | ninf, _ => ninf
  | _, ninf => ninf

/-- The operator `-`. -/
def sub (a b : JSNum) : JSNum := add a (neg b)

/-- The operator `*`. -/
def mul : JSNum → JSNum → JSNum
  | nan, _ => nan
  | _, nan => nan
  | fin a, fin b => fin (a * b)
  | fin a, pinf => if a = 0 then nan else if 0 < a then pinf else ninf
  | fin a, ninf => if a = 0 then nan else if 0 < a then ninf else pinf
  | pinf, fin b => if b = 0 then nan else if 0 < b then pinf else ninf
  | ninf, fin b => if b = 0 then nan else if 0 < b then ninf else pinf
  | pinf, pinf => pinf
  | ninf, ninf => pinf
  | pinf, ninf => ninf
  | ninf, pinf => ninf

/-- The operator `/` (a zero divisor is taken as `+0`). -/
def div : JSNum → JSNum → JSNum
  | nan, _ => nan
  | _, nan => nan
  | fin a, fin b =>
    if b = 0 then (if a = 0 then nan else if 0 < a then pinf else ninf) else fin (a / b)
  | fin _, _ => fin 0
  | pinf, fin b => if 0 ≤ b then pinf else ninf
  | ninf, fin b => if 0 ≤ b then ninf else pinf
  | _, _ => nan

/-- The function `Math.abs`. -/
def abs : JSNum → JSNum
  | nan => nan
  | fin q => fin |q|
  | _ => pinf

/-- The comparison `a <= b` (false as soon as one side is `NaN`). -/
def le : JSNum → JSNum → Bool
  | nan, _ => false
  | _, nan => false
  | ninf, _ => true
  | _, pinf => true
  | fin a, fin b => decide (a ≤ b)
  | _, _ => false

/-- The comparison `a < b` (false as soon as one side is `NaN`). -/
def lt : JSNum → JSNum → Bool
  | nan, _ => false
  | _, nan => false
  | pinf, _ => false
  | _, ninf => false
  | fin a, fin b => decide (a < b)
  | _, _ => true

/-- The comparison `a > b`. -/
def gt (a b : JSNum) : Bool := lt b a

/-- The function `Math.min` on two arguments. -/
def min : JSNum → JSNum → JSNum
  | nan, _ => nan
  | _, nan => nan
  | a, b => if le a b then a else b

/-- The function `Math.max` on two arguments. -/
def max : JSNum → JSNum → JSNum
  | nan, _ => nan
  | _, nan => nan
  | a, b => if le a b then b else a

/-- The function `Math.min` on three arguments. -/
def min3 (a b c : JSNum) : JSNum := min (min a b) c

/-- The function `Math.max` on three arguments. -/
def max3 (a b c : JSNum) : JSNum := max (max a b) c

/-- The test `a !== 0`. -/
def neZero : JSNum → Bool
  | fin q => decide (q ≠ 0)
  | _ => true

end JSNum

/-! ## Strings -/

/-- White space and line terminators removed by `String.prototype.trim`. -/
def isJSSpace (c : Char) : Bool :=
  let n := c.toNat
  n = 9 || n = 10 || n = 11 || n = 12 || n = 13 || n = 32 || n = 160 || n = 5760
    || (8192 ≤ n && n ≤ 8202) || n = 8232 || n = 8233 || n = 8239 || n = 8287
    || n = 12288 || n = 65279

/-- Remove leading white space. -/
def trimStart : List Char → List Char
  | [] => []
  | c :: cs => if isJSSpace c then trimStart cs else c :: cs

/-- The method `trim` on the characters of a string. -/
def trimChars (cs : List Char) : List Char :=
  (trimStart (trimStart cs).reverse).reverse

/-- The method `trim`. -/
def trim (s : String) : String := ⟨trimChars s.data⟩

/-- One pass of `split` at line feeds: `cur` holds the current piece reversed. -/
def splitAux : List Char → List Char → List String
  | [], cur => [⟨cur.reverse⟩]
  | c :: cs, cur =>
    if c.toNat = 10 then ⟨cur.reverse⟩ :: splitAux cs [] else splitAux cs (c :: cur)

/-- The call `content.split('\n')`. -/
def splitLines (content : String) : List String := splitAux content.data []

/-- Value of a decimal digit character. -/
def digitVal (c : Char) : Nat := c.toNat - 48

/-- Decimal digit test. -/
def isDigit (c : Char) : Bool := 48 ≤ c.toNat && c.toNat ≤ 57

/-- Longest prefix of decimal digits and the remainder. -/
def spanDigits : List Char → List Char × List Char
  | [] => ([], [])
  | c :: cs =>
    if isDigit c then ((spanDigits cs).1.cons c, (spanDigits cs).2) else ([], c :: cs)

/-- Number written by a list of decimal digits. -/
def digitsToNat (ds : List Char) : Nat := ds.foldl (fun (acc : Nat) (c : Char) => 10 * acc + digitVal c) 0

/-- Optional sign of a numeral: `true` when negative, and the remainder. -/
def takeSign : List Char → Bool × List Char
  | [] => (false, [])
  | c :: cs => if c.toNat = 45 then (true, cs) else if c.toNat = 43 then (false, cs) else (false, c :: cs)

/-- Exponent part `e[+-]digits` of a decimal literal, 0 when there is none. -/
def takeExponent : List Char → ℤ
  | [] => 0
  | c :: cs =>
    if c.toNat = 101 || c.toNat = 69 then
      let sd := takeSign cs
      let ds := (spanDigits sd.2).1
      if ds.isEmpty then 0 else if sd.1 then -(digitsToNat ds : ℤ) else (digitsToNat ds : ℤ)
    else 0

/-- The global function `parseFloat`: the longest prefix that is a decimal literal. -/
def parseFloat (s : String) : JSNum :=
  let sd := takeSign (trimStart s.data)
  if "Infinity".data.isPrefixOf sd.2 then (if sd.1 then JSNum.ninf else JSNum.pinf)
  else
    let ip := spanDigits sd.2
    let fp : List Char × List Char :=
      match ip.2 with
      | c :: cs => if c.toNat = 46 then spanDigits cs else ([], c :: cs)
      | [] => ([], [])
    if ip.1.isEmpty && fp.1.isEmpty then JSNum.nan
    else
      let m : ℚ := (digitsToNat (ip.1 ++ fp.1) : ℚ) / (10 : ℚ) ^ fp.1.length
      let v : ℚ := m * (10 : ℚ) ^ (takeExponent fp.2)
      JSNum.fin (if sd.1 then -v else v)

/-- Value of a hexadecimal digit character, if it is one. -/
def hexVal (c : Char) : Option Nat :=
  let n := c.toNat
  if 48 ≤ n && n ≤ 57 then some (n - 48)
  else if 97 ≤ n && n ≤ 102 then some (n - 87)
  else if 65 ≤ n && n ≤ 70 then some (n - 55)
  else none

/-- Longest prefix of hexadecimal digits, as digit values. -/
def spanHex : List Char → List Nat
  | [] => []
  | c :: cs => match hexVal c with
    | some v => v :: spanHex cs
    | none => []

/-- The global function `parseInt` without radix; `none` stands for `NaN`. -/
def parseInt (s : String) : Option ℤ :=
  let sd := takeSign (trimStart s.data)
  let mag : Option Nat :=
    match sd.2 with
    | c :: d :: cs =>
      if c.toNat = 48 && (d.toNat = 120 || d.toNat = 88) then
        (let hs := spanHex cs
         if hs.isEmpty then none else some (hs.foldl (fun (acc v : Nat) => 16 * acc + v) 0))
      else
        (let ds := (spanDigits (c :: d :: cs)).1
         if ds.isEmpty then none else some (digitsToNat ds))
    | cs =>
      let ds := (spanDigits cs).1
      if ds.isEmpty then none else some (digitsToNat ds)
  mag.map (fun (n : Nat) => if sd.1 then -(n : ℤ) else (n : ℤ))

/-- The expression `parseFloat(value) || d`. -/
def floatOr (value : String) (d : JSNum) : JSNum := (parseFloat value).or d

/-- The expression `Math.abs(parseFloat(value)) || d`. -/
def absFloatOr (value : String) (d : JSNum) : JSNum := (parseFloat value).abs.or d

/-- The expression `parseInt(value) || d`. -/
def intOr (value : String) (d : ℤ) : ℤ :=
  match parseInt value with
  | some n => if n = 0 then d else n
  | none => d

/-! ## Data model -/

/-- Colour as the array `[r, g, b]`. -/
structure RGB where
  r : Nat
  g : Nat
  b : Nat
  deriving DecidableEq, Repr

/-- The colour `[255, 255, 255]`. -/
def white : RGB := ⟨255, 255, 255⟩

/-- Point as the array `[x, y]`. -/
abbrev Pt := JSNum × JSNum

/-- Drawing entity: one constructor per value of the `type` field, with the
fields the parser and the placeholder give to that type.  A field that an
object may lack is an `Option`. -/
inductive Entity where
  | line (x1 y1 x2 y2 : JSNum) (color : RGB) (layer : Option String)
  | rect (x y w h : JSNum) (color : RGB) (fill : Bool)
  | circle (cx cy r : JSNum) (color : RGB) (layer : Option String)
  | arc (cx cy r startAngle endAngle : JSNum) (color : RGB) (layer : Option String)
  | polyline (points : List Pt) (isClosed : Option Bool) (color : RGB) (layer : Option String)
  | text (x y : JSNum) (text : String) (size : JSNum) (color : RGB) (rotation : Option JSNum)
      (layer : Option String)
  | ellipse (cx cy mx my rx ry rotation : JSNum) (color : RGB) (layer : Option String)
  | spline (controlPoints : List Pt) (degree : ℤ) (color : RGB) (layer : Option String)
  | point (x y : JSNum) (color : RGB) (layer : Option String)
  deriving DecidableEq, Repr

/-- The `type` field of an entity. -/
def Entity.type : Entity → String
  | .line .. => "line"
  | .rect .. => "rect"
  | .circle .. => "circle"
  | .arc .. => "arc"
  | .polyline .. => "polyline"
  | .text .. => "text"
  | .ellipse .. => "ellipse"
  | .spline .. => "spline"
  | .point .. => "point"

/-! ## Colour table -/

/-- The function `getColorByIndex`: table lookup, white when the key is absent. -/
def getColorByIndex (index : ℤ) : RGB :=
  if index = 1 then ⟨255, 0, 0⟩
  else if index = 2 then ⟨255, 255, 0⟩
  else if index = 3 then ⟨0, 255, 0⟩
  else if index = 4 then ⟨0, 255, 255⟩
  else if index = 5 then ⟨0, 0, 255⟩
  else if index = 6 then ⟨255, 0, 255⟩
  else if index = 7 then ⟨255, 255, 255⟩
  else if index = 8 then ⟨128, 128, 128⟩
  else if index = 9 then ⟨192, 192, 192⟩
  else if index = 10 then ⟨240, 240, 240⟩
  else if index = 11 then ⟨255, 255, 0⟩
  else if index = 12 then ⟨0, 128, 0⟩
  else if index = 13 then ⟨0, 128, 128⟩
  else if index = 14 then ⟨0, 0, 128⟩
  else if index = 15 then ⟨128, 0, 128⟩
  else if index = 251 then ⟨200, 200, 200⟩
  else if index = 252 then ⟨180, 180, 180⟩
  else if index = 253 then ⟨160, 160, 160⟩
  else if index = 254 then ⟨140, 140, 140⟩
  else if index = 255 then ⟨120, 120, 120⟩
  else white

/-- The rows of the `colors` object of `getColorByIndex`, in source order. -/
def colorTable : List (ℤ × RGB) :=
  [(1, ⟨255, 0, 0⟩), (2, ⟨255, 255, 0⟩), (3, ⟨0, 255, 0⟩), (4, ⟨0, 255, 255⟩),
   (5, ⟨0, 0, 255⟩), (6, ⟨255, 0, 255⟩), (7, ⟨255, 255, 255⟩), (8, ⟨128, 128, 128⟩),
   (9, ⟨192, 192, 192⟩), (10, ⟨240, 240, 240⟩), (11, ⟨255, 255, 0⟩), (12, ⟨0, 128, 0⟩),
   (13, ⟨0, 128, 128⟩), (14, ⟨0, 0, 128⟩), (15, ⟨128, 0, 128⟩), (251, ⟨200, 200, 200⟩),
   (252, ⟨180, 180, 180⟩), (253, ⟨160, 160, 160⟩), (254, ⟨140, 140, 140⟩),
   (255, ⟨120, 120, 120⟩)]

/-! ## Curve approximator -/

/-- Number of binary digits of `m`, computed with at most `fuel` halvings. -/
def bitLengthAux : Nat → Nat → Nat
  | 0, _ => 0
  | fuel + 1, m => if m = 0 then 0 else bitLengthAux fuel (m / 2) + 1

/-- Number of binary digits of `n` (0 for 0); `n` halvings always suffice. -/
def bitLength (n : Nat) : Nat := bitLengthAux n n

/-- Round a natural number to 53 significant bits, ties to even.  For a value
`n * 2^e` inside the normal range this is binary64 rounding of the mantissa. -/
def round53 (n : Nat) : Nat :=
  let bits := bitLength n
  if bits ≤ 53 then n
  else
    let sh := bits - 53
    let q := n / 2 ^ sh
    let r := n % 2 ^ sh
    let half := 2 ^ (sh - 1)
    (if half < r ∨ (r = half ∧ q % 2 = 1) then q + 1 else q) * 2 ^ sh

/-- Integer nearest to `a / b`, ties to even. -/
def divNearestEven (a b : Nat) : Nat :=
  let q := a / b
  let r := a % b
  if b < 2 * r ∨ (2 * r = b ∧ q % 2 = 1) then q + 1 else q

/-- Unit of the fixed-point representation of the loop counter `t`: the counter
is stored as the integer `t * 2^57`.  Every binary64 value that is 0 or lies in
`[2^-5, 2)` is such an integer. -/
def tUnit : Nat := 2 ^ 57

/-- The constant `steps` of `approximateSpline`. -/
def steps : Nat := 20

/-- The binary64 value of `1 / steps`, in units of `2^-57`: the quotient
`2^57 / 20` lies in `[2^52, 2^53)`, so its binary64 rounding is the nearest
integer, ties to even. -/
def splineStep : Nat := divNearestEven tUnit steps

/-- The loop `for (let t = 0; t <= 1; t += 1 / steps)`, `t` in units of `2^-57`
with binary64 addition: the values of `t` at which the body runs.  `none` when
the fuel runs out before the loop condition fails. -/
def splineLoop : Nat → Nat → Option (List Nat)
  | 0, _ => none
  | fuel + 1, t =>
    if t ≤ tUnit then (splineLoop fuel (round53 (t + splineStep))).map (List.cons t)
    else some []

/-- The values taken by `t` in `approximateSpline`, in units of `2^-57`. -/
def splineParams : List Nat := (splineLoop 64 0).getD []

/-- The function `binomial`. -/
def binomial (n k : Nat) : ℚ :=
  if k = 0 ∨ k = n then 1
  else if n < k then 0
  else (List.range k).foldl (fun (result : ℚ) (i : Nat) => result * ((n : ℚ) - (i : ℚ)) / ((i : ℚ) + 1)) 1

/-- The function `bernsteinBasis`. -/
def bernsteinBasis (i n : Nat) (t : ℚ) : ℚ :=
  binomial n i * t ^ i * (1 - t) ^ (n - i)

/-- One run of the body of the outer loop of `approximateSpline`: the point at
parameter `t`. -/
def splinePoint (controlPoints : List Pt) (t : ℚ) : Pt :=
  let n := controlPoints.length - 1
  (List.range controlPoints.length).foldl
    (fun (acc : Pt) (i : Nat) =>
      let basis := JSNum.fin (bernsteinBasis i n t)
      match controlPoints.get? i with
      | some p => (acc.1.add (p.1.mul basis), acc.2.add (p.2.mul basis))
      | none => acc)
    (JSNum.fin 0, JSNum.fin 0)

/-- The function `approximateSpline`. -/
def approximateSpline (controlPoints : List Pt) (_degree : ℤ) : List Pt :=
  splineParams.map (fun (t : Nat) => splinePoint controlPoints ((t : ℚ) / (tUnit : ℚ)))

/-! ## Entity decoders -/

/-- Outcome of the test at the top of the body of a decoder loop. -/
inductive EarlyExit where
  | go
  | stop
  | stopAt
  deriving DecidableEq, Repr

/-- The scanning loop shared by the nine decoders,
`for (let j = startIndex + 1; j < lines.length && j < startIndex + cap; j++)`.
The list is `lines` from index `j` on, `k` is `j - startIndex`, the first number
is how many iterations the cap still allows, `d` is the draft entity and `sl` is
`scanLength`.  In the body, `code = lines[j].trim()` and
`value = lines[j + 1]?.trim() || ''`; `early` is the test before the field
updates (`stop`: `break`; `stopAt`: `scanLength = j - startIndex; break`),
`update` the field updates (it also receives `lines` from `j + 1` on), `late`
the test after them (`scanLength = j - startIndex; break`), and the body ends
with `scanLength = j - startIndex`. -/
def scanRecord {σ : Type} (early : String → String → EarlyExit)
    (update : σ → String → String → List String → σ) (late : String → String → Bool) :
    Nat → List String → Nat → σ → Nat → σ × Nat
  | 0, _, _, d, sl => (d, sl)
  | _ + 1, [], _, d, sl => (d, sl)
  | n + 1, l :: rest, k, d, sl =>
    let code := trim l
    let value := match rest with
      | [] => ""
      | v :: _ => trim v
    match early code value with
    | .stop => (d, sl)
    | .stopAt => (d, k)
    | .go =>
      let d1 := update d code value rest
      if late code value then (d1, k) else scanRecord early update late n rest (k + 1) d1 k

/-- Early test `code === '0' && !names.includes(value)`. -/
def stopUnless (names : List String) (code value : String) : EarlyExit :=
  if code = "0" ∧ ¬ value ∈ names then .stop else .go

/-- Late test `code === '0'`. -/
def lateZero (code _value : String) : Bool := decide (code = "0")

/-- Draft of `parseLineEntity`. -/
structure LineDraft where
  x1 : JSNum := .fin 0
  y1 : JSNum := .fin 0
  x2 : JSNum := .fin 0
  y2 : JSNum := .fin 0
  color : RGB := white
  layer : Option String := none

/-- Field updates of `parseLineEntity`. -/
def lineUpdate (e : LineDraft) (code value : String) (_ : List String) : LineDraft :=
  let e := if code = "10" then { e with x1 := floatOr value (.fin 0) } else e
  let e := if code = "20" then { e with y1 := floatOr value (.fin 0) } else e
  let e := if code = "11" then { e with x2 := floatOr value (.fin 0) } else e
  let e := if code = "21" then { e with y2 := floatOr value (.fin 0) } else e
  let e := if code = "62" then { e with color := getColorByIndex (intOr value 1) } else e
  if code = "8" then { e with layer := some value } else e

/-- The function `parseLineEntity(lines, startIndex)`; `rest` is `lines` from
`startIndex + 1` on.  `none` is `null`. -/
def parseLineEntity (rest : List String) : Option (Entity × Nat) :=
  let r := scanRecord (stopUnless ["LINE"]) lineUpdate lateZero (80 - 1) rest 1 {} 0
  let e := r.1
  if e.x1.neZero || e.x2.neZero || e.y1.neZero || e.y2.neZero then
    some (.line e.x1 e.y1 e.x2 e.y2 e.color e.layer, r.2)
  else none

/-- Draft of `parseCircleEntity`. -/
structure CircleDraft where
  cx : JSNum := .fin 0
  cy : JSNum := .fin 0
  r : JSNum := .fin 5
  color : RGB := white
  layer : Option String := none

/-- Field updates of `parseCircleEntity`. -/
def circleUpdate (e : CircleDraft) (code value : String) (_ : List String) : CircleDraft :=
  let e := if code = "10" then { e with cx := floatOr value (.fin 0) } else e
  let e := if code = "20" then { e with cy := floatOr value (.fin 0) } else e
  let e := if code = "40" then { e with r := absFloatOr value (.fin 5) } else e
  let e := if code = "62" then { e with color := getColorByIndex (intOr value 1) } else e
  if code = "8" then { e with layer := some value } else e

/-- The function `parseCircleEntity(lines, startIndex)`. -/
def parseCircleEntity (rest : List String) : Entity × Nat :=
  let r := scanRecord (stopUnless ["CIRCLE"]) circleUpdate lateZero (80 - 1) rest 1 {} 0
  (.circle r.1.cx r.1.cy r.1.r r.1.color r.1.layer, r.2)

/-- Draft of `parseArcEntity`. -/
structure ArcDraft where
  cx : JSNum := .fin 0
  cy : JSNum := .fin 0
  r : JSNum := .fin 5
  startAngle : JSNum := .fin 0
  endAngle : JSNum := .fin 180
  color : RGB := white
  layer : Option String := none

/-- Field updates of `parseArcEntity`. -/
def arcUpdate (e : ArcDraft) (code value : String) (_ : List String) : ArcDraft :=
  let e := if code = "10" then { e with cx := floatOr value (.fin 0) } else e
  let e := if code = "20" then { e with cy := floatOr value (.fin 0) } else e
  let e := if code = "40" then { e with r := absFloatOr value (.fin 5) } else e
  let e := if code = "50" then { e with startAngle := floatOr value (.fin 0) } else e
  let e := if code = "51" then { e with endAngle := floatOr value (.fin 180) } else e
  let e := if code = "62" then { e with color := getColorByIndex (intOr value 1) } else e
  if code = "8" then { e with layer := some value } else e

/-- The function `parseArcEntity(lines, startIndex)`. -/
def parseArcEntity (rest : List String) : Entity × Nat :=
  let r := scanRecord (stopUnless ["ARC"]) arcUpdate lateZero (100 - 1) rest 1 {} 0
  (.arc r.1.cx r.1.cy r.1.r r.1.startAngle r.1.endAngle r.1.color r.1.layer, r.2)

/-- Draft of `parsePolylineEntity`, with the local `elevation`. -/
structure PolylineDraft where
  points : List Pt := []
  elevation : JSNum := .fin 0
  isClosed : Bool := false
  color : RGB := white
  layer : Option String := none

/-- The assignment `points[points.length - 1][1] = y` under `points.length > 0`. -/
def setLastY : List Pt → JSNum → List Pt
  | [], _ => []
  | [p], y => [(p.1, y)]
  | p :: q :: ps, y => p :: setLastY (q :: ps) y

/-- Early test of `parsePolylineEntity`: `code === '0'` with `value === 'SEQEND'`. -/
def polylineEarly (code value : String) : EarlyExit :=
  if code = "0" ∧ value = "SEQEND" then .stopAt else .go

/-- Late test of `parsePolylineEntity`: `code === '0' && !['VERTEX'].includes(value)`. -/
def polylineLate (code value : String) : Bool := decide (code = "0" ∧ ¬ value ∈ ["VERTEX"])

/-- Field updates of `parsePolylineEntity`. -/
def polylineUpdate (e : PolylineDraft) (code value : String) (_ : List String) :
    PolylineDraft :=
  let e := if code = "10" then
      { e with points := e.points ++ [(floatOr value (.fin 0), JSNum.fin 0)] } else e
  let e := if code = "20" then
      { e with points := setLastY e.points (floatOr value (.fin 0)) } else e
  let e := if code = "62" then { e with color := getColorByIndex (intOr value 1) } else e
  let e := if code = "38" then { e with elevation := floatOr value (.fin 0) } else e
  let e := if code = "70" then { e with isClosed := decide (parseInt value = some 1) } else e
  if code = "8" then { e with layer := some value } else e

/-- The function `parsePolylineEntity(lines, startIndex)`. -/
def parsePolylineEntity (rest : List String) : Option (Entity × Nat) :=
  let r := scanRecord polylineEarly polylineUpdate polylineLate (500 - 1) rest 1 {} 0
  let e := r.1
  let points :=
    if e.elevation.neZero && decide (0 < e.points.length) then
      e.points.map (fun p => (p.1, p.2.add e.elevation))
    else e.points
  if 0 < points.length then some (.polyline points (some e.isClosed) e.color e.layer, r.2)
  else none

/-- Global replacement of the two characters `a b` by `r`, scanning left to
right; `prev` is the character read and not yet written. -/
def replacePairAux (a b r : Char) : Option Char → List Char → List Char
  | prev, [] => prev.toList
  | none, c :: cs => replacePairAux a b r (some c) cs
  | some p, c :: cs =>
    if p = a ∧ c = b then r :: replacePairAux a b r none cs
    else p :: replacePairAux a b r (some c) cs

/-- The call `text.replace(/ab/g, r)` for a two-character pattern. -/
def replacePair (a b r : Char) (cs : List Char) : List Char := replacePairAux a b r none cs

/-- The loop of `parseMTEXT`: at most 20 lines, up to a line `0`. -/
def mtextLoop : Nat → List String → List Char → List Char
  | 0, _, text => text
  | _ + 1, [], text => text
  | n + 1, l :: ls, text =>
    let line := trim l
    if line = "0" then text else mtextLoop n ls (text ++ line.data ++ [Char.ofNat 32])

/-- The function `parseMTEXT(lines, startIndex)`; the argument is `lines` from
`startIndex` on. -/
def parseMTEXT (ls : List String) : String :=
  let text := trimChars (mtextLoop 20 ls [])
  let text := replacePair (Char.ofNat 92) (Char.ofNat 80) (Char.ofNat 10) text
  let text := replacePair (Char.ofNat 92) (Char.ofNat 123) (Char.ofNat 123) text
  ⟨replacePair (Char.ofNat 92) (Char.ofNat 125) (Char.ofNat 125) text⟩

/-- Draft of `parseTextEntity`. -/
structure TextDraft where
  x : JSNum := .fin 0
  y : JSNum := .fin 0
  text : String := ""
  size : JSNum := .fin 8
  color : RGB := white
  rotation : JSNum := .fin 0
  layer : Option String := none

/-- Field updates of `parseTextEntity`. -/
def textUpdate (isMTEXT : Bool) (e : TextDraft) (code value : String) (rest : List String) :
    TextDraft :=
  let e := if code = "10" then { e with x := floatOr value (.fin 0) } else e
  let e := if code = "20" then { e with y := floatOr value (.fin 0) } else e
  let e := if code = "40" then { e with size := absFloatOr value (.fin 8) } else e
  let e := if code = "50" then { e with rotation := floatOr value (.fin 0) } else e
  let e := if code = "62" then { e with color := getColorByIndex (intOr value 1) } else e
  let e := if code = "8" then { e with layer := some value } else e
  if code = "1" then
    (if isMTEXT then { e with text := parseMTEXT rest } else { e with text := value })
  else e

/-- The function `parseTextEntity(lines, startIndex)`; `marker` is
`lines[startIndex]`. -/
def parseTextEntity (marker : String) (rest : List String) : Option (Entity × Nat) :=
  let isMTEXT := decide (trim marker = "MTEXT")
  let r := scanRecord (stopUnless ["TEXT", "MTEXT"]) (textUpdate isMTEXT) lateZero
    (150 - 1) rest 1 {} 0
  let e := r.1
  if e.text ≠ "" then some (.text e.x e.y e.text e.size e.color (some e.rotation) e.layer, r.2)
  else none

/-- Draft of `parseEllipseEntity`. -/
structure EllipseDraft where
  cx : JSNum := .fin 0
  cy : JSNum := .fin 0
  mx : JSNum := .fin 0
  my : JSNum := .fin 0
  rx : JSNum := .fin 10
  ry : JSNum := .fin 5
  rotation : JSNum := .fin 0
  color : RGB := white
  layer : Option String := none

/-- Field updates of `parseEllipseEntity`. -/
def ellipseUpdate (e : EllipseDraft) (code value : String) (_ : List String) : EllipseDraft :=
  let e := if code = "10" then { e with cx := floatOr value (.fin 0) } else e
  let e := if code = "20" then { e with cy := floatOr value (.fin 0) } else e
  let e := if code = "11" then { e with mx := floatOr value (.fin 0) } else e
  let e := if code = "21" then { e with my := floatOr value (.fin 0) } else e
  let e := if code = "40" then
      { e with rx := .fin 10, ry := (JSNum.fin 10).mul (absFloatOr value (.fin (1 / 2))) }
    else e
  let e := if code = "50" then { e with rotation := floatOr value (.fin 0) } else e
  let e := if code = "62" then { e with color := getColorByIndex (intOr value 1) } else e
  if code = "8" then { e with layer := some value } else e

/-- The function `parseEllipseEntity(lines, startIndex)`. -/
def parseEllipseEntity (rest : List String) : Entity × Nat :=
  let r := scanRecord (stopUnless ["ELLIPSE"]) ellipseUpdate lateZero (100 - 1) rest 1 {} 0
  let e := r.1
  (.ellipse e.cx e.cy e.mx e.my e.rx e.ry e.rotation e.color e.layer, r.2)

/-- Draft of `parseSplineEntity`, with the locals `xCoords`, `yCoords`
(`knotValues` is written and never read). -/
structure SplineDraft where
  degree : ℤ := 3
  xCoords : List JSNum := []
  yCoords : List JSNum := []
  color : RGB := white
  layer : Option String := none

/-- Early test of `parseSplineEntity`: `if (code === '0') break`. -/
def splineEarly (code _value : String) : EarlyExit :=
  if code = "0" then .stop else .go

/-- Field updates of `parseSplineEntity`. -/
def splineUpdate (e : SplineDraft) (code value : String) (_ : List String) : SplineDraft :=
  let e := if code = "74" then { e with degree := intOr value 3 } else e
  let e := if code = "10" then { e with xCoords := e.xCoords ++ [floatOr value (.fin 0)] } else e
  let e := if code = "20" then { e with yCoords := e.yCoords ++ [floatOr value (.fin 0)] } else e
  let e := if code = "62" then { e with color := getColorByIndex (intOr value 1) } else e
  if code = "8" then { e with layer := some value } else e

/-- The loop `controlPoints.push([xCoords[k], yCoords[k] || 0])`. -/
def combineCoords : List JSNum → List JSNum → List Pt
  | [], _ => []
  | x :: xs, [] => (x, JSNum.fin 0) :: combineCoords xs []
  | x :: xs, y :: ys => (x, y.or (JSNum.fin 0)) :: combineCoords xs ys

/-- The function `parseSplineEntity(lines, startIndex)`. -/
def parseSplineEntity (rest : List String) : Entity × Nat :=
  let r := scanRecord splineEarly splineUpdate (fun _ _ => false) (500 - 1) rest 1 {} 0
  let e := r.1
  let controlPoints := combineCoords e.xCoords e.yCoords
  if 2 ≤ controlPoints.length then
    (.polyline (approximateSpline controlPoints e.degree) none e.color e.layer, r.2)
  else (.spline controlPoints e.degree e.color e.layer, r.2)

/-- Draft of `parsePointEntity`. -/
structure PointDraft where
  x : JSNum := .fin 0
  y : JSNum := .fin 0
  color : RGB := white
  layer : Option String := none

/-- Field updates of `parsePointEntity`. -/
def pointUpdate (e : PointDraft) (code value : String) (_ : List String) : PointDraft :=
  let e := if code = "10" then { e with x := floatOr value (.fin 0) } else e
  let e := if code = "20" then { e with y := floatOr value (.fin 0) } else e
  let e := if code = "62" then { e with color := getColorByIndex (intOr value 1) } else e
  if code = "8" then { e with layer := some value } else e

/-- The function `parsePointEntity(lines, startIndex)`. -/
def parsePointEntity (rest : List String) : Entity × Nat :=
  let r := scanRecord (stopUnless ["POINT"]) pointUpdate lateZero (60 - 1) rest 1 {} 0
  (.point r.1.x r.1.y r.1.color r.1.layer, r.2)

/-- Draft of `parse3DFaceEntity`, with the local `pointIndex`. -/
structure FaceDraft where
  x1 : JSNum := .fin 0
  y1 : JSNum := .fin 0
  x2 : JSNum := .fin 0
  y2 : JSNum := .fin 0
  x3 : JSNum := .fin 0
  y3 : JSNum := .fin 0
  x4 : JSNum := .fin 0
  y4 : JSNum := .fin 0
  pointIndex : Nat := 0
  color : RGB := white
  layer : Option String := none

/-- Field updates of `parse3DFaceEntity`. -/
def faceUpdate (e : FaceDraft) (code value : String) (_ : List String) : FaceDraft :=
  let e := if code = "10" then { e with x1 := floatOr value (.fin 0), pointIndex := 1 } else e
  let e := if code = "20" then
      (if e.pointIndex = 1 then { e with y1 := floatOr value (.fin 0) }
       else if e.pointIndex = 2 then { e with y2 := floatOr value (.fin 0) }
       else if e.pointIndex = 3 then { e with y3 := floatOr value (.fin 0) }
       else if e.pointIndex = 4 then { e with y4 := floatOr value (.fin 0) }
       else e)
    else e
  let e := if code = "11" then { e with x2 := floatOr value (.fin 0), pointIndex := 2 } else e
  let e := if code = "12" then { e with x3 := floatOr value (.fin 0), pointIndex := 3 } else e
  let e := if code = "13" then { e with x4 := floatOr value (.fin 0), pointIndex := 4 } else e
  let e := if code = "62" then { e with color := getColorByIndex (intOr value 1) } else e
  if code = "8" then { e with layer := some value } else e

/-- The function `parse3DFaceEntity(lines, startIndex)`. -/
def parse3DFaceEntity (rest : List String) : Entity × Nat :=
  let r := scanRecord (stopUnless ["SOLID", "TRACE", "3DFACE"]) faceUpdate lateZero
    (120 - 1) rest 1 {} 0
  let e := r.1
  let points := [(e.x1, e.y1), (e.x2, e.y2), (e.x3, e.y3)]
  let points := if e.x4.neZero || e.y4.neZero then points ++ [(e.x4, e.y4)] else points
  (.polyline points none e.color e.layer, r.2)

/-! ## Drawing parser -/

/-- The function `generatePlaceholderData`. -/
def generatePlaceholderData : List Entity :=
  [ .rect (.fin 50) (.fin 50) (.fin 400) (.fin 200) ⟨255, 255, 255⟩ false,
    .rect (.fin 60) (.fin 60) (.fin 380) (.fin 180) ⟨0, 255, 255⟩ false,
    .line (.fin 50) (.fin 80) (.fin 10) (.fin 80) ⟨255, 0, 0⟩ none,
    .line (.fin 50) (.fin 120) (.fin 10) (.fin 120) ⟨255, 0, 0⟩ none,
    .line (.fin 50) (.fin 160) (.fin 10) (.fin 160) ⟨255, 0, 0⟩ none,
    .line (.fin 450) (.fin 80) (.fin 500) (.fin 80) ⟨0, 0, 255⟩ none,
    .line (.fin 450) (.fin 120) (.fin 500) (.fin 120) ⟨0, 0, 255⟩ none,
    .line (.fin 450) (.fin 160) (.fin 500) (.fin 160) ⟨0, 0, 255⟩ none,
    .rect (.fin 150) (.fin 70) (.fin 80) (.fin 160) ⟨0, 255, 0⟩ false,
    .rect (.fin 250) (.fin 70) (.fin 80) (.fin 160) ⟨255, 128, 0⟩ false,
    .circle (.fin 350) (.fin 150) (.fin 40) ⟨255, 255, 255⟩ none,
    .text (.fin 200) (.fin 280) "مخطط توضيحي" (.fin 12) ⟨255, 255, 255⟩ none none ]

/-- Section detection at the top of the body of the loop of `parse`: the new
value of `inEntitySection`, for `line = lines[i].trim()` and `rest` the lines
from `i + 1` on. -/
def sectionState (line : String) (rest : List String) (inEntitySection : Bool) : Bool :=
  if line = "SECTION" then
    match rest with
    | [] => inEntitySection
    | nextLine :: rest2 =>
      if trim nextLine = "2" then
        match rest2 with
        | [] => inEntitySection
        | sectionName :: _ =>
          if trim sectionName = "ENTITIES" ∨ trim sectionName = "BLOCKS" then true
          else if trim sectionName = "TABLES" ∨ trim sectionName = "OBJECTS" then false
          else inEntitySection
      else inEntitySection
  else if line = "ENDSEC" then false
  else inEntitySection

/-- The chain `if (line === 'LINE') ... else if ...` of `parse`: the decoder run
at a type marker, with its result (`none`: no marker, or the decoder returned
`null`).  `raw` is `lines[i]`, `line` its trimmed form. -/
def dispatch (raw line : String) (rest : List String) : Option (Entity × Nat) :=
  if line = "LINE" then parseLineEntity rest
  else if line = "CIRCLE" then some (parseCircleEntity rest)
  else if line = "ARC" then some (parseArcEntity rest)
  else if line = "LWPOLYLINE" ∨ line = "POLYLINE" then parsePolylineEntity rest
  else if line = "TEXT" ∨ line = "MTEXT" then parseTextEntity raw rest
  else if line = "ELLIPSE" then some (parseEllipseEntity rest)
  else if line = "SPLINE" then some (parseSplineEntity rest)
  else if line = "POINT" then some (parsePointEntity rest)
  else if line = "SOLID" ∨ line = "TRACE" ∨ line = "3DFACE" then some (parse3DFaceEntity rest)
  else none

/-- The loop `for (let i = 0; i < lines.length; i++)` of `parse`, from index `i`
on: the list is `lines` from `i` on, `skip` is the number of lines still to be
passed over because of `i += entity._scanLength`, and the result is the list of
entities pushed from here on. -/
def parseLoop : List String → Nat → Bool → List Entity
  | [], _, _ => []
  | _ :: rest, skip + 1, inEntitySection => parseLoop rest skip inEntitySection
  | raw :: rest, 0, inEntitySection =>
    let line := trim raw
    let inSec := sectionState line rest inEntitySection
    if inSec then
      match dispatch raw line rest with
      | some (entity, scanLength) => entity :: parseLoop rest scanLength inSec
      | none => parseLoop rest 0 inSec
    else parseLoop rest 0 inSec

/-- The entities pushed by the scan of `parse`, before the placeholder test. -/
def scanEntities (content : String) : List Entity := parseLoop (splitLines content) 0 false

/-- The function `parse`. -/
def parse (content : String) : List Entity :=
  let entities := scanEntities content
  if entities.length = 0 then generatePlaceholderData else entities

/-! ## Bounds calculator -/

/-- The object `{ minX, minY, width, height }`. -/
structure Bounds where
  minX : JSNum
  minY : JSNum
  width : JSNum
  height : JSNum
  deriving DecidableEq, Repr

/-- The running `minX`, `minY`, `maxX`, `maxY` of `calculateBounds`. -/
structure Extent where
  minX : JSNum
  minY : JSNum
  maxX : JSNum
  maxY : JSNum
  deriving DecidableEq, Repr

/-- The inner `ent.points.forEach` of `calculateBounds`. -/
def extendPoint (a : Extent) (p : Pt) : Extent :=
  { minX := a.minX.min p.1, maxX := a.maxX.max p.1,
    minY := a.minY.min p.2, maxY := a.maxY.max p.2 }

/-- The body of `entities.forEach` in `calculateBounds`.  A field that the
entity lacks reads as `undefined`, which is `NaN` in arithmetic: `ent.x` on a
circle or ellipse, `ent.rx` on a circle, `ent.r` on an ellipse. -/
def extend (a : Extent) : Entity → Extent
  | .line x1 y1 x2 y2 _ _ =>
    { minX := JSNum.min3 a.minX x1 x2, maxX := JSNum.max3 a.maxX x1 x2,
      minY := JSNum.min3 a.minY y1 y2, maxY := JSNum.max3 a.maxY y1 y2 }
  | .rect x y w h _ _ =>
    { minX := a.minX.min x, maxX := a.maxX.max (x.add (w.or (.fin 50))),
      minY := a.minY.min y, maxY := a.maxY.max (y.add (h.or (.fin 30))) }
  | .circle cx cy r _ _ =>
    { minX := a.minX.min ((cx.or .nan).sub (r.or .nan)),
      maxX := a.maxX.max ((cx.or .nan).add (r.or .nan)),
      minY := a.minY.min ((cy.or .nan).sub (r.or .nan)),
      maxY := a.maxY.max ((cy.or .nan).add (r.or .nan)) }
  | .ellipse cx cy _ _ rx ry _ _ _ =>
    { minX := a.minX.min ((cx.or .nan).sub rx), maxX := a.maxX.max ((cx.or .nan).add rx),
      minY := a.minY.min ((cy.or .nan).sub ry), maxY := a.maxY.max ((cy.or .nan).add ry) }
  | .polyline points _ _ _ => points.foldl extendPoint a
  | .text x y _ _ _ _ _ =>
    { minX := a.minX.min x, maxX := a.maxX.max (x.add (.fin 100)),
      minY := a.minY.min (y.sub (.fin 10)), maxY := a.maxY.max y }
  | .arc cx cy r _ _ _ _ =>
    { minX := a.minX.min (cx.sub r), maxX := a.maxX.max (cx.add r),
      minY := a.minY.min (cy.sub r), maxY := a.maxY.max (cy.add r) }
  | .point x y _ _ =>
    { minX := a.minX.min x, maxX := a.maxX.max x, minY := a.minY.min y, maxY := a.maxY.max y }
  | .spline .. => a

/-- The constant `padding` of `calculateBounds`. -/
def padding : JSNum := .fin 30

/-- The function `calculateBounds`; `none` is a missing list (`null`, `undefined`). -/
def calculateBounds : Option (List Entity) → Bounds
  | none => ⟨.fin 0, .fin 0, .fin 500, .fin 350⟩
  | some [] => ⟨.fin 0, .fin 0, .fin 500, .fin 350⟩
  | some (e :: es) =>
    let a := (e :: es).foldl extend ⟨.pinf, .pinf, .ninf, .ninf⟩
    let minX := a.minX.sub padding
    let minY := a.minY.sub padding
    let maxX := a.maxX.add padding
    let maxY := a.maxY.add padding
    ⟨minX, minY, maxX.sub minX, maxY.sub minY⟩

/-! ## Export scale and placement -/

/-- The values computed by `createPDF` (and, in the same words, by
`createMultiPagePDF`) between the bounds and the drawing calls. -/
structure Layout where
  contentWidth : JSNum
  contentHeight : JSNum
  scale : JSNum
  scaledWidth : JSNum
  scaledHeight : JSNum
  offsetX : JSNum
  offsetY : JSNum
  deriving DecidableEq, Repr

/-- Lines 72 to 91 of `createPDF`: `scale` is `settings.scale`, the page size is
the one after the orientation swap. -/
def exportLayout (scale : String) (pageWidth pageHeight margin headerSpace : JSNum)
    (bounds : Bounds) : Layout :=
  let contentWidth := pageWidth.sub (margin.mul (.fin 2))
  let contentHeight := (pageHeight.sub margin).sub headerSpace
  let sc :=
    if scale = "auto" then
      JSNum.min (contentWidth.div bounds.width) (contentHeight.div bounds.height)
    else parseFloat scale
  let scaledWidth := bounds.width.mul sc
  let scaledHeight := bounds.height.mul sc
  { contentWidth := contentWidth, contentHeight := contentHeight, scale := sc,
    scaledWidth := scaledWidth, scaledHeight := scaledHeight,
    offsetX := margin.add ((contentWidth.sub scaledWidth).div (.fin 2)),
    offsetY := (margin.add headerSpace).add ((contentHeight.sub scaledHeight).div (.fin 2)) }

/-! ## Test data -/

/-- The text `testDXFContent` of `src/test.js`. -/
def testDXFContent : String :=
  "0\nSECTION\n2\nHEADER\n9\n$ACADVER\n1\nAC1006\n0\nENDSEC\n0\nSECTION\n2\nENTITIES\n0\nLINE\n8\n0\n10\n0.0\n20\n0.0\n30\n0.0\n11\n100.0\n21\n100.0\n31\n0.0\n0\nCIRCLE\n8\n0\n10\n50.0\n20\n50.0\n30\n0.0\n40\n25.0\n0\nARC\n8\n0\n10\n100.0\n20\n100.0\n30\n0.0\n40\n30.0\n50\n0\n51\n180\n0\nENDSEC\n0\nEOF"

/-- The text of a drawing whose ENTITIES section holds the single record
LINE with 10 = 0, 20 = 0, 11 = 100, 21 = 100, the values written `0` and `100`. -/
def lineRecordContent : String :=
  "0\nSECTION\n2\nENTITIES\n0\nLINE\n10\n0\n20\n0\n11\n100\n21\n100\n0\nENDSEC\n0\nEOF"

/-- The text of a drawing whose ENTITIES section holds the single record
LINE with 10 = 10, 20 = 5, 11 = 3, 21 = 4. -/
def lineRecordContent2 : String :=
  "0\nSECTION\n2\nENTITIES\n0\nLINE\n10\n10\n20\n5\n11\n3\n21\n4\n0\nENDSEC\n0\nEOF"

/-- The entity list of the end-to-end property: a line, a circle and an arc. -/
def threeEntities : List Entity :=
  [ .line (.fin 0) (.fin 0) (.fin 100) (.fin 100) white none,
    .circle (.fin 50) (.fin 50) (.fin 25) white none,
    .arc (.fin 100) (.fin 100) (.fin 30) (.fin 0) (.fin 180) white none ]

/-- The type markers tested by the chain of `parse`. -/
def isTypeMarker (line : String) : Bool :=
  decide (line ∈ ["LINE", "CIRCLE", "ARC", "LWPOLYLINE", "POLYLINE", "TEXT", "MTEXT", "ELLIPSE",
    "SPLINE", "POINT", "SOLID", "TRACE", "3DFACE"])

/-- The `color` field of an entity. -/
def Entity.color : Entity → RGB
  | .line _ _ _ _ c _ => c
  | .rect _ _ _ _ c _ => c
  | .circle _ _ _ c _ => c
  | .arc _ _ _ _ _ c _ => c
  | .polyline _ _ c _ => c
  | .text _ _ _ _ c _ _ => c
  | .ellipse _ _ _ _ _ _ _ c _ => c
  | .spline _ _ c _ => c
  | .point _ _ c _ => c

/-- The text of a drawing whose only section is an ENTITIES section holding the
given record lines (each line ends with a line feed). -/
def drawingWith (records : String) : String :=
  "0\nSECTION\n2\nENTITIES\n" ++ records ++ "0\nENDSEC\n0\nEOF"

/-- The function `toPDF` of `drawEntities`, with the variables it closes over. -/
def toPDF (bounds : Bounds) (offsetX offsetY scaledHeight scale : JSNum) (x y : JSNum) : Pt :=
  (offsetX.add ((x.sub bounds.minX).mul scale),
   offsetY.add (scaledHeight.sub ((y.sub bounds.minY).mul scale)))

/-- Test on an entity: when its type is `spline` it has fewer than two control
points. -/
def splineIsShort : Entity → Bool
  | .spline controlPoints _ _ _ => decide (controlPoints.length < 2)
  | _ => true

/-- The points of a list whose coordinates are all finite; `none` when one is not. -/
def finitePoints : List Pt → Option (List (ℚ × ℚ))
  | [] => some []
  | (.fin x, .fin y) :: ps => (finitePoints ps).map (List.cons (x, y))
  | _ :: _ => none

/-- The number `m` is the least element of the list `l`. -/
def IsMinOf (l : List ℚ) (m : ℚ) : Prop := m ∈ l ∧ ∀ x ∈ l, m ≤ x

/-- The number `m` is the greatest element of the list `l`. -/
def IsMaxOf (l : List ℚ) (m : ℚ) : Prop := m ∈ l ∧ ∀ x ∈ l, x ≤ m

/-- A point with finite coordinates as the array `[x, y]`. -/
def toPt (p : ℚ × ℚ) : Pt := (.fin p.1, .fin p.2)

/-! ## Index-based model with failures

The same functions over the array `lines` and explicit indices, as in the
source, with the two ways in which a run could fail to return made explicit: a
`TypeError` when `.trim()` is called on `undefined`, and a loop that does not
end within the given number of iterations. -/

/-- Ways in which a run can fail to return a value. -/
inductive Failure where
  | typeError
  | outOfFuel
  deriving DecidableEq, Repr

/-- The expression `lines[j].trim()`: a `TypeError` when `lines[j]` is `undefined`. -/
def trimAt (lines : List String) (j : Nat) : Except Failure String :=
  match lines[j]? with
  | some l => .ok (trim l)
  | none => .error .typeError

/-- The expression `lines[j]?.trim() || ''`. -/
def trimAtOr (lines : List String) (j : Nat) : String :=
  match lines[j]? with
  | some l => trim l
  | none => ""

/-- The decoder loop
`for (let j = startIndex + 1; j < lines.length && j < startIndex + cap; j++)`
from the index `j` on, with at most `fuel` iterations; `update` also receives the
index `j + 1`. -/
def scanRecordAt {σ : Type} (early : String → String → EarlyExit)
    (update : σ → String → String → Nat → Except Failure σ) (late : String → String → Bool)
    (lines : List String) (startIndex cap : Nat) :
    Nat → Nat → σ → Nat → Except Failure (σ × Nat)
  | 0, _, _, _ => .error .outOfFuel
  | fuel + 1, j, d, sl =>
    if j < lines.length ∧ j < startIndex + cap then
      match trimAt lines j with
      | .error e => .error e
      | .ok code =>
        let value := trimAtOr lines (j + 1)
        match early code value with
        | .stop => .ok (d, sl)
        | .stopAt => .ok (d, j - startIndex)
        | .go =>
          match update d code value (j + 1) with
          | .error e => .error e
          | .ok d1 =>
            if late code value then .ok (d1, j - startIndex)
            else scanRecordAt early update late lines startIndex cap fuel (j + 1) d1
              (j - startIndex)
    else .ok (d, sl)

/-- Field updates that read no line: they cannot fail. -/
def pureUpdate {σ : Type} (lines : List String)
    (update : σ → String → String → List String → σ) (d : σ) (code value : String) (j : Nat) :
    Except Failure σ :=
  .ok (update d code value (lines.drop j))

/-- The loop `for (let k = startIndex; k < lines.length && k < startIndex + 20; k++)`
of `parseMTEXT` from the index `k` on, with at most `fuel` iterations. -/
def mtextLoopAt (lines : List String) (startIndex : Nat) :
    Nat → Nat → List Char → Except Failure (List Char)
  | 0, _, _ => .error .outOfFuel
  | fuel + 1, k, text =>
    if k < lines.length ∧ k < startIndex + 20 then
      match trimAt lines k with
      | .error e => .error e
      | .ok line =>
        if line = "0" then .ok text
        else mtextLoopAt lines startIndex fuel (k + 1) (text ++ line.data ++ [Char.ofNat 32])
    else .ok text

/-- The function `parseMTEXT(lines, startIndex)` on the array. -/
def parseMTEXTAt (lines : List String) (startIndex : Nat) : Except Failure String :=
  match mtextLoopAt lines startIndex 21 startIndex [] with
  | .error e => .error e
  | .ok t =>
    let text := trimChars t
    let text := replacePair (Char.ofNat 92) (Char.ofNat 80) (Char.ofNat 10) text
    let text := replacePair (Char.ofNat 92) (Char.ofNat 123) (Char.ofNat 123) text
    .ok ⟨replacePair (Char.ofNat 92) (Char.ofNat 125) (Char.ofNat 125) text⟩

/-- The field updates of `parseTextEntity` that come before the test of code 1. -/
def textFields (e : TextDraft) (code value : String) : TextDraft :=
  let e := if code = "10" then { e with x := floatOr value (.fin 0) } else e
  let e := if code = "20" then { e with y := floatOr value (.fin 0) } else e
  let e := if code = "40" then { e with size := absFloatOr value (.fin 8) } else e
  let e := if code = "50" then { e with rotation := floatOr value (.fin 0) } else e
  let e := if code = "62" then { e with color := getColorByIndex (intOr value 1) } else e
  if code = "8" then { e with layer := some value } else e

/-- Field updates of `parseTextEntity` on the array; `j` is the index after the
code line. -/
def textUpdateAt (lines : List String) (isMTEXT : Bool) (e : TextDraft) (code value : String)
    (j : Nat) : Except Failure TextDraft :=
  let e := textFields e code value
  if code = "1" then
    (if isMTEXT then
      match parseMTEXTAt lines j with
      | .error err => .error err
      | .ok t => .ok { e with text := t }
    else .ok { e with text := value })
  else .ok e

/-- The end of `parseLineEntity`: the validity test and the returned value. -/
def finishLine (r : LineDraft × Nat) : Option (Entity × Nat) :=
  let e := r.1
  if e.x1.neZero || e.x2.neZero || e.y1.neZero || e.y2.neZero then
    some (.line e.x1 e.y1 e.x2 e.y2 e.color e.layer, r.2)
  else none

/-- The end of `parsePolylineEntity`: elevation, validity test, returned value. -/
def finishPolyline (r : PolylineDraft × Nat) : Option (Entity × Nat) :=
  let e := r.1
  let points :=
    if e.elevation.neZero && decide (0 < e.points.length) then
      e.points.map (fun p => (p.1, p.2.add e.elevation))
    else e.points
  if 0 < points.length then some (.polyline points (some e.isClosed) e.color e.layer, r.2)
  else none

/-- The end of `parseTextEntity`: the validity test and the returned value. -/
def finishText (r : TextDraft × Nat) : Option (Entity × Nat) :=
  let e := r.1
  if e.text ≠ "" then some (.text e.x e.y e.text e.size e.color (some e.rotation) e.layer, r.2)
  else none

/-- The end of `parseSplineEntity`: control points, conversion, returned value. -/
def finishSpline (r : SplineDraft × Nat) : Entity × Nat :=
  let e := r.1
  let controlPoints := combineCoords e.xCoords e.yCoords
  if 2 ≤ controlPoints.length then
    (.polyline (approximateSpline controlPoints e.degree) none e.color e.layer, r.2)
  else (.spline controlPoints e.degree e.color e.layer, r.2)

/-- The end of `parse3DFaceEntity`: the conversion to a polyline. -/
def finishFace (r : FaceDraft × Nat) : Entity × Nat :=
  let e := r.1
  let points := [(e.x1, e.y1), (e.x2, e.y2), (e.x3, e.y3)]
  let points := if e.x4.neZero || e.y4.neZero then points ++ [(e.x4, e.y4)] else points
  (.polyline points none e.color e.layer, r.2)

/-- The chain of `parse` at the index `i`, for `line = lines[i].trim()`: the
decoder called as `parseXEntity(lines, i)`, each with its own cap. -/
def dispatchAt (lines : List String) (i : Nat) (line : String) :
    Except Failure (Option (Entity × Nat)) :=
  if line = "LINE" then
    (scanRecordAt (stopUnless ["LINE"]) (pureUpdate lines lineUpdate) lateZero lines i 80 80
      (i + 1) {} 0).map finishLine
  else if line = "CIRCLE" then
    (scanRecordAt (stopUnless ["CIRCLE"]) (pureUpdate lines circleUpdate) lateZero lines i 80 80
      (i + 1) {} 0).map
      (fun r => some (.circle r.1.cx r.1.cy r.1.r r.1.color r.1.layer, r.2))
  else if line = "ARC" then
    (scanRecordAt (stopUnless ["ARC"]) (pureUpdate lines arcUpdate) lateZero lines i 100 100
      (i + 1) {} 0).map
      (fun r => some (.arc r.1.cx r.1.cy r.1.r r.1.startAngle r.1.endAngle r.1.color r.1.layer,
        r.2))
  else if line = "LWPOLYLINE" ∨ line = "POLYLINE" then
    (scanRecordAt polylineEarly (pureUpdate lines polylineUpdate) polylineLate lines i 500 500
      (i + 1) {} 0).map finishPolyline
  else if line = "TEXT" ∨ line = "MTEXT" then
    match trimAt lines i with
    | .error e => .error e
    | .ok marker =>
      (scanRecordAt (stopUnless ["TEXT", "MTEXT"])
        (textUpdateAt lines (decide (marker = "MTEXT"))) lateZero lines i 150 150 (i + 1) {} 0
        ).map finishText
  else if line = "ELLIPSE" then
    (scanRecordAt (stopUnless ["ELLIPSE"]) (pureUpdate lines ellipseUpdate) lateZero lines i 100
      100 (i + 1) {} 0).map
      (fun r => some (.ellipse r.1.cx r.1.cy r.1.mx r.1.my r.1.rx r.1.ry r.1.rotation r.1.color
        r.1.layer, r.2))
  else if line = "SPLINE" then
    (scanRecordAt splineEarly (pureUpdate lines splineUpdate) (fun _ _ => false) lines i 500 500
      (i + 1) {} 0).map (fun r => some (finishSpline r))
  else if line = "POINT" then
    (scanRecordAt (stopUnless ["POINT"]) (pureUpdate lines pointUpdate) lateZero lines i 60 60
      (i + 1) {} 0).map (fun r => some (.point r.1.x r.1.y r.1.color r.1.layer, r.2))
  else if line = "SOLID" ∨ line = "TRACE" ∨ line = "3DFACE" then
    (scanRecordAt (stopUnless ["SOLID", "TRACE", "3DFACE"]) (pureUpdate lines faceUpdate)
      lateZero lines i 120 120 (i + 1) {} 0).map (fun r => some (finishFace r))
  else .ok none

/-- Section detection of `parse` at the index `i`, for `line = lines[i].trim()`,
reading `lines[i + 1]?.trim()` and `lines[i + 2]?.trim()`. -/
def sectionStateAt (lines : List String) (i : Nat) (line : String) (inEntitySection : Bool) :
    Bool :=
  if line = "SECTION" then
    match lines[i + 1]? with
    | none => inEntitySection
    | some nextLine =>
      if trim nextLine = "2" then
        match lines[i + 2]? with
        | none => inEntitySection
        | some sectionName =>
          if trim sectionName = "ENTITIES" ∨ trim sectionName = "BLOCKS" then true
          else if trim sectionName = "TABLES" ∨ trim sectionName = "OBJECTS" then false
          else inEntitySection
      else inEntitySection
  else if line = "ENDSEC" then false
  else inEntitySection

/-- The loop `for (let i = 0; i < lines.length; i++)` of `parse` from the index
`i` on, with at most `fuel` iterations; `entities` is the array pushed so far. -/
def parseLoopAt (lines : List String) :
    Nat → Nat → Bool → List Entity → Except Failure (List Entity)
  | 0, _, _, _ => .error .outOfFuel
  | fuel + 1, i, inEntitySection, entities =>
    if i < lines.length then
      match trimAt lines i with
      | .error e => .error e
      | .ok line =>
        let inSec := sectionStateAt lines i line inEntitySection
        if inSec then
          match dispatchAt lines i line with
          | .error e => .error e
          | .ok (some (entity, scanLength)) =>
            parseLoopAt lines fuel (i + scanLength + 1) inSec (entities ++ [entity])
          | .ok none => parseLoopAt lines fuel (i + 1) inSec entities
        else parseLoopAt lines fuel (i + 1) inSec entities
    else .ok entities

/-- The function `parse` on the array model, with `lines.length + 1` iterations
of fuel for the main loop. -/
def parseAt (content : String) : Except Failure (List Entity) :=
  let lines := splitLines content
  match parseLoopAt lines (lines.length + 1) 0 false [] with
  | .error e => .error e
  | .ok entities => .ok (if entities.length = 0 then generatePlaceholderData else entities)

/-! ## Interactive preview (app.js) -/

/-- The body of `AppState.drawingData.forEach` in `calculateDrawingBounds` of
app.js: the branches of `calculateBounds` up to `arc`; there is no branch for
the type `point`. -/
def extendPreview (a : Extent) : Entity → Extent
  | .line x1 y1 x2 y2 _ _ =>
    { minX := JSNum.min3 a.minX x1 x2, maxX := JSNum.max3 a.maxX x1 x2,
      minY := JSNum.min3 a.minY y1 y2, maxY := JSNum.max3 a.maxY y1 y2 }
  | .rect x y w h _ _ =>
    { minX := a.minX.min x, maxX := a.maxX.max (x.add (w.or (.fin 50))),
      minY := a.minY.min y, maxY := a.maxY.max (y.add (h.or (.fin 30))) }
  | .circle cx cy r _ _ =>
    { minX := a.minX.min ((cx.or .nan).sub (r.or .nan)),
      maxX := a.maxX.max ((cx.or .nan).add (r.or .nan)),
      minY := a.minY.min ((cy.or .nan).sub (r.or .nan)),
      maxY := a.maxY.max ((cy.or .nan).add (r.or .nan)) }
  | .ellipse cx cy _ _ rx ry _ _ _ =>
    { minX := a.minX.min ((cx.or .nan).sub rx), maxX := a.maxX.max ((cx.or .nan).add rx),
      minY := a.minY.min ((cy.or .nan).sub ry), maxY := a.maxY.max ((cy.or .nan).add ry) }
  | .polyline points _ _ _ => points.foldl extendPoint a
  | .text x y _ _ _ _ _ =>
    { minX := a.minX.min x, maxX := a.maxX.max (x.add (.fin 100)),
      minY := a.minY.min (y.sub (.fin 10)), maxY := a.maxY.max y }
  | .arc cx cy r _ _ _ _ =>
    { minX := a.minX.min (cx.sub r), maxX := a.maxX.max (cx.add r),
      minY := a.minY.min (cy.sub r), maxY := a.maxY.max (cy.add r) }
  | .point .. => a
  | .spline .. => a

/-- The function `calculateDrawingBounds` of app.js: the argument is
`AppState.drawingData`, the result the value stored in `AppState.drawingBounds`. -/
def calculateDrawingBounds : Option (List Entity) → Bounds
  | none => ⟨.fin 0, .fin 0, .fin 500, .fin 350⟩
  | some [] => ⟨.fin 0, .fin 0, .fin 500, .fin 350⟩
  | some (e :: es) =>
    let a := (e :: es).foldl extendPreview ⟨.pinf, .pinf, .ninf, .ninf⟩
    let minX := a.minX.sub padding
    let minY := a.minY.sub padding
    let maxX := a.maxX.add padding
    let maxY := a.maxY.add padding
    ⟨minX, minY, maxX.sub minX, maxY.sub minY⟩

/-- The text of a drawing whose ENTITIES section holds the single record
POINT with 10 = 5 and 20 = 5. -/
def pointRecordContent : String :=
  "0\nSECTION\n2\nENTITIES\n0\nPOINT\n10\n5\n20\n5\n0\nENDSEC\n0\nEOF"

/-- The values computed by `renderCanvas` before it draws. -/
structure PreviewLayout where
  containerWidth : JSNum
  containerHeight : JSNum
  scale : JSNum
  scaledWidth : JSNum
  scaledHeight : JSNum
  offsetX : JSNum
  offsetY : JSNum
  deriving DecidableEq, Repr

/-- The first part of `renderCanvas(panX, panY)`: `clientWidth` and
`clientHeight` are those of the element `canvasContainer`, `zoomScale` is
`AppState.zoomScale` and `bounds` is `AppState.drawingBounds`. -/
def previewLayout (clientWidth clientHeight zoomScale panX panY : JSNum) (bounds : Bounds) :
    PreviewLayout :=
  let containerWidth := clientWidth.sub (.fin 60)
  let containerHeight := clientHeight.sub (.fin 60)
  let padding : JSNum := .fin 30
  let contentWidth := containerWidth.sub (padding.mul (.fin 2))
  let contentHeight := containerHeight.sub (padding.mul (.fin 2))
  let baseScaleX := contentWidth.div bounds.width
  let baseScaleY := contentHeight.div bounds.height
  let baseScale := JSNum.min baseScaleX baseScaleY
  let scale := baseScale.mul zoomScale
  let scaledWidth := bounds.width.mul scale
  let scaledHeight := bounds.height.mul scale
  { containerWidth := containerWidth, containerHeight := containerHeight, scale := scale,
    scaledWidth := scaledWidth, scaledHeight := scaledHeight,
    offsetX := ((containerWidth.sub scaledWidth).div (.fin 2)).add panX,
    offsetY := ((containerHeight.sub scaledHeight).div (.fin 2)).add panY }

/-- The current transformation matrix of a 2D canvas context: the point (x, y)
of user space is drawn at (a x + c y + e, b x + d y + f). -/
structure CanvasMatrix where
  a : JSNum
  b : JSNum
  c : JSNum
  d : JSNum
  e : JSNum
  f : JSNum
  deriving DecidableEq, Repr

/-- The matrix of a context whose canvas has just been resized. -/
def CanvasMatrix.identity : CanvasMatrix := ⟨.fin 1, .fin 0, .fin 0, .fin 1, .fin 0, .fin 0⟩

/-- The call `ctx.translate(tx, ty)`: the current matrix is multiplied on the
right by the translation. -/
def CanvasMatrix.translate (m : CanvasMatrix) (tx ty : JSNum) : CanvasMatrix :=
  { m with e := ((m.a.mul tx).add (m.c.mul ty)).add m.e,
           f := ((m.b.mul tx).add (m.d.mul ty)).add m.f }

/-- The call `ctx.scale(sx, sy)`: the current matrix is multiplied on the right
by the scaling. -/
def CanvasMatrix.scale (m : CanvasMatrix) (sx sy : JSNum) : CanvasMatrix :=
  { m with a := m.a.mul sx, b := m.b.mul sx, c := m.c.mul sy, d := m.d.mul sy }

/-- The canvas position at which the point `p` of user space is drawn. -/
def CanvasMatrix.apply (m : CanvasMatrix) (p : Pt) : Pt :=
  (((m.a.mul p.1).add (m.c.mul p.2)).add m.e, ((m.b.mul p.1).add (m.d.mul p.2)).add m.f)

/-- The three calls of `renderCanvas` between `ctx.save()` and the drawing of
the entities. -/
def previewTransform (layout : PreviewLayout) (bounds : Bounds) : CanvasMatrix :=
  ((CanvasMatrix.identity.translate (layout.offsetX.add layout.scaledWidth) layout.offsetY).scale
      layout.scale layout.scale.neg).translate bounds.minX.neg bounds.minY.neg

/-- Test that a canvas position lies in the rectangle of the dashed border,
`ctx.strokeRect(offsetX, offsetY, scaledWidth, scaledHeight)`. -/
def insideBorder (layout : PreviewLayout) (p : Pt) : Bool :=
  layout.offsetX.le p.1 && p.1.le (layout.offsetX.add layout.scaledWidth) &&
    layout.offsetY.le p.2 && p.2.le (layout.offsetY.add layout.scaledHeight)

/-! ## File items (app.js) and the drawing data of the export -/

/-- The browser `File` handed to `handleFiles`: its name, its size in bytes and
its text. -/
structure JSFile where
  name : String
  size : Nat
  text : String
  deriving DecidableEq, Repr

/-- An element of `AppState.files`.  `handleFiles` writes the properties `file`,
`data` (`null`) and `extension`; `content` is the property read by `createPDF`,
`none` when the object has no such property. -/
structure FileItem where
  file : JSFile
  data : Option (List Entity)
  extension : String
  content : Option String
  deriving DecidableEq, Repr

/-- The expression `name.toLowerCase().split('.').pop()`; the built-in
`toLowerCase` is a parameter. -/
def extensionOf (toLowerCase : String → String) (name : String) : String :=
  ((toLowerCase name).splitOn ".").getLast?.getD ""

/-- The function `handleFiles(fileList)`: the value it assigns to
`AppState.files`, or `none` when it returns without assigning. -/
def handleFiles (toLowerCase : String → String) (isProcessing : Bool) (fileList : List JSFile) :
    Option (List FileItem) :=
  if isProcessing then none
  else
    let newFiles := fileList.filter (fun file =>
      let ext := extensionOf toLowerCase file.name
      if !(["dwg", "dxf"].contains ext) then false
      else if file.size > 100 * 1024 * 1024 then false
      else true)
    if newFiles.length = 0 then none
    else some (newFiles.map (fun f =>
      { file := f, data := none, extension := extensionOf toLowerCase f.name, content := none }))

/-- The files that `processConversion` hands to `createPDF`: the elements of
`AppState.files`, each passed as it is. -/
def processConversion (files : List FileItem) : List FileItem := files

/-- The variable `drawingData` of `createPDF(fileItem)`: `fileItem.content` is
truthy when the property is there and is not the empty string. -/
def createPDFData (fileItem : FileItem) : List Entity :=
  match fileItem.content with
  | some content => if content ≠ "" then parse content else generatePlaceholderData
  | none => generatePlaceholderData

/-- The variable `drawingData` of `createMultiPagePDF`, page by page. -/
def createMultiPagePDFData (fileItems : List FileItem) : List (List Entity) :=
  fileItems.map (fun _ => generatePlaceholderData)


/-! ## Drawing on the PDF document (pdf-generator.js) -/

/-- Exception thrown while drawing. -/
inductive DrawFailure where
  | referenceError (name : String)
  deriving DecidableEq, Repr

/-- A method call on the jsPDF document, with its arguments. -/
inductive PdfCall where
  | setDrawColor (r g b : JSNum)
  | setFillColor (r g b : JSNum)
  | setLineWidth (width : JSNum)
  | line (x1 y1 x2 y2 : JSNum)
  | rect (x y w h : JSNum) (style : Option String)
  | circle (x y r : JSNum) (style : Option String)
  | arc (x y r startAngle endAngle : JSNum)
  | ellipse (x y rx ry rotation startAngle endAngle : JSNum)
  | setFontSize (size : JSNum)
  | setFont (name style : String)
  | text (text : String) (x y : JSNum) (align : Option String)
  deriving DecidableEq, Repr

deriving instance DecidableEq for Except

/-- The constant `Math.PI`, the binary64 number 3.141592653589793. -/
def mathPI : JSNum := .fin (884279719003555 / 281474976710656)

/-- The constant `dpiScale` of `drawEntities` for `settings.quality`. -/
def dpiScaleOf (quality : String) : JSNum :=
  if quality = "high" then .fin 1 else if quality = "medium" then .fin (3 / 4) else .fin (1 / 2)

/-- The array `ent.color` as three numbers. -/
def RGB.toNums (c : RGB) : JSNum × JSNum × JSNum := (.fin c.r, .fin c.g, .fin c.b)

/-- The variable `color` of `drawEntities` after the colour mode is applied. -/
def colorFor (colorMode : String) (c : RGB) : JSNum × JSNum × JSNum :=
  if colorMode = "grayscale" then
    let gray := (((JSNum.fin (299 / 1000)).mul (.fin c.r)).add
      ((JSNum.fin (587 / 1000)).mul (.fin c.g))).add ((JSNum.fin (114 / 1000)).mul (.fin c.b))
    (gray, gray, gray)
  else if colorMode = "black" then (.fin 0, .fin 0, .fin 0)
  else if colorMode = "white" then (.fin 255, .fin 255, .fin 255)
  else c.toNums

/-- The function `drawLine(pdf, entity, toPDF, lineWidth)`. -/
def drawLine (x1 y1 x2 y2 : JSNum) (toPDF : JSNum → JSNum → Pt) (lineWidth : JSNum) :
    List PdfCall :=
  let p := toPDF x1 y1
  let q := toPDF x2 y2
  [.setLineWidth lineWidth, .line p.1 p.2 q.1 q.2]

/-- The binding of the identifier `toPDF` in the scope where `drawRect` is
declared, the body of the module: there is none.  The two functions of that name
are declared inside `drawEntities` and inside `createMultiPagePDF`, and
`drawRect` has no parameter of that name. -/
def moduleToPDF : Option (JSNum → JSNum → Pt) := none

/-- The function `drawRect(pdf, entity, bounds, scale, lineWidth)`: its first
statement calls `toPDF`, which it looks up in the scope of the module. -/
def drawRect (x y w h : JSNum) (color : RGB) (fill : Bool) (_bounds : Bounds)
    (scale lineWidth : JSNum) : Except DrawFailure (List PdfCall) :=
  match moduleToPDF with
  | none => .error (.referenceError "toPDF")
  | some toPDF =>
    let p := toPDF x (y.add h)
    if fill then
      .ok [.setLineWidth lineWidth, .setFillColor (.fin color.r) (.fin color.g) (.fin color.b),
        .rect p.1 p.2 (w.mul scale) (h.mul scale) (some "F")]
    else
      .ok [.setLineWidth lineWidth, .rect p.1 p.2 (w.mul scale) (h.mul scale) (some "S")]

/-- The function `drawCircle(pdf, entity, toPDF, scale, lineWidth)`. -/
def drawCircle (cx cy r : JSNum) (toPDF : JSNum → JSNum → Pt) (scale lineWidth : JSNum) :
    List PdfCall :=
  let p := toPDF cx cy
  [.setLineWidth lineWidth, .circle p.1 p.2 (r.mul scale) none]

/-- The function `drawArc(pdf, entity, toPDF, scale, lineWidth)`. -/
def drawArc (cx cy r startAngle endAngle : JSNum) (toPDF : JSNum → JSNum → Pt)
    (scale lineWidth : JSNum) : List PdfCall :=
  let p := toPDF cx cy
  [.setLineWidth lineWidth,
    .arc p.1 p.2 (r.mul scale) ((startAngle.mul mathPI).div (.fin 180))
      ((endAngle.mul mathPI).div (.fin 180))]

/-- The function `drawEllipse(pdf, entity, toPDF, scale, lineWidth)`. -/
def drawEllipse (cx cy rx ry rotation : JSNum) (toPDF : JSNum → JSNum → Pt)
    (scale lineWidth : JSNum) : List PdfCall :=
  let p := toPDF cx cy
  [.setLineWidth lineWidth,
    .ellipse p.1 p.2 (rx.mul scale) (ry.mul scale)
      (((rotation.or (.fin 0)).mul mathPI).div (.fin 180)) (.fin 0) ((JSNum.fin 2).mul mathPI)]

/-- The function `drawPolyline(pdf, entity, toPDF, lineWidth)`. -/
def drawPolyline (points : List Pt) (isClosed : Option Bool) (toPDF : JSNum → JSNum → Pt)
    (lineWidth : JSNum) : List PdfCall :=
  if points.length < 2 then []
  else
    let pts := points.map (fun p => toPDF p.1 p.2)
    let segments := (pts.zip pts.tail).map (fun s => PdfCall.line s.1.1 s.1.2 s.2.1 s.2.2)
    let closing :=
      match isClosed, pts.getLast?, pts.head? with
      | some true, some last, some first =>
        if pts.length > 2 then [PdfCall.line last.1 last.2 first.1 first.2] else []
      | _, _, _ => []
    [.setLineWidth lineWidth] ++ segments ++ closing

/-- The test of `drawText` for a character in the range U+0600 to U+06FF. -/
def isArabic (text : String) : Bool :=
  text.data.any (fun c => decide (0x600 ≤ c.toNat ∧ c.toNat ≤ 0x6FF))

/-- The function `drawText(pdf, entity, toPDF, scale, dpiScale)`; the reversal
`split('').reverse().join('')` is taken character by character. -/
def drawText (x y : JSNum) (text : String) (size : JSNum) (toPDF : JSNum → JSNum → Pt)
    (scale dpiScale : JSNum) : List PdfCall :=
  let p := toPDF x y
  let fontSize := JSNum.max (.fin 4) (((size.mul scale).mul (.fin (1 / 2))).mul dpiScale)
  if isArabic text then
    [.setFontSize fontSize, .setFont "courier" "normal",
      .text (String.mk text.data.reverse) p.1 p.2 (some "right")]
  else
    [.setFontSize fontSize, .setFont "helvetica" "normal", .text text p.1 p.2 none]

/-- The function `drawPoint(pdf, entity, toPDF, dpiScale)`. -/
def drawPoint (x y : JSNum) (color : RGB) (toPDF : JSNum → JSNum → Pt) (dpiScale : JSNum) :
    List PdfCall :=
  let p := toPDF x y
  let pointSize := (JSNum.fin 2).mul dpiScale
  [.setFillColor (.fin color.r) (.fin color.g) (.fin color.b),
    .circle p.1 p.2 (pointSize.div (.fin 2)) (some "F")]

/-- The `switch (ent.type)` of `drawEntities`, where `toPDF` is the local
function of `drawEntities`. -/
def drawByType (bounds : Bounds) (toPDF : JSNum → JSNum → Pt) (scale dpiScale lineWidth : JSNum) :
    Entity → Except DrawFailure (List PdfCall)
  | .line x1 y1 x2 y2 _ _ => .ok (drawLine x1 y1 x2 y2 toPDF lineWidth)
  | .rect x y w h color fill => drawRect x y w h color fill bounds scale lineWidth
  | .circle cx cy r _ _ => .ok (drawCircle cx cy r toPDF scale lineWidth)
  | .arc cx cy r startAngle endAngle _ _ =>
    .ok (drawArc cx cy r startAngle endAngle toPDF scale lineWidth)
  | .ellipse cx cy _ _ rx ry rotation _ _ =>
    .ok (drawEllipse cx cy rx ry rotation toPDF scale lineWidth)
  | .polyline points isClosed _ _ => .ok (drawPolyline points isClosed toPDF lineWidth)
  | .text x y text size _ _ _ => .ok (drawText x y text size toPDF scale dpiScale)
  | .point x y color _ => .ok (drawPoint x y color toPDF dpiScale)
  | .spline controlPoints _ _ _ => .ok (drawPolyline controlPoints none toPDF lineWidth)

/-- The callback of `entities.forEach` in `drawEntities`: the two colour calls,
then the routine of the entity type. -/
def drawOne (bounds : Bounds) (toPDF : JSNum → JSNum → Pt) (scale dpiScale lineWidth : JSNum)
    (colorMode : String) (ent : Entity) : Except DrawFailure (List PdfCall) :=
  let color := colorFor colorMode ent.color
  match drawByType bounds toPDF scale dpiScale lineWidth ent with
  | .error failure => .error failure
  | .ok calls =>
    .ok ([.setDrawColor color.1 color.2.1 color.2.2, .setFillColor color.1 color.2.1 color.2.2] ++
      calls)

/-- A `forEach` whose callback may throw: the calls made by all the entities, or
the first exception. -/
def drawAll (draw : Entity → Except DrawFailure (List PdfCall)) :
    List Entity → Except DrawFailure (List PdfCall)
  | [] => .ok []
  | ent :: rest =>
    match draw ent with
    | .error failure => .error failure
    | .ok calls =>
      match drawAll draw rest with
      | .error failure => .error failure
      | .ok more => .ok (calls ++ more)

/-- The function `drawEntities`; `quality` and `colorMode` are the two
settings it reads. -/
def drawEntities (entities : List Entity) (bounds : Bounds)
    (offsetX offsetY _scaledWidth scaledHeight scale : JSNum) (quality colorMode : String) :
    Except DrawFailure (List PdfCall) :=
  let dpiScale := dpiScaleOf quality
  let lineWidth := (JSNum.fin (3 / 10)).mul dpiScale
  drawAll (drawOne bounds (toPDF bounds offsetX offsetY scaledHeight scale) scale dpiScale
    lineWidth colorMode) entities

/-- The callback of `drawingData.forEach` in `createMultiPagePDF`, which draws
in place with its own local `toPDF`. -/
def multiPageDrawOne (toPDF : JSNum → JSNum → Pt) (scale dpiScale lineWidth : JSNum)
    (colorMode : String) (ent : Entity) : List PdfCall :=
  let color := if colorMode = "grayscale" then colorFor colorMode ent.color else ent.color.toNums
  [.setDrawColor color.1 color.2.1 color.2.2, .setFillColor color.1 color.2.1 color.2.2] ++
    match ent with
    | .line x1 y1 x2 y2 _ _ =>
      let p := toPDF x1 y1
      let q := toPDF x2 y2
      [.setLineWidth lineWidth, .line p.1 p.2 q.1 q.2]
    | .rect x y w h _ _ =>
      let p := toPDF x (y.add h)
      [.setLineWidth lineWidth, .rect p.1 p.2 (w.mul scale) (h.mul scale) none]
    | .circle cx cy r _ _ =>
      let p := toPDF cx cy
      [.setLineWidth lineWidth, .circle p.1 p.2 (r.mul scale) none]
    | .polyline points _ _ _ =>
      let pts := points.map (fun p => toPDF p.1 p.2)
      [.setLineWidth lineWidth] ++
        (pts.zip pts.tail).map (fun s => PdfCall.line s.1.1 s.1.2 s.2.1 s.2.2)
    | .text x y text size _ _ _ =>
      let p := toPDF x y
      [.setFontSize (((size.mul scale).mul (.fin (1 / 2))).mul dpiScale), .text text p.1 p.2 none]
    | _ => []


/-- Test that a list of lines starts with a header that turns the mode on: a
line `SECTION`, then `2`, then `ENTITIES` or `BLOCKS` (each after `trim`). -/
def startsEntitySection : List String → Bool
  | l :: n :: s :: _ =>
    decide (trim l = "SECTION" ∧ trim n = "2" ∧ (trim s = "ENTITIES" ∨ trim s = "BLOCKS"))
  | _ => false

/-- The lines of a LINE record from (1, 2) to (3, 4). -/
def lineRecordLines : List String := ["0", "LINE", "10", "1", "20", "2", "11", "3", "21", "4"]

/-- The lines of an ENTITIES section with one CIRCLE record, centre (7, 6) and
radius 9, up to the end of the file. -/
def circleSectionLines : List String :=
  ["0", "SECTION", "2", "ENTITIES", "0", "CIRCLE", "10", "7", "20", "6", "40", "9", "0", "ENDSEC",
    "0", "EOF"]


/-- The per-kind caps as the specification lists them, by type marker: LINE 80,
CIRCLE 80, ARC 100, POLYLINE 500, TEXT 150, ELLIPSE 100, SPLINE 500, POINT 60,
FACE 120. -/
def specCap (line : String) : Nat :=
  if line = "LINE" then 80
  else if line = "CIRCLE" then 80
  else if line = "ARC" then 100
  else if line = "LWPOLYLINE" ∨ line = "POLYLINE" then 500
  else if line = "TEXT" ∨ line = "MTEXT" then 150
  else if line = "ELLIPSE" then 100
  else if line = "SPLINE" then 500
  else if line = "POINT" then 60
  else if line = "SOLID" ∨ line = "TRACE" ∨ line = "3DFACE" then 120
  else 0


/-! ## Binary64 arithmetic

The number type of the source is IEEE 754 binary64.  `fl` rounds a rational to
the nearest binary64 number, ties to even, with gradual underflow and overflow
to an infinity; `fadd`, `fsub`, `fmul` and `fdiv` are the four operators with
their result rounded.  The sign of zero is not kept. -/

/-- Power of two with an integer exponent. -/
def pow2 (k : ℤ) : ℚ :=
  if 0 ≤ k then ((2 ^ k.toNat : ℕ) : ℚ) else 1 / ((2 ^ (-k).toNat : ℕ) : ℚ)

/-- Binary exponent of a non-zero rational: the `e` with `2^e <= |q| < 2^(e+1)`. -/
def exponentOf (q : ℚ) : ℤ :=
  let k : ℤ := (bitLength q.num.natAbs : ℤ) - (bitLength q.den : ℤ)
  if pow2 k ≤ |q| then k else k - 1

/-- Integer nearest to `r`, ties to even. -/
def roundHalfEven (r : ℚ) : ℤ :=
  let f := ⌊r⌋
  if r - f < 1 / 2 then f
  else if 1 / 2 < r - f then f + 1
  else if f % 2 = 0 then f else f + 1

/-- Exponent of the spacing of the binary64 numbers around `q`: 52 below the
exponent of `q`, and -1074 in the subnormal range. -/
def ulpExponent (q : ℚ) : ℤ := Max.max (exponentOf q) (-1022) - 52

/-- Rounding of a rational to a multiple of the spacing around it, ties to
even: the binary64 rounding before the overflow test. -/
def roundToGrid (q : ℚ) : ℚ :=
  if q = 0 then 0 else (roundHalfEven (q / pow2 (ulpExponent q)) : ℚ) * pow2 (ulpExponent q)

/-- Binary64 rounding of a rational: the nearest binary64 number, an infinity
from `2^1024 - 2^970` on. -/
def fl (q : ℚ) : JSNum :=
  let r := roundToGrid q
  if pow2 1024 ≤ r then .pinf else if r ≤ -pow2 1024 then .ninf else .fin r

/-- Rounding of the exact result of an operation to binary64. -/
def JSNum.round : JSNum → JSNum
  | .fin q => fl q
  | x => x

/-- The operator `+` of binary64. -/
def JSNum.fadd (a b : JSNum) : JSNum := (a.add b).round

/-- The operator `-` of binary64. -/
def JSNum.fsub (a b : JSNum) : JSNum := (a.sub b).round

/-- The operator `*` of binary64. -/
def JSNum.fmul (a b : JSNum) : JSNum := (a.mul b).round

/-- The operator `/` of binary64. -/
def JSNum.fdiv (a b : JSNum) : JSNum := (a.div b).round

/-- The unit roundoff `2^-53` of binary64. -/
def unitRoundoff : ℚ := 1 / 2 ^ 53

/-- The rational `q` is a finite binary64 number. -/
def IsBinary64 (q : ℚ) : Prop := fl q = .fin q

/-- The function `parseFloat` with its result rounded to binary64. -/
def Binary64.parseFloat (s : String) : JSNum := (CADverter.parseFloat s).round

/-- Lines 72 to 91 of `createPDF` in binary64: every operator rounds its result. -/
def Binary64.exportLayout (scale : String) (pageWidth pageHeight margin headerSpace : JSNum)
    (bounds : Bounds) : Layout :=
  let contentWidth := pageWidth.fsub (margin.fmul (.fin 2))
  let contentHeight := (pageHeight.fsub margin).fsub headerSpace
  let sc :=
    if scale = "auto" then
      JSNum.min (contentWidth.fdiv bounds.width) (contentHeight.fdiv bounds.height)
    else Binary64.parseFloat scale
  let scaledWidth := bounds.width.fmul sc
  let scaledHeight := bounds.height.fmul sc
  { contentWidth := contentWidth, contentHeight := contentHeight, scale := sc,
    scaledWidth := scaledWidth, scaledHeight := scaledHeight,
    offsetX := margin.fadd ((contentWidth.fsub scaledWidth).fdiv (.fin 2)),
    offsetY := (margin.fadd headerSpace).fadd ((contentHeight.fsub scaledHeight).fdiv (.fin 2)) }

/-- The function `toPDF` of `drawEntities` in binary64. -/
def Binary64.toPDF (bounds : Bounds) (offsetX offsetY scaledHeight scale : JSNum) (x y : JSNum) :
    Pt :=
  (offsetX.fadd ((x.fsub bounds.minX).fmul scale),
   offsetY.fadd (scaledHeight.fsub ((y.fsub bounds.minY).fmul scale)))

/-- The body of `entities.forEach` in `calculateBounds` in binary64: `Math.min`
and `Math.max` are exact, the sums and differences are rounded. -/
def Binary64.extend (a : Extent) : Entity → Extent
  | .line x1 y1 x2 y2 _ _ =>
    { minX := JSNum.min3 a.minX x1 x2, maxX := JSNum.max3 a.maxX x1 x2,
      minY := JSNum.min3 a.minY y1 y2, maxY := JSNum.max3 a.maxY y1 y2 }
  | .rect x y w h _ _ =>
    { minX := a.minX.min x, maxX := a.maxX.max (x.fadd (w.or (.fin 50))),
      minY := a.minY.min y, maxY := a.maxY.max (y.fadd (h.or (.fin 30))) }
  | .circle cx cy r _ _ =>
    { minX := a.minX.min ((cx.or .nan).fsub (r.or .nan)),
      maxX := a.maxX.max ((cx.or .nan).fadd (r.or .nan)),
      minY := a.minY.min ((cy.or .nan).fsub (r.or .nan)),
      maxY := a.maxY.max ((cy.or .nan).fadd (r.or .nan)) }
  | .ellipse cx cy _ _ rx ry _ _ _ =>
    { minX := a.minX.min ((cx.or .nan).fsub rx), maxX := a.maxX.max ((cx.or .nan).fadd rx),
      minY := a.minY.min ((cy.or .nan).fsub ry), maxY := a.maxY.max ((cy.or .nan).fadd ry) }
  | .polyline points _ _ _ => points.foldl extendPoint a
  | .text x y _ _ _ _ _ =>
    { minX := a.minX.min x, maxX := a.maxX.max (x.fadd (.fin 100)),
      minY := a.minY.min (y.fsub (.fin 10)), maxY := a.maxY.max y }
  | .arc cx cy r _ _ _ _ =>
    { minX := a.minX.min (cx.fsub r), maxX := a.maxX.max (cx.fadd r),
      minY := a.minY.min (cy.fsub r), maxY := a.maxY.max (cy.fadd r) }
  | .point x y _ _ =>
    { minX := a.minX.min x, maxX := a.maxX.max x, minY := a.minY.min y, maxY := a.maxY.max y }
  | .spline .. => a

/-- The function `calculateBounds` in binary64. -/
def Binary64.calculateBounds : Option (List Entity) → Bounds
  | none => ⟨.fin 0, .fin 0, .fin 500, .fin 350⟩
  | some [] => ⟨.fin 0, .fin 0, .fin 500, .fin 350⟩
  | some (e :: es) =>
    let a := (e :: es).foldl Binary64.extend ⟨.pinf, .pinf, .ninf, .ninf⟩
    let minX := a.minX.fsub padding
    let minY := a.minY.fsub padding
    let maxX := a.maxX.fadd padding
    let maxY := a.maxY.fadd padding
    ⟨minX, minY, maxX.fsub minX, maxY.fsub minY⟩

/-- The extent of an entity in binary64, as a list of points whose coordinates
enter the minimum and maximum of `calculateBounds`: the two endpoints of a line,
the vertices of a polyline with at least one point, the point, the corners
(fl(cx - r), fl(cy - r)) and (fl(cx + r), fl(cy + r)) of an arc of radius
r >= 0, the corners (x, fl(y - 10)) and (fl(x + 100), y) of a text.  `none` for
any other entity, when a coordinate or a corner is not finite, and for a text
whose `x` or `y` is not a binary64 number. -/
def Binary64.extentPoints : Entity → Option (List (ℚ × ℚ))
  | .line (.fin x1) (.fin y1) (.fin x2) (.fin y2) _ _ => some [(x1, y1), (x2, y2)]
  | .polyline points _ _ _ =>
    match finitePoints points with
    | some (p :: ps) => some (p :: ps)
    | _ => none
  | .point (.fin x) (.fin y) _ _ => some [(x, y)]
  | .arc (.fin cx) (.fin cy) (.fin r) _ _ _ _ =>
    if 0 ≤ r then
      match fl (cx - r), fl (cy - r), fl (cx + r), fl (cy + r) with
      | .fin x1, .fin y1, .fin x2, .fin y2 => some [(x1, y1), (x2, y2)]
      | _, _, _, _ => none
    else none
  | .text (.fin x) (.fin y) _ _ _ _ _ =>
    if fl x = .fin x ∧ fl y = .fin y then
      match fl (y - 10), fl (x + 100) with
      | .fin y1, .fin x2 => some [(x, y1), (x2, y)]
      | _, _ => none
    else none
  | _ => none

/-- The binary64 extents of all entities of a list, in order; `none` when one
entity has none. -/
def Binary64.extentPointsAll : List Entity → Option (List (ℚ × ℚ))
  | [] => some []
  | e :: es =>
    match Binary64.extentPoints e, Binary64.extentPointsAll es with
    | some p, some q => some (p ++ q)
    | _, _ => none

/-- The function `binomial` in binary64. -/
def Binary64.binomial (n k : Nat) : JSNum :=
  if k = 0 ∨ k = n then .fin 1
  else if n < k then .fin 0
  else (List.range k).foldl
    (fun (result : JSNum) (i : Nat) =>
      (result.fmul ((JSNum.fin n).fsub (.fin i))).fdiv ((JSNum.fin i).fadd (.fin 1)))
    (.fin 1)

/-- The function `bernsteinBasis` in binary64; `pow` is `Math.pow`, whose
accuracy ECMAScript leaves to the implementation. -/
def Binary64.bernsteinBasis (pow : JSNum → JSNum → JSNum) (i n : Nat) (t : JSNum) : JSNum :=
  ((Binary64.binomial n i).fmul (pow t (.fin i))).fmul (pow ((JSNum.fin 1).fsub t) (.fin (n - i)))

/-- One run of the body of the outer loop of `approximateSpline` in binary64. -/
def Binary64.splinePoint (pow : JSNum → JSNum → JSNum) (controlPoints : List Pt) (t : JSNum) :
    Pt :=
  let n := controlPoints.length - 1
  (List.range controlPoints.length).foldl
    (fun (acc : Pt) (i : Nat) =>
      let basis := Binary64.bernsteinBasis pow i n t
      match controlPoints.get? i with
      | some p => (acc.1.fadd (p.1.fmul basis), acc.2.fadd (p.2.fmul basis))
      | none => acc)
    (JSNum.fin 0, JSNum.fin 0)

/-- The function `approximateSpline` in binary64: the loop counter takes the
values of `splineParams`. -/
def Binary64.approximateSpline (pow : JSNum → JSNum → JSNum) (controlPoints : List Pt)
    (_degree : ℤ) : List Pt :=
  splineParams.map (fun (t : Nat) =>
    Binary64.splinePoint pow controlPoints (.fin ((t : ℚ) / (tUnit : ℚ))))

/-- A `Math.pow` for a finite base and an exponent that is a natural number:
1 for the exponent 0, as ECMAScript requires, and the correctly rounded power
otherwise, which for the exponent 1 is the base itself.  Other arguments are not
used and give `NaN`. -/
def Binary64.mathPow (x y : JSNum) : JSNum :=
  match x, y with
  | .fin a, .fin b =>
    if b.den = 1 ∧ 0 ≤ b.num then fl (a ^ b.num.toNat) else .nan
  | _, _ => .nan

/-- The number `v'` approximates `v` within the relative factor `R` and the
absolute error `β`: `|v' - v| ≤ (R - 1) |v| + β`. -/
def Near (R β v' v : ℚ) : Prop := |v' - v| ≤ (R - 1) * |v| + β

/-- The accuracy assumed of `Math.pow`, which ECMAScript leaves to the
implementation: on a binary64 base in [0, 1] and an integer exponent from 0 to
`n`, the result is a finite number within the relative error `ε` and the
absolute error 2^-1074 of the exact power. -/
def Binary64.PowAccurate (pow : JSNum → JSNum → JSNum) (ε : ℚ) (n : Nat) : Prop :=
  ∀ (a : ℚ) (k : Nat), IsBinary64 a → 0 ≤ a → a ≤ 1 → k ≤ n →
    ∃ v : ℚ, pow (.fin a) (.fin (k : ℚ)) = .fin v ∧ |v - a ^ k| ≤ ε * a ^ k + pow2 (-1074)

/-! ## Theorems -/

/-- C1 (evaluation at the input of `src/test.js`): `parse` returns two entities,
a circle and an arc, both with the default centre (0,0) and radius 5 and with
layer `0`; the LINE record yields no entity. -/
theorem parse_testDXFContent :
    parse testDXFContent =
      [ .circle (.fin 0) (.fin 0) (.fin 5) white (some "0"),
        .arc (.fin 0) (.fin 0) (.fin 5) (.fin 0) (.fin 180) white (some "0") ] ∧
    (parse testDXFContent).map Entity.type = ["circle", "arc"] := by
  decide!

/-- C2 (evaluation): for the LINE record 10 = 0, 20 = 0, 11 = 100, 21 = 100
written with the values `0` and `100`, the scan accepts no entity and `parse`
returns the placeholder; for the LINE record 10 = 10, 20 = 5, 11 = 3, 21 = 4 the
decoded line has x1 = 20, because the value line `10` is read as a group code. -/
theorem parse_lineRecord_values_read_as_codes :
    scanEntities lineRecordContent = [] ∧
    parse lineRecordContent = generatePlaceholderData ∧
    parse lineRecordContent2 = [.line (.fin 20) (.fin 5) (.fin 3) (.fin 4) white none] := by
  decide!

/-- While `inEntitySection` is off and no line is `ENTITIES` or `BLOCKS`, the
scan pushes nothing. -/
theorem parseLoop_off_eq_nil (ls : List String) :
    ∀ skip : Nat, (∀ l ∈ ls, trim l ≠ "ENTITIES" ∧ trim l ≠ "BLOCKS") →
      parseLoop ls skip false = [] := by
  induction ls with
  | nil => intro skip _; cases skip <;> rfl
  | cons raw rest ih =>
    intro skip h
    have hrest : ∀ l ∈ rest, trim l ≠ "ENTITIES" ∧ trim l ≠ "BLOCKS" :=
      fun l hl => h l (List.mem_cons_of_mem _ hl)
    cases skip with
    | succ k => simpa [parseLoop] using ih k hrest
    | zero =>
      have hs : sectionState (trim raw) rest false = false := by
        unfold sectionState
        split_ifs with h1
        · cases rest with
          | nil => rfl
          | cons nextLine rest2 =>
            cases rest2 with
            | nil => simp
            | cons sectionName rest3 =>
              have hn := h sectionName (by simp)
              simp [hn.1, hn.2]
        · rfl
        · rfl
      simp only [parseLoop, hs]
      simpa using ih 0 hrest

/-- C3: `parse` never returns the empty list.  When the scan accepted no record
the result is the placeholder drawing, which has 12 entities; otherwise it is the
list of accepted entities.  The scan accepts nothing when no line is `ENTITIES`
or `BLOCKS`. -/
theorem parse_nonempty_placeholder (content : String) :
    parse content ≠ [] ∧
    (scanEntities content = [] → parse content = generatePlaceholderData) ∧
    (scanEntities content ≠ [] → parse content = scanEntities content) ∧
    generatePlaceholderData.length = 12 ∧
    ((∀ l ∈ splitLines content, trim l ≠ "ENTITIES" ∧ trim l ≠ "BLOCKS") →
      parse content = generatePlaceholderData) := by
  have hp : generatePlaceholderData.length = 12 := by decide
  have h1 : scanEntities content = [] → parse content = generatePlaceholderData := by
    intro h
    simp [parse, h]
  have h2 : scanEntities content ≠ [] → parse content = scanEntities content := by
    intro h
    simp [parse, h]
  refine ⟨?_, h1, h2, hp, ?_⟩
  · by_cases h : scanEntities content = []
    · rw [h1 h]
      intro hnil
      rw [hnil] at hp
      simp at hp
    · rw [h2 h]
      exact h
  · intro h
    exact h1 (parseLoop_off_eq_nil _ 0 h)

/-- C3 at the empty input: the scan accepts nothing and `parse` returns the
placeholder drawing. -/
theorem parse_nonempty_placeholder_witness :
    scanEntities "" = [] ∧ parse "" = generatePlaceholderData :=
  ⟨by decide, (parse_nonempty_placeholder "").2.1 (by decide)⟩

/-- C4 (evaluation): for a single circle centred on the y axis the returned
`minX` and `width` are `NaN`; for a single unconverted spline the returned
`width` and `height` are `-Infinity`; for the list `parse` returns on the input of
`src/test.js` all four fields are `NaN`.  In none of them `width > 0` holds. -/
theorem calculateBounds_degenerate :
    calculateBounds (some [.circle (.fin 0) (.fin 50) (.fin 25) white none]) =
      ⟨.nan, .fin (-5), .nan, .fin 110⟩ ∧
    calculateBounds (some [.spline [] 3 white none]) = ⟨.pinf, .pinf, .ninf, .ninf⟩ ∧
    calculateBounds (some (parse testDXFContent)) = ⟨.nan, .nan, .nan, .nan⟩ ∧
    (calculateBounds (some [.circle (.fin 0) (.fin 50) (.fin 25) white none])).width.gt
      (.fin 0) = false ∧
    (calculateBounds (some [.spline [] 3 white none])).width.gt (.fin 0) = false := by
  decide!

/-- C5 (evaluation): the loop counter of `approximateSpline` takes 20 values
before it exceeds 1 (64 iterations of fuel are not used up), so the function
returns 20 points for every list of control points; a SPLINE record with two
control points is decoded to a polyline of 20 points. -/
theorem approximateSpline_length (controlPoints : List Pt) (degree : ℤ) :
    splineLoop 64 0 = some splineParams ∧
    splineParams.length = 20 ∧
    (approximateSpline controlPoints degree).length = 20 ∧
    (match parseSplineEntity ["10", "1.0", "20", "2.0", "10", "3.0", "20", "4.0", "0"] with
      | (.polyline points _ _ _, _) => points.length
      | _ => 0) = 20 := by
  have h : splineParams.length = 20 := by decide
  refine ⟨by decide, h, ?_, by decide!⟩
  unfold approximateSpline
  rw [List.length_map, h]

/-- C7: `getColorByIndex` gives (255,0,0) at 1, the listed triple at every key
of the table, and white at every index outside 1..15 and 251..255. -/
theorem getColorByIndex_total (index : ℤ) :
    getColorByIndex 1 = ⟨255, 0, 0⟩ ∧
    (∀ p ∈ colorTable, getColorByIndex p.1 = p.2) ∧
    (∀ p ∈ colorTable, (1 ≤ p.1 ∧ p.1 ≤ 15) ∨ (251 ≤ p.1 ∧ p.1 ≤ 255)) ∧
    getColorByIndex 999 = white ∧ getColorByIndex 0 = white ∧ getColorByIndex (-1) = white ∧
    (¬ (1 ≤ index ∧ index ≤ 15) → ¬ (251 ≤ index ∧ index ≤ 255) →
      getColorByIndex index = white) := by
  refine ⟨by decide, by decide, by decide, by decide, by decide, by decide, ?_⟩
  intro h1 h2
  unfold getColorByIndex
  repeat (first | rfl | (rw [if_neg (by omega)]))

/-- C7 at index 999: outside the table, white. -/
theorem getColorByIndex_total_witness : getColorByIndex 999 = ⟨255, 255, 255⟩ :=
  (getColorByIndex_total 999).2.2.2.2.2.2 (by decide) (by decide)

/-- C8: the bounds of the line (0,0)-(100,100), the circle of centre (50,50) and
radius 25 and the arc of centre (100,100) and radius 30 are minX = -30,
minY = -30, width = 190, height = 190. -/
theorem calculateBounds_threeEntities :
    calculateBounds (some threeEntities) = ⟨.fin (-30), .fin (-30), .fin 190, .fin 190⟩ := by
  decide!

/-- C9: for the empty list and for a missing list `calculateBounds` returns
minX = 0, minY = 0, width = 500, height = 350. -/
theorem calculateBounds_empty :
    calculateBounds (some []) = ⟨.fin 0, .fin 0, .fin 500, .fin 350⟩ ∧
    calculateBounds none = ⟨.fin 0, .fin 0, .fin 500, .fin 350⟩ :=
  ⟨rfl, rfl⟩

/-- The function `Math.min` on two finite numbers gives the smaller one. -/
theorem JSNum.min_fin (a b : ℚ) : JSNum.min (.fin a) (.fin b) = .fin (Min.min a b) := by
  by_cases h : a ≤ b
  · simp [JSNum.min, JSNum.le, h]
  · have hba : b ≤ a := le_of_lt (not_le.mp h)
    simp [JSNum.min, JSNum.le, h, min_eq_right hba]

/-- C6: with `settings.scale === 'auto'` and finite bounds of positive width and
height, the export scale is min(contentWidth / width, contentHeight / height)
with contentWidth = pageWidth - 2 * margin and
contentHeight = pageHeight - margin - headerSpace; with any other setting the
scale is `parseFloat(settings.scale)`, for instance 1/2 for `0.5`. -/
theorem exportLayout_scale (scale : String) (pageWidth pageHeight margin headerSpace : ℚ)
    (minX minY : JSNum) (width height : ℚ) (hw : 0 < width) (hh : 0 < height) :
    (exportLayout "auto" (.fin pageWidth) (.fin pageHeight) (.fin margin) (.fin headerSpace)
        ⟨minX, minY, .fin width, .fin height⟩).contentWidth = .fin (pageWidth - 2 * margin) ∧
    (exportLayout "auto" (.fin pageWidth) (.fin pageHeight) (.fin margin) (.fin headerSpace)
        ⟨minX, minY, .fin width, .fin height⟩).contentHeight =
      .fin (pageHeight - margin - headerSpace) ∧
    (exportLayout "auto" (.fin pageWidth) (.fin pageHeight) (.fin margin) (.fin headerSpace)
        ⟨minX, minY, .fin width, .fin height⟩).scale =
      .fin (Min.min ((pageWidth - 2 * margin) / width)
        ((pageHeight - margin - headerSpace) / height)) ∧
    (scale ≠ "auto" →
      (exportLayout scale (.fin pageWidth) (.fin pageHeight) (.fin margin) (.fin headerSpace)
        ⟨minX, minY, .fin width, .fin height⟩).scale = parseFloat scale) ∧
    (exportLayout "0.5" (.fin pageWidth) (.fin pageHeight) (.fin margin) (.fin headerSpace)
        ⟨minX, minY, .fin width, .fin height⟩).scale = .fin (1 / 2) := by
  have hcw : (JSNum.fin pageWidth).sub ((JSNum.fin margin).mul (.fin 2)) =
      .fin (pageWidth - 2 * margin) := by
    simp [JSNum.sub, JSNum.add, JSNum.neg, JSNum.mul, sub_eq_add_neg, mul_comm]
  have hch : ((JSNum.fin pageHeight).sub (.fin margin)).sub (.fin headerSpace) =
      .fin (pageHeight - margin - headerSpace) := by
    simp [JSNum.sub, JSNum.add, JSNum.neg, sub_eq_add_neg]
  have hpf : parseFloat "0.5" = .fin (1 / 2) := by decide!
  refine ⟨?_, ?_, ?_, ?_, ?_⟩
  · simp only [exportLayout, hcw]
  · simp only [exportLayout, hch]
  · simp only [exportLayout, hcw, hch, if_true]
    simp only [JSNum.div, if_neg (ne_of_gt hw), if_neg (ne_of_gt hh)]
    exact JSNum.min_fin _ _
  · intro hs
    simp only [exportLayout, if_neg hs]
  · have hne : ("0.5" : String) ≠ "auto" := by decide
    simp only [exportLayout, if_neg hne, hpf]

/-- C6 on an A4 portrait page (210 x 297, margin 15, header 25) with bounds of
width 500 and height 350: the scale is min(180 / 500, 257 / 350) = 9/25. -/
theorem exportLayout_scale_witness :
    (exportLayout "auto" (.fin 210) (.fin 297) (.fin 15) (.fin 25)
        ⟨.fin 0, .fin 0, .fin 500, .fin 350⟩).scale =
      .fin (Min.min ((210 - 2 * 15) / 500) ((297 - 15 - 25) / 350)) :=
  (exportLayout_scale "auto" 210 297 15 25 (.fin 0) (.fin 0) 500 350
    (by norm_num) (by norm_num)).2.2.1

/-- A decoder loop that stops at a line `0` followed by `mk` reports a
`scanLength` that does not pass that line. -/
theorem scanRecord_snd_le {σ : Type} (early : String → String → EarlyExit)
    (update : σ → String → String → List String → σ) (late : String → String → Bool)
    (z mk : String) (post : List String) (hz : trim z = "0")
    (hstop : early "0" (trim mk) ≠ .go ∨ late "0" (trim mk) = true) :
    ∀ (n : Nat) (ys : List String) (k : Nat) (d : σ) (sl : Nat),
      (scanRecord early update late n (ys ++ z :: mk :: post) k d sl).2 ≤
        Max.max sl (k + ys.length) := by
  intro n
  induction n with
  | zero =>
    intro ys k d sl
    simp [scanRecord]
  | succ n ih =>
    intro ys k d sl
    cases ys with
    | nil =>
      simp only [List.nil_append, scanRecord, hz, List.length_nil, Nat.add_zero]
      cases he : early "0" (trim mk) with
      | stop => simp
      | stopAt => simp
      | go =>
        have hl : late "0" (trim mk) = true := by
          rcases hstop with h | h
          · exact absurd he h
          · exact h
        simp [hl]
    | cons y ys =>
      simp only [List.cons_append, scanRecord, List.length_cons]
      split
      · simp
      · exact le_max_of_le_right (by omega)
      · split
        · exact le_max_of_le_right (by omega)
        · refine le_trans (ih ys (k + 1) _ k) ?_
          apply max_le
          · exact le_max_of_le_right (by omega)
          · exact le_max_of_le_right (by omega)

/-- Every decoder started before a line `0` that is followed by a line other
than `VERTEX` reports a `scanLength` that does not pass that line. -/
theorem dispatch_scanLength_le (raw line z mk : String) (ys post : List String)
    (hz : trim z = "0") (hmk : trim mk ≠ "VERTEX") (entity : Entity) (scanLength : Nat)
    (h : dispatch raw line (ys ++ z :: mk :: post) = some (entity, scanLength)) :
    scanLength ≤ ys.length + 1 := by
  have key : ∀ {σ : Type} (early : String → String → EarlyExit)
      (update : σ → String → String → List String → σ) (late : String → String → Bool)
      (n : Nat) (d : σ),
      (early "0" (trim mk) ≠ .go ∨ late "0" (trim mk) = true) →
      (scanRecord early update late n (ys ++ z :: mk :: post) 1 d 0).2 ≤ ys.length + 1 := by
    intro σ early update late n d hstop
    have := scanRecord_snd_le early update late z mk post hz hstop n ys 1 d 0
    simpa [Nat.add_comm] using this
  have hzero : ∀ names : List String,
      stopUnless names "0" (trim mk) ≠ .go ∨ lateZero "0" (trim mk) = true :=
    fun _ => Or.inr (by simp [lateZero])
  have hpoly : polylineEarly "0" (trim mk) ≠ .go ∨ polylineLate "0" (trim mk) = true :=
    Or.inr (by simp [polylineLate, hmk])
  have hspl : splineEarly "0" (trim mk) ≠ .go ∨ (fun _ _ => false) "0" (trim mk) = true :=
    Or.inl (by simp [splineEarly])
  unfold dispatch at h
  split_ifs at h
  · unfold parseLineEntity at h
    simp only at h
    split_ifs at h
    simp only [Option.some.injEq, Prod.mk.injEq] at h
    rw [← h.2]
    exact key _ _ _ _ _ (hzero _)
  · simp only [parseCircleEntity, Option.some.injEq, Prod.mk.injEq] at h
    rw [← h.2]
    exact key _ _ _ _ _ (hzero _)
  · simp only [parseArcEntity, Option.some.injEq, Prod.mk.injEq] at h
    rw [← h.2]
    exact key _ _ _ _ _ (hzero _)
  · unfold parsePolylineEntity at h
    simp only at h
    split_ifs at h
    all_goals
      simp only [Option.some.injEq, Prod.mk.injEq] at h
      rw [← h.2]
      exact key _ _ _ _ _ hpoly
  · unfold parseTextEntity at h
    simp only at h
    split_ifs at h
    simp only [Option.some.injEq, Prod.mk.injEq] at h
    rw [← h.2]
    exact key _ _ _ _ _ (hzero _)
  · simp only [parseEllipseEntity, Option.some.injEq, Prod.mk.injEq] at h
    rw [← h.2]
    exact key _ _ _ _ _ (hzero _)
  · unfold parseSplineEntity at h
    simp only at h
    split_ifs at h
    · simp only [Option.some.injEq, Prod.mk.injEq] at h
      rw [← h.2]
      exact key _ _ _ _ _ hspl
    · simp only [Option.some.injEq, Prod.mk.injEq] at h
      rw [← h.2]
      exact key _ _ _ _ _ hspl
  · simp only [parsePointEntity, Option.some.injEq, Prod.mk.injEq] at h
    rw [← h.2]
    exact key _ _ _ _ _ (hzero _)
  · simp only [parse3DFaceEntity, Option.some.injEq, Prod.mk.injEq] at h
    rw [← h.2]
    exact key _ _ _ _ _ (hzero _)

/-- A line that is neither `SECTION` nor `ENDSEC` leaves `inEntitySection` as it is. -/
theorem sectionState_other (line : String) (rest : List String) (b : Bool)
    (h1 : line ≠ "SECTION") (h2 : line ≠ "ENDSEC") : sectionState line rest b = b := by
  simp [sectionState, h1, h2]

/-- A line that is no type marker starts no decoder. -/
theorem dispatch_of_not_marker (raw line : String) (rest : List String)
    (h : isTypeMarker line = false) : dispatch raw line rest = none := by
  simp only [isTypeMarker, decide_eq_false_iff_not, List.mem_cons, List.mem_singleton,
    List.mem_nil_iff, or_false, not_or] at h
  obtain ⟨h1, h2, h3, h4, h5, h6, h7, h8, h9, h10, h11, h12, h13⟩ := h
  simp [dispatch, h1, h2, h3, h4, h5, h6, h7, h8, h9, h10, h11, h12, h13]

/-- The scan reaches every line that follows a line `0`, unless that line is
`VERTEX`: from any position before it, with any pending skip that does not pass
it, the entities pushed are some list followed by the entities pushed from that
line on.  When no line in between is `SECTION` or `ENDSEC`, `inEntitySection` has
the same value on arrival. -/
theorem parseLoop_reach (z mk : String) (post : List String) (hz : trim z = "0")
    (hmk : trim mk ≠ "VERTEX") :
    ∀ (xs : List String) (skip : Nat) (b : Bool), skip ≤ xs.length + 1 →
      ∃ (A : List Entity) (b1 : Bool),
        parseLoop (xs ++ z :: mk :: post) skip b = A ++ parseLoop (mk :: post) 0 b1 ∧
        ((∀ l ∈ xs, trim l ≠ "SECTION" ∧ trim l ≠ "ENDSEC") → b1 = b) := by
  intro xs
  induction xs with
  | nil =>
    intro skip b hskip
    refine ⟨[], b, ?_, fun _ => rfl⟩
    cases skip with
    | succ k =>
      have hk : k = 0 := by simpa using hskip
      subst hk
      simp [parseLoop]
    | zero =>
      have hs : sectionState (trim z) (mk :: post) b = b :=
        sectionState_other _ _ _ (by rw [hz]; decide) (by rw [hz]; decide)
      have hd : dispatch z (trim z) (mk :: post) = none :=
        dispatch_of_not_marker _ _ _ (by rw [hz]; decide)
      simp only [List.nil_append, parseLoop, hs, hd]
      cases b <;> simp
  | cons x xs ih =>
    intro skip b hskip
    cases skip with
    | succ k =>
      obtain ⟨A, b1, hA, hb⟩ := ih k b (by simpa using hskip)
      refine ⟨A, b1, ?_, fun h => hb (fun l hl => h l (List.mem_cons_of_mem _ hl))⟩
      simpa [parseLoop] using hA
    | zero =>
      have hflag : (∀ l ∈ x :: xs, trim l ≠ "SECTION" ∧ trim l ≠ "ENDSEC") →
          sectionState (trim x) (xs ++ z :: mk :: post) b = b := fun h =>
        sectionState_other _ _ _ (h x (List.mem_cons_self _ _)).1 (h x (List.mem_cons_self _ _)).2
      simp only [List.cons_append, parseLoop]
      generalize hb2 : sectionState (trim x) (xs ++ z :: mk :: post) b = b2 at hflag
      cases b2 with
      | false =>
        obtain ⟨A, b1, hA, hb⟩ := ih 0 false (Nat.zero_le _)
        refine ⟨A, b1, ?_, fun h => ?_⟩
        · simpa using hA
        · rw [hb (fun l hl => h l (List.mem_cons_of_mem _ hl))]
          exact hflag h
      | true =>
        cases hd : dispatch x (trim x) (xs ++ z :: mk :: post) with
        | none =>
          obtain ⟨A, b1, hA, hb⟩ := ih 0 true (Nat.zero_le _)
          refine ⟨A, b1, ?_, fun h => ?_⟩
          · simpa using hA
          · rw [hb (fun l hl => h l (List.mem_cons_of_mem _ hl))]
            exact hflag h
        | some r =>
          obtain ⟨entity, scanLength⟩ := r
          have hle := dispatch_scanLength_le x (trim x) z mk xs post hz hmk entity scanLength hd
          obtain ⟨A, b1, hA, hb⟩ := ih scanLength true hle
          refine ⟨entity :: A, b1, ?_, fun h => ?_⟩
          · simpa using hA
          · rw [hb (fun l hl => h l (List.mem_cons_of_mem _ hl))]
            exact hflag h

/-- C10: take lines `hdr`, a line `0`, the header `SECTION`, `2`,
`ENTITIES` (or `BLOCKS`), lines `rec1` (the first recognized record), an
unrecognized record (a line `0`, its marker `u`, its lines `body`), and a
recognized record (a line `0`, its marker `mk`, the lines `post`), no line after
the header and before the recognized record being `SECTION` or `ENDSEC`.  With
and without the unrecognized record, the scan arrives at the marker `mk` with
`inEntitySection` on and no pending skip: the output ends with the entities
pushed from `mk` on, which start with the entity that the decoder of `mk` returns
on `post`. -/
theorem unrecognized_record_skipped (hdr rec1 body post : List String)
    (z0 s0 s1 s2 z1 u z2 mk : String)
    (hz0 : trim z0 = "0") (hs0 : trim s0 = "SECTION") (hs1 : trim s1 = "2")
    (hs2 : trim s2 = "ENTITIES" ∨ trim s2 = "BLOCKS")
    (hz1 : trim z1 = "0") (_hu : isTypeMarker (trim u) = false)
    (hu : trim u ≠ "SECTION" ∧ trim u ≠ "ENDSEC")
    (hz2 : trim z2 = "0") (hmk : isTypeMarker (trim mk) = true)
    (hrec1 : ∀ l ∈ rec1, trim l ≠ "SECTION" ∧ trim l ≠ "ENDSEC")
    (hbody : ∀ l ∈ body, trim l ≠ "SECTION" ∧ trim l ≠ "ENDSEC") :
    ∃ A B : List Entity,
      parseLoop (hdr ++ z0 :: s0 :: s1 :: s2 :: (rec1 ++ z1 :: u :: body ++ z2 :: mk :: post))
          0 false = A ++ parseLoop (mk :: post) 0 true ∧
      parseLoop (hdr ++ z0 :: s0 :: s1 :: s2 :: (rec1 ++ z2 :: mk :: post)) 0 false =
        B ++ parseLoop (mk :: post) 0 true ∧
      parseLoop (mk :: post) 0 true =
        (match dispatch mk (trim mk) post with
          | some (entity, scanLength) => entity :: parseLoop post scanLength true
          | none => parseLoop post 0 true) := by
  have hmkv : trim mk ≠ "VERTEX" := by
    intro h
    rw [h] at hmk
    exact absurd hmk (by decide)
  have hs0v : trim s0 ≠ "VERTEX" := by rw [hs0]; decide
  -- from the section header to the first line after it
  have hhead : ∀ (R : List String) (b : Bool),
      parseLoop (s0 :: s1 :: s2 :: R) 0 b = parseLoop R 0 true := by
    intro R b
    have e0 : sectionState (trim s0) (s1 :: s2 :: R) b = true := by
      rcases hs2 with h | h <;> simp [sectionState, hs0, hs1, h]
    have e1 : sectionState (trim s1) (s2 :: R) true = true :=
      sectionState_other _ _ _ (by rw [hs1]; decide) (by rw [hs1]; decide)
    have e2 : sectionState (trim s2) R true = true := by
      rcases hs2 with h | h <;>
        exact sectionState_other _ _ _ (by rw [h]; decide) (by rw [h]; decide)
    have d0 : dispatch s0 (trim s0) (s1 :: s2 :: R) = none :=
      dispatch_of_not_marker _ _ _ (by rw [hs0]; decide)
    have d1 : dispatch s1 (trim s1) (s2 :: R) = none :=
      dispatch_of_not_marker _ _ _ (by rw [hs1]; decide)
    have d2 : dispatch s2 (trim s2) R = none := by
      rcases hs2 with h | h <;> exact dispatch_of_not_marker _ _ _ (by rw [h]; decide)
    simp [parseLoop, e0, e1, e2, d0, d1, d2]
  -- the whole scan, for any lines `xs` between the header and the record `mk`
  have hall : ∀ xs : List String, (∀ l ∈ xs, trim l ≠ "SECTION" ∧ trim l ≠ "ENDSEC") →
      ∃ A : List Entity,
        parseLoop (hdr ++ z0 :: s0 :: s1 :: s2 :: (xs ++ z2 :: mk :: post)) 0 false =
          A ++ parseLoop (mk :: post) 0 true := by
    intro xs hxs
    obtain ⟨A0, b0, hA0, -⟩ :=
      parseLoop_reach z0 s0 (s1 :: s2 :: (xs ++ z2 :: mk :: post)) hz0 hs0v hdr 0 false
        (Nat.zero_le _)
    obtain ⟨A1, b1, hA1, hb1⟩ :=
      parseLoop_reach z2 mk post hz2 hmkv xs 0 true (Nat.zero_le _)
    refine ⟨A0 ++ A1, ?_⟩
    rw [hA0, hhead, hA1, hb1 hxs, List.append_assoc]
  have hwith : ∀ l ∈ rec1 ++ z1 :: u :: body, trim l ≠ "SECTION" ∧ trim l ≠ "ENDSEC" := by
    intro l hl
    rcases List.mem_append.mp hl with h | h
    · exact hrec1 l h
    · rcases List.mem_cons.mp h with h | h
      · subst h
        rw [hz1]
        exact ⟨by decide, by decide⟩
      · rcases List.mem_cons.mp h with h | h
        · subst h
          exact hu
        · exact hbody l h
  obtain ⟨A, hA⟩ := hall (rec1 ++ z1 :: u :: body) hwith
  obtain ⟨B, hB⟩ := hall rec1 hrec1
  refine ⟨A, B, ?_, hB, ?_⟩
  · have : rec1 ++ z1 :: u :: body ++ z2 :: mk :: post =
        (rec1 ++ z1 :: u :: body) ++ z2 :: mk :: post := by simp
    rw [this]
    exact hA
  · have hs : sectionState (trim mk) post true = true := by
      apply sectionState_other
      · intro h
        rw [h] at hmk
        exact absurd hmk (by decide)
      · intro h
        rw [h] at hmk
        exact absurd hmk (by decide)
    simp only [parseLoop, hs, if_true]

/-- C10 on a drawing with a CIRCLE record, an INSERT record and a LINE record:
with and without the INSERT record the output ends with the entities pushed from
the marker `LINE` on. -/
theorem unrecognized_record_skipped_witness :
    ∃ A B : List Entity,
      parseLoop ([] ++ "0" :: "SECTION" :: "2" :: "ENTITIES" ::
          (["0", "CIRCLE", "10", "1.0", "20", "2.0", "40", "3.0"] ++
            "0" :: "INSERT" :: ["2", "BLK", "10", "5.0", "20", "6.0"] ++
            "0" :: "LINE" :: ["10", "1.0", "20", "2.0", "11", "3.0", "21", "4.0", "0", "ENDSEC"]))
          0 false =
        A ++ parseLoop ("LINE" :: ["10", "1.0", "20", "2.0", "11", "3.0", "21", "4.0", "0",
          "ENDSEC"]) 0 true ∧
      parseLoop ([] ++ "0" :: "SECTION" :: "2" :: "ENTITIES" ::
          (["0", "CIRCLE", "10", "1.0", "20", "2.0", "40", "3.0"] ++
            "0" :: "LINE" :: ["10", "1.0", "20", "2.0", "11", "3.0", "21", "4.0", "0", "ENDSEC"]))
          0 false =
        B ++ parseLoop ("LINE" :: ["10", "1.0", "20", "2.0", "11", "3.0", "21", "4.0", "0",
          "ENDSEC"]) 0 true ∧
      parseLoop ("LINE" :: ["10", "1.0", "20", "2.0", "11", "3.0", "21", "4.0", "0", "ENDSEC"])
          0 true =
        (match dispatch "LINE" (trim "LINE")
            ["10", "1.0", "20", "2.0", "11", "3.0", "21", "4.0", "0", "ENDSEC"] with
          | some (entity, scanLength) =>
            entity :: parseLoop ["10", "1.0", "20", "2.0", "11", "3.0", "21", "4.0", "0", "ENDSEC"]
              scanLength true
          | none =>
            parseLoop ["10", "1.0", "20", "2.0", "11", "3.0", "21", "4.0", "0", "ENDSEC"] 0 true) :=
  unrecognized_record_skipped [] ["0", "CIRCLE", "10", "1.0", "20", "2.0", "40", "3.0"]
    ["2", "BLK", "10", "5.0", "20", "6.0"]
    ["10", "1.0", "20", "2.0", "11", "3.0", "21", "4.0", "0", "ENDSEC"]
    "0" "SECTION" "2" "ENTITIES" "0" "INSERT" "0" "LINE"
    (by decide) (by decide) (by decide) (Or.inl (by decide)) (by decide) (by decide)
    ⟨by decide, by decide⟩ (by decide) (by decide) (by decide) (by decide)

/-- A property of every entity returned by a decoder holds for every entity the
scan pushes. -/
theorem parseLoop_forall (P : Entity → Prop)
    (hP : ∀ (raw line : String) (rest : List String) (entity : Entity) (scanLength : Nat),
      dispatch raw line rest = some (entity, scanLength) → P entity) :
    ∀ (ls : List String) (skip : Nat) (b : Bool), ∀ e ∈ parseLoop ls skip b, P e := by
  intro ls
  induction ls with
  | nil =>
    intro skip b e he
    cases skip <;> simp [parseLoop] at he
  | cons raw rest ih =>
    intro skip b e he
    cases skip with
    | succ k =>
      simp only [parseLoop] at he
      exact ih k b e he
    | zero =>
      simp only [parseLoop] at he
      split at he
      · split at he
        · rename_i entity scanLength hd
          rcases List.mem_cons.mp he with h | h
          · rw [h]
            exact hP _ _ _ _ _ hd
          · exact ih _ _ e h
        · exact ih _ _ e he
      · exact ih _ _ e he

/-- An invariant of the draft that every field update keeps holds for the draft
a decoder loop returns. -/
theorem scanRecord_inv {σ : Type} (I : σ → Prop) (early : String → String → EarlyExit)
    (update : σ → String → String → List String → σ) (late : String → String → Bool)
    (hI : ∀ (d : σ) (code value : String) (rest : List String),
      I d → I (update d code value rest)) :
    ∀ (n : Nat) (ls : List String) (k : Nat) (d : σ) (sl : Nat),
      I d → I (scanRecord early update late n ls k d sl).1 := by
  intro n
  induction n with
  | zero =>
    intro ls k d sl hd
    simpa [scanRecord] using hd
  | succ n ih =>
    intro ls k d sl hd
    cases ls with
    | nil => simpa [scanRecord] using hd
    | cons l rest =>
      simp only [scanRecord]
      split
      · exact hd
      · exact hd
      · split
        · exact hI _ _ _ _ hd
        · exact ih _ _ _ _ (hI _ _ _ _ hd)

/-- In a record `ys` followed by a line `0` at which the loop stops, an
invariant of the draft that the field updates keep at every code satisfying `C`
holds for the returned draft when every line of the record and the code `0`
satisfy `C`. -/
theorem scanRecord_inv_record {σ : Type} (I : σ → Prop) (C : String → Prop)
    (early : String → String → EarlyExit)
    (update : σ → String → String → List String → σ) (late : String → String → Bool)
    (z mk : String) (post : List String) (hz : trim z = "0")
    (hstop : early "0" (trim mk) ≠ .go ∨ late "0" (trim mk) = true)
    (hI : ∀ (d : σ) (code value : String) (rest : List String),
      C code → I d → I (update d code value rest))
    (hC0 : C "0") :
    ∀ (n : Nat) (ys : List String) (k : Nat) (d : σ) (sl : Nat),
      (∀ l ∈ ys, C (trim l)) → I d →
      I (scanRecord early update late n (ys ++ z :: mk :: post) k d sl).1 := by
  intro n
  induction n with
  | zero =>
    intro ys k d sl _ hd
    simpa [scanRecord] using hd
  | succ n ih =>
    intro ys k d sl hys hd
    cases ys with
    | nil =>
      simp only [List.nil_append, scanRecord, hz]
      cases he : early "0" (trim mk) with
      | stop => exact hd
      | stopAt => exact hd
      | go =>
        have hl : late "0" (trim mk) = true := by
          rcases hstop with h | h
          · exact absurd he h
          · exact h
        simp only [hl, if_true]
        exact hI _ _ _ _ hC0 hd
    | cons y ys =>
      have hy : C (trim y) := hys y (List.mem_cons_self _ _)
      have hys2 : ∀ l ∈ ys, C (trim l) := fun l hl => hys l (List.mem_cons_of_mem _ hl)
      simp only [List.cons_append, scanRecord]
      split
      · exact hd
      · exact hd
      · split
        · exact hI _ _ _ _ hy hd
        · exact ih _ _ _ _ hys2 (hI _ _ _ _ hy hd)

/-- Every entity returned by a decoder that has type `spline` has fewer than two
control points. -/
theorem dispatch_splineIsShort (raw line : String) (rest : List String) (entity : Entity)
    (scanLength : Nat) (h : dispatch raw line rest = some (entity, scanLength)) :
    splineIsShort entity = true := by
  unfold dispatch at h
  split_ifs at h
  · unfold parseLineEntity at h
    simp only at h
    split_ifs at h
    simp only [Option.some.injEq, Prod.mk.injEq] at h
    rw [← h.1]
    rfl
  · simp only [parseCircleEntity, Option.some.injEq, Prod.mk.injEq] at h
    rw [← h.1]
    rfl
  · simp only [parseArcEntity, Option.some.injEq, Prod.mk.injEq] at h
    rw [← h.1]
    rfl
  · unfold parsePolylineEntity at h
    simp only at h
    split_ifs at h
    all_goals
      simp only [Option.some.injEq, Prod.mk.injEq] at h
      rw [← h.1]
      rfl
  · unfold parseTextEntity at h
    simp only at h
    split_ifs at h
    simp only [Option.some.injEq, Prod.mk.injEq] at h
    rw [← h.1]
    rfl
  · simp only [parseEllipseEntity, Option.some.injEq, Prod.mk.injEq] at h
    rw [← h.1]
    rfl
  · unfold parseSplineEntity at h
    simp only at h
    split_ifs at h with hlen
    · simp only [Option.some.injEq, Prod.mk.injEq] at h
      rw [← h.1]
      rfl
    · simp only [Option.some.injEq, Prod.mk.injEq] at h
      rw [← h.1]
      simpa [splineIsShort] using Nat.lt_of_not_le hlen
  · simp only [parsePointEntity, Option.some.injEq, Prod.mk.injEq] at h
    rw [← h.1]
    rfl
  · simp only [parse3DFaceEntity, Option.some.injEq, Prod.mk.injEq] at h
    rw [← h.1]
    rfl

/-- C11 (counterexample): a SPLINE record with one control point is returned by
`parse` as an entity of type `spline`, so not every entity of the result has
another type. -/
theorem parse_returns_spline :
    parse (drawingWith "0\nSPLINE\n10\n1.0\n20\n2.0\n") =
      [.spline [(.fin 1, .fin 2)] 3 white none] ∧
    ¬ (∀ e ∈ parse (drawingWith "0\nSPLINE\n10\n1.0\n20\n2.0\n"), e.type ≠ "spline") := by
  decide!

/-- C11 (amended): every entity of type `spline` in the result of `parse` has
fewer than two control points.  A SPLINE record whose scan collects at least two
control points gives the polyline of `approximateSpline` on them; one that
collects 0 or 1 gives an entity of type `spline` holding them. -/
theorem parse_spline_only_short (content : String) (rest : List String) :
    (∀ e ∈ parse content, splineIsShort e = true) ∧
    (2 ≤ (combineCoords
          (scanRecord splineEarly splineUpdate (fun _ _ => false) (500 - 1) rest 1 {} 0).1.xCoords
          (scanRecord splineEarly splineUpdate (fun _ _ => false) (500 - 1) rest 1 {} 0).1.yCoords
        ).length →
      (parseSplineEntity rest).1 =
        .polyline
          (approximateSpline
            (combineCoords
              (scanRecord splineEarly splineUpdate (fun _ _ => false) (500 - 1) rest 1 {} 0
                ).1.xCoords
              (scanRecord splineEarly splineUpdate (fun _ _ => false) (500 - 1) rest 1 {} 0
                ).1.yCoords)
            (scanRecord splineEarly splineUpdate (fun _ _ => false) (500 - 1) rest 1 {} 0).1.degree)
          none
          (scanRecord splineEarly splineUpdate (fun _ _ => false) (500 - 1) rest 1 {} 0).1.color
          (scanRecord splineEarly splineUpdate (fun _ _ => false) (500 - 1) rest 1 {} 0).1.layer) ∧
    (¬ 2 ≤ (combineCoords
          (scanRecord splineEarly splineUpdate (fun _ _ => false) (500 - 1) rest 1 {} 0).1.xCoords
          (scanRecord splineEarly splineUpdate (fun _ _ => false) (500 - 1) rest 1 {} 0).1.yCoords
        ).length →
      (parseSplineEntity rest).1.type = "spline") := by
  refine ⟨?_, ?_, ?_⟩
  · intro e he
    unfold parse at he
    simp only at he
    split_ifs at he
    · revert e
      decide
    · exact parseLoop_forall (fun e => splineIsShort e = true) dispatch_splineIsShort _ _ _ e he
  · intro h
    unfold parseSplineEntity
    simp only [if_pos h]
  · intro h
    unfold parseSplineEntity
    simp only [if_neg h]
    rfl

/-- C11 (amended) on the drawing with a one-point SPLINE record: the returned
spline has fewer than two control points. -/
theorem parse_spline_only_short_witness :
    splineIsShort (.spline [(.fin 1, .fin 2)] 3 white none) = true :=
  (parse_spline_only_short (drawingWith "0\nSPLINE\n10\n1.0\n20\n2.0\n") []).1 _
    (by decide!)

/-- A field of the draft that the field updates leave unchanged at every code
other than `c` has its initial value after the scan of a record none of whose
lines is `c`. -/
theorem scanRecord_field_unchanged {σ α : Type} (field : σ → α) (c : String) (hc0 : c ≠ "0")
    (early : String → String → EarlyExit)
    (update : σ → String → String → List String → σ) (late : String → String → Bool)
    (z mk : String) (post : List String) (hz : trim z = "0")
    (hstop : early "0" (trim mk) ≠ .go ∨ late "0" (trim mk) = true)
    (hupd : ∀ (d : σ) (code value : String) (rest : List String),
      code ≠ c → field (update d code value rest) = field d)
    (n : Nat) (ys : List String) (d : σ) (hys : ∀ l ∈ ys, trim l ≠ c) :
    field (scanRecord early update late n (ys ++ z :: mk :: post) 1 d 0).1 = field d :=
  scanRecord_inv_record (fun e => field e = field d) (fun code => code ≠ c) early update late
    z mk post hz hstop (fun e code value rest hcode he => (hupd e code value rest hcode).trans he)
    (fun h => hc0 h.symm) n ys 1 d 0 hys rfl

/-- Outside code 62 the field updates of `parseLineEntity` keep the colour. -/
theorem lineUpdate_color (d : LineDraft) (code value : String) (rest : List String) :
    (lineUpdate d code value rest).color =
      if code = "62" then getColorByIndex (intOr value 1) else d.color := by
  simp only [lineUpdate, apply_ite LineDraft.color, ite_self]

/-- Outside code 62 the field updates of `parseCircleEntity` keep the colour. -/
theorem circleUpdate_color (d : CircleDraft) (code value : String) (rest : List String) :
    (circleUpdate d code value rest).color =
      if code = "62" then getColorByIndex (intOr value 1) else d.color := by
  simp only [circleUpdate, apply_ite CircleDraft.color, ite_self]

/-- Outside code 62 the field updates of `parseArcEntity` keep the colour. -/
theorem arcUpdate_color (d : ArcDraft) (code value : String) (rest : List String) :
    (arcUpdate d code value rest).color =
      if code = "62" then getColorByIndex (intOr value 1) else d.color := by
  simp only [arcUpdate, apply_ite ArcDraft.color, ite_self]

/-- Outside code 62 the field updates of `parsePolylineEntity` keep the colour. -/
theorem polylineUpdate_color (d : PolylineDraft) (code value : String) (rest : List String) :
    (polylineUpdate d code value rest).color =
      if code = "62" then getColorByIndex (intOr value 1) else d.color := by
  simp only [polylineUpdate, apply_ite PolylineDraft.color, ite_self]

/-- Outside code 62 the field updates of `parseTextEntity` keep the colour. -/
theorem textUpdate_color (isMTEXT : Bool) (d : TextDraft) (code value : String)
    (rest : List String) :
    (textUpdate isMTEXT d code value rest).color =
      if code = "62" then getColorByIndex (intOr value 1) else d.color := by
  simp only [textUpdate, apply_ite TextDraft.color, ite_self]

/-- Outside code 62 the field updates of `parseEllipseEntity` keep the colour. -/
theorem ellipseUpdate_color (d : EllipseDraft) (code value : String) (rest : List String) :
    (ellipseUpdate d code value rest).color =
      if code = "62" then getColorByIndex (intOr value 1) else d.color := by
  simp only [ellipseUpdate, apply_ite EllipseDraft.color, ite_self]

/-- Outside code 62 the field updates of `parseSplineEntity` keep the colour. -/
theorem splineUpdate_color (d : SplineDraft) (code value : String) (rest : List String) :
    (splineUpdate d code value rest).color =
      if code = "62" then getColorByIndex (intOr value 1) else d.color := by
  simp only [splineUpdate, apply_ite SplineDraft.color, ite_self]

/-- Outside code 62 the field updates of `parsePointEntity` keep the colour. -/
theorem pointUpdate_color (d : PointDraft) (code value : String) (rest : List String) :
    (pointUpdate d code value rest).color =
      if code = "62" then getColorByIndex (intOr value 1) else d.color := by
  simp only [pointUpdate, apply_ite PointDraft.color, ite_self]

/-- Outside code 62 the field updates of `parse3DFaceEntity` keep the colour. -/
theorem faceUpdate_color (d : FaceDraft) (code value : String) (rest : List String) :
    (faceUpdate d code value rest).color =
      if code = "62" then getColorByIndex (intOr value 1) else d.color := by
  simp only [faceUpdate, apply_ite FaceDraft.color, ite_self]

/-- An entity decoded from a record none of whose lines is `62` is white. -/
theorem dispatch_color_white (raw line z mk : String) (ys post : List String)
    (hz : trim z = "0") (hmk : trim mk ≠ "VERTEX") (hys : ∀ l ∈ ys, trim l ≠ "62")
    (entity : Entity) (scanLength : Nat)
    (h : dispatch raw line (ys ++ z :: mk :: post) = some (entity, scanLength)) :
    entity.color = white := by
  have hzero : ∀ names : List String,
      stopUnless names "0" (trim mk) ≠ .go ∨ lateZero "0" (trim mk) = true :=
    fun _ => Or.inr (by simp [lateZero])
  have hpoly : polylineEarly "0" (trim mk) ≠ .go ∨ polylineLate "0" (trim mk) = true :=
    Or.inr (by simp [polylineLate, hmk])
  have hspl : splineEarly "0" (trim mk) ≠ .go ∨ (fun _ _ => false) "0" (trim mk) = true :=
    Or.inl (by simp [splineEarly])
  have h62 : ("62" : String) ≠ "0" := by decide
  unfold dispatch at h
  split_ifs at h
  · unfold parseLineEntity at h
    simp only at h
    split_ifs at h
    simp only [Option.some.injEq, Prod.mk.injEq] at h
    rw [← h.1]
    exact scanRecord_field_unchanged LineDraft.color "62" h62 _ _ _ z mk post hz (hzero _)
      (fun d code value rest hc => by rw [lineUpdate_color, if_neg hc]) _ ys {} hys
  · simp only [parseCircleEntity, Option.some.injEq, Prod.mk.injEq] at h
    rw [← h.1]
    exact scanRecord_field_unchanged CircleDraft.color "62" h62 _ _ _ z mk post hz (hzero _)
      (fun d code value rest hc => by rw [circleUpdate_color, if_neg hc]) _ ys {} hys
  · simp only [parseArcEntity, Option.some.injEq, Prod.mk.injEq] at h
    rw [← h.1]
    exact scanRecord_field_unchanged ArcDraft.color "62" h62 _ _ _ z mk post hz (hzero _)
      (fun d code value rest hc => by rw [arcUpdate_color, if_neg hc]) _ ys {} hys
  · unfold parsePolylineEntity at h
    simp only at h
    split_ifs at h
    all_goals
      simp only [Option.some.injEq, Prod.mk.injEq] at h
      rw [← h.1]
      exact scanRecord_field_unchanged PolylineDraft.color "62" h62 _ _ _ z mk post hz hpoly
        (fun d code value rest hc => by rw [polylineUpdate_color, if_neg hc]) _ ys {} hys
  · unfold parseTextEntity at h
    simp only at h
    split_ifs at h
    simp only [Option.some.injEq, Prod.mk.injEq] at h
    rw [← h.1]
    exact scanRecord_field_unchanged TextDraft.color "62" h62 _ _ _ z mk post hz (hzero _)
      (fun d code value rest hc => by rw [textUpdate_color, if_neg hc]) _ ys {} hys
  · simp only [parseEllipseEntity, Option.some.injEq, Prod.mk.injEq] at h
    rw [← h.1]
    exact scanRecord_field_unchanged EllipseDraft.color "62" h62 _ _ _ z mk post hz (hzero _)
      (fun d code value rest hc => by rw [ellipseUpdate_color, if_neg hc]) _ ys {} hys
  · unfold parseSplineEntity at h
    simp only at h
    split_ifs at h
    all_goals
      simp only [Option.some.injEq, Prod.mk.injEq] at h
      rw [← h.1]
      exact scanRecord_field_unchanged SplineDraft.color "62" h62 _ _ _ z mk post hz hspl
        (fun d code value rest hc => by rw [splineUpdate_color, if_neg hc]) _ ys {} hys
  · simp only [parsePointEntity, Option.some.injEq, Prod.mk.injEq] at h
    rw [← h.1]
    exact scanRecord_field_unchanged PointDraft.color "62" h62 _ _ _ z mk post hz (hzero _)
      (fun d code value rest hc => by rw [pointUpdate_color, if_neg hc]) _ ys {} hys
  · simp only [parse3DFaceEntity, Option.some.injEq, Prod.mk.injEq] at h
    rw [← h.1]
    exact scanRecord_field_unchanged FaceDraft.color "62" h62 _ _ _ z mk post hz (hzero _)
      (fun d code value rest hc => by rw [faceUpdate_color, if_neg hc]) _ ys {} hys

/-- C12 (counterexample): a LINE record whose code-62 value is `0`, or the
non-numeric `BYLAYER`, is decoded with the colour (255,0,0), which is not white. -/
theorem parse_color_zero_is_red :
    parse (drawingWith "0\nLINE\n10\n1.0\n20\n2.0\n11\n3.0\n21\n4.0\n62\n0\n") =
      [.line (.fin 1) (.fin 2) (.fin 3) (.fin 4) ⟨255, 0, 0⟩ none] ∧
    parse (drawingWith "0\nLINE\n10\n1.0\n20\n2.0\n11\n3.0\n21\n4.0\n62\nBYLAYER\n") =
      [.line (.fin 1) (.fin 2) (.fin 3) (.fin 4) ⟨255, 0, 0⟩ none] ∧
    (⟨255, 0, 0⟩ : RGB) ≠ white := by
  decide!

/-- C12 (amended): an entity decoded from a record none of whose lines is `62`
(the record being followed by a line `0` and a line other than `VERTEX`) is
white.  At a line `62` every decoder sets the colour to
`getColorByIndex(parseInt(value) || 1)` for the next line `value`: the colour of
index 1, (255,0,0), when `value` parses to 0 or is not numeric, and the colour
`getColorByIndex` gives at n when `value` parses to an integer n other than 0. -/
theorem decoded_color (raw line z mk value : String) (ys post : List String)
    (entity : Entity) (scanLength : Nat) (n : ℤ) :
    (trim z = "0" → trim mk ≠ "VERTEX" → (∀ l ∈ ys, trim l ≠ "62") →
      dispatch raw line (ys ++ z :: mk :: post) = some (entity, scanLength) →
      entity.color = white) ∧
    (∀ d rest, (lineUpdate d "62" value rest).color = getColorByIndex (intOr value 1)) ∧
    (∀ d rest, (circleUpdate d "62" value rest).color = getColorByIndex (intOr value 1)) ∧
    (∀ d rest, (arcUpdate d "62" value rest).color = getColorByIndex (intOr value 1)) ∧
    (∀ d rest, (polylineUpdate d "62" value rest).color = getColorByIndex (intOr value 1)) ∧
    (∀ b d rest, (textUpdate b d "62" value rest).color = getColorByIndex (intOr value 1)) ∧
    (∀ d rest, (ellipseUpdate d "62" value rest).color = getColorByIndex (intOr value 1)) ∧
    (∀ d rest, (splineUpdate d "62" value rest).color = getColorByIndex (intOr value 1)) ∧
    (∀ d rest, (pointUpdate d "62" value rest).color = getColorByIndex (intOr value 1)) ∧
    (∀ d rest, (faceUpdate d "62" value rest).color = getColorByIndex (intOr value 1)) ∧
    (parseInt value = none ∨ parseInt value = some 0 →
      getColorByIndex (intOr value 1) = ⟨255, 0, 0⟩) ∧
    (parseInt value = some n → n ≠ 0 → getColorByIndex (intOr value 1) = getColorByIndex n) := by
  refine ⟨fun hz hmk hys h => dispatch_color_white raw line z mk ys post hz hmk hys _ _ h,
    fun d rest => by rw [lineUpdate_color, if_pos rfl],
    fun d rest => by rw [circleUpdate_color, if_pos rfl],
    fun d rest => by rw [arcUpdate_color, if_pos rfl],
    fun d rest => by rw [polylineUpdate_color, if_pos rfl],
    fun b d rest => by rw [textUpdate_color, if_pos rfl],
    fun d rest => by rw [ellipseUpdate_color, if_pos rfl],
    fun d rest => by rw [splineUpdate_color, if_pos rfl],
    fun d rest => by rw [pointUpdate_color, if_pos rfl],
    fun d rest => by rw [faceUpdate_color, if_pos rfl], ?_, ?_⟩
  · intro h
    have h1 : intOr value 1 = 1 := by
      rcases h with h | h <;> simp [intOr, h]
    rw [h1]
    decide
  · intro h hn
    simp [intOr, h, hn]

/-- C12 (amended) on a CIRCLE record without a line `62`, followed by `0` and
`ENDSEC`: the decoded circle is white. -/
theorem decoded_color_witness :
    (Entity.circle (.fin 1) (.fin 2) (.fin 3) white none).color = white :=
  (decoded_color "CIRCLE" "CIRCLE" "0" "ENDSEC" "7" ["10", "1.0", "20", "2.0", "40", "3.0"] []
    (.circle (.fin 1) (.fin 2) (.fin 3) white none) 6 7).1
    (by decide) (by decide) (by decide) (by decide!)

/-- C13 (evaluation): LWPOLYLINE records with the flags 3 and 129 are decoded
with `isClosed = false`, the record with the flags 1 with `isClosed = true`; at a
line `70` the decoder sets `isClosed` to `parseInt(value) === 1`. -/
theorem parse_polyline_closed_flag :
    parse (drawingWith
        "0\nLWPOLYLINE\n70\n3\n10\n1.0\n20\n2.0\n10\n3.0\n20\n4.0\n10\n5.0\n20\n6.0\n") =
      [.polyline [(.fin 1, .fin 2), (.fin 3, .fin 4), (.fin 5, .fin 6)] (some false) white none] ∧
    parse (drawingWith
        "0\nLWPOLYLINE\n70\n129\n10\n1.0\n20\n2.0\n10\n3.0\n20\n4.0\n10\n5.0\n20\n6.0\n") =
      [.polyline [(.fin 1, .fin 2), (.fin 3, .fin 4), (.fin 5, .fin 6)] (some false) white none] ∧
    parse (drawingWith
        "0\nLWPOLYLINE\n70\n1\n10\n1.0\n20\n2.0\n10\n3.0\n20\n4.0\n10\n5.0\n20\n6.0\n") =
      [.polyline [(.fin 1, .fin 2), (.fin 3, .fin 4), (.fin 5, .fin 6)] (some true) white none] ∧
    (∀ (d : PolylineDraft) (value : String) (rest : List String),
      (polylineUpdate d "70" value rest).isClosed = decide (parseInt value = some 1)) := by
  refine ⟨by decide!, by decide!, by decide!, ?_⟩
  intro d value rest
  simp [polylineUpdate]

/-- The radius after the field updates of `parseCircleEntity`. -/
theorem circleUpdate_r (d : CircleDraft) (code value : String) (rest : List String) :
    (circleUpdate d code value rest).r =
      if code = "40" then absFloatOr value (.fin 5) else d.r := by
  simp only [circleUpdate, apply_ite CircleDraft.r, ite_self]

/-- The value of `Math.abs(parseFloat(value)) || 5` is `Infinity` or a positive
number. -/
theorem absFloatOr_five_pos (value : String) :
    absFloatOr value (.fin 5) = .pinf ∨ ∃ q : ℚ, 0 < q ∧ absFloatOr value (.fin 5) = .fin q := by
  unfold absFloatOr
  cases parseFloat value with
  | nan => exact Or.inr ⟨5, by norm_num, by simp [JSNum.abs, JSNum.or, JSNum.truthy]⟩
  | ninf => exact Or.inl (by simp [JSNum.abs, JSNum.or, JSNum.truthy])
  | pinf => exact Or.inl (by simp [JSNum.abs, JSNum.or, JSNum.truthy])
  | fin q =>
    by_cases hq : q = 0
    · exact Or.inr ⟨5, by norm_num, by simp [JSNum.abs, JSNum.or, JSNum.truthy, hq]⟩
    · exact Or.inr ⟨|q|, abs_pos.mpr hq, by simp [JSNum.abs, JSNum.or, JSNum.truthy, hq]⟩

/-- C14 (counterexample): a CIRCLE record whose code-40 value is `0.0` is
decoded with radius 5, not 0. -/
theorem parse_circle_radius_zero :
    parse (drawingWith "0\nCIRCLE\n10\n1.0\n20\n2.0\n40\n0.0\n") =
      [.circle (.fin 1) (.fin 2) (.fin 5) white none] ∧
    parseFloat "0.0" = .fin 0 := by
  decide!

/-- C14 (amended): the radius decoded from a CIRCLE record is `Infinity` or a
positive number, never 0 or NaN.  It is 5 when no line of the record is `40` (the
record being followed by a line `0`).  At a line `40` it becomes
`Math.abs(parseFloat(value)) || 5` for the next line `value`: |v| when `value`
parses to a number v other than 0, and 5 when it parses to 0 or is not numeric. -/
theorem decoded_circle_radius (rest ys post : List String) (z mk value : String) (q : ℚ) :
    (∃ cx cy r c l, (parseCircleEntity rest).1 = .circle cx cy r c l ∧
      (r = .pinf ∨ ∃ p : ℚ, 0 < p ∧ r = .fin p)) ∧
    (trim z = "0" → (∀ l ∈ ys, trim l ≠ "40") →
      ∃ cx cy c l, (parseCircleEntity (ys ++ z :: mk :: post)).1 = .circle cx cy (.fin 5) c l) ∧
    (∀ d rs, (circleUpdate d "40" value rs).r = absFloatOr value (.fin 5)) ∧
    (parseFloat value = .fin q → q ≠ 0 → absFloatOr value (.fin 5) = .fin |q|) ∧
    (parseFloat value = .fin 0 ∨ parseFloat value = .nan → absFloatOr value (.fin 5) = .fin 5) := by
  refine ⟨?_, ?_, ?_, ?_, ?_⟩
  · refine ⟨_, _, _, _, _, rfl, ?_⟩
    exact scanRecord_inv (fun d : CircleDraft => d.r = .pinf ∨ ∃ p : ℚ, 0 < p ∧ d.r = .fin p)
      _ _ _ (fun d code value rs hd => by
        show (circleUpdate d code value rs).r = .pinf ∨
          ∃ p : ℚ, 0 < p ∧ (circleUpdate d code value rs).r = .fin p
        rw [circleUpdate_r]
        split_ifs
        · exact absFloatOr_five_pos value
        · exact hd) _ _ _ _ _ (Or.inr ⟨5, by norm_num, rfl⟩)
  · intro hz hys
    have hr := scanRecord_field_unchanged CircleDraft.r "40" (by decide) (stopUnless ["CIRCLE"])
      circleUpdate lateZero z mk post hz (Or.inr (by simp [lateZero]))
      (fun d code value rs hc => by rw [circleUpdate_r, if_neg hc]) (80 - 1) ys {} hys
    simp only [parseCircleEntity]
    rw [hr]
    exact ⟨_, _, _, _, rfl⟩
  · intro d rs
    rw [circleUpdate_r, if_pos rfl]
  · intro h hq
    simp [absFloatOr, h, JSNum.abs, JSNum.or, JSNum.truthy, hq]
  · intro h
    rcases h with h | h <;> simp [absFloatOr, h, JSNum.abs, JSNum.or, JSNum.truthy]

/-- C14 (amended) on a CIRCLE record without a line `40`: the radius is 5; and
for the value `-2.5` the radius is 2.5. -/
theorem decoded_circle_radius_witness :
    (∃ cx cy c l, (parseCircleEntity (["10", "1.0", "20", "2.0"] ++ "0" :: "ENDSEC" :: [])).1 =
      .circle cx cy (.fin 5) c l) ∧
    absFloatOr "-2.5" (.fin 5) = .fin |(-5 / 2 : ℚ)| :=
  ⟨(decoded_circle_radius [] ["10", "1.0", "20", "2.0"] [] "0" "ENDSEC" "-2.5" (-5 / 2)).2.1
      (by decide) (by decide),
    (decoded_circle_radius [] ["10", "1.0", "20", "2.0"] [] "0" "ENDSEC" "-2.5" (-5 / 2)).2.2.2.1
      (by decide!) (by norm_num)⟩

/-- C16 (evaluation): for a circle centred at the origin, all four fields of the
bounds are `NaN`; for an ellipse centred on the y axis `minX` and `width` are
`NaN`; for a circle of centre (50,40) and radius 25 the bounds are
minX = -5, minY = -15, width = 110, height = 110. -/
theorem calculateBounds_circle_on_axis :
    calculateBounds (some [.circle (.fin 0) (.fin 0) (.fin 10) white none]) =
      ⟨.nan, .nan, .nan, .nan⟩ ∧
    calculateBounds (some [.ellipse (.fin 0) (.fin 20) (.fin 0) (.fin 0) (.fin 10) (.fin 5)
        (.fin 0) white none]) = ⟨.nan, .fin (-15), .nan, .fin 70⟩ ∧
    calculateBounds (some [.circle (.fin 50) (.fin 40) (.fin 25) white none]) =
      ⟨.fin (-5), .fin (-15), .fin 110, .fin 110⟩ := by
  decide!

/-- C18 (evaluation): a 3DFACE record with the corners (1,2), (3,4), (5,6),
(7,8) given by the pairs 10/20, 11/21, 12/22, 13/23 is decoded to the polyline
(1,2), (3,0), (5,0), (7,0) without an `isClosed` field: the values of 21, 22
and 23 are not read. -/
theorem parse_face_record :
    parse (drawingWith
        "0\n3DFACE\n10\n1.0\n20\n2.0\n11\n3.0\n21\n4.0\n12\n5.0\n22\n6.0\n13\n7.0\n23\n8.0\n") =
      [.polyline [(.fin 1, .fin 2), (.fin 3, .fin 0), (.fin 5, .fin 0), (.fin 7, .fin 0)]
        none white none] := by
  decide!

/-- The function `Math.max` on two finite numbers gives the larger one. -/
theorem JSNum.max_fin (a b : ℚ) : JSNum.max (.fin a) (.fin b) = .fin (Max.max a b) := by
  by_cases h : a ≤ b
  · simp [JSNum.max, JSNum.le, h]
  · have hba : b ≤ a := le_of_lt (not_le.mp h)
    simp [JSNum.max, JSNum.le, h, max_eq_left hba]

/-- Taking the minimum with a second, larger finite number changes nothing. -/
theorem JSNum.min_min_of_le (a : JSNum) (u v : ℚ) (h : u ≤ v) :
    (a.min (.fin u)).min (.fin v) = a.min (.fin u) := by
  cases a with
  | nan => rfl
  | ninf => rfl
  | pinf =>
    show JSNum.min (.fin u) (.fin v) = .fin u
    rw [JSNum.min_fin, min_eq_left h]
  | fin q =>
    rw [JSNum.min_fin, JSNum.min_fin, min_eq_left (le_trans (min_le_right q u) h)]

/-- Taking the maximum with a first, smaller finite number changes nothing. -/
theorem JSNum.max_max_of_le (a : JSNum) (u v : ℚ) (h : u ≤ v) :
    (a.max (.fin u)).max (.fin v) = a.max (.fin v) := by
  cases a with
  | nan => rfl
  | pinf => rfl
  | ninf =>
    show JSNum.max (.fin u) (.fin v) = .fin v
    rw [JSNum.max_fin, max_eq_right h]
  | fin q =>
    rw [JSNum.max_fin, JSNum.max_fin, JSNum.max_fin, max_assoc, max_eq_right h]

/-- A list of points with finite coordinates is the image of its rational points. -/
theorem finitePoints_eq_some (points : List Pt) :
    ∀ S : List (ℚ × ℚ), finitePoints points = some S → points = S.map toPt := by
  induction points with
  | nil =>
    intro S h
    simp only [finitePoints, Option.some.injEq] at h
    rw [← h]
    rfl
  | cons p ps ih =>
    intro S h
    obtain ⟨x, y⟩ := p
    cases x <;> cases y <;> simp only [finitePoints, Option.map_eq_some', reduceCtorEq] at h
    obtain ⟨S1, hS1, hS⟩ := h
    rw [← hS, List.map_cons, ← ih S1 hS1]
    rfl

/-- The fold of `extendPoint` from finite running values keeps them finite and
computes the running minima and maxima. -/
theorem foldl_extendPoint_fin (S : List (ℚ × ℚ)) :
    ∀ mx my Mx My : ℚ,
      (S.map toPt).foldl extendPoint ⟨.fin mx, .fin my, .fin Mx, .fin My⟩ =
        ⟨.fin ((S.map Prod.fst).foldl Min.min mx), .fin ((S.map Prod.snd).foldl Min.min my),
         .fin ((S.map Prod.fst).foldl Max.max Mx), .fin ((S.map Prod.snd).foldl Max.max My)⟩ := by
  induction S with
  | nil => intro mx my Mx My; rfl
  | cons p S ih =>
    intro mx my Mx My
    simp only [List.map_cons, List.foldl_cons, toPt, extendPoint, JSNum.min_fin, JSNum.max_fin]
    exact ih _ _ _ _

/-- The running minimum over a list is the least element of what was seen. -/
theorem foldl_min_isMinOf (l : List ℚ) :
    ∀ (l0 : List ℚ) (m0 : ℚ), IsMinOf l0 m0 → IsMinOf (l0 ++ l) (l.foldl Min.min m0) := by
  induction l with
  | nil => intro l0 m0 h; simpa using h
  | cons x l ih =>
    intro l0 m0 h
    have h1 : IsMinOf (l0 ++ [x]) (Min.min m0 x) := by
      refine ⟨?_, ?_⟩
      · rcases min_choice m0 x with hm | hm
        · rw [hm]
          exact List.mem_append_left _ h.1
        · rw [hm]
          simp
      · intro y hy
        rcases List.mem_append.mp hy with hy | hy
        · exact le_trans (min_le_left _ _) (h.2 y hy)
        · simp only [List.mem_singleton] at hy
          rw [hy]
          exact min_le_right _ _
    have := ih (l0 ++ [x]) _ h1
    simpa using this

/-- The running maximum over a list is the greatest element of what was seen. -/
theorem foldl_max_isMaxOf (l : List ℚ) :
    ∀ (l0 : List ℚ) (m0 : ℚ), IsMaxOf l0 m0 → IsMaxOf (l0 ++ l) (l.foldl Max.max m0) := by
  induction l with
  | nil => intro l0 m0 h; simpa using h
  | cons x l ih =>
    intro l0 m0 h
    have h1 : IsMaxOf (l0 ++ [x]) (Max.max m0 x) := by
      refine ⟨?_, ?_⟩
      · rcases max_choice m0 x with hm | hm
        · rw [hm]
          exact List.mem_append_left _ h.1
        · rw [hm]
          simp
      · intro y hy
        rcases List.mem_append.mp hy with hy | hy
        · exact le_trans (h.2 y hy) (le_max_left _ _)
        · simp only [List.mem_singleton] at hy
          rw [hy]
          exact le_max_right _ _
    have := ih (l0 ++ [x]) _ h1
    simpa using this

/-- The least element of a list is unique. -/
theorem isMinOf_unique {l : List ℚ} {a b : ℚ} (ha : IsMinOf l a) (hb : IsMinOf l b) : a = b :=
  le_antisymm (ha.2 b hb.1) (hb.2 a ha.1)

/-- The greatest element of a list is unique. -/
theorem isMaxOf_unique {l : List ℚ} {a b : ℚ} (ha : IsMaxOf l a) (hb : IsMaxOf l b) : a = b :=
  le_antisymm (hb.2 a ha.1) (ha.2 b hb.1)

/-- The test `x !== 0` fails exactly at 0. -/
theorem JSNum.neZero_eq_false_iff (x : JSNum) : x.neZero = false ↔ x = .fin 0 := by
  cases x <;> simp [JSNum.neZero]

/-- One iteration of the loop of `parse` at a visited line. -/
theorem parseLoop_cons_zero (raw : String) (rest : List String) (b : Bool) :
    parseLoop (raw :: rest) 0 b =
      if sectionState (trim raw) rest b = true then
        match dispatch raw (trim raw) rest with
        | some (entity, scanLength) =>
          entity :: parseLoop rest scanLength (sectionState (trim raw) rest b)
        | none => parseLoop rest 0 (sectionState (trim raw) rest b)
      else parseLoop rest 0 (sectionState (trim raw) rest b) := by
  simp only [parseLoop]

/-- With `inEntitySection` unchanged, the scan passes over lines that are
neither type markers nor `SECTION` nor `ENDSEC` without pushing anything. -/
theorem parseLoop_skip_plain (xs rest : List String) (b : Bool)
    (h : ∀ l ∈ xs, isTypeMarker (trim l) = false ∧ trim l ≠ "SECTION" ∧ trim l ≠ "ENDSEC") :
    parseLoop (xs ++ rest) 0 b = parseLoop rest 0 b := by
  induction xs with
  | nil => rfl
  | cons x xs ih =>
    have hx := h x (List.mem_cons_self _ _)
    have hs : sectionState (trim x) (xs ++ rest) b = b := sectionState_other _ _ _ hx.2.1 hx.2.2
    have hd : dispatch x (trim x) (xs ++ rest) = none := dispatch_of_not_marker _ _ _ hx.1
    rw [List.cons_append, parseLoop_cons_zero, hs, hd]
    simp only [ite_self]
    exact ih (fun l hl => h l (List.mem_cons_of_mem _ hl))

/-- C19 (counterexample): a LINE record with four zero coordinates and the layer
name `CIRCLE` is rejected by `parseLineEntity`, yet the scan of the drawing that
holds only this record pushes a circle, while the scan of the drawing without it
pushes nothing. -/
theorem dropped_record_adds_entity :
    parseLineEntity ["8", "CIRCLE", "10", "0.0", "20", "0.0", "11", "0.0", "21", "0.0", "0",
      "ENDSEC", "0", "EOF"] = none ∧
    scanEntities (drawingWith "0\nLINE\n8\nCIRCLE\n10\n0.0\n20\n0.0\n11\n0.0\n21\n0.0\n") =
      [.circle (.fin 0) (.fin 0) (.fin 5) white none] ∧
    scanEntities (drawingWith "") = [] := by
  decide!

/-- C19 (amended): `parseLineEntity` returns no entity exactly when the four
decoded coordinates are 0, `parsePolylineEntity` exactly when no vertex was read,
`parseTextEntity` exactly when the decoded text is empty.  When the decoder
started at a marker `m` returns no entity and no line of the record is itself a
type marker, `SECTION` or `ENDSEC`, the scan pushes nothing for the record and
goes on at the marker `mk` of the next record, where the decoder of `mk` is run
on the lines `post` and its entity, if any, is pushed. -/
theorem invalid_record_dropped (rest body post : List String) (marker m z mk : String) :
    (parseLineEntity rest = none ↔
      ((scanRecord (stopUnless ["LINE"]) lineUpdate lateZero (80 - 1) rest 1 {} 0).1.x1 = .fin 0 ∧
       (scanRecord (stopUnless ["LINE"]) lineUpdate lateZero (80 - 1) rest 1 {} 0).1.y1 = .fin 0 ∧
       (scanRecord (stopUnless ["LINE"]) lineUpdate lateZero (80 - 1) rest 1 {} 0).1.x2 = .fin 0 ∧
       (scanRecord (stopUnless ["LINE"]) lineUpdate lateZero (80 - 1) rest 1 {} 0).1.y2 = .fin 0)) ∧
    (parsePolylineEntity rest = none ↔
      (scanRecord polylineEarly polylineUpdate polylineLate (500 - 1) rest 1 {} 0).1.points = []) ∧
    (parseTextEntity marker rest = none ↔
      (scanRecord (stopUnless ["TEXT", "MTEXT"]) (textUpdate (decide (trim marker = "MTEXT")))
        lateZero (150 - 1) rest 1 {} 0).1.text = "") ∧
    (dispatch m (trim m) (body ++ z :: mk :: post) = none →
      trim m ≠ "SECTION" → trim m ≠ "ENDSEC" → trim z = "0" →
      (∀ l ∈ body, isTypeMarker (trim l) = false ∧ trim l ≠ "SECTION" ∧ trim l ≠ "ENDSEC") →
      isTypeMarker (trim mk) = true →
      parseLoop (m :: body ++ z :: mk :: post) 0 true = parseLoop (mk :: post) 0 true ∧
      parseLoop (mk :: post) 0 true =
        (match dispatch mk (trim mk) post with
          | some (entity, scanLength) => entity :: parseLoop post scanLength true
          | none => parseLoop post 0 true)) := by
  refine ⟨?_, ?_, ?_, ?_⟩
  · unfold parseLineEntity
    simp only
    split_ifs with h
    · simp only [Bool.or_eq_true] at h
      simp only [reduceCtorEq, false_iff, not_and]
      intro h1 h2 h3 h4
      rw [h1, h2, h3, h4] at h
      simp [JSNum.neZero] at h
    · simp only [Bool.or_eq_true, not_or, Bool.not_eq_true] at h
      simp only [true_iff]
      exact ⟨(JSNum.neZero_eq_false_iff _).mp h.1.1.1, (JSNum.neZero_eq_false_iff _).mp h.1.2,
        (JSNum.neZero_eq_false_iff _).mp h.1.1.2, (JSNum.neZero_eq_false_iff _).mp h.2⟩
  · unfold parsePolylineEntity
    simp only
    split_ifs with h1 h2 h2
    · simp only [reduceCtorEq, false_iff]
      intro h
      rw [h] at h2
      simp at h2
    · simp only [true_iff]
      simpa using h2
    · simp only [reduceCtorEq, false_iff]
      intro h
      rw [h] at h2
      simp at h2
    · simp only [true_iff]
      simpa using h2
  · unfold parseTextEntity
    simp only
    split_ifs with h
    · simp only [reduceCtorEq, false_iff]
      exact h
    · simp only [true_iff]
      exact not_not.mp h
  · intro hd hm1 hm2 hz hbody hmk
    have hs : sectionState (trim m) (body ++ z :: mk :: post) true = true :=
      sectionState_other _ _ _ hm1 hm2
    have hplain : ∀ l ∈ body ++ [z],
        isTypeMarker (trim l) = false ∧ trim l ≠ "SECTION" ∧ trim l ≠ "ENDSEC" := by
      intro l hl
      rcases List.mem_append.mp hl with h | h
      · exact hbody l h
      · simp only [List.mem_singleton] at h
        rw [h, hz]
        exact ⟨by decide, by decide, by decide⟩
    have hskip := parseLoop_skip_plain (body ++ [z]) (mk :: post) true hplain
    have happ : body ++ [z] ++ mk :: post = body ++ z :: mk :: post := by simp
    rw [happ] at hskip
    refine ⟨?_, ?_⟩
    · rw [List.cons_append, parseLoop_cons_zero, hs, hd]
      simp only [if_true]
      exact hskip
    · have hs2 : sectionState (trim mk) post true = true := by
        apply sectionState_other
        · intro h
          rw [h] at hmk
          exact absurd hmk (by decide)
        · intro h
          rw [h] at hmk
          exact absurd hmk (by decide)
      rw [parseLoop_cons_zero, hs2]
      simp only [if_true]

/-- C19 (amended) on a LINE record with four zero coordinates followed by a
CIRCLE record: the scan from the marker `LINE` pushes what the scan from the
marker `CIRCLE` pushes. -/
theorem invalid_record_dropped_witness :
    parseLoop ("LINE" :: ["10", "0.0", "20", "0.0"] ++ "0" :: "CIRCLE" ::
        ["10", "1.0", "0", "ENDSEC"]) 0 true =
      parseLoop ("CIRCLE" :: ["10", "1.0", "0", "ENDSEC"]) 0 true :=
  ((invalid_record_dropped [] ["10", "0.0", "20", "0.0"] ["10", "1.0", "0", "ENDSEC"] "TEXT"
    "LINE" "0" "CIRCLE").2.2.2 (by decide!) (by decide) (by decide) (by decide) (by decide)
    (by decide)).1

/-- An index of an array is either past the end, or holds the head of the
suffix that starts there. -/
theorem drop_cases (l : List String) (n : Nat) :
    (l.length ≤ n ∧ l[n]? = none ∧ l.drop n = []) ∨
    (∃ x, n < l.length ∧ l[n]? = some x ∧ l.drop n = x :: l.drop (n + 1)) := by
  by_cases h : n < l.length
  · exact Or.inr ⟨l[n], h, List.getElem?_eq_getElem h, List.drop_eq_getElem_cons h⟩
  · have hle : l.length ≤ n := Nat.le_of_not_lt h
    exact Or.inl ⟨hle, List.getElem?_eq_none hle, List.drop_eq_nil_of_le hle⟩

/-- The expression `lines[j]?.trim() || ''` reads the head of the suffix at `j`. -/
theorem trimAtOr_eq (lines : List String) (j : Nat) :
    trimAtOr lines j = (match lines.drop j with
      | [] => ""
      | v :: _ => trim v) := by
  rcases drop_cases lines j with ⟨_, hnone, hdrop⟩ | ⟨x, _, hsome, hdrop⟩
  · simp only [trimAtOr, hnone, hdrop]
  · simp only [trimAtOr, hsome, hdrop]

/-- The decoder loop on the array never fails and returns what the loop on the
suffix returns, as soon as the fuel exceeds the number of iterations that the cap
still allows. -/
theorem scanRecordAt_eq {σ : Type} (early : String → String → EarlyExit)
    (update : σ → String → String → List String → σ)
    (updateAt : σ → String → String → Nat → Except Failure σ) (late : String → String → Bool)
    (lines : List String) (startIndex cap : Nat)
    (hupd : ∀ (d : σ) (code value : String) (j : Nat),
      updateAt d code value j = .ok (update d code value (lines.drop j))) :
    ∀ (fuel n j : Nat) (d : σ) (sl : Nat), startIndex ≤ j → n = startIndex + cap - j →
      n < fuel →
      scanRecordAt early updateAt late lines startIndex cap fuel j d sl =
        .ok (scanRecord early update late n (lines.drop j) (j - startIndex) d sl) := by
  intro fuel
  induction fuel with
  | zero =>
    intro n j d sl _ _ hlt
    exact absurd hlt (Nat.not_lt_zero _)
  | succ fuel ih =>
    intro n j d sl hsj hn hlt
    rcases drop_cases lines j with ⟨hlen, _, hdrop⟩ | ⟨x, hlen, hsome, hdrop⟩
    · have hcond : ¬ (j < lines.length ∧ j < startIndex + cap) := fun h => by omega
      rw [scanRecordAt, if_neg hcond, hdrop]
      cases n <;> rfl
    · by_cases hc : j < startIndex + cap
      · obtain ⟨m, hm⟩ : ∃ m, n = m + 1 := ⟨n - 1, by omega⟩
        subst hm
        have htrim : trimAt lines j = .ok (trim x) := by simp only [trimAt, hsome]
        have hk : j + 1 - startIndex = j - startIndex + 1 := by omega
        have hrec := fun d1 => ih m (j + 1) d1 (j - startIndex) (by omega) (by omega) (by omega)
        rw [scanRecordAt, if_pos ⟨hlen, hc⟩, htrim, hdrop]
        simp only [scanRecord, trimAtOr_eq]
        cases early (trim x) (match lines.drop (j + 1) with
          | [] => ""
          | v :: _ => trim v) with
        | stop => rfl
        | stopAt => rfl
        | go =>
          simp only [hupd]
          split_ifs
          · rfl
          · rw [hrec, hk]
      · have hcond : ¬ (j < lines.length ∧ j < startIndex + cap) := fun h => hc h.2
        have hn0 : n = 0 := by omega
        rw [scanRecordAt, if_neg hcond, hn0]
        rfl

/-- The loop of `parseMTEXT` on the array never fails and returns what the loop
on the suffix returns. -/
theorem mtextLoopAt_eq (lines : List String) (startIndex : Nat) :
    ∀ (fuel n k : Nat) (text : List Char), n = startIndex + 20 - k → n < fuel →
      mtextLoopAt lines startIndex fuel k text = .ok (mtextLoop n (lines.drop k) text) := by
  intro fuel
  induction fuel with
  | zero =>
    intro n k text _ hlt
    exact absurd hlt (Nat.not_lt_zero _)
  | succ fuel ih =>
    intro n k text hn hlt
    rcases drop_cases lines k with ⟨hlen, _, hdrop⟩ | ⟨x, hlen, hsome, hdrop⟩
    · have hcond : ¬ (k < lines.length ∧ k < startIndex + 20) := fun h => by omega
      rw [mtextLoopAt, if_neg hcond, hdrop]
      cases n <;> rfl
    · by_cases hc : k < startIndex + 20
      · obtain ⟨m, hm⟩ : ∃ m, n = m + 1 := ⟨n - 1, by omega⟩
        subst hm
        have htrim : trimAt lines k = .ok (trim x) := by simp only [trimAt, hsome]
        rw [mtextLoopAt, if_pos ⟨hlen, hc⟩, htrim, hdrop]
        simp only [mtextLoop]
        split_ifs
        · rfl
        · exact ih m (k + 1) _ (by omega) (by omega)
      · have hcond : ¬ (k < lines.length ∧ k < startIndex + 20) := fun h => hc h.2
        have hn0 : n = 0 := by omega
        rw [mtextLoopAt, if_neg hcond, hn0]
        rfl

/-- The function `parseMTEXT` on the array never fails. -/
theorem parseMTEXTAt_eq (lines : List String) (startIndex : Nat) :
    parseMTEXTAt lines startIndex = .ok (parseMTEXT (lines.drop startIndex)) := by
  unfold parseMTEXTAt parseMTEXT
  rw [mtextLoopAt_eq lines startIndex 21 20 startIndex [] (by omega) (by omega)]

/-- The field updates of `parseTextEntity` on the array never fail. -/
theorem textUpdateAt_eq (lines : List String) (isMTEXT : Bool) (e : TextDraft)
    (code value : String) (j : Nat) :
    textUpdateAt lines isMTEXT e code value j =
      .ok (textUpdate isMTEXT e code value (lines.drop j)) := by
  have h : textUpdate isMTEXT e code value (lines.drop j) =
      if code = "1" then
        (if isMTEXT then { textFields e code value with text := parseMTEXT (lines.drop j) }
         else { textFields e code value with text := value })
      else textFields e code value := rfl
  rw [h, textUpdateAt, parseMTEXTAt_eq]
  split_ifs <;> rfl

/-- Section detection on the array agrees with section detection on the suffix. -/
theorem sectionStateAt_eq (lines : List String) (i : Nat) (line : String) (b : Bool) :
    sectionStateAt lines i line b = sectionState line (lines.drop (i + 1)) b := by
  unfold sectionStateAt sectionState
  rcases drop_cases lines (i + 1) with ⟨_, hnone, hdrop⟩ | ⟨x, _, hsome, hdrop⟩
  · simp only [hnone, hdrop]
  · rcases drop_cases lines (i + 2) with ⟨_, hnone2, hdrop2⟩ | ⟨y, _, hsome2, hdrop2⟩
    · simp only [hsome, hdrop, hnone2, hdrop2]
    · simp only [hsome, hdrop, hsome2, hdrop2]

/-- A pending skip of `skip` lines is the same as dropping them. -/
theorem parseLoop_skip (ls : List String) :
    ∀ (skip : Nat) (b : Bool), parseLoop ls skip b = parseLoop (ls.drop skip) 0 b := by
  induction ls with
  | nil =>
    intro skip b
    cases skip <;> rfl
  | cons x ls ih =>
    intro skip b
    cases skip with
    | zero => rfl
    | succ k =>
      rw [List.drop_succ_cons, ← ih k b]
      simp only [parseLoop]

/-- The function `parseLineEntity` is its scan followed by its end. -/
theorem parseLineEntity_eq_finish (rest : List String) :
    parseLineEntity rest =
      finishLine (scanRecord (stopUnless ["LINE"]) lineUpdate lateZero (80 - 1) rest 1 {} 0) :=
  rfl

/-- The function `parsePolylineEntity` is its scan followed by its end. -/
theorem parsePolylineEntity_eq_finish (rest : List String) :
    parsePolylineEntity rest =
      finishPolyline (scanRecord polylineEarly polylineUpdate polylineLate (500 - 1) rest 1 {} 0) :=
  rfl

/-- The function `parseTextEntity` is its scan followed by its end. -/
theorem parseTextEntity_eq_finish (marker : String) (rest : List String) :
    parseTextEntity marker rest =
      finishText (scanRecord (stopUnless ["TEXT", "MTEXT"])
        (textUpdate (decide (trim marker = "MTEXT"))) lateZero (150 - 1) rest 1 {} 0) :=
  rfl

/-- The function `parseSplineEntity` is its scan followed by its end. -/
theorem parseSplineEntity_eq_finish (rest : List String) :
    parseSplineEntity rest =
      finishSpline (scanRecord splineEarly splineUpdate (fun _ _ => false) (500 - 1) rest 1 {} 0) :=
  rfl

/-- The function `parse3DFaceEntity` is its scan followed by its end. -/
theorem parse3DFaceEntity_eq_finish (rest : List String) :
    parse3DFaceEntity rest =
      finishFace (scanRecord (stopUnless ["SOLID", "TRACE", "3DFACE"]) faceUpdate lateZero
        (120 - 1) rest 1 {} 0) :=
  rfl

/-- The chain of `parse` on the array never fails and starts the decoder that
the chain on the suffix starts, with the same result. -/
theorem dispatchAt_eq (lines : List String) (i : Nat) (x line : String)
    (hx : lines[i]? = some x) :
    dispatchAt lines i line = .ok (dispatch x line (lines.drop (i + 1))) := by
  have hscan : ∀ {σ : Type} (early : String → String → EarlyExit)
      (update : σ → String → String → List String → σ) (late : String → String → Bool)
      (cap : Nat) (d0 : σ), 0 < cap →
      scanRecordAt early (pureUpdate lines update) late lines i cap cap (i + 1) d0 0 =
        .ok (scanRecord early update late (cap - 1) (lines.drop (i + 1)) 1 d0 0) := by
    intro σ early update late cap d0 hcap
    have h := scanRecordAt_eq early update (pureUpdate lines update) late lines i cap
      (fun _ _ _ _ => rfl) cap (cap - 1) (i + 1) d0 0 (by omega) (by omega) (by omega)
    rw [Nat.add_sub_cancel_left] at h
    exact h
  have htext : ∀ (b : Bool),
      scanRecordAt (stopUnless ["TEXT", "MTEXT"]) (textUpdateAt lines b) lateZero lines i 150 150
          (i + 1) {} 0 =
        .ok (scanRecord (stopUnless ["TEXT", "MTEXT"]) (textUpdate b) lateZero (150 - 1)
          (lines.drop (i + 1)) 1 {} 0) := by
    intro b
    have h := scanRecordAt_eq (stopUnless ["TEXT", "MTEXT"]) (textUpdate b)
      (textUpdateAt lines b) lateZero lines i 150 (textUpdateAt_eq lines b) 150 (150 - 1) (i + 1)
      {} 0 (by omega) (by omega) (by omega)
    rw [Nat.add_sub_cancel_left] at h
    exact h
  have htrim : trimAt lines i = .ok (trim x) := by simp only [trimAt, hx]
  unfold dispatchAt dispatch
  by_cases h1 : line = "LINE"
  · rw [if_pos h1, if_pos h1, hscan (stopUnless ["LINE"]) lineUpdate lateZero 80 {} (by omega),
      parseLineEntity_eq_finish]
    rfl
  rw [if_neg h1, if_neg h1]
  by_cases h2 : line = "CIRCLE"
  · rw [if_pos h2, if_pos h2,
      hscan (stopUnless ["CIRCLE"]) circleUpdate lateZero 80 {} (by omega)]
    rfl
  rw [if_neg h2, if_neg h2]
  by_cases h3 : line = "ARC"
  · rw [if_pos h3, if_pos h3, hscan (stopUnless ["ARC"]) arcUpdate lateZero 100 {} (by omega)]
    rfl
  rw [if_neg h3, if_neg h3]
  by_cases h4 : line = "LWPOLYLINE" ∨ line = "POLYLINE"
  · rw [if_pos h4, if_pos h4, hscan polylineEarly polylineUpdate polylineLate 500 {} (by omega),
      parsePolylineEntity_eq_finish]
    rfl
  rw [if_neg h4, if_neg h4]
  by_cases h5 : line = "TEXT" ∨ line = "MTEXT"
  · rw [if_pos h5, if_pos h5, htrim]
    simp only []
    rw [htext, parseTextEntity_eq_finish]
    rfl
  rw [if_neg h5, if_neg h5]
  by_cases h6 : line = "ELLIPSE"
  · rw [if_pos h6, if_pos h6,
      hscan (stopUnless ["ELLIPSE"]) ellipseUpdate lateZero 100 {} (by omega)]
    rfl
  rw [if_neg h6, if_neg h6]
  by_cases h7 : line = "SPLINE"
  · rw [if_pos h7, if_pos h7, hscan splineEarly splineUpdate (fun _ _ => false) 500 {} (by omega),
      parseSplineEntity_eq_finish]
    rfl
  rw [if_neg h7, if_neg h7]
  by_cases h8 : line = "POINT"
  · rw [if_pos h8, if_pos h8, hscan (stopUnless ["POINT"]) pointUpdate lateZero 60 {} (by omega)]
    rfl
  rw [if_neg h8, if_neg h8]
  by_cases h9 : line = "SOLID" ∨ line = "TRACE" ∨ line = "3DFACE"
  · rw [if_pos h9, if_pos h9,
      hscan (stopUnless ["SOLID", "TRACE", "3DFACE"]) faceUpdate lateZero 120 {} (by omega),
      parse3DFaceEntity_eq_finish]
    rfl
  rw [if_neg h9, if_neg h9]

/-- The loop of `parse` on the array never fails and, with more fuel than lines
left, returns the entities pushed so far followed by what the loop on the suffix
pushes. -/
theorem parseLoopAt_eq (lines : List String) :
    ∀ (fuel i : Nat) (b : Bool) (entities : List Entity), lines.length - i < fuel →
      parseLoopAt lines fuel i b entities = .ok (entities ++ parseLoop (lines.drop i) 0 b) := by
  intro fuel
  induction fuel with
  | zero =>
    intro i b entities hlt
    exact absurd hlt (Nat.not_lt_zero _)
  | succ fuel ih =>
    intro i b entities hlt
    rcases drop_cases lines i with ⟨hlen, _, hdrop⟩ | ⟨x, hlen, hsome, hdrop⟩
    · rw [parseLoopAt, if_neg (by omega), hdrop]
      simp [parseLoop]
    · have htrim : trimAt lines i = .ok (trim x) := by simp only [trimAt, hsome]
      rw [parseLoopAt, if_pos hlen, htrim, hdrop, parseLoop_cons_zero]
      simp only [sectionStateAt_eq, dispatchAt_eq lines i x (trim x) hsome]
      split_ifs with hsec
      · cases hd : dispatch x (trim x) (lines.drop (i + 1)) with
        | none =>
          simp only []
          exact ih (i + 1) _ _ (by omega)
        | some r =>
          obtain ⟨entity, scanLength⟩ := r
          simp only []
          rw [ih (i + scanLength + 1) _ _ (by omega), parseLoop_skip (lines.drop (i + 1)),
            List.drop_drop, List.append_assoc]
          have : i + 1 + scanLength = i + scanLength + 1 := by omega
          rw [this]
          rfl
      · exact ih (i + 1) _ _ (by omega)

/-- C15: on the array model, in which `.trim()` on `undefined` and a loop that
does not end are failures, `parse` fails on no input: with `lines.length + 1`
iterations of fuel it returns the entity list of `parse`.  A read
`lines[j]?.trim() || ''` past the last line gives the empty string, and a value
that `parseFloat` does not read as a number is replaced by the default of the
field (`parseFloat(value) || d`, `Math.abs(parseFloat(value)) || d`). -/
theorem parse_total (content : String) (lines : List String) (j : Nat) (value : String)
    (d : JSNum) :
    parseAt content = .ok (parse content) ∧
    (lines.length ≤ j → trimAtOr lines j = "") ∧
    (parseFloat value = .nan → floatOr value d = d ∧ absFloatOr value d = d) ∧
    parseFloat "" = .nan ∧ parseFloat "abc" = .nan := by
  refine ⟨?_, ?_, ?_, by decide!, by decide!⟩
  · unfold parseAt
    simp only
    rw [parseLoopAt_eq (splitLines content) _ 0 false [] (by omega)]
    rfl
  · intro h
    simp only [trimAtOr, List.getElem?_eq_none h]
  · intro h
    simp [floatOr, absFloatOr, h, JSNum.or, JSNum.abs, JSNum.truthy]

/-- C15 on a drawing that ends on the code line `10` with no value line: the
read of the value line gives the empty string, and `parse` returns a list. -/
theorem parse_total_witness :
    trimAtOr ["0", "SECTION", "2", "ENTITIES", "0", "LINE", "10"] 7 = "" ∧
    floatOr "" (.fin 0) = .fin 0 ∧
    parseAt "0\nSECTION\n2\nENTITIES\n0\nLINE\n10" =
      .ok (parse "0\nSECTION\n2\nENTITIES\n0\nLINE\n10") :=
  ⟨(parse_total "" ["0", "SECTION", "2", "ENTITIES", "0", "LINE", "10"] 7 "" (.fin 0)).2.1
      (by decide),
    ((parse_total "" [] 0 "" (.fin 0)).2.2.1 (by decide!)).1,
    (parse_total "0\nSECTION\n2\nENTITIES\n0\nLINE\n10" [] 0 "" (.fin 0)).1⟩

/-- The preview bounds skip exactly the point entities: on every other entity
the two loop bodies agree. -/
theorem extendPreview_eq (a : Extent) (e : Entity) (h : e.type ≠ "point") :
    extendPreview a e = extend a e := by
  cases e <;> first | rfl | exact absurd rfl h

/-- A point entity leaves the running extent of the preview unchanged. -/
theorem extendPreview_point (a : Extent) (e : Entity) (h : e.type = "point") :
    extendPreview a e = a := by
  cases e <;> first | rfl | exact absurd h (by simp [Entity.type])

/-- The loop of `calculateDrawingBounds` is the loop of `calculateBounds` on
the list without its point entities. -/
theorem foldl_extendPreview (es : List Entity) :
    ∀ a : Extent, es.foldl extendPreview a =
      (es.filter (fun e => decide (e.type ≠ "point"))).foldl extend a := by
  induction es with
  | nil => intro a; rfl
  | cons e es ih =>
    intro a
    by_cases h : e.type = "point"
    · rw [List.foldl_cons, extendPreview_point a e h, ih, List.filter_cons_of_neg (by simpa using h)]
    · rw [List.foldl_cons, extendPreview_eq a e h, ih, List.filter_cons_of_pos (by simpa using h),
        List.foldl_cons]

/-- C22: `calculateDrawingBounds` lacks the `point` branch of `calculateBounds`,
of which it is otherwise a copy.  On the list returned by `parse` for a drawing
with one POINT record, the export bounds are the rectangle (-25, -25, 60, 60)
while the preview bounds are (Infinity, Infinity, -Infinity, -Infinity). -/
theorem preview_bounds_differ_on_point :
    parse pointRecordContent = [.point (.fin 5) (.fin 5) white none] ∧
    calculateBounds (some (parse pointRecordContent)) =
      ⟨.fin (-25), .fin (-25), .fin 60, .fin 60⟩ ∧
    calculateDrawingBounds (some (parse pointRecordContent)) = ⟨.pinf, .pinf, .ninf, .ninf⟩ ∧
    calculateDrawingBounds (some (parse pointRecordContent)) ≠
      calculateBounds (some (parse pointRecordContent)) := by
  decide!

/-- The extent of the divergence between the two bounds calculators: for a
missing entity list and for every entity list without an entity of type point,
`calculateDrawingBounds` and `calculateBounds` return the same rectangle; on a
list with point entities the preview loop is the export loop run on the list
without them. -/
theorem preview_bounds_eq_without_points (es : List Entity)
    (h : ∀ e ∈ es, e.type ≠ "point") :
    calculateDrawingBounds (some es) = calculateBounds (some es) ∧
    calculateDrawingBounds none = calculateBounds none ∧
    ∀ (all : List Entity) (a : Extent), all.foldl extendPreview a =
      (all.filter (fun e => decide (e.type ≠ "point"))).foldl extend a := by
  refine ⟨?_, rfl, foldl_extendPreview⟩
  cases es with
  | nil => rfl
  | cons e es =>
    have hf : (e :: es).filter (fun e => decide (e.type ≠ "point")) = e :: es :=
      List.filter_eq_self.mpr (fun x hx => by simpa using h x hx)
    simp only [calculateDrawingBounds, calculateBounds]
    rw [foldl_extendPreview, hf]

/-- The two bounds calculators agree on the list of a line, a circle and an arc. -/
theorem preview_bounds_eq_without_points_witness :
    calculateDrawingBounds (some threeEntities) = calculateBounds (some threeEntities) ∧
    calculateDrawingBounds none = calculateBounds none ∧
    ∀ (all : List Entity) (a : Extent), all.foldl extendPreview a =
      (all.filter (fun e => decide (e.type ≠ "point"))).foldl extend a :=
  preview_bounds_eq_without_points threeEntities (by decide)

/-- The transform of `renderCanvas` on finite numbers: the point (x, y) is drawn
at (offsetX + scaledWidth + scale (x - minX), offsetY - scale (y - minY)). -/
theorem previewTransform_apply (containerWidth containerHeight : JSNum)
    (s scaledWidth scaledHeight offsetX offsetY minX minY x y : ℚ) (width height : JSNum) :
    (previewTransform ⟨containerWidth, containerHeight, .fin s, .fin scaledWidth,
        .fin scaledHeight, .fin offsetX, .fin offsetY⟩ ⟨.fin minX, .fin minY, width, height⟩).apply
        (.fin x, .fin y) =
      (.fin (offsetX + scaledWidth + s * (x - minX)), .fin (offsetY - s * (y - minY))) := by
  simp only [previewTransform, CanvasMatrix.identity, CanvasMatrix.translate, CanvasMatrix.scale,
    CanvasMatrix.apply, JSNum.add, JSNum.mul, JSNum.neg, Prod.mk.injEq, JSNum.fin.injEq]
  constructor <;> ring

/-- For scale > 0 the only point of the bounds rectangle that `renderCanvas`
draws inside the dashed border is the corner (minX, minY). -/
theorem previewTransform_outside (containerWidth containerHeight : JSNum)
    (s scaledWidth scaledHeight offsetX offsetY minX minY x y : ℚ) (width height : JSNum)
    (hs : 0 < s) (hne : minX < x ∨ minY < y) :
    insideBorder ⟨containerWidth, containerHeight, .fin s, .fin scaledWidth,
        .fin scaledHeight, .fin offsetX, .fin offsetY⟩
      ((previewTransform ⟨containerWidth, containerHeight, .fin s, .fin scaledWidth,
        .fin scaledHeight, .fin offsetX, .fin offsetY⟩ ⟨.fin minX, .fin minY, width, height⟩).apply
        (.fin x, .fin y)) = false := by
  rw [previewTransform_apply]
  simp only [insideBorder, JSNum.le, JSNum.add, Bool.and_eq_false_iff, decide_eq_false_iff_not,
    not_le]
  rcases hne with h | h
  · left; left; right
    have : 0 < s * (x - minX) := mul_pos hs (by linarith)
    linarith
  · left; right
    have : 0 < s * (y - minY) := mul_pos hs (by linarith)
    linarith

/-- C26: in a container of 860 by 560 pixels, at zoom 1 and without panning, the
bounds (0, 0, 500, 350) give scale 44/35 and the dashed border
[600/7, 5000/7] x [30, 470]; the transform of `renderCanvas` draws the centre
(250, 175) of the bounds at (7200/7, -190) and the corner (500, 350) at
(9400/7, -410), both outside the border and outside the canvas of 800 by 500
pixels, and the corner (0, 0) at the top right corner (5000/7, 30) of the border. -/
theorem renderCanvas_draws_outside_border :
    previewLayout (.fin 860) (.fin 560) (.fin 1) (.fin 0) (.fin 0)
        ⟨.fin 0, .fin 0, .fin 500, .fin 350⟩ =
      ⟨.fin 800, .fin 500, .fin (44 / 35), .fin (4400 / 7), .fin 440, .fin (600 / 7), .fin 30⟩ ∧
    (previewTransform (previewLayout (.fin 860) (.fin 560) (.fin 1) (.fin 0) (.fin 0)
        ⟨.fin 0, .fin 0, .fin 500, .fin 350⟩) ⟨.fin 0, .fin 0, .fin 500, .fin 350⟩).apply
        (.fin 250, .fin 175) = (.fin (7200 / 7), .fin (-190)) ∧
    (previewTransform (previewLayout (.fin 860) (.fin 560) (.fin 1) (.fin 0) (.fin 0)
        ⟨.fin 0, .fin 0, .fin 500, .fin 350⟩) ⟨.fin 0, .fin 0, .fin 500, .fin 350⟩).apply
        (.fin 500, .fin 350) = (.fin (9400 / 7), .fin (-410)) ∧
    (previewTransform (previewLayout (.fin 860) (.fin 560) (.fin 1) (.fin 0) (.fin 0)
        ⟨.fin 0, .fin 0, .fin 500, .fin 350⟩) ⟨.fin 0, .fin 0, .fin 500, .fin 350⟩).apply
        (.fin 0, .fin 0) = (.fin (5000 / 7), .fin 30) ∧
    insideBorder (previewLayout (.fin 860) (.fin 560) (.fin 1) (.fin 0) (.fin 0)
        ⟨.fin 0, .fin 0, .fin 500, .fin 350⟩)
      ((previewTransform (previewLayout (.fin 860) (.fin 560) (.fin 1) (.fin 0) (.fin 0)
        ⟨.fin 0, .fin 0, .fin 500, .fin 350⟩) ⟨.fin 0, .fin 0, .fin 500, .fin 350⟩).apply
        (.fin 250, .fin 175)) = false ∧
    insideBorder (previewLayout (.fin 860) (.fin 560) (.fin 1) (.fin 0) (.fin 0)
        ⟨.fin 0, .fin 0, .fin 500, .fin 350⟩)
      ((previewTransform (previewLayout (.fin 860) (.fin 560) (.fin 1) (.fin 0) (.fin 0)
        ⟨.fin 0, .fin 0, .fin 500, .fin 350⟩) ⟨.fin 0, .fin 0, .fin 500, .fin 350⟩).apply
        (.fin 500, .fin 350)) = false := by
  decide!

/-- Every item that `handleFiles` stores is built from a file of the list, with
`data` null and without a `content` property. -/
theorem handleFiles_item (toLowerCase : String → String) (isProcessing : Bool)
    (fileList : List JSFile) (items : List FileItem)
    (h : handleFiles toLowerCase isProcessing fileList = some items) :
    ∀ item ∈ items, ∃ f ∈ fileList,
      item = ⟨f, none, extensionOf toLowerCase f.name, none⟩ := by
  unfold handleFiles at h
  by_cases hp : isProcessing = true
  · rw [if_pos hp] at h
    exact absurd h (by simp)
  · rw [if_neg hp] at h
    dsimp only at h
    split_ifs at h
    simp only [Option.some.injEq] at h
    subst h
    intro item hitem
    rw [List.mem_map] at hitem
    obtain ⟨f, hf, rfl⟩ := hitem
    exact ⟨f, (List.mem_filter.mp hf).1, rfl⟩

/-- C30: for every item that `handleFiles` stores and `processConversion`
hands on, the drawing data of `createPDF` is the list of
`generatePlaceholderData`; so two items, of any two file lists, give the same
drawing data and the same bounds, whatever the text of their files; and
`createMultiPagePDF` uses the placeholder on every page. -/
theorem createPDF_ignores_file_text (toLowerCase : String → String) (isProcessing₁ isProcessing₂ : Bool)
    (fileList₁ fileList₂ : List JSFile) (items₁ items₂ : List FileItem) (item₁ item₂ : FileItem)
    (h₁ : handleFiles toLowerCase isProcessing₁ fileList₁ = some items₁)
    (h₂ : handleFiles toLowerCase isProcessing₂ fileList₂ = some items₂)
    (hm₁ : item₁ ∈ processConversion items₁) (hm₂ : item₂ ∈ processConversion items₂) :
    item₁.content = none ∧ item₁.data = none ∧
    (∃ f ∈ fileList₁, item₁.file = f ∧ item₁.extension = extensionOf toLowerCase f.name) ∧
    createPDFData item₁ = generatePlaceholderData ∧
    createPDFData item₁ = createPDFData item₂ ∧
    calculateBounds (some (createPDFData item₁)) = calculateBounds (some (createPDFData item₂)) ∧
    ∀ fileItems : List FileItem, ∀ data ∈ createMultiPagePDFData fileItems,
      data = generatePlaceholderData := by
  obtain ⟨f₁, hf₁, rfl⟩ := handleFiles_item toLowerCase isProcessing₁ fileList₁ items₁ h₁ item₁ hm₁
  obtain ⟨f₂, _, rfl⟩ := handleFiles_item toLowerCase isProcessing₂ fileList₂ items₂ h₂ item₂ hm₂
  refine ⟨rfl, rfl, ⟨f₁, hf₁, rfl, rfl⟩, rfl, rfl, rfl, ?_⟩
  intro fileItems data hdata
  simp only [createMultiPagePDFData, List.mem_map] at hdata
  obtain ⟨_, _, rfl⟩ := hdata
  rfl

/-- Two files named a.dxf and b.dxf for the witness of C30: the first holds the
drawing of `testDXFContent`, the second a drawing with one LINE record. -/
theorem createPDF_ignores_file_text_witness :
    (⟨⟨"a.dxf", 300, testDXFContent⟩, none, "dxf", none⟩ : FileItem).content = none ∧
    (⟨⟨"a.dxf", 300, testDXFContent⟩, none, "dxf", none⟩ : FileItem).data = none ∧
    (∃ f ∈ [(⟨"a.dxf", 300, testDXFContent⟩ : JSFile)],
      (⟨⟨"a.dxf", 300, testDXFContent⟩, none, "dxf", none⟩ : FileItem).file = f ∧
      (⟨⟨"a.dxf", 300, testDXFContent⟩, none, "dxf", none⟩ : FileItem).extension =
        extensionOf id f.name) ∧
    createPDFData ⟨⟨"a.dxf", 300, testDXFContent⟩, none, "dxf", none⟩ = generatePlaceholderData ∧
    createPDFData ⟨⟨"a.dxf", 300, testDXFContent⟩, none, "dxf", none⟩ =
      createPDFData ⟨⟨"b.dxf", 80, lineRecordContent⟩, none, "dxf", none⟩ ∧
    calculateBounds (some (createPDFData ⟨⟨"a.dxf", 300, testDXFContent⟩, none, "dxf", none⟩)) =
      calculateBounds (some (createPDFData ⟨⟨"b.dxf", 80, lineRecordContent⟩, none, "dxf", none⟩)) ∧
    ∀ fileItems : List FileItem, ∀ data ∈ createMultiPagePDFData fileItems,
      data = generatePlaceholderData :=
  createPDF_ignores_file_text id false false [⟨"a.dxf", 300, testDXFContent⟩]
    [⟨"b.dxf", 80, lineRecordContent⟩] [⟨⟨"a.dxf", 300, testDXFContent⟩, none, "dxf", none⟩]
    [⟨⟨"b.dxf", 80, lineRecordContent⟩, none, "dxf", none⟩] _ _ (by decide!) (by decide!)
    (by simp [processConversion]) (by simp [processConversion])

/-- C27: `drawRect` throws the reference error for `toPDF` on every rectangle,
so `drawEntities` throws it on the placeholder drawing (whose first entity is a
rectangle) for every bounds, placement and setting, before any entity is drawn;
of the twelve placeholder entities the routines of the six lines, the circle and
the text complete and those of the four rectangles throw; the loop of
`createMultiPagePDF` draws the first placeholder rectangle with its corner at
`toPDF(x, y + h)`. -/
theorem drawEntities_placeholder_throws :
    (∀ (x y w h : JSNum) (color : RGB) (fill : Bool) (bounds : Bounds) (scale lineWidth : JSNum),
      drawRect x y w h color fill bounds scale lineWidth = .error (.referenceError "toPDF")) ∧
    (∀ (bounds : Bounds) (offsetX offsetY scaledWidth scaledHeight scale : JSNum)
        (quality colorMode : String),
      drawEntities generatePlaceholderData bounds offsetX offsetY scaledWidth scaledHeight scale
        quality colorMode = .error (.referenceError "toPDF")) ∧
    (∀ (bounds : Bounds) (toPDF : JSNum → JSNum → Pt) (scale dpiScale lineWidth : JSNum),
      generatePlaceholderData.map
          (fun ent => (drawByType bounds toPDF scale dpiScale lineWidth ent).toBool) =
        [false, false, true, true, true, true, true, true, false, false, true, true]) ∧
    generatePlaceholderData.map Entity.type =
      ["rect", "rect", "line", "line", "line", "line", "line", "line", "rect", "rect", "circle",
        "text"] ∧
    (∀ (bounds : Bounds) (offsetX offsetY scaledHeight scale dpiScale lineWidth : JSNum),
      multiPageDrawOne (toPDF bounds offsetX offsetY scaledHeight scale) scale dpiScale lineWidth
          "color" (.rect (.fin 50) (.fin 50) (.fin 400) (.fin 200) ⟨255, 255, 255⟩ false) =
        [.setDrawColor (.fin 255) (.fin 255) (.fin 255),
          .setFillColor (.fin 255) (.fin 255) (.fin 255),
          .setLineWidth lineWidth,
          .rect (toPDF bounds offsetX offsetY scaledHeight scale (.fin 50)
              ((JSNum.fin 50).add (.fin 200))).1
            (toPDF bounds offsetX offsetY scaledHeight scale (.fin 50)
              ((JSNum.fin 50).add (.fin 200))).2
            ((JSNum.fin 400).mul scale) ((JSNum.fin 200).mul scale) none]) := by
  refine ⟨fun _ _ _ _ _ _ _ _ _ => rfl, fun _ _ _ _ _ _ _ _ => rfl, fun _ _ _ _ _ => rfl, rfl,
    fun _ _ _ _ _ _ _ => rfl⟩


/-- A visited line that does not start an ENTITIES or BLOCKS header leaves the
mode off. -/
theorem sectionState_off (raw : String) (rest : List String)
    (h : startsEntitySection (raw :: rest) = false) :
    sectionState (trim raw) rest false = false := by
  unfold sectionState
  by_cases h1 : trim raw = "SECTION"
  · rw [if_pos h1]
    cases rest with
    | nil => rfl
    | cons n rest2 =>
      cases rest2 with
      | nil => simp
      | cons s rest3 =>
        simp only [startsEntitySection, decide_eq_false_iff_not, not_and] at h
        have h3 := h h1
        by_cases h2 : trim n = "2"
        · simp only [if_pos h2, if_neg (h3 h2)]
          split_ifs <;> rfl
        · simp only [if_neg h2]
  · rw [if_neg h1]
    split_ifs <;> rfl

/-- While the mode is off the scan passes over every run of lines in which no
ENTITIES or BLOCKS header starts, without pushing an entity. -/
theorem parseLoop_off_prefix (rest : List String) : ∀ pre : List String,
    (∀ k < pre.length, startsEntitySection ((pre ++ rest).drop k) = false) →
    parseLoop (pre ++ rest) 0 false = parseLoop rest 0 false := by
  intro pre
  induction pre with
  | nil => intro _; rfl
  | cons raw pre ih =>
    intro h
    have h0 := h 0 (by simp)
    simp only [List.drop_zero, List.cons_append] at h0
    have hs := sectionState_off raw (pre ++ rest) h0
    rw [List.cons_append, parseLoop_cons_zero, hs]
    simp only [Bool.false_eq_true, if_false]
    apply ih
    intro k hk
    have := h (k + 1) (by simpa using hk)
    simpa using this

/-- C23: the scan starts with the mode off; a visited line `SECTION` followed by
`2` and by `ENTITIES` or `BLOCKS` turns it on, one followed by `2` and by
`TABLES` or `OBJECTS` turns it off, a visited line `ENDSEC` turns it off, and
every other visited line leaves it as it is; a visited line is dispatched only
if the mode, after this update, is on; so the lines before the first
ENTITIES or BLOCKS header, and the lines between a visited `ENDSEC` and the next
such header, add no entity. -/
theorem section_mode_gates_dispatch (content raw line n s : String) (rest pre : List String)
    (b : Bool) :
    scanEntities content = parseLoop (splitLines content) 0 false ∧
    (trim n = "2" → (trim s = "ENTITIES" ∨ trim s = "BLOCKS") →
      sectionState "SECTION" (n :: s :: rest) b = true) ∧
    (trim n = "2" → (trim s = "TABLES" ∨ trim s = "OBJECTS") →
      sectionState "SECTION" (n :: s :: rest) b = false) ∧
    sectionState "ENDSEC" rest b = false ∧
    (line ≠ "ENDSEC" →
      (line = "SECTION" → ∀ n2 s2 rest2, rest = n2 :: s2 :: rest2 → trim n2 = "2" →
        trim s2 ≠ "ENTITIES" ∧ trim s2 ≠ "BLOCKS" ∧ trim s2 ≠ "TABLES" ∧ trim s2 ≠ "OBJECTS") →
      sectionState line rest b = b) ∧
    (sectionState (trim raw) rest b = false →
      parseLoop (raw :: rest) 0 b = parseLoop rest 0 false) ∧
    (sectionState (trim raw) rest b = true →
      parseLoop (raw :: rest) 0 b =
        match dispatch raw (trim raw) rest with
        | some (entity, scanLength) => entity :: parseLoop rest scanLength true
        | none => parseLoop rest 0 true) ∧
    ((∀ k < pre.length, startsEntitySection ((pre ++ rest).drop k) = false) →
      parseLoop (pre ++ rest) 0 false = parseLoop rest 0 false) ∧
    (trim raw = "ENDSEC" →
      (∀ k < pre.length, startsEntitySection ((pre ++ rest).drop k) = false) →
      parseLoop (raw :: (pre ++ rest)) 0 b = parseLoop rest 0 false) := by
  refine ⟨rfl, ?_, ?_, ?_, ?_, ?_, ?_, parseLoop_off_prefix rest pre, ?_⟩
  · intro h2 hs
    simp [sectionState, h2, hs]
  · intro h2 hs
    have hne : ¬(trim s = "ENTITIES" ∨ trim s = "BLOCKS") := by
      rcases hs with hs | hs <;> rw [hs] <;> decide
    simp [sectionState, h2, hs, hne]
  · simp [sectionState]
  · intro hE hS
    unfold sectionState
    by_cases h1 : line = "SECTION"
    · rw [if_pos h1]
      cases rest with
      | nil => rfl
      | cons n2 rest2 =>
        cases rest2 with
        | nil => simp
        | cons s2 rest3 =>
          by_cases h2 : trim n2 = "2"
          · obtain ⟨a1, a2, a3, a4⟩ := hS h1 n2 s2 rest3 rfl h2
            simp [h2, a1, a2, a3, a4]
          · simp [h2]
    · rw [if_neg h1, if_neg hE]
  · intro hs
    rw [parseLoop_cons_zero, hs]
    simp
  · intro hs
    rw [parseLoop_cons_zero, hs]
    rfl
  · intro hE h
    have hs : sectionState (trim raw) (pre ++ rest) b = false := by
      rw [hE]; simp [sectionState]
    rw [parseLoop_cons_zero, hs]
    simp only [Bool.false_eq_true, if_false]
    exact parseLoop_off_prefix rest pre h

/-- C23 on a LINE record placed before the header of the ENTITIES section and on
a LINE record placed after a line `ENDSEC`: in both places the record adds no
entity, and the scan of the section gives the circle and nothing else. -/
theorem section_mode_gates_dispatch_witness :
    parseLoop (lineRecordLines ++ circleSectionLines) 0 false =
      parseLoop circleSectionLines 0 false ∧
    parseLoop ("ENDSEC" :: (lineRecordLines ++ circleSectionLines)) 0 true =
      parseLoop circleSectionLines 0 false ∧
    sectionState "SECTION" ("2" :: "ENTITIES" :: ["0", "CIRCLE"]) false = true ∧
    sectionState "SECTION" ("2" :: "TABLES" :: ["0", "CIRCLE"]) true = false ∧
    sectionState "SECTION" ["2", "HEADER", "9"] true = true ∧
    parseLoop ("CIRCLE" :: ["10", "7"]) 0 false = parseLoop ["10", "7"] 0 false ∧
    parseLoop circleSectionLines 0 false = [.circle (.fin 7) (.fin 6) (.fin 9) white none] :=
  ⟨(section_mode_gates_dispatch "" "" "" "" "" circleSectionLines lineRecordLines false).2.2.2.2.2.2.2.1
      (by decide!),
    (section_mode_gates_dispatch "" "ENDSEC" "" "" "" circleSectionLines lineRecordLines
      true).2.2.2.2.2.2.2.2 (by decide!) (by decide!),
    (section_mode_gates_dispatch "" "" "" "2" "ENTITIES" ["0", "CIRCLE"] [] false).2.1 (by decide!)
      (by decide!),
    (section_mode_gates_dispatch "" "" "" "2" "TABLES" ["0", "CIRCLE"] [] true).2.2.1 (by decide!)
      (by decide!),
    (section_mode_gates_dispatch "" "" "SECTION" "" "" ["2", "HEADER", "9"] [] true).2.2.2.2.1
      (by decide) (fun _ n2 s2 rest2 h _ => by
        simp only [List.cons.injEq] at h
        obtain ⟨_, h2, _⟩ := h
        subst h2
        decide!),
    (section_mode_gates_dispatch "" "CIRCLE" "" "" "" ["10", "7"] [] false).2.2.2.2.2.1
      (by decide!),
    by decide!⟩


/-- The `scanLength` of a decoder loop is its initial value or the offset of a
line the loop visited: one of the first `n` lines of the list. -/
theorem scanRecord_snd_range {σ : Type} (early : String → String → EarlyExit)
    (update : σ → String → String → List String → σ) (late : String → String → Bool) :
    ∀ (n : Nat) (ls : List String) (k : Nat) (d : σ) (sl : Nat),
      (scanRecord early update late n ls k d sl).2 = sl ∨
      (k ≤ (scanRecord early update late n ls k d sl).2 ∧
        (scanRecord early update late n ls k d sl).2 < k + Min.min n ls.length) := by
  intro n
  induction n with
  | zero => intro ls k d sl; left; simp [scanRecord]
  | succ n ih =>
    intro ls k d sl
    cases ls with
    | nil => left; simp [scanRecord]
    | cons l rest =>
      have hk : k < k + Min.min (n + 1) (rest.length + 1) := by
        have : 0 < Min.min (n + 1) (rest.length + 1) := lt_min (by omega) (by omega)
        omega
      have hmin : Min.min (n + 1) (rest.length + 1) = Min.min n rest.length + 1 := by
        simp [Nat.succ_min_succ]
      have key : ∀ value : String,
          (match early (trim l) value with
            | .stop => (d, sl)
            | .stopAt => (d, k)
            | .go =>
              if late (trim l) value then (update d (trim l) value rest, k)
              else scanRecord early update late n rest (k + 1) (update d (trim l) value rest)
                k).2 = sl ∨
          (k ≤ (match early (trim l) value with
            | .stop => (d, sl)
            | .stopAt => (d, k)
            | .go =>
              if late (trim l) value then (update d (trim l) value rest, k)
              else scanRecord early update late n rest (k + 1) (update d (trim l) value rest)
                k).2 ∧
            (match early (trim l) value with
            | .stop => (d, sl)
            | .stopAt => (d, k)
            | .go =>
              if late (trim l) value then (update d (trim l) value rest, k)
              else scanRecord early update late n rest (k + 1) (update d (trim l) value rest)
                k).2 < k + Min.min (n + 1) (rest.length + 1)) := by
        intro value
        cases early (trim l) value with
        | stop => left; rfl
        | stopAt => right; exact ⟨le_refl _, hk⟩
        | go =>
          simp only
          by_cases hl : late (trim l) value = true
          · rw [if_pos hl]
            right; exact ⟨le_refl _, hk⟩
          · rw [if_neg hl]
            right
            rcases ih rest (k + 1) (update d (trim l) value rest) k with h | ⟨h1, h2⟩
            · rw [h]; exact ⟨le_refl _, hk⟩
            · exact ⟨by omega, by omega⟩
      simp only [scanRecord, List.length_cons]
      exact key _

/-- A decoder loop started at offset 1 with `scanLength = 0` and `cap - 1`
iterations reports at most `cap - 1` and at most the number of lines that follow
the marker. -/
theorem scanRecord_snd_cap {σ : Type} (early : String → String → EarlyExit)
    (update : σ → String → String → List String → σ) (late : String → String → Bool)
    (n : Nat) (rest : List String) (d : σ) :
    (scanRecord early update late n rest 1 d 0).2 ≤ n ∧
    (scanRecord early update late n rest 1 d 0).2 ≤ rest.length := by
  rcases scanRecord_snd_range early update late n rest 1 d 0 with h | ⟨_, h2⟩
  · rw [h]; exact ⟨Nat.zero_le _, Nat.zero_le _⟩
  · have h3 : Min.min n rest.length ≤ n := min_le_left _ _
    have h4 : Min.min n rest.length ≤ rest.length := min_le_right _ _
    exact ⟨by omega, by omega⟩

/-- The `_scanLength` of the entity that the chain of `parse` gets at a type
marker is at most the cap of the kind minus one, and at most the number of lines
after the marker. -/
theorem dispatch_scanLength_cap (raw line : String) (rest : List String) (entity : Entity)
    (scanLength : Nat) (h : dispatch raw line rest = some (entity, scanLength)) :
    scanLength ≤ specCap line - 1 ∧ scanLength ≤ rest.length := by
  have key : ∀ {σ : Type} (early : String → String → EarlyExit)
      (update : σ → String → String → List String → σ) (late : String → String → Bool)
      (n : Nat) (d : σ), n ≤ specCap line - 1 →
      (scanRecord early update late n rest 1 d 0).2 ≤ specCap line - 1 ∧
      (scanRecord early update late n rest 1 d 0).2 ≤ rest.length := by
    intro σ early update late n d hn
    have := scanRecord_snd_cap early update late n rest d
    exact ⟨le_trans this.1 hn, this.2⟩
  unfold dispatch at h
  by_cases h1 : line = "LINE"
  · have hc : 80 - 1 ≤ specCap line - 1 := by rw [h1]; decide
    rw [if_pos h1] at h
    unfold parseLineEntity at h
    simp only at h
    split_ifs at h
    simp only [Option.some.injEq, Prod.mk.injEq] at h
    rw [← h.2]
    exact key _ _ _ _ _ hc
  rw [if_neg h1] at h
  by_cases h2 : line = "CIRCLE"
  · have hc : 80 - 1 ≤ specCap line - 1 := by rw [h2]; decide
    rw [if_pos h2] at h
    simp only [parseCircleEntity, Option.some.injEq, Prod.mk.injEq] at h
    rw [← h.2]
    exact key _ _ _ _ _ hc
  rw [if_neg h2] at h
  by_cases h3 : line = "ARC"
  · have hc : 100 - 1 ≤ specCap line - 1 := by rw [h3]; decide
    rw [if_pos h3] at h
    simp only [parseArcEntity, Option.some.injEq, Prod.mk.injEq] at h
    rw [← h.2]
    exact key _ _ _ _ _ hc
  rw [if_neg h3] at h
  by_cases h4 : line = "LWPOLYLINE" ∨ line = "POLYLINE"
  · have hc : 500 - 1 ≤ specCap line - 1 := by
      rcases h4 with h4 | h4 <;> rw [h4] <;> decide
    rw [if_pos h4] at h
    unfold parsePolylineEntity at h
    simp only at h
    split_ifs at h
    all_goals
      simp only [Option.some.injEq, Prod.mk.injEq] at h
      rw [← h.2]
      exact key _ _ _ _ _ hc
  rw [if_neg h4] at h
  by_cases h5 : line = "TEXT" ∨ line = "MTEXT"
  · have hc : 150 - 1 ≤ specCap line - 1 := by
      rcases h5 with h5 | h5 <;> rw [h5] <;> decide
    rw [if_pos h5] at h
    unfold parseTextEntity at h
    simp only at h
    split_ifs at h
    simp only [Option.some.injEq, Prod.mk.injEq] at h
    rw [← h.2]
    exact key _ _ _ _ _ hc
  rw [if_neg h5] at h
  by_cases h6 : line = "ELLIPSE"
  · have hc : 100 - 1 ≤ specCap line - 1 := by rw [h6]; decide
    rw [if_pos h6] at h
    simp only [parseEllipseEntity, Option.some.injEq, Prod.mk.injEq] at h
    rw [← h.2]
    exact key _ _ _ _ _ hc
  rw [if_neg h6] at h
  by_cases h7 : line = "SPLINE"
  · have hc : 500 - 1 ≤ specCap line - 1 := by rw [h7]; decide
    rw [if_pos h7] at h
    unfold parseSplineEntity at h
    simp only at h
    split_ifs at h
    all_goals
      simp only [Option.some.injEq, Prod.mk.injEq] at h
      rw [← h.2]
      exact key _ _ _ _ _ hc
  rw [if_neg h7] at h
  by_cases h8 : line = "POINT"
  · have hc : 60 - 1 ≤ specCap line - 1 := by rw [h8]; decide
    rw [if_pos h8] at h
    simp only [parsePointEntity, Option.some.injEq, Prod.mk.injEq] at h
    rw [← h.2]
    exact key _ _ _ _ _ hc
  rw [if_neg h8] at h
  by_cases h9 : line = "SOLID" ∨ line = "TRACE" ∨ line = "3DFACE"
  · have hc : 120 - 1 ≤ specCap line - 1 := by
      rcases h9 with h9 | h9 | h9 <;> rw [h9] <;> decide
    rw [if_pos h9] at h
    simp only [parse3DFaceEntity, Option.some.injEq, Prod.mk.injEq] at h
    rw [← h.2]
    exact key _ _ _ _ _ hc
  rw [if_neg h9] at h
  exact absurd h (by simp)

/-- The cap of every type marker lies between 60 and 500. -/
theorem specCap_range (line : String) (h : isTypeMarker line = true) :
    60 ≤ specCap line ∧ specCap line ≤ 500 := by
  simp only [isTypeMarker, decide_eq_true_eq, List.mem_cons, List.mem_singleton,
    List.mem_nil_iff, or_false] at h
  rcases h with h | h | h | h | h | h | h | h | h | h | h | h | h <;> rw [h] <;> decide

/-- C25: a decoder called at a type marker on line `i` reports a `_scanLength`
with 0 <= _scanLength <= cap - 1 and i + _scanLength < lines.length, where the
cap of the kind is the one of the list LINE 80, CIRCLE 80, ARC 100,
POLYLINE 500, TEXT 150, ELLIPSE 100, SPLINE 500, POINT 60, FACE 120, between 60
and 500; the next index of the loop of `parse`, `i + _scanLength + 1`, is larger
than `i` and at most `lines.length`; the loop returns with any fuel above
`lines.length - i`, and `parse` returns on every input. -/
theorem decoder_scan_bounded (content : String) (lines : List String) (i : Nat) (x line : String)
    (entity : Entity) (scanLength : Nat) :
    (lines[i]? = some x → dispatchAt lines i line = .ok (some (entity, scanLength)) →
      0 ≤ scanLength ∧ scanLength ≤ specCap line - 1 ∧ i + scanLength < lines.length ∧
      60 ≤ specCap line ∧ specCap line ≤ 500 ∧
      i < i + scanLength + 1 ∧ i + scanLength + 1 ≤ lines.length) ∧
    [specCap "LINE", specCap "CIRCLE", specCap "ARC", specCap "LWPOLYLINE", specCap "POLYLINE",
      specCap "TEXT", specCap "MTEXT", specCap "ELLIPSE", specCap "SPLINE", specCap "POINT",
      specCap "SOLID", specCap "TRACE", specCap "3DFACE"] =
      [80, 80, 100, 500, 500, 150, 150, 100, 500, 60, 120, 120, 120] ∧
    (∀ (fuel : Nat) (b : Bool) (entities : List Entity), lines.length - i < fuel →
      parseLoopAt lines fuel i b entities = .ok (entities ++ parseLoop (lines.drop i) 0 b)) ∧
    parseAt content = .ok (parse content) := by
  refine ⟨?_, by decide, fun fuel b entities h => parseLoopAt_eq lines fuel i b entities h, ?_⟩
  · intro hx hd
    rw [dispatchAt_eq lines i x line hx] at hd
    have hd2 : dispatch x line (lines.drop (i + 1)) = some (entity, scanLength) := by
      injection hd
    have hb := dispatch_scanLength_cap x line _ entity scanLength hd2
    have hlen : i < lines.length := by
      by_contra hcon
      rw [List.getElem?_eq_none (by omega)] at hx
      exact absurd hx (by simp)
    have hmark : isTypeMarker line = true := by
      by_contra hcon
      rw [dispatch_of_not_marker x line _ (by simpa using hcon)] at hd2
      exact absurd hd2 (by simp)
    have hr := specCap_range line hmark
    rw [List.length_drop] at hb
    exact ⟨Nat.zero_le _, hb.1, by omega, hr.1, hr.2, by omega, by omega⟩
  · unfold parseAt
    simp only
    rw [parseLoopAt_eq (splitLines content) _ 0 false [] (by omega)]
    rfl

/-- C25 on the lines of an ENTITIES section with one CIRCLE record: the decoder
called at the marker on line 5 reports `_scanLength = 6`, and the loop of
`parse` continues at line 12. -/
theorem decoder_scan_bounded_witness :
    dispatchAt circleSectionLines 5 "CIRCLE" =
      .ok (some (.circle (.fin 7) (.fin 6) (.fin 9) white none, 6)) ∧
    (0 ≤ 6 ∧ 6 ≤ specCap "CIRCLE" - 1 ∧ 5 + 6 < circleSectionLines.length ∧
      60 ≤ specCap "CIRCLE" ∧ specCap "CIRCLE" ≤ 500 ∧
      5 < 5 + 6 + 1 ∧ 5 + 6 + 1 ≤ circleSectionLines.length) ∧
    parseLoopAt circleSectionLines 17 0 false [] =
      .ok ([] ++ parseLoop (circleSectionLines.drop 0) 0 false) :=
  ⟨by decide!,
    (decoder_scan_bounded "" circleSectionLines 5 "CIRCLE" "CIRCLE"
      (.circle (.fin 7) (.fin 6) (.fin 9) white none) 6).1 (by decide!) (by decide!),
    (decoder_scan_bounded "" circleSectionLines 0 "" ""
      (.circle (.fin 7) (.fin 6) (.fin 9) white none) 0).2.2.1 17 false [] (by decide)⟩


/-- The loop of `binomial` run for `m` iterations computes `n choose m`. -/
theorem binomial_loop (n : Nat) : ∀ m : Nat,
    (List.range m).foldl
      (fun (result : ℚ) (i : Nat) => result * ((n : ℚ) - (i : ℚ)) / ((i : ℚ) + 1)) 1 =
      (n.choose m : ℚ) := by
  intro m
  induction m with
  | zero => simp
  | succ m ih =>
    rw [List.range_succ, List.foldl_append, ih, List.foldl_cons, List.foldl_nil]
    have h := Nat.choose_succ_right_eq n m
    have hm : ((m : ℚ) + 1) ≠ 0 := by positivity
    rw [div_eq_iff hm]
    by_cases hle : m ≤ n
    · have hq : ((n.choose (m + 1) * (m + 1) : Nat) : ℚ) = ((n.choose m * (n - m) : Nat) : ℚ) := by
        rw [h]
      push_cast [Nat.cast_sub hle] at hq
      linarith
    · have h1 : n.choose m = 0 := Nat.choose_eq_zero_of_lt (by omega)
      have h2 : n.choose (m + 1) = 0 := Nat.choose_eq_zero_of_lt (by omega)
      rw [h1, h2]
      simp

/-- The function `binomial` computes the binomial coefficient: `n choose k` for
`k <= n` and 0 for `k > n`. -/
theorem binomial_eq_choose (n k : Nat) : binomial n k = (n.choose k : ℚ) := by
  unfold binomial
  by_cases h1 : k = 0 ∨ k = n
  · rw [if_pos h1]
    rcases h1 with h | h
    · rw [h]; simp
    · rw [h]; simp
  · rw [if_neg h1]
    by_cases h2 : n < k
    · rw [if_pos h2, Nat.choose_eq_zero_of_lt h2]
      simp
    · rw [if_neg h2]
      exact binomial_loop n k

/-- The body of the outer loop of `approximateSpline` on control points with
finite coordinates: the two sums of coordinate times Bernstein weight. -/
theorem splinePoint_fin (S : List (ℚ × ℚ)) (t : ℚ) :
    splinePoint (S.map toPt) t =
      (.fin (∑ i in Finset.range S.length, (S.getD i (0, 0)).1 * bernsteinBasis i (S.length - 1) t),
       .fin (∑ i in Finset.range S.length,
          (S.getD i (0, 0)).2 * bernsteinBasis i (S.length - 1) t)) := by
  have key : ∀ m : Nat, m ≤ S.length →
      (List.range m).foldl
        (fun (acc : Pt) (i : Nat) =>
          match (S.map toPt).get? i with
          | some p =>
            (acc.1.add (p.1.mul (JSNum.fin (bernsteinBasis i (S.length - 1) t))),
             acc.2.add (p.2.mul (JSNum.fin (bernsteinBasis i (S.length - 1) t))))
          | none => acc)
        (JSNum.fin 0, JSNum.fin 0) =
      (.fin (∑ i in Finset.range m, (S.getD i (0, 0)).1 * bernsteinBasis i (S.length - 1) t),
       .fin (∑ i in Finset.range m, (S.getD i (0, 0)).2 * bernsteinBasis i (S.length - 1) t)) := by
    intro m
    induction m with
    | zero => intro _; simp
    | succ m ih =>
      intro hm
      have hlt : m < S.length := by omega
      rw [List.range_succ, List.foldl_append, ih (by omega), List.foldl_cons, List.foldl_nil]
      have hget : (S.map toPt).get? m = some (toPt (S.getD m (0, 0))) := by
        rw [List.get?_eq_getElem?, List.getElem?_map, List.getD_eq_getElem?_getD,
          List.getElem?_eq_getElem hlt]
        rfl
      rw [hget]
      simp only [toPt, JSNum.add, JSNum.mul, Finset.sum_range_succ]
  have := key S.length (le_refl _)
  unfold splinePoint
  simp only [List.length_map]
  exact this

/-- For a parameter in [0, 1] the Bernstein weights are non-negative. -/
theorem bernsteinBasis_nonneg (i n : Nat) (t : ℚ) (h0 : 0 ≤ t) (h1 : t ≤ 1) :
    0 ≤ bernsteinBasis i n t := by
  unfold bernsteinBasis
  rw [binomial_eq_choose]
  have : 0 ≤ 1 - t := by linarith
  positivity

/-- The Bernstein weights of degree `n` sum to 1. -/
theorem bernsteinBasis_sum (n : Nat) (t : ℚ) :
    ∑ i in Finset.range (n + 1), bernsteinBasis i n t = 1 := by
  have h := add_pow t (1 - t) n
  simp only [add_sub_cancel, one_pow] at h
  rw [h]
  apply Finset.sum_congr rfl
  intro i _
  unfold bernsteinBasis
  rw [binomial_eq_choose]
  ring

/-- Every value of the loop counter of `approximateSpline` lies in [0, 1]. -/
theorem splineParams_le : ∀ t ∈ splineParams, t ≤ tUnit := by
  decide

/-- A sum of values weighted by non-negative weights of total 1 lies between any
lower and any upper bound of the values. -/
theorem weighted_sum_bounds (m : Nat) (w x : Nat → ℚ) (lo hi : ℚ)
    (hw : ∀ i ∈ Finset.range m, 0 ≤ w i) (hsum : ∑ i in Finset.range m, w i = 1)
    (hlo : ∀ i ∈ Finset.range m, lo ≤ x i) (hhi : ∀ i ∈ Finset.range m, x i ≤ hi) :
    lo ≤ ∑ i in Finset.range m, x i * w i ∧ ∑ i in Finset.range m, x i * w i ≤ hi := by
  constructor
  · calc lo = ∑ i in Finset.range m, lo * w i := by rw [← Finset.mul_sum, hsum, mul_one]
      _ ≤ ∑ i in Finset.range m, x i * w i :=
        Finset.sum_le_sum (fun i hi => mul_le_mul_of_nonneg_right (hlo i hi) (hw i hi))
  · calc ∑ i in Finset.range m, x i * w i ≤ ∑ i in Finset.range m, hi * w i :=
        Finset.sum_le_sum (fun i hi2 => mul_le_mul_of_nonneg_right (hhi i hi2) (hw i hi2))
      _ = hi := by rw [← Finset.mul_sum, hsum, mul_one]

/-- C24: `binomial` computes the binomial coefficient, the degree argument has
no effect, and on control points with finite coordinates every returned point is
the Bernstein sum of the control points at the value `t` of the loop counter;
but the loop counter takes the 20 values listed, sums of the binary64 number
0.05 that are not the fractions k/20 (the second is not 1/20, the last is below
1), and there is no point of index 20: for the control points (0, 0) and (1, 1)
the last point returned is not the last control point. -/
theorem approximateSpline_bernstein_samples (S : List (ℚ × ℚ)) (controlPoints : List Pt)
    (degree degree2 : ℤ) (n k : Nat) :
    binomial n k = (n.choose k : ℚ) ∧
    approximateSpline controlPoints degree = approximateSpline controlPoints degree2 ∧
    approximateSpline (S.map toPt) degree =
      splineParams.map (fun (t : Nat) =>
        toPt (∑ i in Finset.range S.length,
            ((S.length - 1).choose i : ℚ) * ((t : ℚ) / (tUnit : ℚ)) ^ i *
              (1 - (t : ℚ) / (tUnit : ℚ)) ^ (S.length - 1 - i) * (S.getD i (0, 0)).1,
          ∑ i in Finset.range S.length,
            ((S.length - 1).choose i : ℚ) * ((t : ℚ) / (tUnit : ℚ)) ^ i *
              (1 - (t : ℚ) / (tUnit : ℚ)) ^ (S.length - 1 - i) * (S.getD i (0, 0)).2)) ∧
    splineParams =
      [0, 7205759403792794, 14411518807585588, 21617278211378384, 28823037615171176,
        36028797018963968, 43234556422756760, 50440315826549552, 57646075230342344,
        64851834634135136, 72057594037927928, 79263353441720720, 86469112845513520,
        93674872249306320, 100880631653099120, 108086391056891920, 115292150460684720,
        122497909864477520, 129703669268270320, 136909428672063120] ∧
    tUnit = 144115188075855872 ∧
    (7205759403792794 : ℚ) / 144115188075855872 ≠ 1 / 20 ∧
    (136909428672063120 : ℚ) / 144115188075855872 < 1 ∧
    (approximateSpline controlPoints degree)[20]? = none ∧
    (approximateSpline [(.fin 0, .fin 0), (.fin 1, .fin 1)] 3).getLast? =
      some (.fin (136909428672063120 / 144115188075855872),
        .fin (136909428672063120 / 144115188075855872)) := by
  refine ⟨binomial_eq_choose n k, rfl, ?_, by decide, by decide, by norm_num, by norm_num, ?_,
    by decide!⟩
  · unfold approximateSpline
    apply List.map_congr_left
    intro t _
    rw [splinePoint_fin]
    unfold toPt
    simp only [bernsteinBasis, binomial_eq_choose]
    congr 2 <;> (apply Finset.sum_congr rfl; intro i _; ring)
  · have h : (approximateSpline controlPoints degree).length = 20 := by
      unfold approximateSpline
      rw [List.length_map]
      decide
    exact List.getElem?_eq_none (by omega)

/-- The function `pow2` is the power of two. -/
theorem pow2_eq (k : ℤ) : pow2 k = (2 : ℚ) ^ k := by
  unfold pow2
  by_cases h : 0 ≤ k
  · rw [if_pos h]
    obtain ⟨n, rfl⟩ := Int.eq_ofNat_of_zero_le h
    simp
  · rw [if_neg h]
    have hk : k = -((-k).toNat : ℤ) := by
      rw [Int.toNat_of_nonneg (by omega)]; ring
    conv_rhs => rw [hk]
    rw [zpow_neg, zpow_natCast]
    simp

/-- A power of two is positive. -/
theorem pow2_pos (k : ℤ) : 0 < pow2 k := by
  rw [pow2_eq]; positivity

/-- Powers of two multiply by adding exponents. -/
theorem pow2_add (a b : ℤ) : pow2 (a + b) = pow2 a * pow2 b := by
  rw [pow2_eq, pow2_eq, pow2_eq, zpow_add₀ (by norm_num)]

/-- Powers of two grow with the exponent. -/
theorem pow2_le_pow2 {a b : ℤ} (h : a ≤ b) : pow2 a ≤ pow2 b := by
  rw [pow2_eq, pow2_eq]
  exact zpow_le_zpow_right₀ (by norm_num) h

/-- Powers of two grow strictly with the exponent. -/
theorem pow2_lt_pow2 {a b : ℤ} (h : a < b) : pow2 a < pow2 b := by
  rw [pow2_eq, pow2_eq]
  exact zpow_lt_zpow_right₀ (by norm_num) h

/-- The next power of two is twice the power. -/
theorem pow2_succ (a : ℤ) : pow2 (a + 1) = 2 * pow2 a := by
  rw [pow2_add]
  have : pow2 1 = 2 := by decide!
  rw [this]; ring

/-- The number of binary digits brackets a positive number between two powers
of two. -/
theorem bitLengthAux_spec : ∀ (fuel m : Nat), 0 < m → m ≤ fuel →
    2 ^ (bitLengthAux fuel m - 1) ≤ m ∧ m < 2 ^ bitLengthAux fuel m ∧
      0 < bitLengthAux fuel m := by
  intro fuel
  induction fuel with
  | zero => intro m h1 h2; omega
  | succ fuel ih =>
    intro m h1 h2
    have hm : m ≠ 0 := by omega
    simp only [bitLengthAux, if_neg hm, Nat.add_sub_cancel]
    by_cases h0 : m / 2 = 0
    · have hm1 : m = 1 := by omega
      have hz : bitLengthAux fuel (m / 2) = 0 := by
        rw [h0]
        cases fuel <;> simp [bitLengthAux]
      rw [hz, hm1]
      simp
    · have hpos : 0 < m / 2 := Nat.pos_of_ne_zero h0
      obtain ⟨i1, i2, i3⟩ := ih (m / 2) hpos (by omega)
      refine ⟨?_, ?_, by omega⟩
      · have : 2 ^ bitLengthAux fuel (m / 2) = 2 * 2 ^ (bitLengthAux fuel (m / 2) - 1) := by
          rw [← pow_succ']
          congr 1
          omega
        rw [this]
        omega
      · rw [pow_succ]
        omega

/-- The number of binary digits of a positive number. -/
theorem bitLength_spec (m : Nat) (h : 0 < m) :
    2 ^ (bitLength m - 1) ≤ m ∧ m < 2 ^ bitLength m ∧ 0 < bitLength m :=
  bitLengthAux_spec m m h (le_refl _)

/-- The exponent brackets the magnitude of a non-zero rational. -/
theorem exponentOf_spec (q : ℚ) (hq : q ≠ 0) :
    pow2 (exponentOf q) ≤ |q| ∧ |q| < pow2 (exponentOf q + 1) := by
  have hn : 0 < q.num.natAbs := Int.natAbs_pos.mpr (Rat.num_ne_zero.mpr hq)
  have hd : 0 < q.den := q.den_pos
  obtain ⟨n1, n2, n3⟩ := bitLength_spec _ hn
  obtain ⟨d1, d2, d3⟩ := bitLength_spec _ hd
  have habs : |q| = (q.num.natAbs : ℚ) / (q.den : ℚ) := by
    conv_lhs => rw [← Rat.num_div_den q]
    rw [abs_div, Nat.abs_cast, Nat.cast_natAbs]
    simp
  set a := bitLength q.num.natAbs with ha
  set b := bitLength q.den with hb
  have hdq : (0 : ℚ) < (q.den : ℚ) := by exact_mod_cast hd
  have n1q : (2 : ℚ) ^ (a - 1) ≤ (q.num.natAbs : ℚ) := by exact_mod_cast n1
  have n2q : (q.num.natAbs : ℚ) < (2 : ℚ) ^ a := by exact_mod_cast n2
  have d1q : (2 : ℚ) ^ (b - 1) ≤ (q.den : ℚ) := by exact_mod_cast d1
  have d2q : (q.den : ℚ) < (2 : ℚ) ^ b := by exact_mod_cast d2
  have hup : |q| < pow2 ((a : ℤ) - (b : ℤ) + 1) := by
    rw [habs, pow2_eq, div_lt_iff₀ hdq]
    have e : (2 : ℚ) ^ ((a : ℤ) - (b : ℤ) + 1) * (2 : ℚ) ^ (b - 1) = (2 : ℚ) ^ a := by
      rw [← zpow_natCast, ← zpow_natCast, ← zpow_add₀ (by norm_num)]
      congr 1
      have : ((b - 1 : ℕ) : ℤ) = (b : ℤ) - 1 := by omega
      rw [this]; ring
    calc (q.num.natAbs : ℚ) < (2 : ℚ) ^ a := n2q
      _ = (2 : ℚ) ^ ((a : ℤ) - (b : ℤ) + 1) * (2 : ℚ) ^ (b - 1) := e.symm
      _ ≤ (2 : ℚ) ^ ((a : ℤ) - (b : ℤ) + 1) * (q.den : ℚ) :=
        mul_le_mul_of_nonneg_left d1q (by positivity)
  have hlo : pow2 ((a : ℤ) - (b : ℤ) - 1) ≤ |q| := by
    rw [habs, pow2_eq, le_div_iff₀ hdq]
    have e : (2 : ℚ) ^ ((a : ℤ) - (b : ℤ) - 1) * (2 : ℚ) ^ b = (2 : ℚ) ^ (a - 1) := by
      rw [← zpow_natCast, ← zpow_natCast, ← zpow_add₀ (by norm_num)]
      congr 1
      have : ((a - 1 : ℕ) : ℤ) = (a : ℤ) - 1 := by omega
      rw [this]; ring
    calc (2 : ℚ) ^ ((a : ℤ) - (b : ℤ) - 1) * (q.den : ℚ)
        ≤ (2 : ℚ) ^ ((a : ℤ) - (b : ℤ) - 1) * (2 : ℚ) ^ b :=
          mul_le_mul_of_nonneg_left d2q.le (by positivity)
      _ = (2 : ℚ) ^ (a - 1) := e
      _ ≤ (q.num.natAbs : ℚ) := n1q
  unfold exponentOf
  simp only
  by_cases h : pow2 ((a : ℤ) - (b : ℤ)) ≤ |q|
  · rw [if_pos h]
    exact ⟨h, hup⟩
  · rw [if_neg h]
    refine ⟨hlo, ?_⟩
    have : (a : ℤ) - (b : ℤ) - 1 + 1 = (a : ℤ) - (b : ℤ) := by ring
    rw [this]
    exact not_le.mp h

/-- The exponent is the only integer that brackets the magnitude. -/
theorem exponentOf_unique (q : ℚ) (e : ℤ) (h1 : pow2 e ≤ |q|) (h2 : |q| < pow2 (e + 1)) :
    exponentOf q = e := by
  have hq : q ≠ 0 := by
    intro h
    rw [h, abs_zero] at h1
    exact absurd h1 (not_le.mpr (pow2_pos e))
  obtain ⟨s1, s2⟩ := exponentOf_spec q hq
  have a1 : e < exponentOf q + 1 := by
    by_contra hc
    exact absurd (lt_of_lt_of_le s2 (pow2_le_pow2 (not_lt.mp hc))) (not_lt.mpr h1)
  have a2 : exponentOf q < e + 1 := by
    by_contra hc
    exact absurd (lt_of_lt_of_le h2 (pow2_le_pow2 (not_lt.mp hc))) (not_lt.mpr s1)
  omega

/-- The nearest integer is within one half. -/
theorem roundHalfEven_sub_le (r : ℚ) : |(roundHalfEven r : ℚ) - r| ≤ 1 / 2 := by
  have h1 := Int.floor_le r
  have h2 := Int.lt_floor_add_one r
  unfold roundHalfEven
  simp only
  rw [abs_le]
  split_ifs <;> push_cast <;> constructor <;> linarith

/-- Rounding to the nearest integer keeps the order. -/
theorem roundHalfEven_mono {r s : ℚ} (h : r ≤ s) : roundHalfEven r ≤ roundHalfEven s := by
  by_contra hc
  have hlt : roundHalfEven s + 1 ≤ roundHalfEven r := by omega
  have hq : (roundHalfEven s : ℚ) + 1 ≤ (roundHalfEven r : ℚ) := by exact_mod_cast hlt
  have e1 := abs_le.mp (roundHalfEven_sub_le r)
  have e2 := abs_le.mp (roundHalfEven_sub_le s)
  have hrs : r = s := by linarith
  rw [hrs] at hc
  exact hc (le_refl _)

/-- An integer is its own nearest integer. -/
theorem roundHalfEven_intCast (n : ℤ) : roundHalfEven (n : ℚ) = n := by
  unfold roundHalfEven
  simp

/-- Rounding to the nearest integer, ties to even, commutes with negation. -/
theorem roundHalfEven_neg (r : ℚ) : roundHalfEven (-r) = -roundHalfEven r := by
  by_cases hint : (⌊r⌋ : ℚ) = r
  · rw [← hint, ← Int.cast_neg, roundHalfEven_intCast, roundHalfEven_intCast]
  · have h1 := Int.floor_le r
    have h2 := Int.lt_floor_add_one r
    have hlt : (⌊r⌋ : ℚ) < r := lt_of_le_of_ne h1 hint
    have hfl : ⌊-r⌋ = -⌊r⌋ - 1 := by
      rw [Int.floor_eq_iff]
      push_cast
      constructor <;> linarith
    unfold roundHalfEven
    simp only [hfl]
    push_cast
    by_cases c1 : r - (⌊r⌋ : ℚ) < 1 / 2
    · have c2 : ¬ (-r - (-(⌊r⌋ : ℚ) - 1) < 1 / 2) := by linarith
      have c3 : 1 / 2 < -r - (-(⌊r⌋ : ℚ) - 1) := by linarith
      rw [if_pos c1, if_neg c2, if_pos c3]
      ring
    · by_cases c4 : 1 / 2 < r - (⌊r⌋ : ℚ)
      · have c5 : -r - (-(⌊r⌋ : ℚ) - 1) < 1 / 2 := by linarith
        rw [if_neg c1, if_pos c4, if_pos c5]
        ring
      · have c6 : ¬ (-r - (-(⌊r⌋ : ℚ) - 1) < 1 / 2) := by linarith
        have c7 : ¬ (1 / 2 < -r - (-(⌊r⌋ : ℚ) - 1)) := by linarith
        rw [if_neg c1, if_neg c4, if_neg c6, if_neg c7]
        by_cases ev : ⌊r⌋ % 2 = 0
        · have ev2 : ¬ ((-⌊r⌋ - 1) % 2 = 0) := by omega
          rw [if_pos ev, if_neg ev2]
          ring
        · have ev2 : (-⌊r⌋ - 1) % 2 = 0 := by omega
          rw [if_neg ev, if_pos ev2]
          ring

/-- The exponent does not depend on the sign. -/
theorem exponentOf_neg (q : ℚ) : exponentOf (-q) = exponentOf q := by
  unfold exponentOf
  simp

/-- The spacing does not depend on the sign. -/
theorem ulpExponent_neg (q : ℚ) : ulpExponent (-q) = ulpExponent q := by
  unfold ulpExponent
  rw [exponentOf_neg]

/-- Binary64 rounding commutes with negation. -/
theorem roundToGrid_neg (q : ℚ) : roundToGrid (-q) = -roundToGrid q := by
  unfold roundToGrid
  by_cases h : q = 0
  · simp [h]
  · have h2 : -q ≠ 0 := neg_ne_zero.mpr h
    rw [if_neg h, if_neg h2, ulpExponent_neg, neg_div, roundHalfEven_neg]
    push_cast
    ring

/-- The rounding error is at most half the spacing. -/
theorem roundToGrid_err (q : ℚ) :
    |roundToGrid q - q| ≤ pow2 (ulpExponent q) / 2 := by
  have hP := pow2_pos (ulpExponent q)
  unfold roundToGrid
  by_cases h : q = 0
  · rw [if_pos h, h]
    simp
    exact le_of_lt (by linarith [pow2_pos (ulpExponent 0)])
  · rw [if_neg h]
    have e : (roundHalfEven (q / pow2 (ulpExponent q)) : ℚ) * pow2 (ulpExponent q) - q =
        ((roundHalfEven (q / pow2 (ulpExponent q)) : ℚ) - q / pow2 (ulpExponent q)) *
          pow2 (ulpExponent q) := by
      field_simp
    rw [e, abs_mul, abs_of_pos hP]
    have := roundHalfEven_sub_le (q / pow2 (ulpExponent q))
    nlinarith

/-- In the normal range the spacing is at most `2^-52` times the magnitude. -/
theorem ulp_le_of_normal (q : ℚ) (h : pow2 (-1022) ≤ |q|) :
    pow2 (ulpExponent q) ≤ 2 * unitRoundoff * |q| := by
  have hq : q ≠ 0 := by
    intro h0
    rw [h0, abs_zero] at h
    exact absurd h (not_le.mpr (pow2_pos _))
  obtain ⟨s1, s2⟩ := exponentOf_spec q hq
  have he : -1022 ≤ exponentOf q := by
    by_contra hc
    have : exponentOf q + 1 ≤ -1022 := by omega
    exact absurd (lt_of_lt_of_le s2 (pow2_le_pow2 this)) (not_lt.mpr h)
  unfold ulpExponent
  rw [max_eq_left he]
  have : pow2 (exponentOf q - 52) = pow2 (exponentOf q) * pow2 (-52) := by
    rw [← pow2_add]; congr 1
  rw [this]
  have h52 : pow2 (-52) = 2 * unitRoundoff := by
    unfold unitRoundoff
    rw [pow2_eq]
    norm_num
  rw [h52]
  have hu : (0 : ℚ) ≤ 2 * unitRoundoff := by
    unfold unitRoundoff
    positivity
  calc pow2 (exponentOf q) * (2 * unitRoundoff) ≤ |q| * (2 * unitRoundoff) :=
        mul_le_mul_of_nonneg_right s1 hu
    _ = 2 * unitRoundoff * |q| := by ring

/-- In the normal range the rounding error is at most `2^-53` times the
magnitude. -/
theorem roundToGrid_rel (q : ℚ) (h : pow2 (-1022) ≤ |q|) :
    |roundToGrid q - q| ≤ unitRoundoff * |q| := by
  have h1 := roundToGrid_err q
  have h2 := ulp_le_of_normal q h
  linarith

/-- Below the normal range the spacing is `2^-1074`. -/
theorem ulpExponent_of_small (q : ℚ) (h : |q| < pow2 (-1022)) (hq : q ≠ 0) :
    ulpExponent q = -1074 := by
  obtain ⟨s1, s2⟩ := exponentOf_spec q hq
  have he : exponentOf q < -1022 := by
    by_contra hc
    exact absurd (lt_of_le_of_lt (le_trans (pow2_le_pow2 (not_lt.mp hc)) s1) h) (lt_irrefl _)
  unfold ulpExponent
  rw [max_eq_right he.le]
  norm_num

/-- The rounding error on any rational: `2^-53` times the magnitude, or
`2^-1075` below the normal range. -/
theorem roundToGrid_abs (q : ℚ) :
    |roundToGrid q - q| ≤ unitRoundoff * |q| + pow2 (-1075) := by
  by_cases h : pow2 (-1022) ≤ |q|
  · have := roundToGrid_rel q h
    linarith [pow2_pos (-1075)]
  · by_cases hq : q = 0
    · rw [hq]
      simp [roundToGrid]
      exact le_of_lt (pow2_pos _)
    · have hu := ulpExponent_of_small q (not_le.mp h) hq
      have h1 := roundToGrid_err q
      rw [hu] at h1
      have e : pow2 (-1074) / 2 = pow2 (-1075) := by
        have := pow2_succ (-1075)
        norm_num at this
        linarith
      rw [e] at h1
      have : 0 ≤ unitRoundoff * |q| := by
        unfold unitRoundoff
        positivity
      linarith

/-- Rounding keeps the sign: a non-negative rational rounds to a non-negative one. -/
theorem roundToGrid_nonneg (q : ℚ) (h : 0 ≤ q) : 0 ≤ roundToGrid q := by
  unfold roundToGrid
  split_ifs
  · exact le_refl _
  · have hP := pow2_pos (ulpExponent q)
    have h0 : roundHalfEven ((0 : ℤ) : ℚ) ≤ roundHalfEven (q / pow2 (ulpExponent q)) :=
      roundHalfEven_mono (by simp; positivity)
    rw [roundHalfEven_intCast] at h0
    have : (0 : ℚ) ≤ (roundHalfEven (q / pow2 (ulpExponent q)) : ℚ) := by exact_mod_cast h0
    positivity

/-- The exponent grows with the magnitude. -/
theorem exponentOf_mono (x y : ℚ) (hx : 0 < x) (h : x ≤ y) : exponentOf x ≤ exponentOf y := by
  obtain ⟨s1, _⟩ := exponentOf_spec x (ne_of_gt hx)
  obtain ⟨_, t2⟩ := exponentOf_spec y (ne_of_gt (lt_of_lt_of_le hx h))
  rw [abs_of_pos hx] at s1
  rw [abs_of_pos (lt_of_lt_of_le hx h)] at t2
  by_contra hc
  have : exponentOf y + 1 ≤ exponentOf x := by omega
  exact absurd (lt_of_le_of_lt (le_trans (pow2_le_pow2 this) s1) (lt_of_le_of_lt h t2))
    (lt_irrefl _)

/-- A positive rational lies below the power of two 53 places above its spacing,
and rounds to at most that power. -/
theorem roundToGrid_le_top (x : ℚ) (hx : 0 < x) :
    roundToGrid x ≤ pow2 (ulpExponent x + 53) := by
  obtain ⟨_, s2⟩ := exponentOf_spec x (ne_of_gt hx)
  rw [abs_of_pos hx] at s2
  have hP := pow2_pos (ulpExponent x)
  have hle : exponentOf x + 1 ≤ ulpExponent x + 53 := by
    unfold ulpExponent
    have := le_max_left (exponentOf x) (-1022)
    omega
  have hxlt : x < pow2 (ulpExponent x + 53) := lt_of_lt_of_le s2 (pow2_le_pow2 hle)
  have e : pow2 (ulpExponent x + 53) = pow2 53 * pow2 (ulpExponent x) := by
    rw [← pow2_add]; congr 1; ring
  have h53 : pow2 53 = ((2 ^ 53 : ℤ) : ℚ) := by
    rw [pow2_eq]; norm_num
  unfold roundToGrid
  rw [if_neg (ne_of_gt hx), e]
  apply mul_le_mul_of_nonneg_right _ hP.le
  have hdiv : x / pow2 (ulpExponent x) ≤ ((2 ^ 53 : ℤ) : ℚ) := by
    rw [div_le_iff₀ hP, ← h53, ← e]
    exact hxlt.le
  have := roundHalfEven_mono hdiv
  rw [roundHalfEven_intCast] at this
  rw [h53]
  exact_mod_cast this

/-- A positive rational of the normal range rounds to at least the power of two
below it. -/
theorem roundToGrid_ge_bottom (y : ℚ) (hy : 0 < y) (he : -1022 ≤ exponentOf y) :
    pow2 (exponentOf y) ≤ roundToGrid y := by
  obtain ⟨s1, _⟩ := exponentOf_spec y (ne_of_gt hy)
  rw [abs_of_pos hy] at s1
  have hu : ulpExponent y = exponentOf y - 52 := by
    unfold ulpExponent
    rw [max_eq_left he]
  have hP := pow2_pos (ulpExponent y)
  have e : pow2 (exponentOf y) = pow2 52 * pow2 (ulpExponent y) := by
    rw [← pow2_add, hu]; congr 1; ring
  have h52 : pow2 52 = ((2 ^ 52 : ℤ) : ℚ) := by
    rw [pow2_eq]; norm_num
  unfold roundToGrid
  rw [if_neg (ne_of_gt hy), e]
  apply mul_le_mul_of_nonneg_right _ hP.le
  have hdiv : ((2 ^ 52 : ℤ) : ℚ) ≤ y / pow2 (ulpExponent y) := by
    rw [le_div_iff₀ hP, ← h52, ← e]
    exact s1
  have := roundHalfEven_mono hdiv
  rw [roundHalfEven_intCast] at this
  rw [h52]
  exact_mod_cast this

/-- Binary64 rounding keeps the order, on positive rationals. -/
theorem roundToGrid_mono_pos (x y : ℚ) (hx : 0 < x) (h : x ≤ y) :
    roundToGrid x ≤ roundToGrid y := by
  have hy : 0 < y := lt_of_lt_of_le hx h
  have hexp := exponentOf_mono x y hx h
  by_cases hu : ulpExponent x = ulpExponent y
  · unfold roundToGrid
    rw [if_neg (ne_of_gt hx), if_neg (ne_of_gt hy), hu]
    have hP := pow2_pos (ulpExponent y)
    apply mul_le_mul_of_nonneg_right _ hP.le
    have : x / pow2 (ulpExponent y) ≤ y / pow2 (ulpExponent y) :=
      div_le_div_of_nonneg_right h hP.le
    exact_mod_cast roundHalfEven_mono this
  · have hlt : ulpExponent x < ulpExponent y := by
      unfold ulpExponent at hu ⊢
      have := max_le_max hexp (le_refl (-1022 : ℤ))
      omega
    have hey : -1022 < exponentOf y := by
      unfold ulpExponent at hlt
      by_contra hc
      have e1 : Max.max (exponentOf y) (-1022) = -1022 := max_eq_right (by omega)
      have e2 := le_max_right (exponentOf x) (-1022)
      omega
    have huy : ulpExponent y = exponentOf y - 52 := by
      unfold ulpExponent
      rw [max_eq_left hey.le]
    calc roundToGrid x ≤ pow2 (ulpExponent x + 53) := roundToGrid_le_top x hx
      _ ≤ pow2 (exponentOf y) := pow2_le_pow2 (by omega)
      _ ≤ roundToGrid y := roundToGrid_ge_bottom y hy hey.le

/-- Binary64 rounding keeps the order. -/
theorem roundToGrid_mono (x y : ℚ) (h : x ≤ y) : roundToGrid x ≤ roundToGrid y := by
  by_cases hx : 0 < x
  · exact roundToGrid_mono_pos x y hx h
  · have hx0 : x ≤ 0 := not_lt.mp hx
    by_cases hy : 0 ≤ y
    · have h1 := roundToGrid_nonneg y hy
      have h2 := roundToGrid_nonneg (-x) (by linarith)
      rw [roundToGrid_neg] at h2
      linarith
    · have hy0 : y < 0 := not_le.mp hy
      have := roundToGrid_mono_pos (-y) (-x) (by linarith) (by linarith)
      rw [roundToGrid_neg, roundToGrid_neg] at this
      linarith

/-- A multiple of the spacing around it is a fixed point of the rounding. -/
theorem roundToGrid_of_grid (g : ℚ) (m : ℤ) (hg : g = (m : ℚ) * pow2 (ulpExponent g)) :
    roundToGrid g = g := by
  unfold roundToGrid
  by_cases h : g = 0
  · rw [if_pos h, h]
  · rw [if_neg h]
    have hP := pow2_pos (ulpExponent g)
    have : g / pow2 (ulpExponent g) = (m : ℚ) := by
      rw [div_eq_iff (ne_of_gt hP)]
      exact hg
    rw [this, roundHalfEven_intCast]
    exact hg.symm

/-- The spacing is at least `2^-1074`. -/
theorem ulpExponent_ge (q : ℚ) : -1074 ≤ ulpExponent q := by
  unfold ulpExponent
  have := le_max_right (exponentOf q) (-1022)
  omega

/-- Binary64 rounding is idempotent, on positive rationals. -/
theorem roundToGrid_idem_pos (q : ℚ) (hq : 0 < q) :
    roundToGrid (roundToGrid q) = roundToGrid q := by
  have hP := pow2_pos (ulpExponent q)
  have hdef : roundToGrid q =
      (roundHalfEven (q / pow2 (ulpExponent q)) : ℚ) * pow2 (ulpExponent q) := by
    unfold roundToGrid
    rw [if_neg (ne_of_gt hq)]
  set m := roundHalfEven (q / pow2 (ulpExponent q)) with hm
  set u := ulpExponent q with hu
  have hm0 : 0 ≤ m := by
    have h0 : roundHalfEven ((0 : ℤ) : ℚ) ≤ roundHalfEven (q / pow2 u) :=
      roundHalfEven_mono (by simp; positivity)
    rw [roundHalfEven_intCast] at h0
    exact h0
  have htop := roundToGrid_le_top q hq
  have e53 : pow2 (u + 53) = ((2 ^ 53 : ℤ) : ℚ) * pow2 u := by
    have h53 : pow2 53 = ((2 ^ 53 : ℤ) : ℚ) := by
      rw [pow2_eq]; norm_num
    rw [pow2_add, h53, mul_comm]
  have hm53 : m ≤ 2 ^ 53 := by
    rw [hdef, e53] at htop
    have := le_of_mul_le_mul_right htop hP
    exact_mod_cast this
  by_cases hz : m = 0
  · rw [hdef, hz]
    simp [roundToGrid]
  have hmpos : 0 < m := lt_of_le_of_ne hm0 (Ne.symm hz)
  have hgpos : 0 < roundToGrid q := by
    rw [hdef]
    have : (0 : ℚ) < (m : ℚ) := by exact_mod_cast hmpos
    positivity
  by_cases htop2 : m = 2 ^ 53
  · -- the rounding reached the next power of two
    have hg : roundToGrid q = pow2 (u + 53) := by
      rw [hdef, e53, htop2]
    have hexp : exponentOf (roundToGrid q) = u + 53 := by
      apply exponentOf_unique
      · rw [hg, abs_of_pos (pow2_pos _)]
      · rw [hg, abs_of_pos (pow2_pos _)]
        exact pow2_lt_pow2 (by omega)
    have hulp : ulpExponent (roundToGrid q) = u + 1 := by
      have h1074 := ulpExponent_ge q
      unfold ulpExponent
      rw [hexp, max_eq_left (by omega)]
      ring
    apply roundToGrid_of_grid _ (2 ^ 52)
    rw [hulp, hg]
    have : pow2 (u + 53) = pow2 52 * pow2 (u + 1) := by
      rw [← pow2_add]; congr 1; ring
    have h52 : pow2 52 = ((2 ^ 52 : ℤ) : ℚ) := by
      rw [pow2_eq]; norm_num
    rw [this, h52]
  · have hmlt : m < 2 ^ 53 := lt_of_le_of_ne hm53 htop2
    have hglt : roundToGrid q < pow2 (u + 53) := by
      rw [hdef, e53]
      apply mul_lt_mul_of_pos_right _ hP
      exact_mod_cast hmlt
    have hulp : ulpExponent (roundToGrid q) = u := by
      by_cases he : -1022 ≤ exponentOf q
      · have hue : u = exponentOf q - 52 := by
          rw [hu]
          unfold ulpExponent
          rw [max_eq_left he]
        have hbot := roundToGrid_ge_bottom q hq he
        have hexp : exponentOf (roundToGrid q) = exponentOf q := by
          apply exponentOf_unique
          · rw [abs_of_pos hgpos]
            exact hbot
          · rw [abs_of_pos hgpos]
            have : exponentOf q + 1 = u + 53 := by omega
            rw [this]
            exact hglt
        unfold ulpExponent
        rw [hexp, max_eq_left he]
        omega
      · have hue : u = -1074 := by
          rw [hu]
          unfold ulpExponent
          rw [max_eq_right (by omega)]
          norm_num
        obtain ⟨s1, _⟩ := exponentOf_spec (roundToGrid q) (ne_of_gt hgpos)
        rw [abs_of_pos hgpos] at s1
        have hexp : exponentOf (roundToGrid q) ≤ -1022 := by
          by_contra hc
          have h1 : u + 53 ≤ exponentOf (roundToGrid q) := by omega
          exact absurd (lt_of_le_of_lt (le_trans (pow2_le_pow2 h1) s1) hglt) (lt_irrefl _)
        unfold ulpExponent
        rw [max_eq_right hexp, hue]
        norm_num
    apply roundToGrid_of_grid _ m
    rw [hulp]
    exact hdef

/-- Binary64 rounding is idempotent. -/
theorem roundToGrid_idem (q : ℚ) : roundToGrid (roundToGrid q) = roundToGrid q := by
  rcases lt_trichotomy q 0 with h | h | h
  · have := roundToGrid_idem_pos (-q) (by linarith)
    rw [roundToGrid_neg, roundToGrid_neg] at this
    linarith
  · rw [h]
    simp [roundToGrid]
  · exact roundToGrid_idem_pos q h

/-- When the rounded value is of the normal range, the rounding error is at most
`2^-53` times the rounded value. -/
theorem roundToGrid_rel_result (q : ℚ) (h : pow2 (-1022) ≤ |roundToGrid q|) :
    |roundToGrid q - q| ≤ unitRoundoff * |roundToGrid q| := by
  have hu0 : (0 : ℚ) ≤ unitRoundoff := by unfold unitRoundoff; positivity
  by_cases hn : pow2 (-1022) ≤ |q|
  · -- the rounded value is at least the power of two below the magnitude
    have hq : q ≠ 0 := by
      intro h0
      rw [h0, abs_zero] at hn
      exact absurd hn (not_le.mpr (pow2_pos _))
    obtain ⟨s1, s2⟩ := exponentOf_spec q hq
    have he : -1022 ≤ exponentOf q := by
      by_contra hc
      have : exponentOf q + 1 ≤ -1022 := by omega
      exact absurd (lt_of_lt_of_le s2 (pow2_le_pow2 this)) (not_lt.mpr hn)
    have herr := roundToGrid_err q
    have hue : ulpExponent q = exponentOf q - 52 := by
      unfold ulpExponent
      rw [max_eq_left he]
    have hP : pow2 (ulpExponent q) = 2 * unitRoundoff * pow2 (exponentOf q) := by
      rw [hue]
      have : pow2 (exponentOf q - 52) = pow2 (exponentOf q) * pow2 (-52) := by
        rw [← pow2_add]; congr 1
      rw [this]
      have h52 : pow2 (-52) = 2 * unitRoundoff := by
        unfold unitRoundoff
        rw [pow2_eq]
        norm_num
      rw [h52]; ring
    have hbot : pow2 (exponentOf q) ≤ |roundToGrid q| := by
      rcases lt_or_gt_of_ne hq with hneg | hpos
      · have := roundToGrid_ge_bottom (-q) (by linarith) (by rw [exponentOf_neg]; exact he)
        rw [exponentOf_neg, roundToGrid_neg] at this
        exact le_trans this (neg_le_abs _)
      · exact le_trans (roundToGrid_ge_bottom q hpos he) (le_abs_self _)
    have : unitRoundoff * pow2 (exponentOf q) ≤ unitRoundoff * |roundToGrid q| :=
      mul_le_mul_of_nonneg_left hbot hu0
    rw [hP] at herr
    linarith
  · have hq : q ≠ 0 := by
      intro h0
      rw [h0] at h
      simp [roundToGrid] at h
      exact absurd h (not_le.mpr (pow2_pos _))
    have hu := ulpExponent_of_small q (not_le.mp hn) hq
    have h1 := roundToGrid_err q
    rw [hu] at h1
    have e : pow2 (-1074) / 2 = unitRoundoff * pow2 (-1022) := by
      unfold unitRoundoff
      rw [pow2_eq, pow2_eq]
      rw [show (-1074 : ℤ) = -1022 + -52 by norm_num, zpow_add₀ (by norm_num)]
      norm_num
    rw [e] at h1
    have : unitRoundoff * pow2 (-1022) ≤ unitRoundoff * |roundToGrid q| :=
      mul_le_mul_of_nonneg_left h hu0
    linarith

/-- Rounding commutes with the absolute value. -/
theorem abs_roundToGrid (q : ℚ) : |roundToGrid q| = roundToGrid |q| := by
  rcases le_total 0 q with h | h
  · rw [abs_of_nonneg h, abs_of_nonneg (roundToGrid_nonneg q h)]
  · have h2 := roundToGrid_nonneg (-q) (by linarith)
    rw [roundToGrid_neg] at h2
    rw [abs_of_nonpos h, abs_of_nonpos (by linarith), roundToGrid_neg]

/-- The smallest normal number `2^-1022` is a binary64 number. -/
theorem roundToGrid_minNormal : roundToGrid (pow2 (-1022)) = pow2 (-1022) := by
  have hexp : exponentOf (pow2 (-1022)) = -1022 :=
    exponentOf_unique _ _ (by rw [abs_of_pos (pow2_pos _)])
      (by rw [abs_of_pos (pow2_pos _)]; exact pow2_lt_pow2 (by norm_num))
  have hulp : ulpExponent (pow2 (-1022)) = -1074 := by
    unfold ulpExponent
    rw [hexp]
    norm_num
  apply roundToGrid_of_grid _ (2 ^ 52)
  rw [hulp]
  have h52 : pow2 52 = ((2 ^ 52 : ℤ) : ℚ) := by
    rw [pow2_eq]; norm_num
  rw [← h52, ← pow2_add]
  norm_num

/-- A rational of the normal range rounds into the normal range. -/
theorem roundToGrid_normal (q : ℚ) (h : pow2 (-1022) ≤ |q|) :
    pow2 (-1022) ≤ |roundToGrid q| := by
  rw [abs_roundToGrid, ← roundToGrid_minNormal]
  exact roundToGrid_mono _ _ h

/-- The rounding error on any rational, against the rounded value. -/
theorem roundToGrid_abs_result (q : ℚ) :
    |roundToGrid q - q| ≤ unitRoundoff * |roundToGrid q| + pow2 (-1075) := by
  by_cases h : pow2 (-1022) ≤ |q|
  · have := roundToGrid_rel_result q (roundToGrid_normal q h)
    linarith [pow2_pos (-1075)]
  · by_cases hq : q = 0
    · rw [hq]
      simp [roundToGrid]
      exact le_of_lt (pow2_pos _)
    · have hu := ulpExponent_of_small q (not_le.mp h) hq
      have h1 := roundToGrid_err q
      rw [hu] at h1
      have e : pow2 (-1074) / 2 = pow2 (-1075) := by
        have := pow2_succ (-1075)
        norm_num at this
        linarith
      rw [e] at h1
      have : 0 ≤ unitRoundoff * |roundToGrid q| :=
        mul_nonneg (by unfold unitRoundoff; norm_num) (abs_nonneg _)
      linarith

/-- A finite result of the binary64 rounding is the rounded rational, below
`2^1024` in magnitude. -/
theorem fl_eq_fin {q v : ℚ} (h : fl q = .fin v) :
    v = roundToGrid q ∧ |v| < pow2 1024 := by
  unfold fl at h
  simp only at h
  split_ifs at h with h1 h2
  simp only [JSNum.fin.injEq] at h
  rw [← h]
  exact ⟨rfl, abs_lt.mpr ⟨by linarith, by linarith⟩⟩

/-- A rounded rational below `2^1024` in magnitude is the binary64 result. -/
theorem fl_of_lt {q : ℚ} (h : |roundToGrid q| < pow2 1024) : fl q = .fin (roundToGrid q) := by
  have h1 := abs_lt.mp h
  unfold fl
  simp only
  rw [if_neg (not_le.mpr h1.2), if_neg (not_le.mpr h1.1)]

/-- A finite result of the binary64 rounding is a binary64 number. -/
theorem isBinary64_of_fl {q v : ℚ} (h : fl q = .fin v) : IsBinary64 v := by
  obtain ⟨h1, h2⟩ := fl_eq_fin h
  unfold IsBinary64
  have : roundToGrid v = v := by rw [h1, roundToGrid_idem]
  have h3 := fl_of_lt (q := v) (by rw [this]; exact h2)
  rw [this] at h3
  exact h3

/-- A binary64 number is a fixed point of the rounding. -/
theorem IsBinary64.roundToGrid_eq {q : ℚ} (h : IsBinary64 q) : roundToGrid q = q :=
  (fl_eq_fin h).1.symm

/-- A finite rounded value comes from a finite exact value. -/
theorem JSNum.round_eq_fin {a : JSNum} {v : ℚ} (h : a.round = .fin v) :
    ∃ q, a = .fin q ∧ fl q = .fin v := by
  cases a with
  | fin q => exact ⟨q, rfl, h⟩
  | nan => exact absurd h (by simp [JSNum.round])
  | pinf => exact absurd h (by simp [JSNum.round])
  | ninf => exact absurd h (by simp [JSNum.round])

/-- A finite sum has finite terms. -/
theorem JSNum.add_eq_fin {a b : JSNum} {q : ℚ} (h : a.add b = .fin q) :
    ∃ x y, a = .fin x ∧ b = .fin y ∧ q = x + y := by
  cases a <;> cases b <;> simp only [JSNum.add, reduceCtorEq, JSNum.fin.injEq] at h
  exact ⟨_, _, rfl, rfl, h.symm⟩

/-- A finite product has finite factors. -/
theorem JSNum.mul_eq_fin {a b : JSNum} {q : ℚ} (h : a.mul b = .fin q) :
    ∃ x y, a = .fin x ∧ b = .fin y ∧ q = x * y := by
  cases a <;> cases b <;> simp only [JSNum.mul, reduceCtorEq, JSNum.fin.injEq] at h <;>
    first
    | exact ⟨_, _, rfl, rfl, h.symm⟩
    | (split_ifs at h)

/-- A finite binary64 sum: the terms are finite and the sum is their rounded
exact sum. -/
theorem JSNum.fadd_eq_fin {a b : JSNum} {v : ℚ} (h : a.fadd b = .fin v) :
    ∃ x y, a = .fin x ∧ b = .fin y ∧ fl (x + y) = .fin v := by
  obtain ⟨q, hq, hv⟩ := JSNum.round_eq_fin h
  obtain ⟨x, y, hx, hy, rfl⟩ := JSNum.add_eq_fin hq
  exact ⟨x, y, hx, hy, hv⟩

/-- A finite binary64 difference. -/
theorem JSNum.fsub_eq_fin {a b : JSNum} {v : ℚ} (h : a.fsub b = .fin v) :
    ∃ x y, a = .fin x ∧ b = .fin y ∧ fl (x - y) = .fin v := by
  obtain ⟨q, hq, hv⟩ := JSNum.round_eq_fin h
  unfold JSNum.sub at hq
  obtain ⟨x, y, hx, hy, rfl⟩ := JSNum.add_eq_fin hq
  cases b with
  | fin z =>
    simp only [JSNum.neg, JSNum.fin.injEq] at hy
    refine ⟨x, z, hx, rfl, ?_⟩
    rw [sub_eq_add_neg, hy]
    exact hv
  | nan => exact absurd hy (by simp [JSNum.neg])
  | pinf => exact absurd hy (by simp [JSNum.neg])
  | ninf => exact absurd hy (by simp [JSNum.neg])

/-- A finite binary64 product. -/
theorem JSNum.fmul_eq_fin {a b : JSNum} {v : ℚ} (h : a.fmul b = .fin v) :
    ∃ x y, a = .fin x ∧ b = .fin y ∧ fl (x * y) = .fin v := by
  obtain ⟨q, hq, hv⟩ := JSNum.round_eq_fin h
  obtain ⟨x, y, hx, hy, rfl⟩ := JSNum.mul_eq_fin hq
  exact ⟨x, y, hx, hy, hv⟩

/-- A finite binary64 quotient by a finite non-zero number. -/
theorem JSNum.fdiv_fin_eq_fin {a : JSNum} {y v : ℚ} (hy : y ≠ 0)
    (h : a.fdiv (.fin y) = .fin v) : ∃ x, a = .fin x ∧ fl (x / y) = .fin v := by
  obtain ⟨q, hq, hv⟩ := JSNum.round_eq_fin h
  cases a with
  | fin x =>
    simp only [JSNum.div, if_neg hy, JSNum.fin.injEq] at hq
    exact ⟨x, rfl, by rw [hq]; exact hv⟩
  | nan => exact absurd hq (by simp [JSNum.div])
  | pinf =>
    simp only [JSNum.div] at hq
    split_ifs at hq
  | ninf =>
    simp only [JSNum.div] at hq
    split_ifs at hq


/-- The binary64 sum of two finite numbers. -/
theorem JSNum.fadd_fin (a b : ℚ) : (JSNum.fin a).fadd (.fin b) = fl (a + b) := rfl

/-- The binary64 difference of two finite numbers. -/
theorem JSNum.fsub_fin (a b : ℚ) : (JSNum.fin a).fsub (.fin b) = fl (a - b) := by
  simp only [JSNum.fsub, JSNum.sub, JSNum.neg, JSNum.add, JSNum.round, sub_eq_add_neg]

/-- The binary64 product of two finite numbers. -/
theorem JSNum.fmul_fin (a b : ℚ) : (JSNum.fin a).fmul (.fin b) = fl (a * b) := rfl

/-- The binary64 quotient of two finite numbers, the second not zero. -/
theorem JSNum.fdiv_fin (a b : ℚ) (hb : b ≠ 0) : (JSNum.fin a).fdiv (.fin b) = fl (a / b) := by
  simp only [JSNum.fdiv, JSNum.div, if_neg hb, JSNum.round]


/-- A power of two with an exponent at most 0 is at most 1. -/
theorem pow2_le_one {k : ℤ} (h : k ≤ 0) : pow2 k ≤ 1 := by
  have := pow2_le_pow2 h
  rwa [show pow2 0 = 1 from rfl] at this

/-- The unit roundoff is positive and at most 1. -/
theorem unitRoundoff_bounds : 0 < unitRoundoff ∧ unitRoundoff ≤ 1 := by
  unfold unitRoundoff
  constructor <;> norm_num

/-- The gap error of an offset `o = fl(b + fl(fl(c - s) / 2))` whose base `b` is
itself a rounded sum with error `e0`: the left gap `o - b0` and the right gap
`(b0 + c) - (o + s)` differ by at most the accumulated rounding errors. -/
theorem centring_error (b0 b c s d hf o : ℚ) (η : ℚ) (hη : 0 ≤ η)
    (hb : |b - b0| ≤ unitRoundoff * |b0| + η)
    (hd : |d - (c - s)| ≤ unitRoundoff * |c - s| + η)
    (hh : |hf - d / 2| ≤ unitRoundoff * |d / 2| + η)
    (ho : |o - (b + hf)| ≤ unitRoundoff * |o| + η) :
    |(o - b0) - ((b0 + c) - (o + s))| ≤
      3 * unitRoundoff * (|c - s| + |b0| + |o|) + 8 * η := by
  obtain ⟨hu0, hu1⟩ := unitRoundoff_bounds
  have hA := abs_nonneg (c - s)
  have hB := abs_nonneg b0
  have hO := abs_nonneg o
  have hdabs : |d| ≤ |c - s| + (unitRoundoff * |c - s| + η) := by
    have := abs_sub_abs_le_abs_sub d (c - s)
    linarith
  have hd2 : |d / 2| = |d| / 2 := by
    rw [abs_div]; norm_num
  have e : (o - b0) - ((b0 + c) - (o + s)) =
      2 * (o - (b + hf)) + 2 * (b - b0) + 2 * (hf - d / 2) + (d - (c - s)) := by ring
  rw [e]
  have t1 : |2 * (o - (b + hf)) + 2 * (b - b0) + 2 * (hf - d / 2) + (d - (c - s))| ≤
      2 * |o - (b + hf)| + 2 * |b - b0| + 2 * |hf - d / 2| + |d - (c - s)| := by
    have a1 := abs_add (2 * (o - (b + hf)) + 2 * (b - b0) + 2 * (hf - d / 2)) (d - (c - s))
    have a2 := abs_add (2 * (o - (b + hf)) + 2 * (b - b0)) (2 * (hf - d / 2))
    have a3 := abs_add (2 * (o - (b + hf))) (2 * (b - b0))
    have m1 : |2 * (o - (b + hf))| = 2 * |o - (b + hf)| := by rw [abs_mul]; norm_num
    have m2 : |2 * (b - b0)| = 2 * |b - b0| := by rw [abs_mul]; norm_num
    have m3 : |2 * (hf - d / 2)| = 2 * |hf - d / 2| := by rw [abs_mul]; norm_num
    linarith
  rw [hd2] at hh
  have hu2 : unitRoundoff * (unitRoundoff * |c - s|) ≤ unitRoundoff * |c - s| := by
    have := mul_le_mul_of_nonneg_right hu1 (mul_nonneg hu0.le hA)
    linarith
  have hu3 : unitRoundoff * η ≤ η := by
    have := mul_le_mul_of_nonneg_right hu1 hη
    linarith
  have hu4 : unitRoundoff * |d| ≤
      unitRoundoff * |c - s| + unitRoundoff * (unitRoundoff * |c - s|) + unitRoundoff * η := by
    have := mul_le_mul_of_nonneg_left hdabs hu0.le
    linarith
  have p1 : 0 ≤ unitRoundoff * |c - s| := mul_nonneg hu0.le hA
  have p2 : 0 ≤ unitRoundoff * |b0| := mul_nonneg hu0.le hB
  have p3 : 0 ≤ unitRoundoff * |o| := mul_nonneg hu0.le hO
  linarith

/-- C21, amended: in binary64, whenever the values computed by `createPDF` are
finite, scaledWidth and scaledHeight are the rounded products of the bounds and
the scale, and the offsets centre the scaled drawing up to rounding: the left
and right gaps differ by at most
3 * 2^-53 * (|contentWidth - scaledWidth| + |margin| + |offsetX|) + 2^-1072, and
the top and bottom gaps by at most
3 * 2^-53 * (|contentHeight - scaledHeight| + |margin + headerSpace| + |offsetY|)
+ 2^-1072; the gaps are exact differences of the computed values. -/
theorem exportLayout_centred_rounded (scale : String) (pageWidth pageHeight margin headerSpace : ℚ)
    (minX minY : JSNum) (width height : ℚ)
    (contentWidth contentHeight s scaledWidth scaledHeight offsetX offsetY : ℚ)
    (hL : Binary64.exportLayout scale (.fin pageWidth) (.fin pageHeight) (.fin margin)
        (.fin headerSpace) ⟨minX, minY, .fin width, .fin height⟩ =
      ⟨.fin contentWidth, .fin contentHeight, .fin s, .fin scaledWidth, .fin scaledHeight,
        .fin offsetX, .fin offsetY⟩) :
    scaledWidth = roundToGrid (width * s) ∧ scaledHeight = roundToGrid (height * s) ∧
    |(offsetX - margin) - ((margin + contentWidth) - (offsetX + scaledWidth))| ≤
      3 * unitRoundoff * (|contentWidth - scaledWidth| + |margin| + |offsetX|) +
        8 * pow2 (-1075) ∧
    |(offsetY - (margin + headerSpace)) -
        ((margin + headerSpace + contentHeight) - (offsetY + scaledHeight))| ≤
      3 * unitRoundoff * (|contentHeight - scaledHeight| + |margin + headerSpace| + |offsetY|) +
        8 * pow2 (-1075) := by
  simp only [Binary64.exportLayout, Layout.mk.injEq] at hL
  obtain ⟨hcw, hch, hs, hsw, hsh, hox, hoy⟩ := hL
  rw [hs] at hsw hsh hox hoy
  rw [hsw, hcw] at hox
  rw [hsh, hch] at hoy
  have hη : (0 : ℚ) ≤ pow2 (-1075) := (pow2_pos _).le
  have h2 : (2 : ℚ) ≠ 0 := by norm_num
  -- the products
  have e_sw : scaledWidth = roundToGrid (width * s) := (fl_eq_fin hsw).1
  have e_sh : scaledHeight = roundToGrid (height * s) := (fl_eq_fin hsh).1
  refine ⟨e_sw, e_sh, ?_, ?_⟩
  · obtain ⟨m1, hf, hm1, hhf, hsum⟩ := JSNum.fadd_eq_fin hox
    simp only [JSNum.fin.injEq] at hm1
    subst hm1
    obtain ⟨d, hd, hquot⟩ := JSNum.fdiv_fin_eq_fin h2 hhf
    have hd' : fl (contentWidth - scaledWidth) = .fin d := by
      rw [← JSNum.fsub_fin]; exact hd
    have b0 : |margin - margin| ≤ unitRoundoff * |margin| + pow2 (-1075) := by
      rw [sub_self, abs_zero]
      exact add_nonneg (mul_nonneg unitRoundoff_bounds.1.le (abs_nonneg _)) hη
    have b1 : |d - (contentWidth - scaledWidth)| ≤
        unitRoundoff * |contentWidth - scaledWidth| + pow2 (-1075) := by
      rw [(fl_eq_fin hd').1]
      exact roundToGrid_abs _
    have b2 : |hf - d / 2| ≤ unitRoundoff * |d / 2| + pow2 (-1075) := by
      rw [(fl_eq_fin hquot).1]
      exact roundToGrid_abs _
    have b3 : |offsetX - (margin + hf)| ≤ unitRoundoff * |offsetX| + pow2 (-1075) := by
      have := roundToGrid_abs_result (margin + hf)
      rw [← (fl_eq_fin hsum).1] at this
      exact this
    exact centring_error margin margin contentWidth scaledWidth d hf offsetX _ hη b0 b1 b2 b3
  · obtain ⟨mh, hf, hmh, hhf, hsum⟩ := JSNum.fadd_eq_fin hoy
    have hmh' : fl (margin + headerSpace) = .fin mh := hmh
    obtain ⟨d, hd, hquot⟩ := JSNum.fdiv_fin_eq_fin h2 hhf
    have hd' : fl (contentHeight - scaledHeight) = .fin d := by
      rw [← JSNum.fsub_fin]; exact hd
    have b0 : |mh - (margin + headerSpace)| ≤
        unitRoundoff * |margin + headerSpace| + pow2 (-1075) := by
      rw [(fl_eq_fin hmh').1]
      exact roundToGrid_abs _
    have b1 : |d - (contentHeight - scaledHeight)| ≤
        unitRoundoff * |contentHeight - scaledHeight| + pow2 (-1075) := by
      rw [(fl_eq_fin hd').1]
      exact roundToGrid_abs _
    have b2 : |hf - d / 2| ≤ unitRoundoff * |d / 2| + pow2 (-1075) := by
      rw [(fl_eq_fin hquot).1]
      exact roundToGrid_abs _
    have b3 : |offsetY - (mh + hf)| ≤ unitRoundoff * |offsetY| + pow2 (-1075) := by
      have := roundToGrid_abs_result (mh + hf)
      rw [← (fl_eq_fin hsum).1] at this
      exact this
    exact centring_error (margin + headerSpace) mh contentHeight scaledHeight d hf offsetY _ hη
      b0 b1 b2 b3

/-- C21, counterexample: for bounds of 169 by 110 on an A4 portrait page (210 by
297, margin 15, header 25) under the auto setting, the values of `createPDF` in
binary64 are contentWidth 180, scaledWidth 180.00000000000003, offsetX
14.999999999999986 and offsetY 109.92011834319527; the top gap and the bottom
gap differ, and so do the left gap and the right gap when they are computed in
binary64 (-1.42e-14 against 0). -/
theorem exportLayout_not_centred :
    Binary64.exportLayout "auto" (.fin 210) (.fin 297) (.fin 15) (.fin 25)
        ⟨.fin 0, .fin 0, .fin 169, .fin 110⟩ =
      ⟨.fin 180, .fin 257, .fin (1199183332731789 / 1125899906842624),
        .fin (6333186975989761 / 35184372088832), .fin (8244385412531049 / 70368744177664),
        .fin (1055531162664959 / 70368744177664), .fin (1933735171917715 / 17592186044416)⟩ ∧
    (1933735171917715 / 17592186044416 : ℚ) - (15 + 25) ≠
      (15 + 25 + 257) - (1933735171917715 / 17592186044416 + 8244385412531049 / 70368744177664) ∧
    (JSNum.fin (1055531162664959 / 70368744177664)).fsub (.fin 15) =
      .fin (-1 / 70368744177664) ∧
    ((JSNum.fin 15).fadd (.fin 180)).fsub
        ((JSNum.fin (1055531162664959 / 70368744177664)).fadd
          (.fin (6333186975989761 / 35184372088832))) = .fin 0 := by
  refine ⟨by decide!, by norm_num, by decide!, by decide!⟩

/-- C21, amended, on an A4 portrait page (210 by 297, margin 15, header 25) with
bounds of 169 by 110 under the auto setting: the gaps of the computed layout
differ by no more than the stated rounding tolerance. -/
theorem exportLayout_centred_rounded_witness :
    (6333186975989761 / 35184372088832 : ℚ) =
      roundToGrid (169 * (1199183332731789 / 1125899906842624)) ∧
    (8244385412531049 / 70368744177664 : ℚ) =
      roundToGrid (110 * (1199183332731789 / 1125899906842624)) ∧
    |((1055531162664959 / 70368744177664 : ℚ) - 15) -
        ((15 + 180) - (1055531162664959 / 70368744177664 + 6333186975989761 / 35184372088832))| ≤
      3 * unitRoundoff * (|(180 : ℚ) - 6333186975989761 / 35184372088832| + |15| +
        |1055531162664959 / 70368744177664|) + 8 * pow2 (-1075) ∧
    |((1933735171917715 / 17592186044416 : ℚ) - (15 + 25)) -
        ((15 + 25 + 257) -
          (1933735171917715 / 17592186044416 + 8244385412531049 / 70368744177664))| ≤
      3 * unitRoundoff * (|(257 : ℚ) - 8244385412531049 / 70368744177664| + |15 + 25| +
        |1933735171917715 / 17592186044416|) + 8 * pow2 (-1075) :=
  exportLayout_centred_rounded "auto" 210 297 15 25 (.fin 0) (.fin 0) 169 110 180 257
    (1199183332731789 / 1125899906842624) (6333186975989761 / 35184372088832)
    (8244385412531049 / 70368744177664) (1055531162664959 / 70368744177664)
    (1933735171917715 / 17592186044416) (by decide!)

/-- Zero is a binary64 number. -/
theorem isBinary64_zero : IsBinary64 0 := by
  unfold IsBinary64
  decide!

/-- A rational between two rationals with finite binary64 roundings has a finite
binary64 rounding between theirs. -/
theorem fl_between {q a b A B : ℚ} (ha : fl a = .fin A) (hb : fl b = .fin B) (h1 : a ≤ q)
    (h2 : q ≤ b) : fl q = .fin (roundToGrid q) ∧ A ≤ roundToGrid q ∧ roundToGrid q ≤ B := by
  obtain ⟨ea, la⟩ := fl_eq_fin ha
  obtain ⟨eb, lb⟩ := fl_eq_fin hb
  have m1 := roundToGrid_mono a q h1
  have m2 := roundToGrid_mono q b h2
  rw [← ea] at m1
  rw [← eb] at m2
  have la' := abs_lt.mp la
  have lb' := abs_lt.mp lb
  exact ⟨fl_of_lt (abs_lt.mpr ⟨by linarith, by linarith⟩), m1, m2⟩

/-- The image by `toPDF` in binary64 of a point of the bounds rectangle: the
chain of rounded values, each between the values at the two corners. -/
theorem toPDF_rounded_image (minX minY width height offsetX offsetY scale : ℚ)
    (scaledWidth scaledHeight X1 Y1 : ℚ) (hs : 0 < scale)
    (box : IsBinary64 offsetX) (boy : IsBinary64 offsetY)
    (bw : IsBinary64 width) (bh : IsBinary64 height)
    (hsw : fl (width * scale) = .fin scaledWidth) (hsh : fl (height * scale) = .fin scaledHeight)
    (hX1 : fl (offsetX + scaledWidth) = .fin X1) (hY1 : fl (offsetY + scaledHeight) = .fin Y1) :
    ∀ x y : ℚ, minX ≤ x → x ≤ minX + width → minY ≤ y → y ≤ minY + height →
      Binary64.toPDF ⟨.fin minX, .fin minY, .fin width, .fin height⟩ (.fin offsetX)
          (.fin offsetY) (.fin scaledHeight) (.fin scale) (.fin x) (.fin y) =
        (.fin (roundToGrid (offsetX + roundToGrid (roundToGrid (x - minX) * scale))),
         .fin (roundToGrid (offsetY +
            roundToGrid (scaledHeight - roundToGrid (roundToGrid (y - minY) * scale))))) ∧
      0 ≤ roundToGrid (x - minX) ∧ roundToGrid (x - minX) ≤ width ∧
      0 ≤ roundToGrid (roundToGrid (x - minX) * scale) ∧
      roundToGrid (roundToGrid (x - minX) * scale) ≤ scaledWidth ∧
      offsetX ≤ roundToGrid (offsetX + roundToGrid (roundToGrid (x - minX) * scale)) ∧
      roundToGrid (offsetX + roundToGrid (roundToGrid (x - minX) * scale)) ≤ X1 ∧
      0 ≤ roundToGrid (y - minY) ∧ roundToGrid (y - minY) ≤ height ∧
      0 ≤ roundToGrid (roundToGrid (y - minY) * scale) ∧
      roundToGrid (roundToGrid (y - minY) * scale) ≤ scaledHeight ∧
      offsetY ≤ roundToGrid (offsetY +
        roundToGrid (scaledHeight - roundToGrid (roundToGrid (y - minY) * scale))) ∧
      roundToGrid (offsetY +
        roundToGrid (scaledHeight - roundToGrid (roundToGrid (y - minY) * scale))) ≤ Y1 := by
  have bsh : IsBinary64 scaledHeight := isBinary64_of_fl hsh
  have z := isBinary64_zero
  intro x y hx1 hx2 hy1 hy2
  obtain ⟨a1, a2, a3⟩ := fl_between z bw (by linarith : (0 : ℚ) ≤ x - minX) (by linarith)
  obtain ⟨p1, p2, p3⟩ := fl_between (q := roundToGrid (x - minX) * scale) z hsw
    (mul_nonneg a2 hs.le) (mul_le_mul_of_nonneg_right a3 hs.le)
  obtain ⟨u1, u2, u3⟩ := fl_between (q := offsetX + roundToGrid (roundToGrid (x - minX) * scale))
    (a := offsetX) box hX1 (by linarith) (by linarith)
  obtain ⟨c1, c2, c3⟩ := fl_between z bh (by linarith : (0 : ℚ) ≤ y - minY) (by linarith)
  obtain ⟨r1, r2, r3⟩ := fl_between (q := roundToGrid (y - minY) * scale) z hsh
    (mul_nonneg c2 hs.le) (mul_le_mul_of_nonneg_right c3 hs.le)
  obtain ⟨d1, d2, d3⟩ := fl_between
    (q := scaledHeight - roundToGrid (roundToGrid (y - minY) * scale)) z bsh
    (by linarith) (by linarith)
  obtain ⟨v1, v2, v3⟩ := fl_between
    (q := offsetY + roundToGrid (scaledHeight - roundToGrid (roundToGrid (y - minY) * scale)))
    (a := offsetY) boy hY1 (by linarith) (by linarith)
  refine ⟨?_, a2, a3, p2, p3, u2, u3, c2, c3, r2, r3, v2, v3⟩
  simp only [Binary64.toPDF, JSNum.fsub_fin, a1, c1, JSNum.fmul_fin, p1, r1, d1,
    JSNum.fadd_fin, u1, v1]

/-- C20, amended: in binary64, for scale > 0, binary64 offsets, width and height,
scaledWidth = fl(width * scale), scaledHeight = fl(height * scale) and finite
sums X1 = fl(offsetX + scaledWidth) and Y1 = fl(offsetY + scaledHeight), `toPDF`
sends the corner (minX, minY) to (offsetX, Y1); it sends a point whose
differences x - minX and y - minY round to width and height to (X1, offsetY); it
sends every point of the bounds rectangle into [offsetX, X1] x [offsetY, Y1]; and
inside the rectangle a larger or equal y gives a smaller or equal output y, a
larger or equal x a larger or equal output x. -/
theorem toPDF_flips_rounded (minX minY width height offsetX offsetY scale : ℚ)
    (scaledWidth scaledHeight X1 Y1 : ℚ) (hs : 0 < scale)
    (box : IsBinary64 offsetX) (boy : IsBinary64 offsetY)
    (bw : IsBinary64 width) (bh : IsBinary64 height)
    (hsw : fl (width * scale) = .fin scaledWidth) (hsh : fl (height * scale) = .fin scaledHeight)
    (hX1 : fl (offsetX + scaledWidth) = .fin X1) (hY1 : fl (offsetY + scaledHeight) = .fin Y1) :
    Binary64.toPDF ⟨.fin minX, .fin minY, .fin width, .fin height⟩ (.fin offsetX) (.fin offsetY)
        (.fin scaledHeight) (.fin scale) (.fin minX) (.fin minY) = (.fin offsetX, .fin Y1) ∧
    (∀ x y : ℚ, fl (x - minX) = .fin width → fl (y - minY) = .fin height →
      Binary64.toPDF ⟨.fin minX, .fin minY, .fin width, .fin height⟩ (.fin offsetX) (.fin offsetY)
        (.fin scaledHeight) (.fin scale) (.fin x) (.fin y) = (.fin X1, .fin offsetY)) ∧
    (∀ x y : ℚ, minX ≤ x → x ≤ minX + width → minY ≤ y → y ≤ minY + height →
      ∃ u v : ℚ,
        Binary64.toPDF ⟨.fin minX, .fin minY, .fin width, .fin height⟩ (.fin offsetX)
          (.fin offsetY) (.fin scaledHeight) (.fin scale) (.fin x) (.fin y) = (.fin u, .fin v) ∧
        offsetX ≤ u ∧ u ≤ X1 ∧ offsetY ≤ v ∧ v ≤ Y1) ∧
    (∀ x1 x2 y1 y2 : ℚ, minX ≤ x1 → x1 ≤ x2 → x2 ≤ minX + width →
      minY ≤ y1 → y1 ≤ y2 → y2 ≤ minY + height →
      ∃ u1 v1 u2 v2 : ℚ,
        Binary64.toPDF ⟨.fin minX, .fin minY, .fin width, .fin height⟩ (.fin offsetX)
          (.fin offsetY) (.fin scaledHeight) (.fin scale) (.fin x1) (.fin y1) =
            (.fin u1, .fin v1) ∧
        Binary64.toPDF ⟨.fin minX, .fin minY, .fin width, .fin height⟩ (.fin offsetX)
          (.fin offsetY) (.fin scaledHeight) (.fin scale) (.fin x2) (.fin y2) =
            (.fin u2, .fin v2) ∧
        u1 ≤ u2 ∧ v2 ≤ v1) := by
  have bsw : IsBinary64 scaledWidth := isBinary64_of_fl hsw
  have bsh : IsBinary64 scaledHeight := isBinary64_of_fl hsh
  have z := isBinary64_zero
  have hz : fl 0 = .fin 0 := z
  have hbox : fl offsetX = .fin offsetX := box
  have hboy : fl offsetY = .fin offsetY := boy
  have hbsh : fl scaledHeight = .fin scaledHeight := bsh
  have key := toPDF_rounded_image minX minY width height offsetX offsetY scale scaledWidth
    scaledHeight X1 Y1 hs box boy bw bh hsw hsh hX1 hY1
  refine ⟨?_, ?_, ?_, ?_⟩
  · simp only [Binary64.toPDF, JSNum.fsub_fin, sub_self, hz, JSNum.fmul_fin, zero_mul,
      JSNum.fadd_fin, add_zero, sub_zero, hbox, hbsh, hY1]
  · intro x y hx hy
    simp only [Binary64.toPDF, JSNum.fsub_fin, hx, hy, JSNum.fmul_fin, hsw, hsh, sub_self,
      JSNum.fadd_fin, hX1, hz, add_zero, hboy]
  · intro x y hx1 hx2 hy1 hy2
    obtain ⟨e, _, _, _, _, u2, u3, _, _, _, _, v2, v3⟩ := key x y hx1 hx2 hy1 hy2
    exact ⟨_, _, e, u2, u3, v2, v3⟩
  · intro x1 x2 y1 y2 hx1 hx12 hx2 hy1 hy12 hy2
    obtain ⟨e1, _⟩ := key x1 y1 hx1 (by linarith) hy1 (by linarith)
    obtain ⟨e2, _⟩ := key x2 y2 (by linarith) hx2 (by linarith) hy2
    refine ⟨_, _, _, _, e1, e2, ?_, ?_⟩
    · apply roundToGrid_mono
      have := roundToGrid_mono _ _ (mul_le_mul_of_nonneg_right
        (roundToGrid_mono (x1 - minX) (x2 - minX) (by linarith)) hs.le)
      linarith
    · apply roundToGrid_mono
      have := roundToGrid_mono _ _ (mul_le_mul_of_nonneg_right
        (roundToGrid_mono (y1 - minY) (y2 - minY) (by linarith)) hs.le)
      have := roundToGrid_mono (scaledHeight - roundToGrid (roundToGrid (y2 - minY) * scale))
        (scaledHeight - roundToGrid (roundToGrid (y1 - minY) * scale)) (by linarith)
      linarith

/-- C20, amended, in the layout of bounds (0, 0, 169, 110) on an A4 portrait
page: the corner (0, 0) goes to (offsetX, Y1) with Y1 = fl(offsetY + scaledHeight). -/
theorem toPDF_flips_rounded_witness :
    Binary64.toPDF ⟨.fin 0, .fin 0, .fin 169, .fin 110⟩
        (.fin (1055531162664959 / 70368744177664)) (.fin (1933735171917715 / 17592186044416))
        (.fin (8244385412531049 / 70368744177664)) (.fin (1199183332731789 / 1125899906842624))
        (.fin 0) (.fin 0) =
      (.fin (1055531162664959 / 70368744177664), .fin (3994831525050477 / 17592186044416)) :=
  (toPDF_flips_rounded 0 0 169 110 (1055531162664959 / 70368744177664)
    (1933735171917715 / 17592186044416) (1199183332731789 / 1125899906842624)
    (6333186975989761 / 35184372088832) (8244385412531049 / 70368744177664) 195
    (3994831525050477 / 17592186044416) (by norm_num) (by unfold IsBinary64; decide!)
    (by unfold IsBinary64; decide!) (by unfold IsBinary64; decide!)
    (by unfold IsBinary64; decide!) (by decide!) (by decide!) (by decide!) (by decide!)).1

/-- C20, counterexample: in the layout that `createPDF` computes in binary64 for
bounds (0, 0, 169, 110) on an A4 portrait page under the auto setting, `toPDF`
sends the drawing heights y = 30 and y = 30.000000000000004 to the same output
y = 195.12721893491124, so a larger y does not give a smaller output y and the
mapping is not one to one; and the corner (169, 110) goes to (195, offsetY),
where 195 is not offsetX + scaledWidth but its rounding. -/
theorem toPDF_not_strictly_flipped :
    Binary64.toPDF ⟨.fin 0, .fin 0, .fin 169, .fin 110⟩
        (.fin (1055531162664959 / 70368744177664)) (.fin (1933735171917715 / 17592186044416))
        (.fin (8244385412531049 / 70368744177664)) (.fin (1199183332731789 / 1125899906842624))
        (.fin 0) (.fin 30) =
      (.fin (1055531162664959 / 70368744177664), .fin (3432714337832451 / 17592186044416)) ∧
    Binary64.toPDF ⟨.fin 0, .fin 0, .fin 169, .fin 110⟩
        (.fin (1055531162664959 / 70368744177664)) (.fin (1933735171917715 / 17592186044416))
        (.fin (8244385412531049 / 70368744177664)) (.fin (1199183332731789 / 1125899906842624))
        (.fin 0) (.fin (8444249301319681 / 281474976710656)) =
      (.fin (1055531162664959 / 70368744177664), .fin (3432714337832451 / 17592186044416)) ∧
    (30 : ℚ) < 8444249301319681 / 281474976710656 ∧
    (8444249301319681 / 281474976710656 : ℚ) ≤ 0 + 110 ∧
    IsBinary64 (8444249301319681 / 281474976710656) ∧
    Binary64.toPDF ⟨.fin 0, .fin 0, .fin 169, .fin 110⟩
        (.fin (1055531162664959 / 70368744177664)) (.fin (1933735171917715 / 17592186044416))
        (.fin (8244385412531049 / 70368744177664)) (.fin (1199183332731789 / 1125899906842624))
        (.fin 169) (.fin 110) =
      (.fin 195, .fin (1933735171917715 / 17592186044416)) ∧
    (1055531162664959 / 70368744177664 : ℚ) + 6333186975989761 / 35184372088832 ≠ 195 := by
  refine ⟨by decide!, by decide!, by norm_num, by norm_num, by unfold IsBinary64; decide!,
    by decide!, by norm_num⟩

/-- The body of the loop of `calculateBounds` in binary64 on an entity with an
extent is the fold of `extendPoint` over the points of the extent. -/
theorem extend64_eq_foldl (e : Entity) (S : List (ℚ × ℚ))
    (h : Binary64.extentPoints e = some S) (a : Extent) :
    Binary64.extend a e = (S.map toPt).foldl extendPoint a := by
  cases e with
  | line x1 y1 x2 y2 c l =>
    cases x1 <;> cases y1 <;> cases x2 <;> cases y2 <;>
      simp only [Binary64.extentPoints, Option.some.injEq, reduceCtorEq] at h
    rw [← h]
    rfl
  | polyline points ic c l =>
    simp only [Binary64.extentPoints] at h
    split at h
    · rename_i p ps hfin
      simp only [Option.some.injEq] at h
      rw [← h, ← finitePoints_eq_some points _ hfin]
      rfl
    · exact absurd h (by simp)
  | point x y c l =>
    cases x <;> cases y <;>
      simp only [Binary64.extentPoints, Option.some.injEq, reduceCtorEq] at h
    rw [← h]
    rfl
  | arc cx cy r sa ea c l =>
    cases cx <;> cases cy <;> cases r <;>
      simp only [Binary64.extentPoints, Option.some.injEq, reduceCtorEq] at h
    rename_i cx cy r
    split_ifs at h with hr
    split at h
    · rename_i x1 y1 x2 y2 h1 h2 h3 h4
      simp only [Option.some.injEq] at h
      rw [← h]
      have hx : x1 ≤ x2 := by
        rw [(fl_eq_fin h1).1, (fl_eq_fin h3).1]
        exact roundToGrid_mono _ _ (by linarith)
      have hy : y1 ≤ y2 := by
        rw [(fl_eq_fin h2).1, (fl_eq_fin h4).1]
        exact roundToGrid_mono _ _ (by linarith)
      simp only [List.map_cons, List.map_nil, List.foldl_cons, List.foldl_nil, toPt, extendPoint,
        Binary64.extend, JSNum.min_min_of_le _ _ _ hx, JSNum.max_max_of_le _ _ _ hx,
        JSNum.min_min_of_le _ _ _ hy, JSNum.max_max_of_le _ _ _ hy, JSNum.fsub_fin,
        JSNum.fadd_fin, h1, h2, h3, h4]
    · exact absurd h (by simp)
  | text x y t sz c rot l =>
    cases x <;> cases y <;>
      simp only [Binary64.extentPoints, Option.some.injEq, reduceCtorEq] at h
    rename_i x y
    split_ifs at h with hb
    split at h
    · rename_i y1 x2 h1 h2
      simp only [Option.some.injEq] at h
      rw [← h]
      have hx : x ≤ x2 := by
        have := roundToGrid_mono x (x + 100) (by linarith)
        rw [← (fl_eq_fin h2).1, ← (fl_eq_fin hb.1).1] at this
        exact this
      have hy : y1 ≤ y := by
        have := roundToGrid_mono (y - 10) y (by linarith)
        rw [← (fl_eq_fin h1).1, ← (fl_eq_fin hb.2).1] at this
        exact this
      simp only [List.map_cons, List.map_nil, List.foldl_cons, List.foldl_nil, toPt, extendPoint,
        Binary64.extend, JSNum.min_min_of_le _ _ _ hx, JSNum.max_max_of_le _ _ _ hx,
        JSNum.min_min_of_le _ _ _ hy, JSNum.max_max_of_le _ _ _ hy, JSNum.fsub_fin,
        JSNum.fadd_fin, h1, h2]
    · exact absurd h (by simp)
  | rect x y w h2 c f => simp [Binary64.extentPoints] at h
  | circle cx cy r c l => simp [Binary64.extentPoints] at h
  | ellipse cx cy mx my rx ry rot c l => simp [Binary64.extentPoints] at h
  | spline cps d c l => simp [Binary64.extentPoints] at h

/-- The loop of `calculateBounds` in binary64 over entities that all have an
extent is the fold of `extendPoint` over all the points of the extents. -/
theorem foldl_extend64_eq (es : List Entity) :
    ∀ (S : List (ℚ × ℚ)) (a : Extent), Binary64.extentPointsAll es = some S →
      es.foldl Binary64.extend a = (S.map toPt).foldl extendPoint a := by
  induction es with
  | nil =>
    intro S a h
    simp only [Binary64.extentPointsAll, Option.some.injEq] at h
    rw [← h]
    rfl
  | cons e es ih =>
    intro S a h
    simp only [Binary64.extentPointsAll] at h
    split at h
    · rename_i p q hp hq
      simp only [Option.some.injEq] at h
      rw [← h, List.foldl_cons, List.map_append, List.foldl_append, extend64_eq_foldl e p hp,
        ih q _ hq]
    · exact absurd h (by simp)

/-- C17, amended: in binary64, for a non-empty list of lines, polylines with at
least one point, points, arcs of radius >= 0 and texts whose binary64 extents
(arc centre minus and plus radius, text x + 100 and y - 10, each rounded) have the least x
`mx`, the greatest x `Mx`, the least y `my` and the greatest y `My`,
`calculateBounds` returns minX = fl(mx - 30), minY = fl(my - 30),
width = fl(fl(Mx + 30) - fl(mx - 30)) and height = fl(fl(My + 30) - fl(my - 30));
when these are finite, minX differs from mx - 30 by at most
2^-53 |mx - 30| + 2^-1075 and width from (Mx - mx) + 60 by at most
2^-53 (|Mx + 30| + |mx - 30| + |width|) + 3 * 2^-1075, and likewise in y. -/
theorem calculateBounds_tight_rounded (es : List Entity) (S : List (ℚ × ℚ))
    (mx Mx my My : ℚ) (hne : es ≠ []) (hS : Binary64.extentPointsAll es = some S)
    (hmx : IsMinOf (S.map Prod.fst) mx) (hMx : IsMaxOf (S.map Prod.fst) Mx)
    (hmy : IsMinOf (S.map Prod.snd) my) (hMy : IsMaxOf (S.map Prod.snd) My) :
    Binary64.calculateBounds (some es) =
      ⟨fl (mx - 30), fl (my - 30), (fl (Mx + 30)).fsub (fl (mx - 30)),
        (fl (My + 30)).fsub (fl (my - 30))⟩ ∧
    ∀ minX minY width height : ℚ,
      Binary64.calculateBounds (some es) = ⟨.fin minX, .fin minY, .fin width, .fin height⟩ →
      |minX - (mx - 30)| ≤ unitRoundoff * |mx - 30| + pow2 (-1075) ∧
      |minY - (my - 30)| ≤ unitRoundoff * |my - 30| + pow2 (-1075) ∧
      |width - ((Mx - mx) + 60)| ≤
        unitRoundoff * (|Mx + 30| + |mx - 30| + |width|) + 3 * pow2 (-1075) ∧
      |height - ((My - my) + 60)| ≤
        unitRoundoff * (|My + 30| + |my - 30| + |height|) + 3 * pow2 (-1075) := by
  have hval : Binary64.calculateBounds (some es) =
      ⟨fl (mx - 30), fl (my - 30), (fl (Mx + 30)).fsub (fl (mx - 30)),
        (fl (My + 30)).fsub (fl (my - 30))⟩ := by
    cases es with
    | nil => exact absurd rfl hne
    | cons e es =>
      cases S with
      | nil => exact absurd hmx.1 (by simp)
      | cons p S =>
        have hfold := foldl_extend64_eq (e :: es) (p :: S) ⟨.pinf, .pinf, .ninf, .ninf⟩ hS
        have hinit : extendPoint ⟨.pinf, .pinf, .ninf, .ninf⟩ (toPt p) =
            ⟨.fin p.1, .fin p.2, .fin p.1, .fin p.2⟩ := rfl
        have hR : (List.map toPt (p :: S)).foldl extendPoint ⟨.pinf, .pinf, .ninf, .ninf⟩ =
            ⟨.fin ((S.map Prod.fst).foldl Min.min p.1), .fin ((S.map Prod.snd).foldl Min.min p.2),
             .fin ((S.map Prod.fst).foldl Max.max p.1),
             .fin ((S.map Prod.snd).foldl Max.max p.2)⟩ := by
          rw [List.map_cons, List.foldl_cons, hinit, foldl_extendPoint_fin]
        rw [hR] at hfold
        have e1 : (S.map Prod.fst).foldl Min.min p.1 = mx :=
          isMinOf_unique (foldl_min_isMinOf (S.map Prod.fst) [p.1] p.1 ⟨by simp, by simp⟩)
            (by simpa using hmx)
        have e2 : (S.map Prod.snd).foldl Min.min p.2 = my :=
          isMinOf_unique (foldl_min_isMinOf (S.map Prod.snd) [p.2] p.2 ⟨by simp, by simp⟩)
            (by simpa using hmy)
        have e3 : (S.map Prod.fst).foldl Max.max p.1 = Mx :=
          isMaxOf_unique (foldl_max_isMaxOf (S.map Prod.fst) [p.1] p.1 ⟨by simp, by simp⟩)
            (by simpa using hMx)
        have e4 : (S.map Prod.snd).foldl Max.max p.2 = My :=
          isMaxOf_unique (foldl_max_isMaxOf (S.map Prod.snd) [p.2] p.2 ⟨by simp, by simp⟩)
            (by simpa using hMy)
        rw [e1, e2, e3, e4] at hfold
        simp only [Binary64.calculateBounds, hfold, padding, JSNum.fsub_fin, JSNum.fadd_fin]
  refine ⟨hval, ?_⟩
  intro minX minY width height hB
  rw [hval] at hB
  simp only [Bounds.mk.injEq] at hB
  obtain ⟨h1, h2, h3, h4⟩ := hB
  have hu0 := unitRoundoff_bounds.1
  have key : ∀ (lo hi a w : ℚ), fl (lo - 30) = .fin a →
      (fl (hi + 30)).fsub (.fin a) = .fin w →
      |a - (lo - 30)| ≤ unitRoundoff * |lo - 30| + pow2 (-1075) ∧
      |w - ((hi - lo) + 60)| ≤ unitRoundoff * (|hi + 30| + |lo - 30| + |w|) + 3 * pow2 (-1075) := by
    intro lo hi a w ha hw
    obtain ⟨x, y, hx, hy, hfl⟩ := JSNum.fsub_eq_fin hw
    simp only [JSNum.fin.injEq] at hy
    subst hy
    have b1 : |a - (lo - 30)| ≤ unitRoundoff * |lo - 30| + pow2 (-1075) := by
      rw [(fl_eq_fin ha).1]
      exact roundToGrid_abs _
    have b2 : |x - (hi + 30)| ≤ unitRoundoff * |hi + 30| + pow2 (-1075) := by
      rw [(fl_eq_fin hx).1]
      exact roundToGrid_abs _
    have b3 : |w - (x - a)| ≤ unitRoundoff * |w| + pow2 (-1075) := by
      have := roundToGrid_abs_result (x - a)
      rw [← (fl_eq_fin hfl).1] at this
      exact this
    refine ⟨b1, ?_⟩
    have e : w - ((hi - lo) + 60) = (w - (x - a)) + (x - (hi + 30)) - (a - (lo - 30)) := by ring
    rw [e]
    have t1 := abs_sub ((w - (x - a)) + (x - (hi + 30))) (a - (lo - 30))
    have t2 := abs_add (w - (x - a)) (x - (hi + 30))
    linarith
  rw [h1] at h3
  rw [h2] at h4
  obtain ⟨k1, k2⟩ := key mx Mx minX width h1 h3
  obtain ⟨k3, k4⟩ := key my My minY height h2 h4
  exact ⟨k1, k3, k2, k4⟩

/-- C17, counterexample: in binary64 a single point at x = 2^60 gets the bounds
minX = 2^60 and width 0, where mx - 30 = 2^60 - 30 and (Mx - mx) + 60 = 60; and
a line from x = 0.1 to x = 0.7 gets width 60.599999999999994, which is neither
the exact (Mx - mx) + 60 nor its value 60.6 in binary64. -/
theorem calculateBounds_not_tight :
    Binary64.calculateBounds (some [.point (.fin (2 ^ 60)) (.fin 0) white none]) =
      ⟨.fin (2 ^ 60), .fin (-30), .fin 0, .fin 60⟩ ∧
    Binary64.calculateBounds (some [.line (.fin (3602879701896397 / 36028797018963968)) (.fin 0)
        (.fin (3152519739159347 / 4503599627370496)) (.fin 0) white none]) =
      ⟨.fin (-4208050901824307 / 140737488355328), .fin (-30),
        .fin (2132172948583219 / 35184372088832), .fin 60⟩ ∧
    (2132172948583219 / 35184372088832 : ℚ) ≠
      (3152519739159347 / 4503599627370496 - 3602879701896397 / 36028797018963968) + 60 ∧
    ((JSNum.fin (3152519739159347 / 4503599627370496)).fsub
        (.fin (3602879701896397 / 36028797018963968))).fadd (.fin 60) =
      .fin (8528691794332877 / 140737488355328) := by
  refine ⟨by decide!, by decide!, by norm_num, by decide!⟩

/-- C17, amended, on the list of a line from (0.1, 0) to (0.7, 100), a point
(-5, 7) and an arc of centre (100, 100) and radius 30: the binary64 extents span
[-5, 130] x [0, 130] and the bounds are (-35, -30, 195, 190). -/
theorem calculateBounds_tight_rounded_witness :
    Binary64.calculateBounds (some
        [.line (.fin (3602879701896397 / 36028797018963968)) (.fin 0)
          (.fin (3152519739159347 / 4503599627370496)) (.fin 100) white none,
         .point (.fin (-5)) (.fin 7) white none,
         .arc (.fin 100) (.fin 100) (.fin 30) (.fin 0) (.fin 180) white none]) =
      ⟨fl (-5 - 30), fl (0 - 30), (fl (130 + 30)).fsub (fl (-5 - 30)),
        (fl (130 + 30)).fsub (fl (0 - 30))⟩ :=
  (calculateBounds_tight_rounded _ [(3602879701896397 / 36028797018963968, 0),
      (3152519739159347 / 4503599627370496, 100), (-5, 7), (70, 70), (130, 130)] (-5) 130 0 130
    (by simp) (by decide!)
    ⟨by simp, by simp; norm_num⟩ ⟨by simp, by simp; norm_num⟩
    ⟨by simp, by simp⟩ ⟨by simp, by simp; norm_num⟩).1

/-- The rounding of a non-negative rational is not `-Infinity`, and a finite
minimum of two such roundings is the smaller rounded value. -/
theorem min_fl_eq_fin (a b s : ℚ) (ha : 0 ≤ a) (hb : 0 ≤ b)
    (h : JSNum.min (fl a) (fl b) = .fin s) :
    s ≤ roundToGrid a ∧ s ≤ roundToGrid b ∧ (s = roundToGrid a ∨ s = roundToGrid b) := by
  have ga := roundToGrid_nonneg a ha
  have gb := roundToGrid_nonneg b hb
  have hp : (0 : ℚ) < pow2 1024 := pow2_pos _
  have fa : fl a = .pinf ∧ pow2 1024 ≤ roundToGrid a ∨ fl a = .fin (roundToGrid a) ∧
      roundToGrid a < pow2 1024 := by
    unfold fl
    simp only
    by_cases c : pow2 1024 ≤ roundToGrid a
    · left; exact ⟨by rw [if_pos c], c⟩
    · right
      rw [if_neg c, if_neg (by linarith)]
      exact ⟨rfl, not_le.mp c⟩
  have fb : fl b = .pinf ∧ pow2 1024 ≤ roundToGrid b ∨ fl b = .fin (roundToGrid b) ∧
      roundToGrid b < pow2 1024 := by
    unfold fl
    simp only
    by_cases c : pow2 1024 ≤ roundToGrid b
    · left; exact ⟨by rw [if_pos c], c⟩
    · right
      rw [if_neg c, if_neg (by linarith)]
      exact ⟨rfl, not_le.mp c⟩
  rcases fa with ⟨ea, la⟩ | ⟨ea, la⟩ <;> rcases fb with ⟨eb, lb⟩ | ⟨eb, lb⟩
  · rw [ea, eb] at h
    exact absurd h (by simp [JSNum.min, JSNum.le])
  · rw [ea, eb] at h
    simp only [JSNum.min, JSNum.le, Bool.false_eq_true, if_false, JSNum.fin.injEq] at h
    rw [← h]
    exact ⟨by linarith, le_refl _, Or.inr rfl⟩
  · rw [ea, eb] at h
    simp only [JSNum.min, JSNum.le, if_true, JSNum.fin.injEq] at h
    rw [← h]
    exact ⟨le_refl _, by linarith, Or.inl rfl⟩
  · rw [ea, eb, JSNum.min_fin] at h
    simp only [JSNum.fin.injEq] at h
    rw [← h]
    exact ⟨min_le_left _ _, min_le_right _ _, by
      rcases min_choice (roundToGrid a) (roundToGrid b) with c | c
      · left; exact c
      · right; exact c⟩

/-- Half the smallest subnormal is at most the unit roundoff times any number of
the normal range: the absolute part of a rounding error is absorbed. -/
theorem eta_le (c : ℚ) (hc : pow2 (-1021) ≤ c) : pow2 (-1075) ≤ unitRoundoff * c / 2 := by
  have e : pow2 (-1075) = unitRoundoff * pow2 (-1021) / 2 := by
    unfold unitRoundoff
    rw [pow2_eq, pow2_eq]
    rw [show (-1075 : ℤ) = -1021 + -54 by norm_num, zpow_add₀ (by norm_num)]
    norm_num
  rw [e]
  have := mul_le_mul_of_nonneg_left hc unitRoundoff_bounds.1.le
  linarith

/-- The unit roundoff is at most 1/8. -/
theorem unitRoundoff_le : unitRoundoff ≤ 1 / 8 := by
  unfold unitRoundoff
  norm_num

/-- Upper bound of a rounded value by a bound of its argument. -/
theorem roundToGrid_le_of_le (q B : ℚ) (hB : 0 ≤ B) (h : q ≤ B) :
    roundToGrid q ≤ B + unitRoundoff * B + pow2 (-1075) := by
  have m := roundToGrid_mono q B h
  have e := abs_le.mp (roundToGrid_abs B)
  rw [abs_of_nonneg hB] at e
  linarith

/-- Lower bound of a rounded value by a bound of its argument. -/
theorem roundToGrid_ge_of_ge (q B : ℚ) (hB : 0 ≤ B) (h : -B ≤ q) :
    -(B + unitRoundoff * B + pow2 (-1075)) ≤ roundToGrid q := by
  have m := roundToGrid_mono (-B) q h
  have e := abs_le.mp (roundToGrid_abs (-B))
  rw [abs_neg, abs_of_nonneg hB] at e
  linarith

/-- Two inequalities of the unit roundoff used to simplify error bounds. -/
theorem unitRoundoff_poly :
    (1 : ℚ) ≤ (1 - unitRoundoff) * (1 - unitRoundoff) * (1 + 4 * unitRoundoff) ∧
    1 - 4 * unitRoundoff ≤ (1 - unitRoundoff) * (1 - unitRoundoff) ∧
    (1 + unitRoundoff) * (1 - unitRoundoff) ≤ 1 := by
  unfold unitRoundoff
  refine ⟨by norm_num, by norm_num, by norm_num⟩

/-- The scaled size `fl(w * s)` for a scale `s` that is at most `fl(c / w)`,
with `s` and `c` of the normal range: it exceeds `c` by at most the relative
excess `4 * 2^-53`, and when `s = fl(c / w)` it reaches `c` up to that. -/
theorem scaled_fits (w c s : ℚ) (hw : 0 < w) (hc : pow2 (-1021) ≤ c) (hs : pow2 (-1022) ≤ s)
    (hle : s ≤ roundToGrid (c / w)) :
    roundToGrid (w * s) ≤ c * (1 + 4 * unitRoundoff) ∧
    (s = roundToGrid (c / w) → c * (1 - 4 * unitRoundoff) ≤ roundToGrid (w * s)) := by
  obtain ⟨hu0, hu1⟩ := unitRoundoff_bounds
  have hu8 := unitRoundoff_le
  obtain ⟨k1, k2, k3⟩ := unitRoundoff_poly
  have hcpos : 0 < c := lt_of_lt_of_le (pow2_pos _) hc
  have hsXn : pow2 (-1022) ≤ |roundToGrid (c / w)| :=
    le_trans (le_trans hs hle) (le_abs_self _)
  have hsXpos : 0 < roundToGrid (c / w) := lt_of_lt_of_le (pow2_pos _) (le_trans hs hle)
  have r1 := abs_le.mp (roundToGrid_rel_result (c / w) hsXn)
  rw [abs_of_pos hsXpos] at r1
  generalize roundToGrid (c / w) = sX at hle hsXn hsXpos r1 ⊢
  -- w * sX against c
  have hcw : c / w * w = c := by field_simp
  have up1 : w * sX * (1 - unitRoundoff) ≤ c := by
    have h1 : sX - unitRoundoff * sX ≤ c / w := by linarith
    have h2 := mul_le_mul_of_nonneg_right h1 hw.le
    rw [hcw] at h2
    have h3 : w * sX * (1 - unitRoundoff) = (sX - unitRoundoff * sX) * w := by ring
    linarith
  have lo1 : c ≤ w * sX * (1 + unitRoundoff) := by
    have h1 : c / w ≤ sX + unitRoundoff * sX := by linarith
    have h2 := mul_le_mul_of_nonneg_right h1 hw.le
    rw [hcw] at h2
    have h3 : w * sX * (1 + unitRoundoff) = (sX + unitRoundoff * sX) * w := by ring
    linarith
  have hwsX : 0 < w * sX := mul_pos hw hsXpos
  have huc : 0 ≤ unitRoundoff * c := mul_nonneg hu0.le hcpos.le
  constructor
  · -- upper bound through the rounding of w * sX
    have mono : roundToGrid (w * s) ≤ roundToGrid (w * sX) :=
      roundToGrid_mono _ _ (mul_le_mul_of_nonneg_left hle hw.le)
    have gpos : 0 ≤ roundToGrid (w * sX) := roundToGrid_nonneg _ hwsX.le
    by_cases hgn : pow2 (-1022) ≤ roundToGrid (w * sX)
    · have r2 := abs_le.mp (roundToGrid_rel_result (w * sX) (le_trans hgn (le_abs_self _)))
      rw [abs_of_nonneg gpos] at r2
      generalize roundToGrid (w * sX) = g at mono gpos hgn r2
      have h1 : g * (1 - unitRoundoff) ≤ w * sX := by linarith
      have h2 : g * (1 - unitRoundoff) * (1 - unitRoundoff) ≤ c := by
        have := mul_le_mul_of_nonneg_right h1 (by linarith : (0 : ℚ) ≤ 1 - unitRoundoff)
        linarith
      have h3 : g ≤ g * ((1 - unitRoundoff) * (1 - unitRoundoff) * (1 + 4 * unitRoundoff)) :=
        le_mul_of_one_le_right gpos k1
      have h4 : g * (1 - unitRoundoff) * (1 - unitRoundoff) * (1 + 4 * unitRoundoff) ≤
          c * (1 + 4 * unitRoundoff) :=
        mul_le_mul_of_nonneg_right h2 (by linarith)
      have h5 : g * ((1 - unitRoundoff) * (1 - unitRoundoff) * (1 + 4 * unitRoundoff)) =
          g * (1 - unitRoundoff) * (1 - unitRoundoff) * (1 + 4 * unitRoundoff) := by ring
      linarith
    · have : roundToGrid (w * sX) < c := lt_of_lt_of_le (not_le.mp hgn)
        (le_trans (pow2_le_pow2 (by norm_num)) hc)
      have e : c * (1 + 4 * unitRoundoff) = c + 4 * (unitRoundoff * c) := by ring
      linarith
  · intro heq
    rw [heq]
    have hn : pow2 (-1022) ≤ |w * sX| := by
      rw [abs_of_pos hwsX]
      have h21 : pow2 (-1021) = 2 * pow2 (-1022) := by
        have := pow2_succ (-1022)
        norm_num at this
        exact this
      have h22 : w * sX * (1 + unitRoundoff) ≤ w * sX * 2 :=
        mul_le_mul_of_nonneg_left (by linarith) hwsX.le
      linarith
    have r2 := abs_le.mp (roundToGrid_rel (w * sX) hn)
    rw [abs_of_pos hwsX] at r2
    generalize roundToGrid (w * sX) = g at r2 ⊢
    have h1 : w * sX * (1 - unitRoundoff) ≤ g := by linarith
    have h2 : c * (1 - unitRoundoff) ≤ w * sX * (1 + unitRoundoff) * (1 - unitRoundoff) :=
      mul_le_mul_of_nonneg_right lo1 (by linarith)
    have h3 : w * sX * (1 + unitRoundoff) * (1 - unitRoundoff) ≤ w * sX := by
      have := mul_le_mul_of_nonneg_left k3 hwsX.le
      have e : w * sX * (1 + unitRoundoff) * (1 - unitRoundoff) =
          w * sX * ((1 + unitRoundoff) * (1 - unitRoundoff)) := by ring
      linarith
    have h4 : c * (1 - unitRoundoff) * (1 - unitRoundoff) ≤ w * sX * (1 - unitRoundoff) := by
      have := mul_le_mul_of_nonneg_right (le_trans h2 h3) (by linarith : (0 : ℚ) ≤ 1 - unitRoundoff)
      linarith
    have h5 : c * (1 - 4 * unitRoundoff) ≤ c * (1 - unitRoundoff) * (1 - unitRoundoff) := by
      have := mul_le_mul_of_nonneg_left k2 hcpos.le
      have e : c * ((1 - unitRoundoff) * (1 - unitRoundoff)) =
          c * (1 - unitRoundoff) * (1 - unitRoundoff) := by ring
      linarith
    linarith

/-- The offset `o = fl(b + fl(fl(c - sz) / 2))` and the far edge
`T = fl(o + sz)` for a scaled size `sz` between 0 and `c (1 + 4 * 2^-53)`, a
content size `c` of the normal range and a base `b` within `e0` of `b0`: the
offset is at least `b0` and the far edge at most `b0 + c`, up to rounding. -/
theorem offset_bounds (b0 b c sz d hf o T e0 : ℚ) (hc : pow2 (-1021) ≤ c)
    (hsz0 : 0 ≤ sz) (hszU : sz ≤ c * (1 + 4 * unitRoundoff))
    (hb : |b - b0| ≤ e0)
    (hd : d = roundToGrid (c - sz)) (hh : hf = roundToGrid (d / 2))
    (ho : o = roundToGrid (b + hf)) (hT : T = roundToGrid (o + sz)) :
    b0 - (e0 + 5 * (unitRoundoff * c) + unitRoundoff * |o|) ≤ o ∧
    T ≤ b0 + c + (e0 + 6 * (unitRoundoff * c) + unitRoundoff * |o| + unitRoundoff * |T|) := by
  obtain ⟨hu0, hu1⟩ := unitRoundoff_bounds
  have hu8 := unitRoundoff_le
  have hcpos : 0 < c := lt_of_lt_of_le (pow2_pos _) hc
  have hη := eta_le c hc
  have hη0 : (0 : ℚ) ≤ pow2 (-1075) := (pow2_pos _).le
  have hU : 0 ≤ unitRoundoff * c := mul_nonneg hu0.le hcpos.le
  have hUc : unitRoundoff * c ≤ c / 8 := by
    have := mul_le_mul_of_nonneg_right hu8 hcpos.le
    linarith
  have hb' := abs_le.mp hb
  -- the difference c - sz
  have hszU' : sz ≤ c + 4 * (unitRoundoff * c) := by
    have e : c * (1 + 4 * unitRoundoff) = c + 4 * (unitRoundoff * c) := by ring
    linarith
  have habs : |c - sz| ≤ c := by
    rw [abs_le]
    constructor <;> linarith
  have ed := abs_le.mp (roundToGrid_abs (c - sz))
  rw [← hd] at ed
  have hud : unitRoundoff * |c - sz| ≤ unitRoundoff * c :=
    mul_le_mul_of_nonneg_left habs hu0.le
  have dU : d ≤ (c - sz) + 3 / 2 * (unitRoundoff * c) := by linarith
  have dL : (c - sz) - 3 / 2 * (unitRoundoff * c) ≤ d := by linarith
  have dabs : |d / 2| ≤ c := by
    rw [abs_le]
    constructor <;> linarith
  -- the half
  have eh := abs_le.mp (roundToGrid_abs (d / 2))
  rw [← hh] at eh
  have huh : unitRoundoff * |d / 2| ≤ unitRoundoff * c :=
    mul_le_mul_of_nonneg_left dabs hu0.le
  have hfU : hf ≤ (c - sz) / 2 + 9 / 4 * (unitRoundoff * c) := by linarith
  have hfL : (c - sz) / 2 - 9 / 4 * (unitRoundoff * c) ≤ hf := by linarith
  -- the offset
  have eo := abs_le.mp (roundToGrid_abs_result (b + hf))
  rw [← ho] at eo
  -- the far edge
  have eT := abs_le.mp (roundToGrid_abs_result (o + sz))
  rw [← hT] at eT
  constructor
  · linarith
  · linarith

/-- C29, amended: in binary64 under the auto setting, for binary64 bounds of
positive width and height, finite values of `createPDF` with contentWidth and
contentHeight at least 2^-1021 and a scale at least 2^-1022, and finite far
edges X1 = fl(offsetX + scaledWidth) and Y1 = fl(offsetY + scaledHeight), the
scaled drawing fits the content rectangle up to rounding:
scaledWidth <= contentWidth * (1 + 2^-51) and
scaledHeight <= contentHeight * (1 + 2^-51), one of the two being at least the
content size times (1 - 2^-51); offsetX >= margin - tolX and
offsetY >= margin + headerSpace - tolY; and `toPDF` sends every point of the
bounds rectangle into [offsetX, X1] x [offsetY, Y1], which lies inside the
content rectangle widened by tolX = 2^-53 * (6 * contentWidth + |offsetX| + |X1|)
and tolY = 2^-53 * (7 * contentHeight + |margin + headerSpace| + |offsetY| + |Y1|). -/
theorem exportLayout_fits_rounded (pageWidth pageHeight margin headerSpace : ℚ)
    (minX minY width height : ℚ)
    (contentWidth contentHeight s scaledWidth scaledHeight offsetX offsetY X1 Y1 : ℚ)
    (hw : 0 < width) (hh : 0 < height) (bw : IsBinary64 width) (bh : IsBinary64 height)
    (hL : Binary64.exportLayout "auto" (.fin pageWidth) (.fin pageHeight) (.fin margin)
        (.fin headerSpace) ⟨.fin minX, .fin minY, .fin width, .fin height⟩ =
      ⟨.fin contentWidth, .fin contentHeight, .fin s, .fin scaledWidth, .fin scaledHeight,
        .fin offsetX, .fin offsetY⟩)
    (hcw : pow2 (-1021) ≤ contentWidth) (hch : pow2 (-1021) ≤ contentHeight)
    (hs : pow2 (-1022) ≤ s)
    (hX1 : fl (offsetX + scaledWidth) = .fin X1) (hY1 : fl (offsetY + scaledHeight) = .fin Y1) :
    0 < s ∧
    scaledWidth ≤ contentWidth * (1 + 4 * unitRoundoff) ∧
    scaledHeight ≤ contentHeight * (1 + 4 * unitRoundoff) ∧
    (contentWidth * (1 - 4 * unitRoundoff) ≤ scaledWidth ∨
      contentHeight * (1 - 4 * unitRoundoff) ≤ scaledHeight) ∧
    margin - unitRoundoff * (6 * contentWidth + |offsetX| + |X1|) ≤ offsetX ∧
    margin + headerSpace -
        unitRoundoff * (7 * contentHeight + |margin + headerSpace| + |offsetY| + |Y1|) ≤
      offsetY ∧
    (∀ x y : ℚ, minX ≤ x → x ≤ minX + width → minY ≤ y → y ≤ minY + height →
      ∃ u v : ℚ,
        Binary64.toPDF ⟨.fin minX, .fin minY, .fin width, .fin height⟩ (.fin offsetX)
          (.fin offsetY) (.fin scaledHeight) (.fin s) (.fin x) (.fin y) = (.fin u, .fin v) ∧
        offsetX ≤ u ∧ u ≤ X1 ∧ offsetY ≤ v ∧ v ≤ Y1 ∧
        margin - unitRoundoff * (6 * contentWidth + |offsetX| + |X1|) ≤ u ∧
        u ≤ margin + contentWidth + unitRoundoff * (6 * contentWidth + |offsetX| + |X1|) ∧
        margin + headerSpace -
            unitRoundoff * (7 * contentHeight + |margin + headerSpace| + |offsetY| + |Y1|) ≤
          v ∧
        v ≤ margin + headerSpace + contentHeight +
          unitRoundoff * (7 * contentHeight + |margin + headerSpace| + |offsetY| + |Y1|)) := by
  obtain ⟨hu0, hu1⟩ := unitRoundoff_bounds
  have hspos : 0 < s := lt_of_lt_of_le (pow2_pos _) hs
  have hcwpos : 0 < contentWidth := lt_of_lt_of_le (pow2_pos _) hcw
  have hchpos : 0 < contentHeight := lt_of_lt_of_le (pow2_pos _) hch
  have hηw := eta_le contentWidth hcw
  have hηh := eta_le contentHeight hch
  have h2 : (2 : ℚ) ≠ 0 := by norm_num
  simp only [Binary64.exportLayout, if_true, Layout.mk.injEq] at hL
  obtain ⟨ecw, ech, es, esw, esh, eox, eoy⟩ := hL
  rw [es] at esw esh eox eoy
  rw [ecw, ech, JSNum.fdiv_fin _ _ hw.ne', JSNum.fdiv_fin _ _ hh.ne'] at es
  rw [esw, ecw] at eox
  rw [esh, ech] at eoy
  have esw' : fl (width * s) = .fin scaledWidth := esw
  have esh' : fl (height * s) = .fin scaledHeight := esh
  obtain ⟨m1, m2, m3⟩ := min_fl_eq_fin _ _ s (div_pos hcwpos hw).le (div_pos hchpos hh).le es
  obtain ⟨fw1, fw2⟩ := scaled_fits width contentWidth s hw hcw hs m1
  obtain ⟨fh1, fh2⟩ := scaled_fits height contentHeight s hh hch hs m2
  rw [← (fl_eq_fin esw').1] at fw1 fw2
  rw [← (fl_eq_fin esh').1] at fh1 fh2
  have sw0 : 0 ≤ scaledWidth := by
    rw [(fl_eq_fin esw').1]
    exact roundToGrid_nonneg _ (mul_nonneg hw.le hspos.le)
  have sh0 : 0 ≤ scaledHeight := by
    rw [(fl_eq_fin esh').1]
    exact roundToGrid_nonneg _ (mul_nonneg hh.le hspos.le)
  -- the horizontal offset
  obtain ⟨mx, hfx, hmx, hhfx, hsumx⟩ := JSNum.fadd_eq_fin eox
  simp only [JSNum.fin.injEq] at hmx
  subst hmx
  obtain ⟨dx, hdx, hqx⟩ := JSNum.fdiv_fin_eq_fin h2 hhfx
  rw [JSNum.fsub_fin] at hdx
  obtain ⟨ox1, ox2⟩ := offset_bounds margin margin contentWidth scaledWidth dx hfx offsetX X1 0
    hcw sw0 fw1 (by simp) (fl_eq_fin hdx).1 (fl_eq_fin hqx).1 (fl_eq_fin hsumx).1
    (fl_eq_fin hX1).1
  -- the vertical offset
  obtain ⟨my, hfy, hmy, hhfy, hsumy⟩ := JSNum.fadd_eq_fin eoy
  have hmy' : fl (margin + headerSpace) = .fin my := hmy
  obtain ⟨dy, hdy, hqy⟩ := JSNum.fdiv_fin_eq_fin h2 hhfy
  rw [JSNum.fsub_fin] at hdy
  have eb : |my - (margin + headerSpace)| ≤
      unitRoundoff * |margin + headerSpace| + pow2 (-1075) := by
    rw [(fl_eq_fin hmy').1]
    exact roundToGrid_abs _
  obtain ⟨oy1, oy2⟩ := offset_bounds (margin + headerSpace) my contentHeight scaledHeight dy hfy
    offsetY Y1 _ hch sh0 fh1 eb (fl_eq_fin hdy).1 (fl_eq_fin hqy).1 (fl_eq_fin hsumy).1
    (fl_eq_fin hY1).1
  have box : IsBinary64 offsetX := isBinary64_of_fl hsumx
  have boy : IsBinary64 offsetY := isBinary64_of_fl hsumy
  have key := toPDF_rounded_image minX minY width height offsetX offsetY s scaledWidth
    scaledHeight X1 Y1 hspos box boy bw bh esw' esh' hX1 hY1
  have lx : margin - unitRoundoff * (6 * contentWidth + |offsetX| + |X1|) ≤ offsetX := by
    have := mul_nonneg hu0.le (abs_nonneg X1)
    have := mul_nonneg hu0.le hcwpos.le
    linarith
  have ux : X1 ≤ margin + contentWidth +
      unitRoundoff * (6 * contentWidth + |offsetX| + |X1|) := by
    linarith
  have ly : margin + headerSpace -
      unitRoundoff * (7 * contentHeight + |margin + headerSpace| + |offsetY| + |Y1|) ≤
        offsetY := by
    have := mul_nonneg hu0.le (abs_nonneg Y1)
    have := mul_nonneg hu0.le hchpos.le
    linarith
  have uy : Y1 ≤ margin + headerSpace + contentHeight +
      unitRoundoff * (7 * contentHeight + |margin + headerSpace| + |offsetY| + |Y1|) := by
    have := mul_nonneg hu0.le hchpos.le
    linarith
  refine ⟨hspos, fw1, fh1, ?_, lx, ly, ?_⟩
  · rcases m3 with h | h
    · exact Or.inl (fw2 h)
    · exact Or.inr (fh2 h)
  · intro x y hx1 hx2 hy1 hy2
    obtain ⟨e, _, _, _, _, u2, u3, _, _, _, _, v2, v3⟩ := key x y hx1 hx2 hy1 hy2
    exact ⟨_, _, e, u2, u3, v2, v3, by linarith, by linarith, by linarith, by linarith⟩

/-- C29, amended, on an A4 portrait page (210 by 297, margin 15, header 25) with
bounds of 169 by 110 under the auto setting: the scaled width
180.00000000000003 is within the factor 1 + 2^-51 of the content width 180, and
offsetX = 14.999999999999986 is within the tolerance of the margin 15. -/
theorem exportLayout_fits_rounded_witness :
    (6333186975989761 / 35184372088832 : ℚ) ≤ 180 * (1 + 4 * unitRoundoff) ∧
    (15 : ℚ) - unitRoundoff * (6 * 180 + |1055531162664959 / 70368744177664| + |195|) ≤
      1055531162664959 / 70368744177664 :=
  have h := exportLayout_fits_rounded 210 297 15 25 0 0 169 110 180 257
    (1199183332731789 / 1125899906842624) (6333186975989761 / 35184372088832)
    (8244385412531049 / 70368744177664) (1055531162664959 / 70368744177664)
    (1933735171917715 / 17592186044416) 195 (3994831525050477 / 17592186044416)
    (by norm_num) (by norm_num) (by unfold IsBinary64; decide!) (by unfold IsBinary64; decide!)
    (by decide!) (le_trans (pow2_le_one (by norm_num)) (by norm_num))
    (le_trans (pow2_le_one (by norm_num)) (by norm_num))
    (le_trans (pow2_le_one (by norm_num)) (by norm_num)) (by decide!) (by decide!)
  ⟨h.2.1, h.2.2.2.2.1⟩

/-- C29, counterexample: for bounds of 169 by 110 on an A4 portrait page (210 by
297, margin 15, header 25) under the auto setting, `createPDF` computes in
binary64 the scale fl(180 / 169), the scaled width 180.00000000000003, larger
than the content width 180, and offsetX = 14.999999999999986, smaller than the
margin 15; `toPDF` sends the corner (0, 0) of the bounds rectangle to
x = 14.999999999999986, left of the content rectangle. -/
theorem exportLayout_overflows_content :
    Binary64.exportLayout "auto" (.fin 210) (.fin 297) (.fin 15) (.fin 25)
        ⟨.fin 0, .fin 0, .fin 169, .fin 110⟩ =
      ⟨.fin 180, .fin 257, .fin (1199183332731789 / 1125899906842624),
        .fin (6333186975989761 / 35184372088832), .fin (8244385412531049 / 70368744177664),
        .fin (1055531162664959 / 70368744177664), .fin (1933735171917715 / 17592186044416)⟩ ∧
    (180 : ℚ) < 6333186975989761 / 35184372088832 ∧
    (6333186975989761 / 35184372088832 : ℚ) ≠ 180 ∧
    (8244385412531049 / 70368744177664 : ℚ) ≠ 257 ∧
    (1055531162664959 / 70368744177664 : ℚ) < 15 ∧
    Binary64.toPDF ⟨.fin 0, .fin 0, .fin 169, .fin 110⟩
        (.fin (1055531162664959 / 70368744177664)) (.fin (1933735171917715 / 17592186044416))
        (.fin (8244385412531049 / 70368744177664)) (.fin (1199183332731789 / 1125899906842624))
        (.fin 0) (.fin 0) =
      (.fin (1055531162664959 / 70368744177664), .fin (3994831525050477 / 17592186044416)) := by
  refine ⟨by decide!, by norm_num, by norm_num, by norm_num, by norm_num, by decide!⟩

/-- Every number approximates itself. -/
theorem near_refl (v : ℚ) : Near 1 0 v v := by
  unfold Near
  simp

/-- A weaker factor and a weaker absolute error. -/
theorem near_mono {R β R' β' v' v : ℚ} (h : Near R β v' v) (hR : R ≤ R') (hβ : β ≤ β') :
    Near R' β' v' v := by
  unfold Near at *
  have := mul_le_mul_of_nonneg_right (sub_le_sub_right hR 1) (abs_nonneg v)
  linarith

/-- The size of an approximation. -/
theorem near_abs_le {R β v' v : ℚ} (h : Near R β v' v) : |v'| ≤ R * |v| + β := by
  unfold Near at h
  have := abs_sub_abs_le_abs_sub v' v
  linarith

/-- Approximations compose: the factors multiply. -/
theorem near_trans {R1 β1 R2 β2 a b c : ℚ} (h1 : Near R1 β1 a b) (h2 : Near R2 β2 b c)
    (hR1 : 1 ≤ R1) : Near (R1 * R2) (β1 + R1 * β2) a c := by
  have hb := near_abs_le h2
  unfold Near at *
  have t := abs_sub_le a b c
  have := mul_le_mul_of_nonneg_left hb (by linarith : 0 ≤ R1 - 1)
  nlinarith

/-- Rounding to binary64 approximates within the factor `1 + 2^-53` and the
absolute error `2^-1075`. -/
theorem near_round (q : ℚ) : Near (1 + unitRoundoff) (pow2 (-1075)) (roundToGrid q) q := by
  unfold Near
  have := roundToGrid_abs q
  linarith

/-- Rounding a number of the normal range approximates within the factor
`1 + 2^-53`. -/
theorem near_round_normal (q : ℚ) (h : pow2 (-1022) ≤ |q|) :
    Near (1 + unitRoundoff) 0 (roundToGrid q) q := by
  unfold Near
  have := roundToGrid_rel q h
  linarith

/-- The product of two approximations. -/
theorem near_mul {Ra βa Rb βb a' a b' b A B : ℚ} (ha : Near Ra βa a' a) (hb : Near Rb βb b' b)
    (hRa : 1 ≤ Ra) (hRb : 1 ≤ Rb) (hβa : 0 ≤ βa) (hβb : 0 ≤ βb) (hA : |a| ≤ A) (hB : |b| ≤ B) :
    Near (Ra * Rb) (βa * B * Rb + βb * A * Ra + βa * βb) (a' * b') (a * b) := by
  have hb' := near_abs_le hb
  unfold Near at *
  have e : a' * b' - a * b = (a' - a) * b' + a * (b' - b) := by ring
  rw [e, abs_mul a b]
  have t := abs_add ((a' - a) * b') (a * (b' - b))
  rw [abs_mul, abs_mul] at t
  have ha0 := abs_nonneg a
  have hb0 := abs_nonneg b
  have p1 : |a' - a| * |b'| ≤ ((Ra - 1) * |a| + βa) * (Rb * |b| + βb) :=
    mul_le_mul ha hb' (abs_nonneg _) (by nlinarith)
  have p2 : |a| * |b' - b| ≤ |a| * ((Rb - 1) * |b| + βb) :=
    mul_le_mul_of_nonneg_left hb ha0
  have q1 : βa * |b| * Rb ≤ βa * B * Rb := by
    have := mul_le_mul_of_nonneg_left hB hβa
    exact mul_le_mul_of_nonneg_right this (by linarith)
  have q2 : βb * |a| * Ra ≤ βb * A * Ra := by
    have := mul_le_mul_of_nonneg_left hA hβb
    exact mul_le_mul_of_nonneg_right this (by linarith)
  nlinarith

/-- The power of an approximation without absolute error. -/
theorem near_pow {R s' s : ℚ} (h : Near R 0 s' s) (hR : 1 ≤ R) (m : Nat) :
    Near (R ^ m) 0 (s' ^ m) (s ^ m) := by
  induction m with
  | zero =>
    simp only [pow_zero]
    exact near_refl 1
  | succ m ih =>
    have hRm : 1 ≤ R ^ m := one_le_pow₀ hR
    have := near_mul ih h hRm hR (le_refl 0) (le_refl 0) (le_refl _) (le_refl _)
    rw [pow_succ, pow_succ, pow_succ]
    refine near_mono this (le_refl _) ?_
    simp

/-- Bernoulli bound from above: `(1 + x)^k ≤ 1 + 2 k x` while `2 k x ≤ 1`. -/
theorem one_add_pow_le (x : ℚ) (hx : 0 ≤ x) : ∀ k : Nat, 2 * (k : ℚ) * x ≤ 1 →
    (1 + x) ^ k ≤ 1 + 2 * (k : ℚ) * x := by
  intro k
  induction k with
  | zero => intro _; simp
  | succ k ih =>
    intro h
    push_cast at h ⊢
    have hk : (0 : ℚ) ≤ k := Nat.cast_nonneg k
    have h' : 2 * (k : ℚ) * x ≤ 1 := by nlinarith
    have i1 := ih h'
    rw [pow_succ]
    have : (1 + x) ^ k * (1 + x) ≤ (1 + 2 * (k : ℚ) * x) * (1 + x) :=
      mul_le_mul_of_nonneg_right i1 (by linarith)
    nlinarith

/-- A power of two with a natural exponent. -/
theorem pow2_natCast (k : Nat) : pow2 (k : ℤ) = (2 : ℚ) ^ k := by
  rw [pow2_eq, zpow_natCast]

/-- A power of two with an exponent at most -1 is at most 1/2. -/
theorem pow2_le_half {k : ℤ} (h : k ≤ -1) : pow2 k ≤ 1 / 2 := by
  have := pow2_le_pow2 h
  rwa [show pow2 (-1) = 1 / 2 by decide!] at this

/-- A natural number below 2^53, as a rational below `pow2 53`. -/
theorem natCast_lt_pow2 (m : Nat) (h : m < 2 ^ 53) : (m : ℚ) < pow2 53 := by
  have e := pow2_natCast 53
  rw [show ((53 : ℕ) : ℤ) = 53 from rfl] at e
  rw [e]
  exact_mod_cast h

/-- A binomial coefficient of `n` is at most `2^n`. -/
theorem choose_le_pow2 (n k : Nat) : (n.choose k : ℚ) ≤ pow2 (n : ℤ) := by
  rw [pow2_natCast]
  by_cases h : k ≤ n
  · have h1 : n.choose k ≤ ∑ m in Finset.range (n + 1), n.choose m :=
      Finset.single_le_sum (f := fun m => n.choose m) (fun _ _ => Nat.zero_le _)
        (Finset.mem_range.mpr (by omega))
    rw [Nat.sum_range_choose] at h1
    exact_mod_cast h1
  · rw [Nat.choose_eq_zero_of_lt (by omega)]
    simp

/-- A natural number below 2^53 is a binary64 number. -/
theorem roundToGrid_natCast (m : Nat) (h : m < 2 ^ 53) : roundToGrid (m : ℚ) = (m : ℚ) := by
  by_cases h0 : m = 0
  · rw [h0]
    simp [roundToGrid]
  · have hm1 : (1 : ℚ) ≤ (m : ℚ) := by
      have : 1 ≤ m := Nat.one_le_iff_ne_zero.mpr h0
      exact_mod_cast this
    have hmq : (m : ℚ) ≠ 0 := by positivity
    have hlt : (m : ℚ) < pow2 53 := natCast_lt_pow2 m h
    obtain ⟨s1, s2⟩ := exponentOf_spec (m : ℚ) hmq
    rw [abs_of_pos (by linarith)] at s1 s2
    have e0 : 0 ≤ exponentOf (m : ℚ) := by
      by_contra hneg
      have : exponentOf (m : ℚ) + 1 ≤ 0 := by omega
      have := pow2_le_one this
      linarith
    have e1 : exponentOf (m : ℚ) ≤ 52 := by
      by_contra hbig
      have : (53 : ℤ) ≤ exponentOf (m : ℚ) := by omega
      have := pow2_le_pow2 this
      linarith
    have hulp : ulpExponent (m : ℚ) = exponentOf (m : ℚ) - 52 := by
      unfold ulpExponent
      rw [max_eq_left (by omega)]
    apply roundToGrid_of_grid _ ((m : ℤ) * 2 ^ (52 - exponentOf (m : ℚ)).toNat)
    rw [hulp, pow2_eq]
    have hk : ((52 - exponentOf (m : ℚ)).toNat : ℤ) = 52 - exponentOf (m : ℚ) :=
      Int.toNat_of_nonneg (by omega)
    have : exponentOf (m : ℚ) - 52 = -((52 - exponentOf (m : ℚ)).toNat : ℤ) := by omega
    rw [this, zpow_neg, zpow_natCast]
    push_cast
    field_simp

/-- A natural number below 2^53 rounds to itself. -/
theorem fl_natCast (m : Nat) (h : m < 2 ^ 53) : fl (m : ℚ) = .fin (m : ℚ) := by
  have e := roundToGrid_natCast m h
  have := fl_of_lt (q := (m : ℚ)) (by
    rw [e, abs_of_nonneg (Nat.cast_nonneg m)]
    exact lt_trans (natCast_lt_pow2 m h) (pow2_lt_pow2 (by norm_num)))
  rw [this, e]

/-- The unit roundoff raised to a power of at most 4096 roundings stays below
the factor 1 + 2^-40. -/
theorem unitRoundoff_pow_le (k : Nat) (hk : k ≤ 4096) :
    1 ≤ (1 + unitRoundoff) ^ k ∧ (1 + unitRoundoff) ^ k ≤ 1 + 2 * (k : ℚ) * unitRoundoff ∧
    (1 + unitRoundoff) ^ k ≤ 1 + 1 / 2 ^ 40 := by
  obtain ⟨hu0, _⟩ := unitRoundoff_bounds
  have hkq : (k : ℚ) ≤ 4096 := by exact_mod_cast hk
  have h2 : 2 * (k : ℚ) * unitRoundoff ≤ 1 / 2 ^ 40 := by
    have : 2 * (k : ℚ) * unitRoundoff ≤ 2 * 4096 * unitRoundoff := by
      have := mul_le_mul_of_nonneg_right hkq hu0.le
      linarith
    have e : 2 * 4096 * unitRoundoff = 1 / 2 ^ 40 := by
      unfold unitRoundoff
      norm_num
    linarith
  have h3 := one_add_pow_le unitRoundoff hu0.le k (le_trans h2 (by norm_num))
  exact ⟨one_le_pow₀ (by linarith), h3, le_trans h3 (by linarith)⟩

/-- A lower bound of the size of an approximation within a factor at most 3/2. -/
theorem near_abs_ge {R v' v : ℚ} (h : Near R 0 v' v) (hR : R ≤ 3 / 2) : |v| / 2 ≤ |v'| := by
  unfold Near at h
  have t := abs_sub_abs_le_abs_sub v v'
  rw [abs_sub_comm v v'] at t
  have := mul_le_mul_of_nonneg_right (by linarith : R - 1 ≤ 1 / 2) (abs_nonneg v)
  linarith

/-- The loop of `binomial` in binary64 approximates the binomial coefficient:
each of the `2 k` roundings is in the normal range and nothing overflows when
`n ≤ 1000`. -/
theorem binomial64_loop (n : Nat) (hn : n ≤ 1000) : ∀ j : Nat, j ≤ n →
    ∃ r : ℚ,
      (List.range j).foldl
        (fun (result : JSNum) (i : Nat) =>
          (result.fmul ((JSNum.fin n).fsub (.fin i))).fdiv ((JSNum.fin i).fadd (.fin 1)))
        (.fin 1) = .fin r ∧
      Near ((1 + unitRoundoff) ^ (2 * j)) 0 r (n.choose j) := by
  obtain ⟨hu0, hu1⟩ := unitRoundoff_bounds
  intro j
  induction j with
  | zero =>
    intro _
    refine ⟨1, rfl, ?_⟩
    simp only [Nat.choose_zero_right, Nat.cast_one, mul_zero, pow_zero]
    exact near_refl 1
  | succ j ih =>
    intro hj
    obtain ⟨r, hr, hnear⟩ := ih (by omega)
    have hjn : j < n := by omega
    rw [List.range_succ, List.foldl_append, hr, List.foldl_cons, List.foldl_nil]
    -- the exact factors
    have e1 : (JSNum.fin (n : ℚ)).fsub (.fin (j : ℚ)) = .fin ((n - j : ℕ) : ℚ) := by
      rw [JSNum.fsub_fin, ← Nat.cast_sub hjn.le]
      exact fl_natCast _ (by omega)
    have e2 : (JSNum.fin (j : ℚ)).fadd (.fin 1) = .fin ((j + 1 : ℕ) : ℚ) := by
      rw [JSNum.fadd_fin]
      have := fl_natCast (j + 1) (by omega)
      push_cast at this ⊢
      exact this
    rw [e1, e2]
    obtain ⟨R1, R2, R3⟩ := unitRoundoff_pow_le (2 * j) (by omega)
    obtain ⟨S1, S2, S3⟩ := unitRoundoff_pow_le (2 * j + 1) (by omega)
    -- sizes
    have hchoose : (n.choose (j + 1) : ℚ) * ((j + 1 : ℕ) : ℚ) =
        (n.choose j : ℚ) * ((n - j : ℕ) : ℚ) := by
      have := Nat.choose_succ_right_eq n j
      exact_mod_cast this
    have hc1 : (1 : ℚ) ≤ (n.choose (j + 1) : ℚ) := by
      have : 1 ≤ n.choose (j + 1) := Nat.choose_pos hj
      exact_mod_cast this
    have hj1 : (1 : ℚ) ≤ ((j + 1 : ℕ) : ℚ) := by
      have : 1 ≤ j + 1 := by omega
      exact_mod_cast this
    have hjle : ((j + 1 : ℕ) : ℚ) ≤ 1000 := by
      have : j + 1 ≤ 1000 := by omega
      exact_mod_cast this
    have hcU : (n.choose (j + 1) : ℚ) ≤ pow2 1000 :=
      le_trans (choose_le_pow2 n (j + 1)) (pow2_le_pow2 (by omega))
    have hQ1 : (1 : ℚ) ≤ (n.choose j : ℚ) * ((n - j : ℕ) : ℚ) := by
      rw [← hchoose]
      nlinarith
    have hQU : (n.choose j : ℚ) * ((n - j : ℕ) : ℚ) ≤ pow2 1010 := by
      rw [← hchoose]
      have e : pow2 1010 = pow2 1000 * 1024 := by
        rw [show (1010 : ℤ) = 1000 + 10 by norm_num, pow2_add,
          show pow2 10 = 1024 by decide!]
      rw [e]
      have hp := pow2_pos 1000
      nlinarith
    -- the product
    have n1 : Near ((1 + unitRoundoff) ^ (2 * j)) 0 (r * ((n - j : ℕ) : ℚ))
        ((n.choose j : ℚ) * ((n - j : ℕ) : ℚ)) := by
      have := near_mul hnear (near_refl ((n - j : ℕ) : ℚ)) R1 (le_refl 1) (le_refl 0) (le_refl 0)
        (le_refl _) (le_refl _)
      refine near_mono this (by simp) (by simp)
    have g1 := near_abs_ge n1 (by linarith)
    rw [abs_of_pos (by linarith : (0 : ℚ) < (n.choose j : ℚ) * ((n - j : ℕ) : ℚ))] at g1
    have nrm1 : pow2 (-1022) ≤ |r * ((n - j : ℕ) : ℚ)| :=
      le_trans (pow2_le_half (by norm_num)) (by linarith)
    -- the rounded product
    have n2 : Near ((1 + unitRoundoff) ^ (2 * j + 1)) 0 (roundToGrid (r * ((n - j : ℕ) : ℚ)))
        ((n.choose j : ℚ) * ((n - j : ℕ) : ℚ)) := by
      have := near_trans (near_round_normal _ nrm1) n1 (by linarith)
      refine near_mono this (le_of_eq ?_) (by simp)
      rw [pow_succ, mul_comm]
    have b2 := near_abs_le n2
    rw [abs_of_pos (by linarith : (0 : ℚ) < (n.choose j : ℚ) * ((n - j : ℕ) : ℚ)), add_zero] at b2
    have hp1010 := pow2_pos 1010
    have f1 : fl (r * ((n - j : ℕ) : ℚ)) = .fin (roundToGrid (r * ((n - j : ℕ) : ℚ))) := by
      apply fl_of_lt
      have e : pow2 1024 = pow2 1010 * 16384 := by
        rw [show (1024 : ℤ) = 1010 + 14 by norm_num, pow2_add, show pow2 14 = 16384 by decide!]
      rw [e]
      have : (1 + unitRoundoff) ^ (2 * j + 1) * ((n.choose j : ℚ) * ((n - j : ℕ) : ℚ)) ≤
          2 * pow2 1010 :=
        mul_le_mul (by linarith) hQU (by linarith) (by norm_num)
      linarith
    -- the quotient
    have hjne : ((j + 1 : ℕ) : ℚ) ≠ 0 := by linarith
    have hq : (n.choose j : ℚ) * ((n - j : ℕ) : ℚ) * (((j + 1 : ℕ) : ℚ))⁻¹ =
        (n.choose (j + 1) : ℚ) := by
      rw [← hchoose]
      field_simp
    have n3 : Near ((1 + unitRoundoff) ^ (2 * j + 1)) 0
        (roundToGrid (r * ((n - j : ℕ) : ℚ)) / ((j + 1 : ℕ) : ℚ)) (n.choose (j + 1) : ℚ) := by
      have := near_mul n2 (near_refl (((j + 1 : ℕ) : ℚ))⁻¹) S1 (le_refl 1) (le_refl 0)
        (le_refl 0) (le_refl _) (le_refl _)
      rw [hq, ← div_eq_mul_inv] at this
      refine near_mono this (by simp) (by simp)
    have g3 := near_abs_ge n3 (by linarith)
    rw [abs_of_pos (by linarith : (0 : ℚ) < (n.choose (j + 1) : ℚ))] at g3
    have nrm3 : pow2 (-1022) ≤ |roundToGrid (r * ((n - j : ℕ) : ℚ)) / ((j + 1 : ℕ) : ℚ)| :=
      le_trans (pow2_le_half (by norm_num)) (by linarith)
    have n4 : Near ((1 + unitRoundoff) ^ (2 * (j + 1))) 0
        (roundToGrid (roundToGrid (r * ((n - j : ℕ) : ℚ)) / ((j + 1 : ℕ) : ℚ)))
        (n.choose (j + 1) : ℚ) := by
      have := near_trans (near_round_normal _ nrm3) n3 (by linarith)
      refine near_mono this (le_of_eq ?_) (by simp)
      rw [show 2 * (j + 1) = (2 * j + 1) + 1 by ring, pow_succ _ (2 * j + 1), mul_comm]
    obtain ⟨T1, T2, T3⟩ := unitRoundoff_pow_le (2 * (j + 1)) (by omega)
    have b4 := near_abs_le n4
    rw [abs_of_pos (by linarith : (0 : ℚ) < (n.choose (j + 1) : ℚ)), add_zero] at b4
    have hp1000 := pow2_pos 1000
    have f2 : fl (roundToGrid (r * ((n - j : ℕ) : ℚ)) / ((j + 1 : ℕ) : ℚ)) =
        .fin (roundToGrid (roundToGrid (r * ((n - j : ℕ) : ℚ)) / ((j + 1 : ℕ) : ℚ))) := by
      apply fl_of_lt
      have e : pow2 1024 = pow2 1000 * 16777216 := by
        rw [show (1024 : ℤ) = 1000 + 24 by norm_num, pow2_add, show pow2 24 = 16777216 by decide!]
      rw [e]
      have : (1 + unitRoundoff) ^ (2 * (j + 1)) * (n.choose (j + 1) : ℚ) ≤ 2 * pow2 1000 :=
        mul_le_mul (by linarith) hcU (by linarith) (by norm_num)
      linarith
    refine ⟨_, ?_, n4⟩
    rw [JSNum.fmul_fin, f1, JSNum.fdiv_fin _ _ hjne, f2]

/-- The function `binomial` in binary64 for `k ≤ n ≤ 1000`: a finite number
within the factor `(1 + 2^-53)^(2 k)` of the binomial coefficient. -/
theorem binomial64_near (n k : Nat) (hn : n ≤ 1000) (hk : k ≤ n) :
    ∃ c : ℚ, Binary64.binomial n k = .fin c ∧
      Near ((1 + unitRoundoff) ^ (2 * k)) 0 c (n.choose k) := by
  unfold Binary64.binomial
  by_cases h1 : k = 0 ∨ k = n
  · rw [if_pos h1]
    refine ⟨1, rfl, ?_⟩
    have e : (n.choose k : ℚ) = 1 := by
      rcases h1 with h | h
      · rw [h]; simp
      · rw [h]; simp
    rw [e]
    exact near_mono (near_refl 1) (unitRoundoff_pow_le (2 * k) (by omega)).1 (le_refl 0)
  · rw [if_neg h1, if_neg (by omega)]
    exact binomial64_loop n hn k hk


/-- The number 1 is a binary64 number. -/
theorem isBinary64_one : IsBinary64 1 := by
  unfold IsBinary64
  decide!

/-- Twice the least rounding error is the least positive binary64 number. -/
theorem pow2_minSubnormal : pow2 (-1074) = 2 * pow2 (-1075) := by
  rw [show (-1074 : ℤ) = -1075 + 1 by norm_num, pow2_succ]

/-- The power of a number of [0, 1] lies in [0, 1]. -/
theorem pow_unit_interval (a : ℚ) (h0 : 0 ≤ a) (h1 : a ≤ 1) (k : Nat) :
    0 ≤ a ^ k ∧ a ^ k ≤ 1 :=
  ⟨pow_nonneg h0 k, pow_le_one₀ h0 h1⟩

set_option maxHeartbeats 1600000 in
/-- The function `bernsteinBasis` in binary64 for `i ≤ n ≤ 1000`, a binary64
parameter `t` in [0, 1] with `1 - t` zero or of the normal range, and a
`Math.pow` of relative accuracy `ε ≤ 1/8`: a finite number within the factor
`(1 + 2^-53)^(2 n + 2) (1 + ε)^2` and the absolute error `2^(n - 1070)` of the
Bernstein weight. -/
theorem bernsteinBasis64_near (pow : JSNum → JSNum → JSNum) (ε : ℚ) (n i : Nat) (t : ℚ)
    (hn : n ≤ 1000) (hi : i ≤ n) (bt : IsBinary64 t) (ht0 : 0 ≤ t) (ht1 : t ≤ 1)
    (hnorm : 1 - t = 0 ∨ pow2 (-1022) ≤ 1 - t) (hε0 : 0 ≤ ε) (hε : ε ≤ 1 / 8)
    (hpow : Binary64.PowAccurate pow ε n) :
    ∃ b : ℚ, Binary64.bernsteinBasis pow i n (.fin t) = .fin b ∧
      Near ((1 + unitRoundoff) ^ (2 * n + 2) * (1 + ε) ^ 2) (pow2 ((n : ℤ) - 1070)) b
        (bernsteinBasis i n t) := by
  obtain ⟨hu0, hu1⟩ := unitRoundoff_bounds
  have hη := pow2_pos (-1075)
  have hη1 : pow2 (-1075) ≤ 1 / 2 := pow2_le_half (by norm_num)
  have hη2 := pow2_minSubnormal
  have hK1 : (1 : ℚ) ≤ pow2 (n : ℤ) := by
    have := pow2_le_pow2 (show (0 : ℤ) ≤ (n : ℤ) by omega)
    rwa [show pow2 0 = 1 from rfl] at this
  have hK2 : pow2 (n : ℤ) ≤ pow2 1000 := pow2_le_pow2 (by omega)
  -- the binomial coefficient
  obtain ⟨c, hc, nc⟩ := binomial64_near n i hn hi
  obtain ⟨Rc1, _, Rc3⟩ := unitRoundoff_pow_le (2 * i) (by omega)
  have hC0 : (0 : ℚ) ≤ (n.choose i : ℚ) := Nat.cast_nonneg _
  have hCK : |(n.choose i : ℚ)| ≤ pow2 (n : ℤ) := by
    rw [abs_of_nonneg hC0]
    exact choose_le_pow2 n i
  -- the first power
  obtain ⟨P1, hP1, eP1⟩ := hpow t i bt ht0 ht1 hi
  obtain ⟨a0, a1⟩ := pow_unit_interval t ht0 ht1 i
  have n1 : Near (1 + ε) (pow2 (-1074)) P1 (t ^ i) := by
    unfold Near
    rw [abs_of_nonneg a0]
    linarith
  have ha1 : |t ^ i| ≤ 1 := by rw [abs_of_nonneg a0]; exact a1
  -- the first product
  have m1 := near_mul nc n1 Rc1 (by linarith) (le_refl 0) (pow2_pos _).le hCK ha1
  have hCt : |(n.choose i : ℚ) * t ^ i| ≤ pow2 (n : ℤ) := by
    rw [abs_mul]
    calc |(n.choose i : ℚ)| * |t ^ i| ≤ pow2 (n : ℤ) * 1 :=
          mul_le_mul hCK ha1 (abs_nonneg _) (pow2_pos _).le
      _ = pow2 (n : ℤ) := mul_one _
  have hX : 0 ≤ pow2 (-1075) * pow2 (n : ℤ) := mul_nonneg hη.le (by linarith)
  have hXη : pow2 (-1075) ≤ pow2 (-1075) * pow2 (n : ℤ) := by
    have := mul_le_mul_of_nonneg_left hK1 hη.le
    linarith
  have hu40 : unitRoundoff ≤ 1 / 2 ^ 40 := by
    unfold unitRoundoff
    norm_num
  have q1 : Near ((1 + unitRoundoff) ^ (2 * i + 1) * (1 + ε))
      (5 * (pow2 (-1075) * pow2 (n : ℤ))) (roundToGrid (c * P1))
      ((n.choose i : ℚ) * t ^ i) := by
    have := near_trans (near_round (c * P1)) m1 (by linarith)
    refine near_mono this (le_of_eq ?_) ?_
    · rw [pow_succ]; ring
    · have hR : (1 + unitRoundoff) * (1 + unitRoundoff) ^ (2 * i) ≤ 3 / 2 :=
        calc (1 + unitRoundoff) * (1 + unitRoundoff) ^ (2 * i) ≤ (9 / 8) * (9 / 8) :=
              mul_le_mul (by linarith) (by linarith) (by linarith) (by norm_num)
          _ ≤ 3 / 2 := by norm_num
      have e : pow2 (-1075) + (1 + unitRoundoff) * (0 * 1 * (1 + ε) +
          pow2 (-1074) * pow2 (n : ℤ) * (1 + unitRoundoff) ^ (2 * i) + 0 * pow2 (-1074)) =
          pow2 (-1075) + ((1 + unitRoundoff) * (1 + unitRoundoff) ^ (2 * i)) *
            (2 * (pow2 (-1075) * pow2 (n : ℤ))) := by
        rw [hη2]; ring
      rw [e]
      have := mul_le_mul_of_nonneg_right hR (by linarith : 0 ≤ 2 * (pow2 (-1075) * pow2 (n : ℤ)))
      linarith
  obtain ⟨Rq1, _, Rq3⟩ := unitRoundoff_pow_le (2 * i + 1) (by omega)
  have hRq : (1 + unitRoundoff) ^ (2 * i + 1) * (1 + ε) ≤ 5 / 4 :=
    calc (1 + unitRoundoff) ^ (2 * i + 1) * (1 + ε) ≤ (1 + 1 / 2 ^ 40) * (9 / 8) :=
          mul_le_mul Rq3 (by linarith) (by linarith) (by norm_num)
      _ ≤ 5 / 4 := by norm_num
  have hRq1 : 1 ≤ (1 + unitRoundoff) ^ (2 * i + 1) * (1 + ε) := by
    have := mul_le_mul Rq1 (by linarith : (1 : ℚ) ≤ 1 + ε) (by norm_num) (by linarith)
    linarith
  have hX1 : pow2 (-1075) * pow2 (n : ℤ) ≤ 1 / 2 := by
    have e : pow2 (-1075) * pow2 (n : ℤ) = pow2 ((n : ℤ) - 1075) := by
      rw [← pow2_add, show (-1075 : ℤ) + (n : ℤ) = (n : ℤ) - 1075 by ring]
    rw [e]
    exact pow2_le_half (by omega)
  have f1 : fl (c * P1) = .fin (roundToGrid (c * P1)) := by
    apply fl_of_lt
    have b := near_abs_le q1
    have : (1 + unitRoundoff) ^ (2 * i + 1) * (1 + ε) * |(n.choose i : ℚ) * t ^ i| ≤
        5 / 4 * pow2 (n : ℤ) :=
      mul_le_mul hRq hCt (abs_nonneg _) (by norm_num)
    have e : pow2 1024 = pow2 1000 * 16777216 := by
      rw [show (1024 : ℤ) = 1000 + 24 by norm_num, pow2_add, show pow2 24 = 16777216 by decide!]
    rw [e]
    have := pow2_pos 1000
    linarith
  -- the second power
  have hs0 : fl (1 - t) = .fin (roundToGrid (1 - t)) ∧ 0 ≤ roundToGrid (1 - t) ∧
      roundToGrid (1 - t) ≤ 1 :=
    fl_between isBinary64_zero isBinary64_one (by linarith) (by linarith)
  obtain ⟨fs, s0, s1⟩ := hs0
  have ns : Near (1 + unitRoundoff) 0 (roundToGrid (1 - t)) (1 - t) := by
    rcases hnorm with h | h
    · rw [h]
      have : roundToGrid 0 = 0 := by simp [roundToGrid]
      rw [this]
      exact near_mono (near_refl 0) (by linarith) (le_refl 0)
    · exact near_round_normal _ (le_trans h (le_abs_self _))
  have nsm := near_pow ns (by linarith) (n - i)
  obtain ⟨P2, hP2, eP2⟩ := hpow (roundToGrid (1 - t)) (n - i) (isBinary64_of_fl fs) s0 s1
    (by omega)
  obtain ⟨c0, c1⟩ := pow_unit_interval (roundToGrid (1 - t)) s0 s1 (n - i)
  obtain ⟨d0, d1⟩ := pow_unit_interval (1 - t) (by linarith) (by linarith) (n - i)
  have n2 : Near (1 + ε) (pow2 (-1074)) P2 (roundToGrid (1 - t) ^ (n - i)) := by
    unfold Near
    rw [abs_of_nonneg c0]
    linarith
  have p2 : Near ((1 + ε) * (1 + unitRoundoff) ^ (n - i)) (pow2 (-1074)) P2
      ((1 - t) ^ (n - i)) := by
    have := near_trans n2 nsm (by linarith)
    refine near_mono this (le_refl _) (by simp)
  obtain ⟨Rp1, _, Rp3⟩ := unitRoundoff_pow_le (n - i) (by omega)
  have hRp : (1 + ε) * (1 + unitRoundoff) ^ (n - i) ≤ 5 / 4 :=
    calc (1 + ε) * (1 + unitRoundoff) ^ (n - i) ≤ (9 / 8) * (1 + 1 / 2 ^ 40) :=
          mul_le_mul (by linarith) Rp3 (by linarith) (by norm_num)
      _ ≤ 5 / 4 := by norm_num
  have hRp1 : 1 ≤ (1 + ε) * (1 + unitRoundoff) ^ (n - i) := by
    have := mul_le_mul (by linarith : (1 : ℚ) ≤ 1 + ε) Rp1 (by norm_num) (by linarith)
    linarith
  have hd1 : |(1 - t) ^ (n - i)| ≤ 1 := by rw [abs_of_nonneg d0]; exact d1
  -- the second product
  have m2 := near_mul q1 p2 hRq1 hRp1 (by linarith) (pow2_pos _).le hCt hd1
  have hB : |(n.choose i : ℚ) * t ^ i * (1 - t) ^ (n - i)| ≤ pow2 (n : ℤ) := by
    rw [abs_mul]
    calc |(n.choose i : ℚ) * t ^ i| * |(1 - t) ^ (n - i)| ≤ pow2 (n : ℤ) * 1 :=
          mul_le_mul hCt hd1 (abs_nonneg _) (pow2_pos _).le
      _ = pow2 (n : ℤ) := mul_one _
  have hRb : (1 + unitRoundoff) * ((1 + unitRoundoff) ^ (2 * i + 1) * (1 + ε) *
      ((1 + ε) * (1 + unitRoundoff) ^ (n - i))) =
      (1 + unitRoundoff) ^ (2 * i + 1 + (n - i) + 1) * (1 + ε) ^ 2 := by
    rw [pow_succ _ (2 * i + 1 + (n - i)), pow_add _ (2 * i + 1)]
    ring
  have hRmono : (1 + unitRoundoff) ^ (2 * i + 1 + (n - i) + 1) * (1 + ε) ^ 2 ≤
      (1 + unitRoundoff) ^ (2 * n + 2) * (1 + ε) ^ 2 :=
    mul_le_mul_of_nonneg_right
      (pow_le_pow_right₀ (by linarith) (by omega)) (by positivity)
  have b1 : Near ((1 + unitRoundoff) ^ (2 * n + 2) * (1 + ε) ^ 2) (pow2 ((n : ℤ) - 1070))
      (roundToGrid (roundToGrid (c * P1) * P2)) (bernsteinBasis i n t) := by
    have := near_trans (near_round (roundToGrid (c * P1) * P2)) m2 (by linarith)
    unfold bernsteinBasis
    rw [binomial_eq_choose]
    refine near_mono this (by rw [hRb]; exact hRmono) ?_
    have e32 : pow2 ((n : ℤ) - 1070) = 32 * (pow2 (-1075) * pow2 (n : ℤ)) := by
      rw [show (n : ℤ) - 1070 = 5 + (-1075 + (n : ℤ)) by ring, pow2_add, pow2_add,
        show pow2 5 = 32 by decide!]
    rw [e32, hη2]
    have k1 : 5 * (pow2 (-1075) * pow2 (n : ℤ)) * 1 * ((1 + ε) * (1 + unitRoundoff) ^ (n - i)) ≤
        5 * (pow2 (-1075) * pow2 (n : ℤ)) * 1 * (5 / 4) :=
      mul_le_mul_of_nonneg_left hRp (by linarith)
    have k2 : 2 * pow2 (-1075) * pow2 (n : ℤ) *
        ((1 + unitRoundoff) ^ (2 * i + 1) * (1 + ε)) ≤
        2 * pow2 (-1075) * pow2 (n : ℤ) * (5 / 4) :=
      mul_le_mul_of_nonneg_left hRq (by linarith)
    have k3 : 5 * (pow2 (-1075) * pow2 (n : ℤ)) * (2 * pow2 (-1075)) ≤
        5 * (pow2 (-1075) * pow2 (n : ℤ)) * 1 :=
      mul_le_mul_of_nonneg_left (by linarith) (by linarith)
    have k4 : (1 + unitRoundoff) * (5 * (pow2 (-1075) * pow2 (n : ℤ)) * 1 *
        ((1 + ε) * (1 + unitRoundoff) ^ (n - i)) + 2 * pow2 (-1075) * pow2 (n : ℤ) *
        ((1 + unitRoundoff) ^ (2 * i + 1) * (1 + ε)) +
        5 * (pow2 (-1075) * pow2 (n : ℤ)) * (2 * pow2 (-1075))) ≤
        2 * (14 * (pow2 (-1075) * pow2 (n : ℤ))) :=
      mul_le_mul (by linarith) (by linarith) (by
        have := mul_nonneg (mul_nonneg (by linarith : (0:ℚ) ≤ 5 * (pow2 (-1075) * pow2 (n : ℤ)) * 1)
          (by linarith : (0:ℚ) ≤ (1 + ε) * (1 + unitRoundoff) ^ (n - i))) (le_refl 0)
        have h1 : 0 ≤ 5 * (pow2 (-1075) * pow2 (n : ℤ)) * 1 *
            ((1 + ε) * (1 + unitRoundoff) ^ (n - i)) :=
          mul_nonneg (by linarith) (by linarith)
        have h2 : 0 ≤ 2 * pow2 (-1075) * pow2 (n : ℤ) *
            ((1 + unitRoundoff) ^ (2 * i + 1) * (1 + ε)) :=
          mul_nonneg (by linarith) (by linarith)
        have h3 : 0 ≤ 5 * (pow2 (-1075) * pow2 (n : ℤ)) * (2 * pow2 (-1075)) :=
          mul_nonneg (by linarith) (by linarith)
        linarith) (by norm_num)
    linarith
  have f2 : fl (roundToGrid (c * P1) * P2) =
      .fin (roundToGrid (roundToGrid (c * P1) * P2)) := by
    apply fl_of_lt
    have b := near_abs_le b1
    obtain ⟨_, _, Rb3⟩ := unitRoundoff_pow_le (2 * n + 2) (by omega)
    have hR2 : (1 + unitRoundoff) ^ (2 * n + 2) * (1 + ε) ^ 2 ≤ 2 :=
      calc (1 + unitRoundoff) ^ (2 * n + 2) * (1 + ε) ^ 2 ≤ (1 + 1 / 2 ^ 40) * (9 / 8) ^ 2 :=
            mul_le_mul Rb3 (pow_le_pow_left₀ (by linarith) (by linarith) 2) (by positivity)
              (by norm_num)
        _ ≤ 2 := by norm_num
    have hB' : |bernsteinBasis i n t| ≤ pow2 (n : ℤ) := by
      unfold bernsteinBasis
      rw [binomial_eq_choose]
      exact hB
    have : (1 + unitRoundoff) ^ (2 * n + 2) * (1 + ε) ^ 2 * |bernsteinBasis i n t| ≤
        2 * pow2 (n : ℤ) :=
      mul_le_mul hR2 hB' (abs_nonneg _) (by norm_num)
    have hsmall : pow2 ((n : ℤ) - 1070) ≤ 1 := pow2_le_one (by omega)
    have e : pow2 1024 = pow2 1000 * 16777216 := by
      rw [show (1024 : ℤ) = 1000 + 24 by norm_num, pow2_add, show pow2 24 = 16777216 by decide!]
    rw [e]
    have := pow2_pos 1000
    linarith
  refine ⟨_, ?_, b1⟩
  unfold Binary64.bernsteinBasis
  have hni : ((n : ℚ) - (i : ℚ)) = ((n - i : ℕ) : ℚ) := by
    rw [Nat.cast_sub hi]
  rw [hc, hP1, JSNum.fmul_fin, f1, JSNum.fsub_fin, fs, hni, hP2, JSNum.fmul_fin, f2]
/-- The growth of the error bound of a rounded running sum over one more term:
the algebra of the induction step. -/
theorem sum_error_step (M Rt β η u p σ w j E e : ℚ) (hM : 0 ≤ M) (hRt : 1 ≤ Rt) (hβ : 0 ≤ β)
    (hη : 0 ≤ η) (hu : 0 ≤ u) (hp : 1 ≤ p) (hw : 0 ≤ w)
    (hE : E ≤ M * ((Rt - 1) * p * σ + j * p * β + p - 1) + 2 * j * p * η)
    (he : e ≤ M * ((Rt - 1) * w + β) + η) :
    (1 + u) * (E + e) + u * M + η ≤
      M * ((Rt - 1) * (p * (1 + u)) * (σ + w) + (j + 1) * (p * (1 + u)) * β + p * (1 + u) - 1) +
        2 * (j + 1) * (p * (1 + u)) * η := by
  have h0 : (1 + u) * (E + e) ≤ (1 + u) * ((M * ((Rt - 1) * p * σ + j * p * β + p - 1) +
      2 * j * p * η) + (M * ((Rt - 1) * w + β) + η)) :=
    mul_le_mul_of_nonneg_left (by linarith) (by linarith)
  have h1 : 0 ≤ M * (Rt - 1) * (1 + u) * w * (p - 1) :=
    mul_nonneg (mul_nonneg (mul_nonneg (mul_nonneg hM (by linarith)) (by linarith)) hw)
      (by linarith)
  have h2 : 0 ≤ M * (1 + u) * β * (p - 1) :=
    mul_nonneg (mul_nonneg (mul_nonneg hM (by linarith)) hβ) (by linarith)
  have h3 : 0 ≤ η * (1 + u) * (p - 1) :=
    mul_nonneg (mul_nonneg hη (by linarith)) (by linarith)
  have h4 : 0 ≤ η * u := mul_nonneg hη hu
  have h5 : 0 ≤ η * (p - 1) := mul_nonneg hη (by linarith)
  linarith

/-- One step of the running sum `x += controlPoints[i][0] * basis` in binary64:
the new sum is finite and its error is the old error and the error of the term,
both amplified by one rounding, plus one rounding of the sum. -/
theorem sum_step64 (a A x b w M R β E : ℚ) (hM : M ≤ pow2 1000) (hx : |x| ≤ M)
    (hb : Near R β b w) (hR1 : 1 ≤ R) (hR : R ≤ 2) (hβ0 : 0 ≤ β) (hβ : β ≤ 1)
    (hw0 : 0 ≤ w) (hw1 : w ≤ 1) (ha : |a - A| ≤ E) (hE : E ≤ M + 1)
    (hA : |A + x * w| ≤ M) :
    ∃ a' : ℚ, (JSNum.fin a).fadd ((JSNum.fin x).fmul (.fin b)) = .fin a' ∧
      |a' - (A + x * w)| ≤
        (1 + unitRoundoff) *
            (E + (M * ((R * (1 + unitRoundoff) - 1) * w + (1 + unitRoundoff) * β) +
              pow2 (-1075))) +
          unitRoundoff * M + pow2 (-1075) := by
  obtain ⟨hu0, hu1⟩ := unitRoundoff_bounds
  have hu8 := unitRoundoff_le
  have hη := pow2_pos (-1075)
  have hη1 : pow2 (-1075) ≤ 1 / 2 := pow2_le_half (by norm_num)
  have hM0 : 0 ≤ M := le_trans (abs_nonneg x) hx
  have hp1000 : (1 : ℚ) ≤ pow2 1000 := by
    have := pow2_le_pow2 (show (0 : ℤ) ≤ 1000 by norm_num)
    rwa [show pow2 0 = 1 from rfl] at this
  have e1024 : pow2 1024 = pow2 1000 * 16777216 := by
    rw [show (1024 : ℤ) = 1000 + 24 by norm_num, pow2_add, show pow2 24 = 16777216 by decide!]
  -- the term
  have m1 := near_mul (near_refl x) hb (le_refl 1) hR1 (le_refl 0) hβ0 hx
    (by rw [abs_of_nonneg hw0] : |w| ≤ w)
  have t1 := near_trans (near_round (x * b)) m1 (by linarith)
  have hxw : |x * w| ≤ M * w := by
    rw [abs_mul, abs_of_nonneg hw0]
    exact mul_le_mul_of_nonneg_right hx hw0
  have hMw : M * w ≤ M := by
    have := mul_le_mul_of_nonneg_left hw1 hM0
    linarith
  have hterm : |roundToGrid (x * b) - x * w| ≤
      M * ((R * (1 + unitRoundoff) - 1) * w + (1 + unitRoundoff) * β) + pow2 (-1075) := by
    unfold Near at t1
    have hc : 0 ≤ (1 + unitRoundoff) * (1 * R) - 1 := by nlinarith
    have := mul_le_mul_of_nonneg_left hxw hc
    have e : M * ((R * (1 + unitRoundoff) - 1) * w + (1 + unitRoundoff) * β) + pow2 (-1075) =
        ((1 + unitRoundoff) * (1 * R) - 1) * (M * w) +
          (pow2 (-1075) + (1 + unitRoundoff) * (0 * w * R + β * M * 1 + 0 * β)) := by ring
    rw [e]
    linarith
  have hebound : M * ((R * (1 + unitRoundoff) - 1) * w + (1 + unitRoundoff) * β) ≤ 5 * M := by
    have h1 : (R * (1 + unitRoundoff) - 1) * w ≤ 2 := by
      have a1 : R * (1 + unitRoundoff) ≤ 2 * (9 / 8) :=
        mul_le_mul hR (by linarith) (by linarith) (by norm_num)
      have a2 : 0 ≤ R * (1 + unitRoundoff) - 1 := by nlinarith
      have a3 : (R * (1 + unitRoundoff) - 1) * w ≤ (R * (1 + unitRoundoff) - 1) * 1 :=
        mul_le_mul_of_nonneg_left hw1 a2
      linarith
    have h2 : (1 + unitRoundoff) * β ≤ (9 / 8) * 1 :=
      mul_le_mul (by linarith) hβ hβ0 (by norm_num)
    have := mul_le_mul_of_nonneg_left (by linarith :
      (R * (1 + unitRoundoff) - 1) * w + (1 + unitRoundoff) * β ≤ 5) hM0
    linarith
  have htabs : |roundToGrid (x * b)| ≤ 6 * M + 1 := by
    have := abs_sub_abs_le_abs_sub (roundToGrid (x * b)) (x * w)
    linarith
  have f1 : fl (x * b) = .fin (roundToGrid (x * b)) := by
    apply fl_of_lt
    rw [e1024]
    linarith
  -- the sum
  have haabs : |a| ≤ 3 * M + 1 := by
    have h1 := abs_sub_abs_le_abs_sub a A
    have h2 : |A| ≤ |A + x * w| + |x * w| := by
      have := abs_sub (A + x * w) (x * w)
      rw [add_sub_cancel_right] at this
      exact this
    have h3 : |A| ≤ 2 * M := by linarith
    linarith
  have hz : |a + roundToGrid (x * b)| ≤
      M + E + (M * ((R * (1 + unitRoundoff) - 1) * w + (1 + unitRoundoff) * β) +
        pow2 (-1075)) := by
    have e : a + roundToGrid (x * b) =
        (A + x * w) + (a - A) + (roundToGrid (x * b) - x * w) := by ring
    rw [e]
    have t1 := abs_add ((A + x * w) + (a - A)) (roundToGrid (x * b) - x * w)
    have t2 := abs_add (A + x * w) (a - A)
    linarith
  have hr := roundToGrid_abs (a + roundToGrid (x * b))
  have hu := mul_le_mul_of_nonneg_left hz hu0.le
  have f2 : fl (a + roundToGrid (x * b)) = .fin (roundToGrid (a + roundToGrid (x * b))) := by
    apply fl_of_lt
    have h1 := abs_sub_abs_le_abs_sub (roundToGrid (a + roundToGrid (x * b)))
      (a + roundToGrid (x * b))
    have h2 : unitRoundoff * |a + roundToGrid (x * b)| ≤ 1 * |a + roundToGrid (x * b)| :=
      mul_le_mul_of_nonneg_right hu1 (abs_nonneg _)
    rw [e1024]
    linarith
  refine ⟨roundToGrid (a + roundToGrid (x * b)), ?_, ?_⟩
  · rw [JSNum.fmul_fin, f1, JSNum.fadd_fin, f2]
  · have e : roundToGrid (a + roundToGrid (x * b)) - (A + x * w) =
        (roundToGrid (a + roundToGrid (x * b)) - (a + roundToGrid (x * b))) + (a - A) +
          (roundToGrid (x * b) - x * w) := by ring
    rw [e]
    have t1 := abs_add ((roundToGrid (a + roundToGrid (x * b)) - (a + roundToGrid (x * b))) +
      (a - A)) (roundToGrid (x * b) - x * w)
    have t2 := abs_add (roundToGrid (a + roundToGrid (x * b)) - (a + roundToGrid (x * b)))
      (a - A)
    linarith

/-- Partial sums of non-negative weights of total 1 are at most 1, and so is
each weight. -/
theorem partial_sum_le_one (N : Nat) (w : Nat → ℚ) (hw : ∀ i, 0 ≤ w i)
    (hsum : ∑ i in Finset.range N, w i = 1) (m : Nat) (hm : m ≤ N) :
    0 ≤ ∑ i in Finset.range m, w i ∧ ∑ i in Finset.range m, w i ≤ 1 ∧
    (m < N → w m ≤ 1) := by
  refine ⟨Finset.sum_nonneg (fun i _ => hw i), ?_, ?_⟩
  · rw [← hsum]
    exact Finset.sum_le_sum_of_subset_of_nonneg
      (Finset.range_subset.mpr hm) (fun i _ _ => hw i)
  · intro hlt
    rw [← hsum]
    exact Finset.single_le_sum (f := w) (fun i _ => hw i) (Finset.mem_range.mpr hlt)

/-- A weighted sum of values bounded by `M` is bounded by `M` times the sum of
the weights. -/
theorem abs_weighted_sum_le (m : Nat) (x w : Nat → ℚ) (M : ℚ) (hw : ∀ i, 0 ≤ w i)
    (hx : ∀ i ∈ Finset.range m, |x i| ≤ M) :
    |∑ i in Finset.range m, x i * w i| ≤ M * ∑ i in Finset.range m, w i := by
  calc |∑ i in Finset.range m, x i * w i| ≤ ∑ i in Finset.range m, |x i * w i| :=
        Finset.abs_sum_le_sum_abs _ _
    _ ≤ ∑ i in Finset.range m, M * w i := by
        apply Finset.sum_le_sum
        intro i hi
        rw [abs_mul, abs_of_nonneg (hw i)]
        exact mul_le_mul_of_nonneg_right (hx i hi) (hw i)
    _ = M * ∑ i in Finset.range m, w i := by rw [Finset.mul_sum]

/-- The error bound of the running sum stays below `M + 1`, so that nothing
overflows. -/
theorem sum_error_small (M Rt β p σ j : ℚ) (hM : 0 ≤ M) (hRt : Rt ≤ 13 / 10)
    (hβ0 : 0 ≤ β) (hβ : β ≤ 1 / 2 ^ 20) (hp1 : 1 ≤ p) (hp : p ≤ 101 / 100) (hσ0 : 0 ≤ σ)
    (hσ : σ ≤ 1) (hj : j ≤ 1001) :
    M * ((Rt - 1) * p * σ + j * p * β + p - 1) + 2 * j * p * pow2 (-1075) ≤ M + 1 := by
  have hη := pow2_pos (-1075)
  have hη1 : pow2 (-1075) ≤ 1 / 2 ^ 20 := by
    have := pow2_le_pow2 (show (-1075 : ℤ) ≤ -20 by norm_num)
    rwa [show pow2 (-20) = 1 / 2 ^ 20 by decide!] at this
  have h1 : (Rt - 1) * p ≤ (3 / 10) * (101 / 100) :=
    mul_le_mul (by linarith) hp (by linarith) (by norm_num)
  have h2 : (Rt - 1) * p * σ ≤ (3 / 10) * (101 / 100) * 1 :=
    mul_le_mul h1 hσ hσ0 (by norm_num)
  have h3 : j * p ≤ 1001 * (101 / 100) := mul_le_mul hj hp (by linarith) (by norm_num)
  have h4 : j * p * β ≤ 1001 * (101 / 100) * (1 / 2 ^ 20) :=
    mul_le_mul h3 hβ hβ0 (by norm_num)
  have h5 : j * p * pow2 (-1075) ≤ 1001 * (101 / 100) * (1 / 2 ^ 20) :=
    mul_le_mul h3 hη1 hη.le (by norm_num)
  have h6 : (Rt - 1) * p * σ + j * p * β + p - 1 ≤ 1 := by
    norm_num at h2 h4
    linarith
  have h7 := mul_le_mul_of_nonneg_left h6 hM
  norm_num at h5
  linarith


set_option maxHeartbeats 1600000 in
/-- The body of the outer loop of `approximateSpline` in binary64, for at most
1001 control points of coordinates bounded by `M1` and `M2`, both at most
2^1000, a binary64
parameter `t` in [0, 1] with `1 - t` zero or of the normal range, and a
`Math.pow` of relative accuracy `ε ≤ 1/8`: the point is finite and each
coordinate is the Bernstein sum up to the accumulated rounding errors. -/
theorem splinePoint64_near (pow : JSNum → JSNum → JSNum) (ε : ℚ) (S : List (ℚ × ℚ)) (t M1 M2 : ℚ)
    (hN1 : 1 ≤ S.length) (hN : S.length ≤ 1001) (bt : IsBinary64 t) (ht0 : 0 ≤ t)
    (ht1 : t ≤ 1) (hnorm : 1 - t = 0 ∨ pow2 (-1022) ≤ 1 - t) (hε0 : 0 ≤ ε) (hε : ε ≤ 1 / 8)
    (hpow : Binary64.PowAccurate pow ε (S.length - 1)) (hM1 : M1 ≤ pow2 1000)
    (hM2 : M2 ≤ pow2 1000) (hS : ∀ p ∈ S, |p.1| ≤ M1 ∧ |p.2| ≤ M2) :
    ∃ x y : ℚ, Binary64.splinePoint pow (S.map toPt) (.fin t) = (.fin x, .fin y) ∧
      |x - ∑ i in Finset.range S.length,
          (S.getD i (0, 0)).1 * bernsteinBasis i (S.length - 1) t| ≤
        M1 * (((1 + unitRoundoff) ^ (2 * (S.length - 1) + 2) * (1 + ε) ^ 2 *
              (1 + unitRoundoff) - 1) * (1 + unitRoundoff) ^ S.length * 1 +
            (S.length : ℚ) * (1 + unitRoundoff) ^ S.length *
              ((1 + unitRoundoff) * pow2 (((S.length - 1 : ℕ) : ℤ) - 1070)) +
            (1 + unitRoundoff) ^ S.length - 1) +
          2 * (S.length : ℚ) * (1 + unitRoundoff) ^ S.length * pow2 (-1075) ∧
      |y - ∑ i in Finset.range S.length,
          (S.getD i (0, 0)).2 * bernsteinBasis i (S.length - 1) t| ≤
        M2 * (((1 + unitRoundoff) ^ (2 * (S.length - 1) + 2) * (1 + ε) ^ 2 *
              (1 + unitRoundoff) - 1) * (1 + unitRoundoff) ^ S.length * 1 +
            (S.length : ℚ) * (1 + unitRoundoff) ^ S.length *
              ((1 + unitRoundoff) * pow2 (((S.length - 1 : ℕ) : ℤ) - 1070)) +
            (1 + unitRoundoff) ^ S.length - 1) +
          2 * (S.length : ℚ) * (1 + unitRoundoff) ^ S.length * pow2 (-1075) := by
  obtain ⟨hu0, hu1⟩ := unitRoundoff_bounds
  have hu8 := unitRoundoff_le
  have hu40 : unitRoundoff ≤ 1 / 2 ^ 40 := by
    unfold unitRoundoff
    norm_num
  have hη := pow2_pos (-1075)
  -- the constants
  generalize hn : S.length - 1 = n at *
  have hnN : S.length = n + 1 := by omega
  have hn1000 : n ≤ 1000 := by omega
  generalize hR : (1 + unitRoundoff) ^ (2 * n + 2) * (1 + ε) ^ 2 = R at *
  generalize hβ : pow2 ((n : ℤ) - 1070) = β at *
  obtain ⟨Rb1, _, Rb3⟩ := unitRoundoff_pow_le (2 * n + 2) (by omega)
  have hR1 : 1 ≤ R := by
    rw [← hR]
    have h1 : (1 : ℚ) ≤ (1 + ε) ^ 2 := one_le_pow₀ (by linarith)
    have := mul_le_mul Rb1 h1 (by norm_num) (by linarith)
    linarith
  have hR2 : R ≤ 127 / 100 := by
    rw [← hR]
    calc (1 + unitRoundoff) ^ (2 * n + 2) * (1 + ε) ^ 2 ≤ (1 + 1 / 2 ^ 40) * (9 / 8) ^ 2 :=
          mul_le_mul Rb3 (pow_le_pow_left₀ (by linarith) (by linarith) 2) (by positivity)
            (by norm_num)
      _ ≤ 127 / 100 := by norm_num
  have hRt : R * (1 + unitRoundoff) ≤ 13 / 10 :=
    calc R * (1 + unitRoundoff) ≤ (127 / 100) * (1 + 1 / 2 ^ 40) :=
          mul_le_mul hR2 (by linarith) (by linarith) (by norm_num)
      _ ≤ 13 / 10 := by norm_num
  have hRt1 : 1 ≤ R * (1 + unitRoundoff) := by
    have := mul_le_mul hR1 (by linarith : (1 : ℚ) ≤ 1 + unitRoundoff) (by norm_num)
      (by linarith)
    linarith
  have hβ0 : 0 ≤ β := by rw [← hβ]; exact (pow2_pos _).le
  have hβ20 : β ≤ 1 / 2 ^ 21 := by
    rw [← hβ]
    have := pow2_le_pow2 (show (n : ℤ) - 1070 ≤ -21 by omega)
    rwa [show pow2 (-21) = 1 / 2 ^ 21 by decide!] at this
  have hβ' : (1 + unitRoundoff) * β ≤ 1 / 2 ^ 20 := by
    have := mul_le_mul (by linarith : 1 + unitRoundoff ≤ 2) hβ20 hβ0 (by norm_num)
    norm_num at this ⊢
    linarith
  have hβ'0 : 0 ≤ (1 + unitRoundoff) * β := mul_nonneg (by linarith) hβ0
  have hM0 : 0 ≤ M1 ∧ 0 ≤ M2 := by
    cases S with
    | nil => simp at hN1
    | cons p S =>
      exact ⟨le_trans (abs_nonneg _) (hS p (List.mem_cons_self _ _)).1,
        le_trans (abs_nonneg _) (hS p (List.mem_cons_self _ _)).2⟩
  obtain ⟨hM10, hM20⟩ := hM0
  -- the weights
  have hB0 : ∀ i, 0 ≤ bernsteinBasis i n t := fun i => bernsteinBasis_nonneg i n t ht0 ht1
  have hBsum : ∑ i in Finset.range S.length, bernsteinBasis i n t = 1 := by
    rw [hnN]
    exact bernsteinBasis_sum n t
  have hbasis : ∀ i, i < S.length → ∃ b : ℚ,
      Binary64.bernsteinBasis pow i n (.fin t) = .fin b ∧ Near R β b (bernsteinBasis i n t) := by
    intro i hi
    have := bernsteinBasis64_near pow ε n i t hn1000 (by omega) bt ht0 ht1 hnorm hε0 hε hpow
    rw [hR, hβ] at this
    exact this
  have hmem : ∀ i, i < S.length → S.getD i (0, 0) ∈ S := by
    intro i hi
    rw [List.getD_eq_getElem?_getD, List.getElem?_eq_getElem hi]
    exact List.getElem_mem hi
  -- the loop
  have key : ∀ m : Nat, m ≤ S.length → ∃ ax ay : ℚ,
      (List.range m).foldl
        (fun (acc : Pt) (i : Nat) =>
          match (S.map toPt).get? i with
          | some p =>
            (acc.1.fadd (p.1.fmul (Binary64.bernsteinBasis pow i n (.fin t))),
             acc.2.fadd (p.2.fmul (Binary64.bernsteinBasis pow i n (.fin t))))
          | none => acc)
        (JSNum.fin 0, JSNum.fin 0) = (.fin ax, .fin ay) ∧
      |ax - ∑ i in Finset.range m, (S.getD i (0, 0)).1 * bernsteinBasis i n t| ≤
        M1 * ((R * (1 + unitRoundoff) - 1) * (1 + unitRoundoff) ^ m *
              (∑ i in Finset.range m, bernsteinBasis i n t) +
            (m : ℚ) * (1 + unitRoundoff) ^ m * ((1 + unitRoundoff) * β) +
            (1 + unitRoundoff) ^ m - 1) +
          2 * (m : ℚ) * (1 + unitRoundoff) ^ m * pow2 (-1075) ∧
      |ay - ∑ i in Finset.range m, (S.getD i (0, 0)).2 * bernsteinBasis i n t| ≤
        M2 * ((R * (1 + unitRoundoff) - 1) * (1 + unitRoundoff) ^ m *
              (∑ i in Finset.range m, bernsteinBasis i n t) +
            (m : ℚ) * (1 + unitRoundoff) ^ m * ((1 + unitRoundoff) * β) +
            (1 + unitRoundoff) ^ m - 1) +
          2 * (m : ℚ) * (1 + unitRoundoff) ^ m * pow2 (-1075) := by
    intro m
    induction m with
    | zero =>
      intro _
      refine ⟨0, 0, rfl, ?_, ?_⟩ <;> simp
    | succ m ih =>
      intro hm
      have hlt : m < S.length := by omega
      obtain ⟨ax, ay, hfold, ex, ey⟩ := ih (by omega)
      obtain ⟨b, hb, nb⟩ := hbasis m hlt
      obtain ⟨σ0, σ1, wm1⟩ := partial_sum_le_one S.length (fun i => bernsteinBasis i n t) hB0
        hBsum m (by omega)
      obtain ⟨_, τ1, _⟩ := partial_sum_le_one S.length (fun i => bernsteinBasis i n t) hB0
        hBsum (m + 1) hm
      obtain ⟨p1, _, p3⟩ := unitRoundoff_pow_le m (by omega)
      have hmq : (m : ℚ) ≤ 1001 := by
        have : m ≤ 1001 := by omega
        exact_mod_cast this
      have hE1 := sum_error_small M1 (R * (1 + unitRoundoff)) ((1 + unitRoundoff) * β)
        ((1 + unitRoundoff) ^ m) (∑ i in Finset.range m, bernsteinBasis i n t) (m : ℚ) hM10 hRt
        hβ'0 hβ' p1 (by linarith) σ0 σ1 hmq
      have hE2 := sum_error_small M2 (R * (1 + unitRoundoff)) ((1 + unitRoundoff) * β)
        ((1 + unitRoundoff) ^ m) (∑ i in Finset.range m, bernsteinBasis i n t) (m : ℚ) hM20 hRt
        hβ'0 hβ' p1 (by linarith) σ0 σ1 hmq
      have hxs : ∀ i ∈ Finset.range (m + 1), |(S.getD i (0, 0)).1| ≤ M1 := fun i hi =>
        (hS _ (hmem i (by have := Finset.mem_range.mp hi; omega))).1
      have hys : ∀ i ∈ Finset.range (m + 1), |(S.getD i (0, 0)).2| ≤ M2 := fun i hi =>
        (hS _ (hmem i (by have := Finset.mem_range.mp hi; omega))).2
      have hAx := abs_weighted_sum_le (m + 1) (fun i => (S.getD i (0, 0)).1)
        (fun i => bernsteinBasis i n t) M1 hB0 hxs
      have hAy := abs_weighted_sum_le (m + 1) (fun i => (S.getD i (0, 0)).2)
        (fun i => bernsteinBasis i n t) M2 hB0 hys
      have hτM1 : M1 * ∑ i in Finset.range (m + 1), bernsteinBasis i n t ≤ M1 := by
        have := mul_le_mul_of_nonneg_left τ1 hM10
        linarith
      have hτM2 : M2 * ∑ i in Finset.range (m + 1), bernsteinBasis i n t ≤ M2 := by
        have := mul_le_mul_of_nonneg_left τ1 hM20
        linarith
      simp only [Finset.sum_range_succ] at hAx hAy
      obtain ⟨ax', fx, bx⟩ := sum_step64 ax _ (S.getD m (0, 0)).1 b (bernsteinBasis m n t) M1 R
        β _ hM1 (hS _ (hmem m hlt)).1 nb hR1 (by linarith) hβ0 (by linarith [hβ20]) (hB0 m)
        (wm1 hlt) ex hE1 (by simp only [Finset.sum_range_succ] at hτM1; linarith)
      obtain ⟨ay', fy, by'⟩ := sum_step64 ay _ (S.getD m (0, 0)).2 b (bernsteinBasis m n t) M2 R
        β _ hM2 (hS _ (hmem m hlt)).2 nb hR1 (by linarith) hβ0 (by linarith [hβ20]) (hB0 m)
        (wm1 hlt) ey hE2 (by simp only [Finset.sum_range_succ] at hτM2; linarith)
      have sx := sum_error_step M1 (R * (1 + unitRoundoff)) ((1 + unitRoundoff) * β)
        (pow2 (-1075)) unitRoundoff ((1 + unitRoundoff) ^ m)
        (∑ i in Finset.range m, bernsteinBasis i n t) (bernsteinBasis m n t) (m : ℚ) _ _ hM10
        hRt1 hβ'0 hη.le hu0.le p1 (hB0 m) (le_refl _) (le_refl _)
      have sy := sum_error_step M2 (R * (1 + unitRoundoff)) ((1 + unitRoundoff) * β)
        (pow2 (-1075)) unitRoundoff ((1 + unitRoundoff) ^ m)
        (∑ i in Finset.range m, bernsteinBasis i n t) (bernsteinBasis m n t) (m : ℚ) _ _ hM20
        hRt1 hβ'0 hη.le hu0.le p1 (hB0 m) (le_refl _) (le_refl _)
      refine ⟨ax', ay', ?_, ?_, ?_⟩
      · rw [List.range_succ, List.foldl_append, hfold, List.foldl_cons, List.foldl_nil]
        have hget : (S.map toPt).get? m = some (toPt (S.getD m (0, 0))) := by
          rw [List.get?_eq_getElem?, List.getElem?_map, List.getD_eq_getElem?_getD,
            List.getElem?_eq_getElem hlt]
          rfl
        rw [hget]
        simp only [toPt, hb, fx, fy]
      · rw [Finset.sum_range_succ, Finset.sum_range_succ, pow_succ]
        push_cast
        exact le_trans bx sx
      · rw [Finset.sum_range_succ, Finset.sum_range_succ, pow_succ]
        push_cast
        exact le_trans by' sy
  obtain ⟨ax, ay, hfold, ex, ey⟩ := key S.length (le_refl _)
  rw [hBsum] at ex ey
  refine ⟨ax, ay, ?_, ?_, ?_⟩
  · unfold Binary64.splinePoint
    simp only [List.length_map]
    rw [hn]
    exact hfold
  · exact ex
  · exact ey


/-- The accumulated error bound of a spline point in closed form: at most
`((6 N + 3) 2^-53 + 3 ε) M + N 2^-1073` for `N ≤ 1001` control points. -/
theorem spline_tolerance (N : Nat) (ε M : ℚ) (hN1 : 1 ≤ N) (hN : N ≤ 1001) (hε0 : 0 ≤ ε)
    (hε : ε ≤ 1 / 8) (hM : 0 ≤ M) :
    M * (((1 + unitRoundoff) ^ (2 * (N - 1) + 2) * (1 + ε) ^ 2 * (1 + unitRoundoff) - 1) *
            (1 + unitRoundoff) ^ N * 1 +
          (N : ℚ) * (1 + unitRoundoff) ^ N *
            ((1 + unitRoundoff) * pow2 (((N - 1 : ℕ) : ℤ) - 1070)) +
          (1 + unitRoundoff) ^ N - 1) +
        2 * (N : ℚ) * (1 + unitRoundoff) ^ N * pow2 (-1075) ≤
      ((6 * (N : ℚ) + 3) * unitRoundoff + 3 * ε) * M + (N : ℚ) * pow2 (-1073) := by
  obtain ⟨hu0, hu1⟩ := unitRoundoff_bounds
  have hη := pow2_pos (-1075)
  have hNq : (N : ℚ) ≤ 1001 := by exact_mod_cast hN
  have hNq0 : (0 : ℚ) ≤ (N : ℚ) := Nat.cast_nonneg N
  obtain ⟨p1, _, p3⟩ := unitRoundoff_pow_le N (by omega)
  obtain ⟨q1, q2, q3⟩ := unitRoundoff_pow_le (3 * N + 1) (by omega)
  have hQ : (1 + unitRoundoff) ^ (2 * (N - 1) + 2) * (1 + unitRoundoff) * (1 + unitRoundoff) ^ N =
      (1 + unitRoundoff) ^ (3 * N + 1) := by
    rw [← pow_succ, ← pow_add]
    congr 1
    omega
  have hβ : pow2 (((N - 1 : ℕ) : ℤ) - 1070) ≤ 1 / 2 ^ 69 := by
    have := pow2_le_pow2 (show ((N - 1 : ℕ) : ℤ) - 1070 ≤ -69 by omega)
    rwa [show pow2 (-69) = 1 / 2 ^ 69 by decide!] at this
  have hβ0 := pow2_pos (((N - 1 : ℕ) : ℤ) - 1070)
  generalize pow2 (((N - 1 : ℕ) : ℤ) - 1070) = β at *
  generalize (1 + unitRoundoff) ^ (2 * (N - 1) + 2) = P at *
  generalize (1 + unitRoundoff) ^ (3 * N + 1) = Q at *
  generalize (1 + unitRoundoff) ^ N = p at *
  push_cast at q2
  -- the relative part
  have hsq : (1 + ε) ^ 2 ≤ 1 + 17 / 8 * ε := by nlinarith
  have ha : 2 * (3 * (N : ℚ) + 1) * unitRoundoff ≤ 1 / 2 ^ 40 := by
    have : 2 * (3 * (N : ℚ) + 1) * unitRoundoff ≤ 2 * (3 * 1001 + 1) * unitRoundoff :=
      mul_le_mul_of_nonneg_right (by linarith) hu0.le
    have e : 2 * (3 * 1001 + 1) * unitRoundoff ≤ 1 / 2 ^ 40 := by
      unfold unitRoundoff
      norm_num
    linarith
  have hrel : Q * (1 + ε) ^ 2 ≤ 1 + (6 * (N : ℚ) + 2) * unitRoundoff + 3 * ε := by
    have h1 : Q * (1 + ε) ^ 2 ≤ (1 + 2 * (3 * (N : ℚ) + 1) * unitRoundoff) * (1 + 17 / 8 * ε) :=
      mul_le_mul q2 hsq (by positivity) (by linarith)
    have h2 : 2 * (3 * (N : ℚ) + 1) * unitRoundoff * (17 / 8 * ε) ≤ 1 / 2 ^ 40 * (17 / 8 * ε) :=
      mul_le_mul_of_nonneg_right ha (by linarith)
    norm_num at h2
    nlinarith
  have hNp : (N : ℚ) * p ≤ 1001 * 2 := mul_le_mul hNq (by linarith) (by linarith) (by norm_num)
  have hNp0 : 0 ≤ (N : ℚ) * p := mul_nonneg hNq0 (by linarith)
  have hβ' : (1 + unitRoundoff) * β ≤ 2 * (1 / 2 ^ 69) :=
    mul_le_mul (by linarith) hβ hβ0.le (by norm_num)
  have habs : (N : ℚ) * p * ((1 + unitRoundoff) * β) ≤ unitRoundoff := by
    have h1 : (N : ℚ) * p * ((1 + unitRoundoff) * β) ≤ 1001 * 2 * (2 * (1 / 2 ^ 69)) :=
      mul_le_mul hNp hβ' (mul_nonneg (by linarith) hβ0.le) (by norm_num)
    have e : (1001 : ℚ) * 2 * (2 * (1 / 2 ^ 69)) ≤ unitRoundoff := by
      unfold unitRoundoff
      norm_num
    linarith
  have hcoef : (P * (1 + ε) ^ 2 * (1 + unitRoundoff) - 1) * p * 1 +
      (N : ℚ) * p * ((1 + unitRoundoff) * β) + p - 1 ≤
      (6 * (N : ℚ) + 3) * unitRoundoff + 3 * ε := by
    have e : (P * (1 + ε) ^ 2 * (1 + unitRoundoff) - 1) * p * 1 +
        (N : ℚ) * p * ((1 + unitRoundoff) * β) + p - 1 =
        (P * (1 + unitRoundoff) * p) * (1 + ε) ^ 2 - 1 +
          (N : ℚ) * p * ((1 + unitRoundoff) * β) := by ring
    rw [e, hQ]
    linarith
  have h1 := mul_le_mul_of_nonneg_left hcoef hM
  have h2 : 2 * (N : ℚ) * p * pow2 (-1075) ≤ (N : ℚ) * pow2 (-1073) := by
    have e : pow2 (-1073) = 4 * pow2 (-1075) := by
      rw [show (-1073 : ℤ) = -1075 + 1 + 1 by norm_num, pow2_succ, pow2_succ]
      ring
    rw [e]
    have : (N : ℚ) * p ≤ (N : ℚ) * 2 := mul_le_mul_of_nonneg_left (by linarith) hNq0
    have := mul_le_mul_of_nonneg_right this hη.le
    linarith
  linarith


/-- The values of the loop counter of `approximateSpline` are binary64 numbers
of [0, 1) whose distance to 1 is in the normal range. -/
theorem splineParams_binary64 : ∀ k ∈ splineParams,
    fl ((k : ℚ) / (tUnit : ℚ)) = .fin ((k : ℚ) / (tUnit : ℚ)) ∧
    (k : ℚ) / (tUnit : ℚ) ≤ 1 ∧ pow2 (-57) ≤ 1 - (k : ℚ) / (tUnit : ℚ) := by
  decide!

/-- A number between two others is bounded in absolute value by the larger of
their absolute values. -/
theorem abs_le_of_between {a b c : ℚ} (h1 : a ≤ b) (h2 : b ≤ c) : |b| ≤ Max.max |a| |c| :=
  abs_le_max_abs_abs h1 h2


/-- The correctly rounded power is a `Math.pow` of relative accuracy 2^-53. -/
theorem mathPow_accurate (n : Nat) : Binary64.PowAccurate Binary64.mathPow unitRoundoff n := by
  intro a k _ h0 h1 _
  obtain ⟨q0, q1⟩ := pow_unit_interval a h0 h1 k
  obtain ⟨f, g0, g1⟩ := fl_between (q := a ^ k) isBinary64_zero isBinary64_one q0 q1
  refine ⟨roundToGrid (a ^ k), ?_, ?_⟩
  · simp only [Binary64.mathPow, Rat.den_natCast, Rat.num_natCast, Int.toNat_ofNat,
      Int.natCast_nonneg, and_self, if_true, f]
  · have := roundToGrid_abs (a ^ k)
    rw [abs_of_nonneg q0] at this
    have h := pow2_minSubnormal
    have := pow2_pos (-1075)
    linarith

/-- C28, amended: in binary64, for a list of N control points with
2 ≤ N ≤ 1001 whose x lie in [mx, Mx] and y in [my, My], all of absolute value at
most 2^1000, and for a `Math.pow` that on a binary64 base in [0, 1] and an
integer exponent from 0 to N - 1 returns a finite number within the relative
error ε ≤ 1/8 and the absolute error 2^-1074 of the exact power,
`approximateSpline` returns 20 points, each with finite coordinates, and each
lies in the bounding box of the control points widened by a rounding tolerance:
mx - tolX ≤ x ≤ Mx + tolX and my - tolY ≤ y ≤ My + tolY with
tolX = ((6 N + 3) 2^-53 + 3 ε) max(|mx|, |Mx|) + N 2^-1073 and
tolY = ((6 N + 3) 2^-53 + 3 ε) max(|my|, |My|) + N 2^-1073; so the least and
the greatest x and y of the returned points, from which `calculateBounds`
computes the bounds of a decoded spline, exceed those of the control polygon by
at most tolX and tolY. -/
theorem approximateSpline_near_box (pow : JSNum → JSNum → JSNum) (ε : ℚ) (S : List (ℚ × ℚ))
    (degree : ℤ) (mx Mx my My : ℚ) (hN : 2 ≤ S.length) (hN' : S.length ≤ 1001)
    (hε0 : 0 ≤ ε) (hε : ε ≤ 1 / 8) (hpow : Binary64.PowAccurate pow ε (S.length - 1))
    (hmx : IsMinOf (S.map Prod.fst) mx) (hMx : IsMaxOf (S.map Prod.fst) Mx)
    (hmy : IsMinOf (S.map Prod.snd) my) (hMy : IsMaxOf (S.map Prod.snd) My)
    (hbx : Max.max |mx| |Mx| ≤ pow2 1000) (hby : Max.max |my| |My| ≤ pow2 1000) :
    (Binary64.approximateSpline pow (S.map toPt) degree).length = 20 ∧
    (∀ p ∈ Binary64.approximateSpline pow (S.map toPt) degree,
      ∃ x y : ℚ, p = (.fin x, .fin y) ∧
        mx - (((6 * (S.length : ℚ) + 3) * unitRoundoff + 3 * ε) * Max.max |mx| |Mx| +
            (S.length : ℚ) * pow2 (-1073)) ≤ x ∧
        x ≤ Mx + (((6 * (S.length : ℚ) + 3) * unitRoundoff + 3 * ε) * Max.max |mx| |Mx| +
            (S.length : ℚ) * pow2 (-1073)) ∧
        my - (((6 * (S.length : ℚ) + 3) * unitRoundoff + 3 * ε) * Max.max |my| |My| +
            (S.length : ℚ) * pow2 (-1073)) ≤ y ∧
        y ≤ My + (((6 * (S.length : ℚ) + 3) * unitRoundoff + 3 * ε) * Max.max |my| |My| +
            (S.length : ℚ) * pow2 (-1073))) ∧
    ∀ (Q : List (ℚ × ℚ)) (qmx qMx qmy qMy : ℚ),
      Binary64.approximateSpline pow (S.map toPt) degree = Q.map toPt →
      IsMinOf (Q.map Prod.fst) qmx → IsMaxOf (Q.map Prod.fst) qMx →
      IsMinOf (Q.map Prod.snd) qmy → IsMaxOf (Q.map Prod.snd) qMy →
        mx - (((6 * (S.length : ℚ) + 3) * unitRoundoff + 3 * ε) * Max.max |mx| |Mx| +
            (S.length : ℚ) * pow2 (-1073)) ≤ qmx ∧
        qMx ≤ Mx + (((6 * (S.length : ℚ) + 3) * unitRoundoff + 3 * ε) * Max.max |mx| |Mx| +
            (S.length : ℚ) * pow2 (-1073)) ∧
        my - (((6 * (S.length : ℚ) + 3) * unitRoundoff + 3 * ε) * Max.max |my| |My| +
            (S.length : ℚ) * pow2 (-1073)) ≤ qmy ∧
        qMy ≤ My + (((6 * (S.length : ℚ) + 3) * unitRoundoff + 3 * ε) * Max.max |my| |My| +
            (S.length : ℚ) * pow2 (-1073)) := by
  have hlen : (Binary64.approximateSpline pow (S.map toPt) degree).length = 20 := by
    unfold Binary64.approximateSpline
    rw [List.length_map]
    decide
  have hpts : ∀ p ∈ Binary64.approximateSpline pow (S.map toPt) degree,
      ∃ x y : ℚ, p = (.fin x, .fin y) ∧
        mx - (((6 * (S.length : ℚ) + 3) * unitRoundoff + 3 * ε) * Max.max |mx| |Mx| +
            (S.length : ℚ) * pow2 (-1073)) ≤ x ∧
        x ≤ Mx + (((6 * (S.length : ℚ) + 3) * unitRoundoff + 3 * ε) * Max.max |mx| |Mx| +
            (S.length : ℚ) * pow2 (-1073)) ∧
        my - (((6 * (S.length : ℚ) + 3) * unitRoundoff + 3 * ε) * Max.max |my| |My| +
            (S.length : ℚ) * pow2 (-1073)) ≤ y ∧
        y ≤ My + (((6 * (S.length : ℚ) + 3) * unitRoundoff + 3 * ε) * Max.max |my| |My| +
            (S.length : ℚ) * pow2 (-1073)) := by
    intro p hp
    unfold Binary64.approximateSpline at hp
    rw [List.mem_map] at hp
    obtain ⟨k, hk, rfl⟩ := hp
    obtain ⟨kb, k1, kn⟩ := splineParams_binary64 k hk
    have k0 : (0 : ℚ) ≤ (k : ℚ) / (tUnit : ℚ) :=
      div_nonneg (Nat.cast_nonneg _) (Nat.cast_nonneg _)
    have hmem : ∀ i, i < S.length → S.getD i (0, 0) ∈ S := by
      intro i hi
      rw [List.getD_eq_getElem?_getD, List.getElem?_eq_getElem hi]
      exact List.getElem_mem hi
    have hbox : ∀ q ∈ S, mx ≤ q.1 ∧ q.1 ≤ Mx ∧ my ≤ q.2 ∧ q.2 ≤ My := fun q hq =>
      ⟨hmx.2 _ (List.mem_map_of_mem _ hq), hMx.2 _ (List.mem_map_of_mem _ hq),
        hmy.2 _ (List.mem_map_of_mem _ hq), hMy.2 _ (List.mem_map_of_mem _ hq)⟩
    have hS : ∀ q ∈ S, |q.1| ≤ Max.max |mx| |Mx| ∧ |q.2| ≤ Max.max |my| |My| := fun q hq =>
      ⟨abs_le_of_between (hbox q hq).1 (hbox q hq).2.1,
        abs_le_of_between (hbox q hq).2.2.1 (hbox q hq).2.2.2⟩
    obtain ⟨x, y, hxy, ex, ey⟩ := splinePoint64_near pow ε S ((k : ℚ) / (tUnit : ℚ))
      (Max.max |mx| |Mx|) (Max.max |my| |My|) (by omega) hN' kb k0 k1
      (Or.inr (le_trans (pow2_le_pow2 (show (-1022 : ℤ) ≤ -57 by norm_num)) kn)) hε0 hε hpow hbx
      hby hS
    have tx := spline_tolerance S.length ε (Max.max |mx| |Mx|) (by omega) hN' hε0 hε
      (le_trans (abs_nonneg mx) (le_max_left _ _))
    have ty := spline_tolerance S.length ε (Max.max |my| |My|) (by omega) hN' hε0 hε
      (le_trans (abs_nonneg my) (le_max_left _ _))
    have hw : ∀ i ∈ Finset.range S.length,
        0 ≤ bernsteinBasis i (S.length - 1) ((k : ℚ) / (tUnit : ℚ)) :=
      fun i _ => bernsteinBasis_nonneg i _ _ k0 k1
    have hsum : ∑ i in Finset.range S.length,
        bernsteinBasis i (S.length - 1) ((k : ℚ) / (tUnit : ℚ)) = 1 := by
      have := bernsteinBasis_sum (S.length - 1) ((k : ℚ) / (tUnit : ℚ))
      rwa [show S.length - 1 + 1 = S.length by omega] at this
    have bx := weighted_sum_bounds S.length
      (fun i => bernsteinBasis i (S.length - 1) ((k : ℚ) / (tUnit : ℚ)))
      (fun i => (S.getD i (0, 0)).1) mx Mx hw hsum
      (fun i hi => (hbox _ (hmem i (Finset.mem_range.mp hi))).1)
      (fun i hi => (hbox _ (hmem i (Finset.mem_range.mp hi))).2.1)
    have byy := weighted_sum_bounds S.length
      (fun i => bernsteinBasis i (S.length - 1) ((k : ℚ) / (tUnit : ℚ)))
      (fun i => (S.getD i (0, 0)).2) my My hw hsum
      (fun i hi => (hbox _ (hmem i (Finset.mem_range.mp hi))).2.2.1)
      (fun i hi => (hbox _ (hmem i (Finset.mem_range.mp hi))).2.2.2)
    have ax := abs_le.mp (le_trans ex tx)
    have ay := abs_le.mp (le_trans ey ty)
    simp only at bx byy
    refine ⟨x, y, hxy, ?_, ?_, ?_, ?_⟩
    · linarith [bx.1, ax.1]
    · linarith [bx.2, ax.2]
    · linarith [byy.1, ay.1]
    · linarith [byy.2, ay.2]
  refine ⟨hlen, hpts, ?_⟩
  intro Q qmx qMx qmy qMy hQ h1 h2 h3 h4
  have hq : ∀ q ∈ Q,
      mx - (((6 * (S.length : ℚ) + 3) * unitRoundoff + 3 * ε) * Max.max |mx| |Mx| +
          (S.length : ℚ) * pow2 (-1073)) ≤ q.1 ∧
      q.1 ≤ Mx + (((6 * (S.length : ℚ) + 3) * unitRoundoff + 3 * ε) * Max.max |mx| |Mx| +
          (S.length : ℚ) * pow2 (-1073)) ∧
      my - (((6 * (S.length : ℚ) + 3) * unitRoundoff + 3 * ε) * Max.max |my| |My| +
          (S.length : ℚ) * pow2 (-1073)) ≤ q.2 ∧
      q.2 ≤ My + (((6 * (S.length : ℚ) + 3) * unitRoundoff + 3 * ε) * Max.max |my| |My| +
          (S.length : ℚ) * pow2 (-1073)) := by
    intro q hq
    have hmemq : toPt q ∈ Binary64.approximateSpline pow (S.map toPt) degree := by
      rw [hQ]
      exact List.mem_map_of_mem _ hq
    obtain ⟨x, y, hxy, hb⟩ := hpts _ hmemq
    simp only [toPt, Prod.mk.injEq, JSNum.fin.injEq] at hxy
    rw [hxy.1, hxy.2]
    exact hb
  obtain ⟨a, ha, ea⟩ := List.mem_map.mp h1.1
  obtain ⟨b, hb, eb⟩ := List.mem_map.mp h2.1
  obtain ⟨c, hc, ec⟩ := List.mem_map.mp h3.1
  obtain ⟨d, hd, ed⟩ := List.mem_map.mp h4.1
  rw [← ea, ← eb, ← ec, ← ed]
  exact ⟨(hq a ha).1, (hq b hb).2.1, (hq c hc).2.2.1, (hq d hd).2.2.2⟩


/-- C28, amended, on the two control points (3, 3) and (3, 3) with the correctly
rounded power as `Math.pow`: the 20 returned points lie within
(15 * 2^-53 + 3 * 2^-53) * 3 + 2 * 2^-1073 of the box [3, 3] x [3, 3]. -/
theorem approximateSpline_near_box_witness :
    (Binary64.approximateSpline Binary64.mathPow ([(3, 3), (3, 3)].map toPt) 1).length = 20 ∧
    ∀ p ∈ Binary64.approximateSpline Binary64.mathPow ([(3, 3), (3, 3)].map toPt) 1,
      ∃ x y : ℚ, p = (.fin x, .fin y) ∧
        3 - (((6 * ((2 : ℕ) : ℚ) + 3) * unitRoundoff + 3 * unitRoundoff) * Max.max |3| |3| +
            ((2 : ℕ) : ℚ) * pow2 (-1073)) ≤ x ∧
        x ≤ 3 + (((6 * ((2 : ℕ) : ℚ) + 3) * unitRoundoff + 3 * unitRoundoff) * Max.max |3| |3| +
            ((2 : ℕ) : ℚ) * pow2 (-1073)) ∧
        3 - (((6 * ((2 : ℕ) : ℚ) + 3) * unitRoundoff + 3 * unitRoundoff) * Max.max |3| |3| +
            ((2 : ℕ) : ℚ) * pow2 (-1073)) ≤ y ∧
        y ≤ 3 + (((6 * ((2 : ℕ) : ℚ) + 3) * unitRoundoff + 3 * unitRoundoff) * Max.max |3| |3| +
            ((2 : ℕ) : ℚ) * pow2 (-1073)) :=
  have h := approximateSpline_near_box Binary64.mathPow unitRoundoff [(3, 3), (3, 3)] 1 3 3 3 3
    (by decide) (by decide) unitRoundoff_bounds.1.le unitRoundoff_le (mathPow_accurate _)
    ⟨by simp, by simp⟩ ⟨by simp, by simp⟩ ⟨by simp, by simp⟩ ⟨by simp, by simp⟩
    (by
      rw [max_self, abs_of_nonneg (by norm_num : (0 : ℚ) ≤ 3)]
      exact le_trans (by decide! : (3 : ℚ) ≤ pow2 2) (pow2_le_pow2 (by norm_num)))
    (by
      rw [max_self, abs_of_nonneg (by norm_num : (0 : ℚ) ≤ 3)]
      exact le_trans (by decide! : (3 : ℚ) ≤ pow2 2) (pow2_le_pow2 (by norm_num)))
  ⟨h.1, h.2.1⟩

/-- C28, counterexample: in binary64, with the correctly rounded power as
`Math.pow`, the spline of the two control points (3, 3) and (3, 3), whose sums
call `Math.pow` with the exponents 0 and 1 only, has the second point
(2.9999999999999996, 2.9999999999999996) and the fifth point
(3.0000000000000004, 3.0000000000000004), outside the bounding box, which is the
single point (3, 3); and the spline of three control points (1, 1) has the second
point 0.9999999999999999 and the fifth point 1.0000000000000002 in both
coordinates. -/
theorem approximateSpline_leaves_box :
    (Binary64.approximateSpline Binary64.mathPow [(.fin 3, .fin 3), (.fin 3, .fin 3)] 1)[1]? =
      some (.fin (6755399441055743 / 2251799813685248),
        .fin (6755399441055743 / 2251799813685248)) ∧
    (Binary64.approximateSpline Binary64.mathPow [(.fin 3, .fin 3), (.fin 3, .fin 3)] 1)[4]? =
      some (.fin (6755399441055745 / 2251799813685248),
        .fin (6755399441055745 / 2251799813685248)) ∧
    (6755399441055743 / 2251799813685248 : ℚ) < 3 ∧
    (3 : ℚ) < 6755399441055745 / 2251799813685248 ∧
    (Binary64.approximateSpline Binary64.mathPow
        [(.fin 1, .fin 1), (.fin 1, .fin 1), (.fin 1, .fin 1)] 2)[1]? =
      some (.fin (9007199254740991 / 9007199254740992),
        .fin (9007199254740991 / 9007199254740992)) ∧
    (Binary64.approximateSpline Binary64.mathPow
        [(.fin 1, .fin 1), (.fin 1, .fin 1), (.fin 1, .fin 1)] 2)[4]? =
      some (.fin (4503599627370497 / 4503599627370496),
        .fin (4503599627370497 / 4503599627370496)) ∧
    (9007199254740991 / 9007199254740992 : ℚ) < 1 ∧
    (1 : ℚ) < 4503599627370497 / 4503599627370496 := by
  refine ⟨by decide!, by decide!, by norm_num, by norm_num, by decide!, by decide!, by norm_num,
    by norm_num⟩


end CADverter
